import Mathlib

/-!
# Modbus over CAN / serial line for ARM Cortex-M3: verification development

A shallow embedding of the transport framing and transaction engine of the
repository (master and slave projects), followed by theorems about it.

Conventions of the embedding

* C integers are natural numbers; every store into an `unsigned char` is
  reduced `% 256`, into a `uint16_t` `% 65536`, into a 32-bit word `% 2^32`.
* C arrays are lists of the declared size, read with `rd` (`List.getD`) and
  written with `List.set`.  A store outside the declared array is undefined
  behaviour in C; `List.set` leaves the list unchanged there, and the theorems
  that depend on a store say that its index is inside the array.
* Functions that end in the fatal-error handler (`while(1){}`) return `none`.
* Hardware side effects the claims talk about (frames handed to
  `CANMessageSet`, timer loads) are recorded in the state.
-/

set_option maxRecDepth 100000

namespace Modbus

/-! ## Shared helpers -/

/-- Read of `buf[i]` in a byte array. -/
def rd (buf : List Nat) (i : Nat) : Nat := buf.getD i 0

/-! ## Modbus_FIFO.h / Modbus_FIFO.c -/

/-- Source: `#define MAX_ITEMS 255` (Modbus_FIFO.h:11). -/
def MAX_ITEMS : Nat := 255

/-- Source: `#define MAX_E_ITEMS 25` (Modbus_FIFO.h:13). -/
def MAX_E_ITEMS : Nat := 25

/-- Source: `struct Modbus_FIFO_Item`.  Each `union Modbus_FIFO_Par` slot of
`Data[6]` is kept as its raw word: `.UI2` is the word `% 65536`, `.PC` and
`.PUI2` are the word read as an address. -/
structure Modbus_FIFO_Item where
  Slave : Nat
  Function : Nat
  Data : List Nat
  deriving DecidableEq, Repr, Inhabited

/-- Source: `struct Modbus_FIFO_E_Item` (`Response[2]` as two bytes). -/
structure Modbus_FIFO_E_Item where
  Request : Modbus_FIFO_Item
  Response0 : Nat
  Response1 : Nat
  deriving DecidableEq, Repr, Inhabited

/-- Source: `struct Modbus_FIFO_s`; `Buffer` has `MAX_ITEMS` slots. -/
structure Modbus_FIFO_s where
  Items : Nat
  Head : Nat
  Tail : Nat
  Buffer : List Modbus_FIFO_Item
  deriving DecidableEq, Repr

/-- Source: `struct Modbus_FIFO_Errors`; `Buffer` has `MAX_E_ITEMS` slots. -/
structure Modbus_FIFO_Errors where
  Items : Nat
  Head : Nat
  Tail : Nat
  Buffer : List Modbus_FIFO_E_Item
  deriving DecidableEq, Repr

/-- Source: `Modbus_FIFO_Init`: the three counters become 0, the buffer is
not touched. -/
def Modbus_FIFO_Init (q : Modbus_FIFO_s) : Modbus_FIFO_s :=
  { q with Items := 0, Head := 0, Tail := 0 }

/-- Source: `Modbus_FIFO_Empty`. -/
def Modbus_FIFO_Empty (q : Modbus_FIFO_s) : Nat :=
  if q.Items = 0 then 1 else 0

/-- Source: `Modbus_FIFO_Full`: `Items >= MAX_ITEMS`. -/
def Modbus_FIFO_Full (q : Modbus_FIFO_s) : Nat :=
  if q.Items ≥ MAX_ITEMS then 1 else 0

/-- Source: `Modbus_FIFO_Enqueue`; returns the queue and the return value. -/
def Modbus_FIFO_Enqueue (q : Modbus_FIFO_s) (Item : Modbus_FIFO_Item) :
    Modbus_FIFO_s × Nat :=
  if Modbus_FIFO_Full q ≠ 0 then (q, 1)
  else
    ({ q with
        Items := (q.Items + 1) % 256
        Buffer := q.Buffer.set q.Head Item
        Head := (q.Head + 1) % MAX_ITEMS }, 0)

/-- Source: `Modbus_FIFO_Dequeue`; `Item` is the caller's output record, the
result is the queue, the output record and the return value. -/
def Modbus_FIFO_Dequeue (q : Modbus_FIFO_s) (Item : Modbus_FIFO_Item) :
    Modbus_FIFO_s × Modbus_FIFO_Item × Nat :=
  if Modbus_FIFO_Empty q ≠ 0 then (q, Item, 0)
  else
    ({ q with
        Items := (q.Items + 256 - 1) % 256
        Tail := (q.Tail + 1) % MAX_ITEMS },
      q.Buffer.getD q.Tail default, 1)

/-- Source: `Modbus_FIFO_E_Init`. -/
def Modbus_FIFO_E_Init (q : Modbus_FIFO_Errors) : Modbus_FIFO_Errors :=
  { q with Items := 0, Head := 0, Tail := 0 }

/-- Source: `Modbus_FIFO_E_Empty`. -/
def Modbus_FIFO_E_Empty (q : Modbus_FIFO_Errors) : Nat :=
  if q.Items = 0 then 1 else 0

/-- Source: `Modbus_FIFO_E_Full` (Modbus_FIFO.c:135-141).  The comparison in
the source is against `MAX_ITEMS`, not `MAX_E_ITEMS`. -/
def Modbus_FIFO_E_Full (q : Modbus_FIFO_Errors) : Nat :=
  if q.Items ≥ MAX_ITEMS then 1 else 0

/-- Source: `Modbus_FIFO_E_Enqueue` (Modbus_FIFO.c:152-162).  The head index
is advanced modulo `MAX_ITEMS` in the source. -/
def Modbus_FIFO_E_Enqueue (q : Modbus_FIFO_Errors) (Error : Modbus_FIFO_E_Item) :
    Modbus_FIFO_Errors × Nat :=
  if Modbus_FIFO_E_Full q ≠ 0 then (q, 1)
  else
    ({ q with
        Items := (q.Items + 1) % 256
        Buffer := q.Buffer.set q.Head Error
        Head := (q.Head + 1) % MAX_ITEMS }, 0)

/-- Source: `Modbus_FIFO_E_Dequeue`. -/
def Modbus_FIFO_E_Dequeue (q : Modbus_FIFO_Errors) (Error : Modbus_FIFO_E_Item) :
    Modbus_FIFO_Errors × Modbus_FIFO_E_Item × Nat :=
  if Modbus_FIFO_E_Empty q ≠ 0 then (q, Error, 0)
  else
    ({ q with
        Items := (q.Items + 256 - 1) % 256
        Tail := (q.Tail + 1) % MAX_ITEMS },
      q.Buffer.getD q.Tail default, 1)

/-- The index at which `Modbus_FIFO_E_Enqueue` stores the record when the
full check lets it through: `Buffer[Head]`. -/
def Modbus_FIFO_E_Enqueue_writeIndex (q : Modbus_FIFO_Errors) : Nat := q.Head

/-! ### Queue operations as events, and the list queue of the specification -/

/-- A call on the Request Queue: enqueue a record, or dequeue. -/
inductive FifoOp where
  | enq (Item : Modbus_FIFO_Item)
  | deq
  deriving DecidableEq, Repr

/-- What a call returned: the return value, and for a dequeue the record
left in the caller's output (`none` when the output was not written). -/
inductive FifoRes where
  | enq (ret : Nat)
  | deq (ret : Nat) (out : Option Modbus_FIFO_Item)
  deriving DecidableEq, Repr

/-- One call on the circular buffer of the source. -/
def fifoStep (q : Modbus_FIFO_s) : FifoOp → Modbus_FIFO_s × FifoRes
  | .enq x => ((Modbus_FIFO_Enqueue q x).1, .enq (Modbus_FIFO_Enqueue q x).2)
  | .deq =>
    let r := Modbus_FIFO_Dequeue q default
    (r.1, .deq r.2.2 (if r.2.2 = 0 then none else some r.2.1))

/-- A sequence of calls on the circular buffer, with the results in call order. -/
def fifoRun : Modbus_FIFO_s → List FifoOp → Modbus_FIFO_s × List FifoRes
  | q, [] => (q, [])
  | q, op :: ops =>
    let r := fifoStep q op
    let rs := fifoRun r.1 ops
    (rs.1, r.2 :: rs.2)

/-- Specification queue (spec: "bounded ... capacity 255, FIFO order; enqueue
fails (no state mutation) when full; dequeue fails (no state mutation) when
empty"): a list, oldest record first. -/
def specStep (l : List Modbus_FIFO_Item) : FifoOp → List Modbus_FIFO_Item × FifoRes
  | .enq x => if l.length ≥ 255 then (l, .enq 1) else (l ++ [x], .enq 0)
  | .deq =>
    match l with
    | [] => ([], .deq 0 none)
    | y :: t => (t, .deq 1 (some y))

/-- A sequence of calls on the specification queue. -/
def specRun : List Modbus_FIFO_Item → List FifoOp → List Modbus_FIFO_Item × List FifoRes
  | l, [] => (l, [])
  | l, op :: ops =>
    let r := specStep l op
    let rs := specRun r.1 ops
    (rs.1, r.2 :: rs.2)

/-- Number of successful enqueues in a result trace. -/
def succEnq : List FifoRes → Nat
  | [] => 0
  | .enq 0 :: rs => succEnq rs + 1
  | _ :: rs => succEnq rs

/-- Number of successful dequeues in a result trace. -/
def succDeq : List FifoRes → Nat
  | [] => 0
  | .deq (_ + 1) _ :: rs => succDeq rs + 1
  | _ :: rs => succDeq rs

/-- The records a circular buffer holds, oldest first: `Items` slots starting
at `Tail`, wrapping at `MAX_ITEMS`. -/
def fifoContents (q : Modbus_FIFO_s) : List Modbus_FIFO_Item :=
  (List.range q.Items).map (fun i => q.Buffer.getD ((q.Tail + i) % MAX_ITEMS) default)

/-- Representation invariant of the Request Queue. -/
def fifoInv (q : Modbus_FIFO_s) : Prop :=
  q.Buffer.length = MAX_ITEMS ∧ q.Tail < MAX_ITEMS ∧ q.Items ≤ MAX_ITEMS ∧
    q.Head = (q.Tail + q.Items) % MAX_ITEMS


/-! ## Modbus_OSL_RTU.c: checksum and serial frame assembly -/

/-- Source: `static unsigned char auchCRCHi[]` (Modbus_OSL_RTU.c:100-119). -/
def auchCRCHi : List Nat :=
  [
   0x00, 0xC1, 0x81, 0x40, 0x01, 0xC0, 0x80, 0x41, 0x01, 0xC0, 0x80, 0x41, 0x00, 0xC1, 0x81, 0x40,
   0x01, 0xC0, 0x80, 0x41, 0x00, 0xC1, 0x81, 0x40, 0x00, 0xC1, 0x81, 0x40, 0x01, 0xC0, 0x80, 0x41,
   0x01, 0xC0, 0x80, 0x41, 0x00, 0xC1, 0x81, 0x40, 0x00, 0xC1, 0x81, 0x40, 0x01, 0xC0, 0x80, 0x41,
   0x00, 0xC1, 0x81, 0x40, 0x01, 0xC0, 0x80, 0x41, 0x01, 0xC0, 0x80, 0x41, 0x00, 0xC1, 0x81, 0x40,
   0x01, 0xC0, 0x80, 0x41, 0x00, 0xC1, 0x81, 0x40, 0x00, 0xC1, 0x81, 0x40, 0x01, 0xC0, 0x80, 0x41,
   0x00, 0xC1, 0x81, 0x40, 0x01, 0xC0, 0x80, 0x41, 0x01, 0xC0, 0x80, 0x41, 0x00, 0xC1, 0x81, 0x40,
   0x00, 0xC1, 0x81, 0x40, 0x01, 0xC0, 0x80, 0x41, 0x01, 0xC0, 0x80, 0x41, 0x00, 0xC1, 0x81, 0x40,
   0x01, 0xC0, 0x80, 0x41, 0x00, 0xC1, 0x81, 0x40, 0x00, 0xC1, 0x81, 0x40, 0x01, 0xC0, 0x80, 0x41,
   0x01, 0xC0, 0x80, 0x41, 0x00, 0xC1, 0x81, 0x40, 0x00, 0xC1, 0x81, 0x40, 0x01, 0xC0, 0x80, 0x41,
   0x00, 0xC1, 0x81, 0x40, 0x01, 0xC0, 0x80, 0x41, 0x01, 0xC0, 0x80, 0x41, 0x00, 0xC1, 0x81, 0x40,
   0x00, 0xC1, 0x81, 0x40, 0x01, 0xC0, 0x80, 0x41, 0x01, 0xC0, 0x80, 0x41, 0x00, 0xC1, 0x81, 0x40,
   0x01, 0xC0, 0x80, 0x41, 0x00, 0xC1, 0x81, 0x40, 0x00, 0xC1, 0x81, 0x40, 0x01, 0xC0, 0x80, 0x41,
   0x00, 0xC1, 0x81, 0x40, 0x01, 0xC0, 0x80, 0x41, 0x01, 0xC0, 0x80, 0x41, 0x00, 0xC1, 0x81, 0x40,
   0x01, 0xC0, 0x80, 0x41, 0x00, 0xC1, 0x81, 0x40, 0x00, 0xC1, 0x81, 0x40, 0x01, 0xC0, 0x80, 0x41,
   0x01, 0xC0, 0x80, 0x41, 0x00, 0xC1, 0x81, 0x40, 0x00, 0xC1, 0x81, 0x40, 0x01, 0xC0, 0x80, 0x41,
   0x00, 0xC1, 0x81, 0x40, 0x01, 0xC0, 0x80, 0x41, 0x01, 0xC0, 0x80, 0x41, 0x00, 0xC1, 0x81, 0x40]

/-- Source: `static char auchCRCLo[]` (Modbus_OSL_RTU.c:122-141); the entries
are read into an `unsigned char`, so they are kept as their byte value. -/
def auchCRCLo : List Nat :=
  [
   0x00, 0xC0, 0xC1, 0x01, 0xC3, 0x03, 0x02, 0xC2, 0xC6, 0x06, 0x07, 0xC7, 0x05, 0xC5, 0xC4, 0x04,
   0xCC, 0x0C, 0x0D, 0xCD, 0x0F, 0xCF, 0xCE, 0x0E, 0x0A, 0xCA, 0xCB, 0x0B, 0xC9, 0x09, 0x08, 0xC8,
   0xD8, 0x18, 0x19, 0xD9, 0x1B, 0xDB, 0xDA, 0x1A, 0x1E, 0xDE, 0xDF, 0x1F, 0xDD, 0x1D, 0x1C, 0xDC,
   0x14, 0xD4, 0xD5, 0x15, 0xD7, 0x17, 0x16, 0xD6, 0xD2, 0x12, 0x13, 0xD3, 0x11, 0xD1, 0xD0, 0x10,
   0xF0, 0x30, 0x31, 0xF1, 0x33, 0xF3, 0xF2, 0x32, 0x36, 0xF6, 0xF7, 0x37, 0xF5, 0x35, 0x34, 0xF4,
   0x3C, 0xFC, 0xFD, 0x3D, 0xFF, 0x3F, 0x3E, 0xFE, 0xFA, 0x3A, 0x3B, 0xFB, 0x39, 0xF9, 0xF8, 0x38,
   0x28, 0xE8, 0xE9, 0x29, 0xEB, 0x2B, 0x2A, 0xEA, 0xEE, 0x2E, 0x2F, 0xEF, 0x2D, 0xED, 0xEC, 0x2C,
   0xE4, 0x24, 0x25, 0xE5, 0x27, 0xE7, 0xE6, 0x26, 0x22, 0xE2, 0xE3, 0x23, 0xE1, 0x21, 0x20, 0xE0,
   0xA0, 0x60, 0x61, 0xA1, 0x63, 0xA3, 0xA2, 0x62, 0x66, 0xA6, 0xA7, 0x67, 0xA5, 0x65, 0x64, 0xA4,
   0x6C, 0xAC, 0xAD, 0x6D, 0xAF, 0x6F, 0x6E, 0xAE, 0xAA, 0x6A, 0x6B, 0xAB, 0x69, 0xA9, 0xA8, 0x68,
   0x78, 0xB8, 0xB9, 0x79, 0xBB, 0x7B, 0x7A, 0xBA, 0xBE, 0x7E, 0x7F, 0xBF, 0x7D, 0xBD, 0xBC, 0x7C,
   0xB4, 0x74, 0x75, 0xB5, 0x77, 0xB7, 0xB6, 0x76, 0x72, 0xB2, 0xB3, 0x73, 0xB1, 0x71, 0x70, 0xB0,
   0x50, 0x90, 0x91, 0x51, 0x93, 0x53, 0x52, 0x92, 0x96, 0x56, 0x57, 0x97, 0x55, 0x95, 0x94, 0x54,
   0x9C, 0x5C, 0x5D, 0x9D, 0x5F, 0x9F, 0x9E, 0x5E, 0x5A, 0x9A, 0x9B, 0x5B, 0x99, 0x59, 0x58, 0x98,
   0x88, 0x48, 0x49, 0x89, 0x4B, 0x8B, 0x8A, 0x4A, 0x4E, 0x8E, 0x8F, 0x4F, 0x8D, 0x4D, 0x4C, 0x8C,
   0x44, 0x84, 0x85, 0x45, 0x87, 0x47, 0x46, 0x86, 0x82, 0x42, 0x43, 0x83, 0x41, 0x81, 0x80, 0x40]

/-- The `while (L_pdu--)` loop shared by `Modbus_OSL_RTU_Mount_CRC` and
`Modbus_OSL_RTU_Check_CRC`: `L_pdu` bytes remain, `p` is the position of
`mb_pdu` in the array, the pair is `(uchCRCHi, uchCRCLo)`. -/
def crcLoop (mb_pdu : List Nat) : Nat → Nat → Nat × Nat → Nat × Nat
  | 0, _, st => st
  | L_pdu + 1, p, (uchCRCHi, uchCRCLo) =>
    let uIndex := uchCRCLo ^^^ rd mb_pdu p
    crcLoop mb_pdu L_pdu (p + 1) (rd auchCRCLo uIndex, uchCRCHi ^^^ rd auchCRCHi uIndex)

/-- Source: `Modbus_OSL_RTU_Mount_CRC`: checksum of `mb_pdu[0 .. L_pdu)`, low
byte stored at `mb_pdu[L_pdu]`, high byte at `mb_pdu[L_pdu + 1]`.  `L_pdu` is an
`unsigned char` parameter. -/
def Modbus_OSL_RTU_Mount_CRC (mb_pdu : List Nat) (L_pdu : Nat) : List Nat :=
  let L := L_pdu % 256
  let crc := crcLoop mb_pdu L 0 (0xFF, 0xFF)
  (mb_pdu.set L crc.2).set (L + 1) crc.1

/-- Source: `Modbus_OSL_RTU_Mount_ADU`: `mb_adu[0] = Slave`, the PDU is copied
to `mb_adu[1 ..]`, then `Modbus_OSL_RTU_Mount_CRC (mb_adu, L_pdu + 1)`, whose
length argument is converted to `unsigned char`. -/
def Modbus_OSL_RTU_Mount_ADU (mb_pdu : List Nat) (Slave L_pdu : Nat) (mb_adu : List Nat) :
    List Nat :=
  let L := L_pdu % 256
  let adu0 := mb_adu.set 0 Slave
  let adu1 := (List.range L).foldl (fun a i => a.set (i + 1) (rd mb_pdu i)) adu0
  Modbus_OSL_RTU_Mount_CRC adu1 ((L + 1) % 256)

/-- Source: `enum Modbus_OSL_Frames` (Modbus_OSL.h). -/
inductive Modbus_OSL_Frames where
  | MODBUS_OSL_Frame_OK
  | MODBUS_OSL_Frame_NOK
  deriving DecidableEq, Repr

/-- Source: `Modbus_OSL_RTU_Check_CRC`.  `Msg_Complete` and `L_Msg` are the
module variables `Modbus_OSL_RTU_Msg_Complete` and `Modbus_OSL_RTU_L_Msg` the
function compares against; the result is the value given to
`Modbus_OSL_Frame_Set`.  The compared indices `L_Msg - 1` and `L_Msg - 2` are C
`int`s: when one that is evaluated is negative the read is outside the array
and the result is `none`. -/
def Modbus_OSL_RTU_Check_CRC (Msg_Complete : List Nat) (L_Msg : Nat) (mb_pdu : List Nat)
    (L_pdu : Nat) : Option Modbus_OSL_Frames :=
  let crc := crcLoop mb_pdu (L_pdu % 256) 0 (0xFF, 0xFF)
  if L_Msg < 1 then none
  else if rd Msg_Complete (L_Msg - 1) = crc.1 then
    if L_Msg < 2 then none
    else if rd Msg_Complete (L_Msg - 2) = crc.2 then some .MODBUS_OSL_Frame_OK
    else some .MODBUS_OSL_Frame_NOK
  else some .MODBUS_OSL_Frame_NOK

/-- Source: `Modbus_OSL_RTU_Control_CRC`: the check runs over
`Modbus_OSL_RTU_L_Msg - 2` bytes (converted to `unsigned char`); the result is
the frame flag left behind and the return value. -/
def Modbus_OSL_RTU_Control_CRC (Msg_Complete : List Nat) (L_Msg : Nat) :
    Option (Modbus_OSL_Frames × Nat) :=
  match Modbus_OSL_RTU_Check_CRC Msg_Complete L_Msg Msg_Complete ((L_Msg + 256 - 2) % 256) with
  | none => none
  | some .MODBUS_OSL_Frame_OK => some (.MODBUS_OSL_Frame_OK, 1)
  | some .MODBUS_OSL_Frame_NOK => some (.MODBUS_OSL_Frame_NOK, 0)

/-! ### The bit-by-bit CRC-16/MODBUS of the specification -/

/-- One bit of the reference checksum: the register is shifted right by one
and, when the bit shifted out is 1, xored with the reflected polynomial
`0xA001`. -/
def crc16_bit (crc : Nat) : Nat :=
  if crc % 2 = 1 then (crc >>> 1) ^^^ 0xA001 else crc >>> 1

/-- One byte of the reference checksum: the byte is xored into the low half
of the register, then eight bit steps follow. -/
def crc16_byte (crc b : Nat) : Nat := Nat.iterate crc16_bit 8 (crc ^^^ b)

/-- The CRC-16/MODBUS reference the specification names: reflected polynomial
`0xA001`, initial value `0xFFFF`, no final xor. -/
def crc16_modbus (m : List Nat) : Nat := m.foldl crc16_byte 0xFFFF

/-- The sequence `m` with bit `j` of its byte `i` flipped. -/
def flipBit (m : List Nat) (i j : Nat) : List Nat := m.set i (rd m i ^^^ 2 ^ j)

/-- One pass of the loop body shared by `Modbus_OSL_RTU_Mount_CRC` and
`Modbus_OSL_RTU_Check_CRC`, on the pair `(uchCRCHi, uchCRCLo)`. -/
def crcStep (st : Nat × Nat) (b : Nat) : Nat × Nat :=
  (rd auchCRCLo (st.2 ^^^ b), st.1 ^^^ rd auchCRCHi (st.2 ^^^ b))

/-! ## Modbus_CAN.h: definitions shared by master and slave -/

/-- Source: `#define MAX_PDU 256` (Modbus_CAN.h:51). -/
def MAX_PDU : Nat := 256

/-- Source: `#define MAX_FRAME 8` (Modbus_CAN.h:53). -/
def MAX_FRAME : Nat := 8

/-- Source: `enum Modbus_CAN_BitRate`. -/
inductive Modbus_CAN_BitRate where
  | MODBUS_100KBPS
  | MODBUS_1MBPS
  deriving DecidableEq, Repr

/-- The two values `Modbus_CAN_FixOutput` gives to `TxObject.ulFlags`. -/
inductive TxFlags where
  | MSG_OBJ_NO_FLAGS
  | MSG_OBJ_TX_INT_ENABLE
  deriving DecidableEq, Repr

/-- The fields of the driver's `tCANMsgObject` the code uses.  For a
transmitted frame `pucMsgData` holds the `ulMsgLen` bytes of `local_output`
that `CANMessageSet` copies into the message object; for a received frame it
holds the bytes `CANMessageGet` copied into the 8-byte receive buffer. -/
structure tCANMsgObject where
  ulMsgID : Nat
  ulMsgIDMask : Nat
  ulFlags : TxFlags
  ulMsgLen : Nat
  pucMsgData : List Nat
  deriving DecidableEq, Repr

/-- The copy loops `for (i = 0; i < n; i++) dst[dOff + i] = src[sOff + i];`. -/
def copyBytes (dst : List Nat) (dOff : Nat) (src : List Nat) (sOff n : Nat) : List Nat :=
  (List.range n).foldl (fun a i => a.set (dOff + i) (rd src (sOff + i))) dst

/-- The payload of one transmitted frame: `local_output[i] = mb_req_pdu[i +
(iterations * MAX_FRAME)]` for `i < n`, of which `n` bytes are handed over. -/
def txPayload (mb_req_pdu : List Nat) (iterations n : Nat) : List Nat :=
  (copyBytes (List.replicate MAX_FRAME 0) 0 mb_req_pdu (iterations * MAX_FRAME) n).take n

/-! ## Slave: Modbus_CAN.c (CAN layer) -/

namespace Slave

/-- Source: `enum Modbus_MainState` of the slave (Modbus_CAN.h:310-318). -/
inductive Modbus_MainState where
  | MODBUS_INITIAL
  | MODBUS_IDLE
  | MODBUS_CHECKING
  | MODBUS_PROCESSING
  | MODBUS_REPLY
  | MODBUS_ERROR
  deriving DecidableEq, Repr

/-- The module variables of the slave's Modbus_CAN.c, and `canTx`, the frames
handed to `CANMessageSet (..., MSG_OBJ_TYPE_TX)`, oldest first. -/
structure State where
  modbus_slave_state : Modbus_MainState
  slave : Nat
  modbus_complete_reception : Nat
  modbus_broadcast : Nat
  input_length : Nat
  input_pdu : List Nat
  modbus_index : Nat
  modbus_bit_rate : Modbus_CAN_BitRate
  canTx : List tCANMsgObject
  deriving DecidableEq, Repr

/-- Source: `Modbus_SetMainState`. -/
def Modbus_SetMainState (s : State) (state : Modbus_MainState) : State :=
  { s with modbus_slave_state := state }

/-- The `while (aux_length)` loop of the slave's `Modbus_CAN_FixOutput`
(Modbus_CAN.c:214-259).  The first argument bounds the number of iterations;
`Modbus_CAN_FixOutput` passes more than the loop can use. -/
def Modbus_CAN_FixOutput_loop (mb_req_pdu : List Nat) (pdu_length : Nat) :
    Nat → Nat → Nat → State → State
  | 0, _, _, s => s
  | fuel + 1, aux_length, iterations, s =>
    if aux_length = 0 then s
    else if aux_length ≤ MAX_FRAME then
      let registerr := if pdu_length ≤ MAX_FRAME then 0x0 else 0x6
      let TxObject : tCANMsgObject :=
        { ulMsgID := (registerr <<< 8) ||| s.slave
          ulMsgIDMask := 0x000
          ulFlags := .MSG_OBJ_TX_INT_ENABLE
          ulMsgLen := aux_length
          pucMsgData := txPayload mb_req_pdu iterations aux_length }
      Modbus_CAN_FixOutput_loop mb_req_pdu pdu_length fuel (aux_length - aux_length) iterations
        { s with canTx := s.canTx ++ [TxObject] }
    else
      let registerr := if aux_length = pdu_length then 0x2 else 0x4
      let TxObject : tCANMsgObject :=
        { ulMsgID := (registerr <<< 8) ||| s.slave
          ulMsgIDMask := 0x000
          ulFlags := .MSG_OBJ_NO_FLAGS
          ulMsgLen := MAX_FRAME
          pucMsgData := txPayload mb_req_pdu iterations MAX_FRAME }
      Modbus_CAN_FixOutput_loop mb_req_pdu pdu_length fuel (aux_length - MAX_FRAME)
        (iterations + 1) { s with canTx := s.canTx ++ [TxObject] }

/-- Source: the slave's `Modbus_CAN_FixOutput (mb_req_pdu, pdu_length)`;
`pdu_length` is an `unsigned char` parameter. -/
def Modbus_CAN_FixOutput (s : State) (mb_req_pdu : List Nat) (pdu_length : Nat) : State :=
  Modbus_CAN_FixOutput_loop mb_req_pdu (pdu_length % 256) (pdu_length % 256 + 1)
    (pdu_length % 256) 0 s

/-- Source: the slave's `Modbus_CAN_CallBack`.  `new_data` is the value read by
`CANStatusGet (MODBUS_CAN, CAN_STS_NEWDAT)` and `rx` the message object read by
`CANMessageGet` (object 17, or 18 when `modbus_broadcast` is set). -/
def Modbus_CAN_CallBack (s : State) (new_data : Nat) (rx : tCANMsgObject) : State :=
  let numObj := if s.modbus_broadcast ≠ 0 then 18 else 17
  let mask := if s.modbus_broadcast ≠ 0 then 0x20000 else 0x10000
  if (new_data &&& mask) >>> (numObj - 1) = 1 then
    if rx.ulMsgID &&& 0x700 = 0x100 then
      { s with
        modbus_complete_reception := 1
        input_length := rx.ulMsgLen % 256
        modbus_index := rx.ulMsgLen % 256
        input_pdu := copyBytes s.input_pdu 0 rx.pucMsgData 0 rx.ulMsgLen }
    else if rx.ulMsgID &&& 0x700 = 0x300 then
      { s with
        input_pdu := copyBytes s.input_pdu 0 rx.pucMsgData 0 rx.ulMsgLen
        modbus_index := rx.ulMsgLen % 256 }
    else if rx.ulMsgID &&& 0x700 = 0x500 ∨ rx.ulMsgID &&& 0x700 = 0x700 then
      let s1 : State :=
        { s with
          input_pdu := copyBytes s.input_pdu s.modbus_index rx.pucMsgData 0 rx.ulMsgLen
          modbus_index := (s.modbus_index + rx.ulMsgLen) % 256 }
      if rx.ulMsgID &&& 0x700 = 0x700 then
        { s1 with modbus_complete_reception := 1, input_length := s1.modbus_index }
      else s1
    else Modbus_SetMainState s .MODBUS_ERROR
  else Modbus_SetMainState s .MODBUS_ERROR

end Slave

/-! ## Slave: Modbus_app.c (application layer) -/

namespace Slave

/-- The module variables of the slave's Modbus_app.c.  `Modbus_App_Coils`,
`Modbus_App_D_Inputs`, `Modbus_App_H_Registers` and `Modbus_App_I_Registers`
are the user arrays the four pointers designate. -/
structure App where
  Modbus_App_Msg : List Nat
  Modbus_App_L_Msg : Nat
  Modbus_App_Response_pdu : List Nat
  Modbus_App_L_Response_pdu : Nat
  Modbus_App_Adress : Nat
  Modbus_App_Quantity : Nat
  Modbus_App_Value : Nat
  Modbus_App_N_Coils : Nat
  Modbus_App_N_D_Inputs : Nat
  Modbus_App_N_I_Registers : Nat
  Modbus_App_N_H_Registers : Nat
  Modbus_App_Coils : List Nat
  Modbus_App_D_Inputs : List Nat
  Modbus_App_H_Registers : List Nat
  Modbus_App_I_Registers : List Nat
  deriving DecidableEq, Repr

/-- The expression `Modbus_App_Msg[i]<<8|Modbus_App_Msg[i+1]` stored into a
`uint16_t`. -/
def be16 (m : List Nat) (i : Nat) : Nat := ((rd m i <<< 8) ||| rd m (i + 1)) % 65536

/-- Source: `Modbus_App_Receive_Char`; the index is an `unsigned char`. -/
def Modbus_App_Receive_Char (a : App) (Msg i : Nat) : App :=
  { a with Modbus_App_Msg := a.Modbus_App_Msg.set (i % 256) (Msg % 256) }

/-- Source: `Modbus_App_L_Msg_Set`. -/
def Modbus_App_L_Msg_Set (a : App) (Index : Nat) : App :=
  { a with Modbus_App_L_Msg := Index % 256 }

/-! ### Checking functions -/

/-- Source: `Modbus_App_Read_Coils_Check`. -/
def Modbus_App_Read_Coils_Check (a : App) : App × Nat :=
  let a1 : App :=
    { a with
      Modbus_App_Adress := be16 a.Modbus_App_Msg 1
      Modbus_App_Quantity := be16 a.Modbus_App_Msg 3 }
  if a1.Modbus_App_Quantity > 2000 ∨ a1.Modbus_App_Quantity = 0 ∨ a1.Modbus_App_L_Msg ≠ 5 then
    (a1, 3)
  else if a1.Modbus_App_Adress + a1.Modbus_App_Quantity > a1.Modbus_App_N_Coils then (a1, 2)
  else (a1, 0)

/-- Source: `Modbus_App_Read_D_Inputs_Check`. -/
def Modbus_App_Read_D_Inputs_Check (a : App) : App × Nat :=
  let a1 : App :=
    { a with
      Modbus_App_Adress := be16 a.Modbus_App_Msg 1
      Modbus_App_Quantity := be16 a.Modbus_App_Msg 3 }
  if a1.Modbus_App_Quantity > 2000 ∨ a1.Modbus_App_Quantity = 0 ∨ a1.Modbus_App_L_Msg ≠ 5 then
    (a1, 3)
  else if a1.Modbus_App_Adress + a1.Modbus_App_Quantity > a1.Modbus_App_N_D_Inputs then (a1, 2)
  else (a1, 0)

/-- Source: `Modbus_App_Read_H_Registers_Check`. -/
def Modbus_App_Read_H_Registers_Check (a : App) : App × Nat :=
  let a1 : App :=
    { a with
      Modbus_App_Adress := be16 a.Modbus_App_Msg 1
      Modbus_App_Quantity := be16 a.Modbus_App_Msg 3 }
  if a1.Modbus_App_Quantity > 125 ∨ a1.Modbus_App_Quantity = 0 ∨ a1.Modbus_App_L_Msg ≠ 5 then
    (a1, 3)
  else if a1.Modbus_App_Adress + a1.Modbus_App_Quantity > a1.Modbus_App_N_H_Registers then
    (a1, 2)
  else (a1, 0)

/-- Source: `Modbus_App_Read_I_Registers_Check`. -/
def Modbus_App_Read_I_Registers_Check (a : App) : App × Nat :=
  let a1 : App :=
    { a with
      Modbus_App_Adress := be16 a.Modbus_App_Msg 1
      Modbus_App_Quantity := be16 a.Modbus_App_Msg 3 }
  if a1.Modbus_App_Quantity > 125 ∨ a1.Modbus_App_Quantity = 0 ∨ a1.Modbus_App_L_Msg ≠ 5 then
    (a1, 3)
  else if a1.Modbus_App_Adress + a1.Modbus_App_Quantity > a1.Modbus_App_N_I_Registers then
    (a1, 2)
  else (a1, 0)

/-- Source: `Modbus_App_Write_Coil_Check`; the condition is
`Value!=65280 && Value!=0 || L_Msg!=5`. -/
def Modbus_App_Write_Coil_Check (a : App) : App × Nat :=
  let a1 : App :=
    { a with
      Modbus_App_Adress := be16 a.Modbus_App_Msg 1
      Modbus_App_Value := be16 a.Modbus_App_Msg 3 }
  if (a1.Modbus_App_Value ≠ 65280 ∧ a1.Modbus_App_Value ≠ 0) ∨ a1.Modbus_App_L_Msg ≠ 5 then
    (a1, 3)
  else if a1.Modbus_App_Adress ≥ a1.Modbus_App_N_Coils then (a1, 2)
  else (a1, 0)

/-- Source: `Modbus_App_Write_Register_Check`. -/
def Modbus_App_Write_Register_Check (a : App) : App × Nat :=
  let a1 : App :=
    { a with
      Modbus_App_Adress := be16 a.Modbus_App_Msg 1
      Modbus_App_Value := be16 a.Modbus_App_Msg 3 }
  if a1.Modbus_App_L_Msg ≠ 5 then (a1, 3)
  else if a1.Modbus_App_Adress ≥ a1.Modbus_App_N_H_Registers then (a1, 2)
  else (a1, 0)

/-- Source: `Modbus_App_Write_M_Coils_Check`; `N_Bytes` is an `unsigned char`. -/
def Modbus_App_Write_M_Coils_Check (a : App) : App × Nat :=
  let a1 : App :=
    { a with
      Modbus_App_Adress := be16 a.Modbus_App_Msg 1
      Modbus_App_Quantity := be16 a.Modbus_App_Msg 3
      Modbus_App_Value := rd a.Modbus_App_Msg 5 % 65536 }
  let N_Bytes :=
    if a1.Modbus_App_Quantity % 8 = 0 then (a1.Modbus_App_Quantity / 8) % 256
    else (a1.Modbus_App_Quantity / 8 + 1) % 256
  if a1.Modbus_App_Quantity > 1968 ∨ a1.Modbus_App_Quantity = 0 ∨
      N_Bytes ≠ a1.Modbus_App_Value ∨ a1.Modbus_App_L_Msg ≠ 6 + N_Bytes then (a1, 3)
  else if a1.Modbus_App_Adress + a1.Modbus_App_Quantity > a1.Modbus_App_N_Coils then (a1, 2)
  else (a1, 0)

/-- Source: `Modbus_App_Write_M_Registers_Check`. -/
def Modbus_App_Write_M_Registers_Check (a : App) : App × Nat :=
  let a1 : App :=
    { a with
      Modbus_App_Adress := be16 a.Modbus_App_Msg 1
      Modbus_App_Quantity := be16 a.Modbus_App_Msg 3
      Modbus_App_Value := rd a.Modbus_App_Msg 5 % 65536 }
  if a1.Modbus_App_Quantity > 123 ∨ a1.Modbus_App_Quantity = 0 ∨
      a1.Modbus_App_Quantity * 2 ≠ a1.Modbus_App_Value ∨
      a1.Modbus_App_L_Msg ≠ 6 + a1.Modbus_App_Value then (a1, 3)
  else if a1.Modbus_App_Adress + a1.Modbus_App_Quantity > a1.Modbus_App_N_H_Registers then
    (a1, 2)
  else (a1, 0)

/-- Source: `Modbus_App_Mask_Write_Register_Check`. -/
def Modbus_App_Mask_Write_Register_Check (a : App) : App × Nat :=
  let a1 : App := { a with Modbus_App_Adress := be16 a.Modbus_App_Msg 1 }
  if a1.Modbus_App_L_Msg ≠ 7 then (a1, 3)
  else if a1.Modbus_App_Adress ≥ a1.Modbus_App_N_H_Registers then (a1, 2)
  else (a1, 0)

/-- Source: `Modbus_App_Read_Write_M_Registers_Check`: the read part is
checked first, then the auxiliary variables are loaded with the write part. -/
def Modbus_App_Read_Write_M_Registers_Check (a : App) : App × Nat :=
  let a1 : App :=
    { a with
      Modbus_App_Adress := be16 a.Modbus_App_Msg 1
      Modbus_App_Quantity := be16 a.Modbus_App_Msg 3 }
  if a1.Modbus_App_Quantity > 125 ∨ a1.Modbus_App_Quantity = 0 ∨
      a1.Modbus_App_L_Msg ≠ 10 + rd a1.Modbus_App_Msg 9 then (a1, 3)
  else if a1.Modbus_App_Adress + a1.Modbus_App_Quantity > a1.Modbus_App_N_H_Registers then
    (a1, 2)
  else
    let a2 : App :=
      { a1 with
        Modbus_App_Adress := be16 a1.Modbus_App_Msg 5
        Modbus_App_Quantity := be16 a1.Modbus_App_Msg 7
        Modbus_App_Value := rd a1.Modbus_App_Msg 9 % 65536 }
    if a2.Modbus_App_Quantity > 123 ∨ a2.Modbus_App_Quantity = 0 ∨
        a2.Modbus_App_Quantity * 2 ≠ a2.Modbus_App_Value then (a2, 3)
    else if a2.Modbus_App_Adress + a2.Modbus_App_Quantity > a2.Modbus_App_N_H_Registers then
      (a2, 2)
    else (a2, 0)

/-- Source: `Modbus_App_Check_Request_Data`; `BroadCast` is the value of
`Modbus_CAN_BroadCast_Get ()` (CAN build) or `Modbus_OSL_BroadCast_Get ()`
(serial build), the only difference between the two builds. -/
def Modbus_App_Check_Request_Data (a : App) (BroadCast : Nat) : App × Nat :=
  let f := rd a.Modbus_App_Msg 0
  if f = 1 then
    if BroadCast = 0 then Modbus_App_Read_Coils_Check a else (a, 1)
  else if f = 2 then
    if BroadCast = 0 then Modbus_App_Read_D_Inputs_Check a else (a, 1)
  else if f = 3 then
    if BroadCast = 0 then Modbus_App_Read_H_Registers_Check a else (a, 1)
  else if f = 4 then
    if BroadCast = 0 then Modbus_App_Read_I_Registers_Check a else (a, 1)
  else if f = 5 then Modbus_App_Write_Coil_Check a
  else if f = 6 then Modbus_App_Write_Register_Check a
  else if f = 15 then Modbus_App_Write_M_Coils_Check a
  else if f = 16 then Modbus_App_Write_M_Registers_Check a
  else if f = 22 then Modbus_App_Mask_Write_Register_Check a
  else if f = 23 then
    if BroadCast = 0 then Modbus_App_Read_Write_M_Registers_Check a else (a, 1)
  else (a, 1)

/-! ### Process functions -/

/-- The inner loop of the bit readers for the response byte that starts at
bit `j`: `Response_pdu[2+k] |= src[Adress + j++] << i` for `i < 8` while
`j < Quantity`, each store reduced to a byte. -/
def packByte (src : List Nat) (Adress j Quantity : Nat) : Nat :=
  (List.range 8).foldl
    (fun acc i =>
      if j + i < Quantity then (acc ||| (rd src (Adress + j + i) <<< i)) % 256 else acc) 0

/-- The outer loop `for (k = 0; j < Quantity; k++)` of the bit readers; `k` is
an `unsigned char`, `j` a `uint16_t` that advances by up to 8 per pass. -/
def packBits (src : List Nat) (Adress Quantity : Nat) (resp : List Nat) : List Nat :=
  (List.range ((Quantity + 7) / 8)).foldl
    (fun r k => r.set (2 + k % 256) (packByte src Adress (8 * k) Quantity)) resp

/-- Source: `Modbus_App_Read_Coils`. -/
def Modbus_App_Read_Coils (a : App) : App :=
  let q := a.Modbus_App_Quantity
  let r0 := a.Modbus_App_Response_pdu.set 0 1
  let r1 := r0.set 1 (if q % 8 = 0 then (q / 8) % 256 else (q / 8 + 1) % 256)
  let r2 := packBits a.Modbus_App_Coils a.Modbus_App_Adress q r1
  { a with Modbus_App_Response_pdu := r2, Modbus_App_L_Response_pdu := (2 + rd r2 1) % 256 }

/-- Source: `Modbus_App_Read_D_Inputs`. -/
def Modbus_App_Read_D_Inputs (a : App) : App :=
  let q := a.Modbus_App_Quantity
  let r0 := a.Modbus_App_Response_pdu.set 0 2
  let r1 := r0.set 1 (if q % 8 = 0 then (q / 8) % 256 else (q / 8 + 1) % 256)
  let r2 := packBits a.Modbus_App_D_Inputs a.Modbus_App_Adress q r1
  { a with Modbus_App_Response_pdu := r2, Modbus_App_L_Response_pdu := (2 + rd r2 1) % 256 }

/-- The loop of the register readers: `Response_pdu[2+2*i] = regs[Adress+i]>>8;
Response_pdu[3+2*i] = regs[Adress+i];` for `i < Quantity`. -/
def packRegisters (regs : List Nat) (Adress Quantity : Nat) (resp : List Nat) : List Nat :=
  (List.range Quantity).foldl
    (fun r i =>
      (r.set (2 + 2 * i) ((rd regs (Adress + i) >>> 8) % 256)).set (3 + 2 * i)
        (rd regs (Adress + i) % 256)) resp

/-- Source: `Modbus_App_Read_H_Registers`.  The loop counter `i` is an
`unsigned char` compared with the `uint16_t` quantity: for a quantity above
255 the loop does not end (`none`). -/
def Modbus_App_Read_H_Registers (a : App) : Option App :=
  let q := a.Modbus_App_Quantity
  if q ≥ 256 then none
  else
    let r0 := (a.Modbus_App_Response_pdu.set 0 3).set 1 ((q * 2) % 256)
    let r1 := packRegisters a.Modbus_App_H_Registers a.Modbus_App_Adress q r0
    some { a with
      Modbus_App_Response_pdu := r1, Modbus_App_L_Response_pdu := (2 + rd r1 1) % 256 }

/-- Source: `Modbus_App_Read_I_Registers`; same loop counter as
`Modbus_App_Read_H_Registers`. -/
def Modbus_App_Read_I_Registers (a : App) : Option App :=
  let q := a.Modbus_App_Quantity
  if q ≥ 256 then none
  else
    let r0 := (a.Modbus_App_Response_pdu.set 0 4).set 1 ((q * 2) % 256)
    let r1 := packRegisters a.Modbus_App_I_Registers a.Modbus_App_Adress q r0
    some { a with
      Modbus_App_Response_pdu := r1, Modbus_App_L_Response_pdu := (2 + rd r1 1) % 256 }

/-- Source: `Modbus_App_Write_Coil`. -/
def Modbus_App_Write_Coil (a : App) : App :=
  let adr := a.Modbus_App_Adress
  let r0 := ((a.Modbus_App_Response_pdu.set 0 5).set 1 ((adr >>> 8) % 256)).set 2 (adr % 256)
  let a1 : App := { a with Modbus_App_Response_pdu := r0 }
  let a2 : App :=
    if a1.Modbus_App_Value = 65280 then
      { a1 with
        Modbus_App_Coils := a1.Modbus_App_Coils.set adr 1
        Modbus_App_Response_pdu := (a1.Modbus_App_Response_pdu.set 3 255).set 4 0 }
    else a1
  let a3 : App :=
    if a2.Modbus_App_Value = 0 then
      { a2 with
        Modbus_App_Coils := a2.Modbus_App_Coils.set adr 0
        Modbus_App_Response_pdu := (a2.Modbus_App_Response_pdu.set 3 0).set 4 0 }
    else a2
  { a3 with Modbus_App_L_Response_pdu := 5 }

/-- Source: `Modbus_App_Write_Register`. -/
def Modbus_App_Write_Register (a : App) : App :=
  let adr := a.Modbus_App_Adress
  let v := a.Modbus_App_Value
  { a with
    Modbus_App_Response_pdu :=
      ((((a.Modbus_App_Response_pdu.set 0 6).set 1 ((adr >>> 8) % 256)).set 2 (adr % 256)).set 3
        ((v >>> 8) % 256)).set 4 (v % 256)
    Modbus_App_H_Registers := a.Modbus_App_H_Registers.set adr (v % 65536)
    Modbus_App_L_Response_pdu := 5 }

/-- The two nested loops of `Modbus_App_Write_M_Coils`:
`Coils[k+Adress] = (Msg[6+i]>>j) & 1; k++` for `i < Value`, `j < 8` while
`k < Quantity`; `k` is `8*i + j` on every pass that stores. -/
def unpackBits (Msg : List Nat) (Adress Quantity Value : Nat) (coils : List Nat) : List Nat :=
  (List.range Value).foldl
    (fun c i => (List.range 8).foldl
      (fun c j =>
        if 8 * i + j < Quantity then c.set (8 * i + j + Adress) ((rd Msg (6 + i) >>> j) &&& 1)
        else c) c) coils

/-- Source: `Modbus_App_Write_M_Coils`.  The loop counter `i` is an
`unsigned char` compared with the `uint16_t` `Modbus_App_Value`: above 255 the
loop does not end (`none`). -/
def Modbus_App_Write_M_Coils (a : App) : Option App :=
  let adr := a.Modbus_App_Adress
  let q := a.Modbus_App_Quantity
  if a.Modbus_App_Value ≥ 256 then none
  else
    some { a with
      Modbus_App_Response_pdu :=
        ((((a.Modbus_App_Response_pdu.set 0 15).set 1 ((adr >>> 8) % 256)).set 2
          (adr % 256)).set 3 ((q >>> 8) % 256)).set 4 (q % 256)
      Modbus_App_Coils := unpackBits a.Modbus_App_Msg adr q a.Modbus_App_Value a.Modbus_App_Coils
      Modbus_App_L_Response_pdu := 5 }

/-- The store loop of the register writers:
`H_Registers[Adress+i] = Msg[off+2*i] | Msg[off+1+2*i]` for `i < Quantity`. -/
def storeRegs (Msg : List Nat) (off Adress Quantity : Nat) (regs : List Nat) : List Nat :=
  (List.range Quantity).foldl
    (fun h i => h.set (Adress + i) ((rd Msg (off + 2 * i) ||| rd Msg (off + 1 + 2 * i)) % 65536))
    regs

/-- Source: `Modbus_App_Write_M_Registers`; `unsigned char` loop counter as in
`Modbus_App_Read_H_Registers`.  The stored value is
`Modbus_App_Msg[6+2*i] | Modbus_App_Msg[7+2*i]`. -/
def Modbus_App_Write_M_Registers (a : App) : Option App :=
  let adr := a.Modbus_App_Adress
  let q := a.Modbus_App_Quantity
  if q ≥ 256 then none
  else
    some { a with
      Modbus_App_Response_pdu :=
        ((((a.Modbus_App_Response_pdu.set 0 16).set 1 ((adr >>> 8) % 256)).set 2
          (adr % 256)).set 3 ((q >>> 8) % 256)).set 4 (q % 256)
      Modbus_App_H_Registers := storeRegs a.Modbus_App_Msg 6 adr q a.Modbus_App_H_Registers
      Modbus_App_L_Response_pdu := 5 }

/-- Source: `Modbus_App_Mask_Write_Register`:
`(H_Registers[Adress] & AND_Mask) | (OR_Mask & ~AND_Mask)` on 16-bit values. -/
def Modbus_App_Mask_Write_Register (a : App) : App :=
  let adr := a.Modbus_App_Adress
  let m := a.Modbus_App_Msg
  let AND_Mask := be16 m 3
  let OR_Mask := be16 m 5
  let h := rd a.Modbus_App_H_Registers adr
  { a with
    Modbus_App_Response_pdu :=
      ((((((a.Modbus_App_Response_pdu.set 0 22).set 1 ((adr >>> 8) % 256)).set 2
        (adr % 256)).set 3 (rd m 3 % 256)).set 4 (rd m 4 % 256)).set 5 (rd m 5 % 256)).set 6
        (rd m 6 % 256)
    Modbus_App_H_Registers :=
      a.Modbus_App_H_Registers.set adr
        (((h &&& AND_Mask) ||| (OR_Mask &&& (65535 ^^^ AND_Mask))) % 65536)
    Modbus_App_L_Response_pdu := 7 }

/-- Source: `Modbus_App_Read_Write_M_Registers`: the write loop, then the read
part reloaded from the request; both loops have an `unsigned char` counter. -/
def Modbus_App_Read_Write_M_Registers (a : App) : Option App :=
  if a.Modbus_App_Quantity ≥ 256 then none
  else
    let h := storeRegs a.Modbus_App_Msg 10 a.Modbus_App_Adress a.Modbus_App_Quantity
      a.Modbus_App_H_Registers
    let adr := be16 a.Modbus_App_Msg 1
    let q := be16 a.Modbus_App_Msg 3
    if q ≥ 256 then none
    else
      let r0 := (a.Modbus_App_Response_pdu.set 0 23).set 1 ((q * 2) % 256)
      let r1 := packRegisters h adr q r0
      some { a with
        Modbus_App_H_Registers := h
        Modbus_App_Adress := adr
        Modbus_App_Quantity := q
        Modbus_App_Response_pdu := r1
        Modbus_App_L_Response_pdu := (2 + rd r1 1) % 256 }

/-- Source: `Modbus_App_Process_Action`; the `default` branch is the
fatal-error handler. -/
def Modbus_App_Process_Action (a : App) : Option App :=
  let f := rd a.Modbus_App_Msg 0
  if f = 1 then some (Modbus_App_Read_Coils a)
  else if f = 2 then some (Modbus_App_Read_D_Inputs a)
  else if f = 3 then Modbus_App_Read_H_Registers a
  else if f = 4 then Modbus_App_Read_I_Registers a
  else if f = 5 then some (Modbus_App_Write_Coil a)
  else if f = 6 then some (Modbus_App_Write_Register a)
  else if f = 15 then Modbus_App_Write_M_Coils a
  else if f = 16 then Modbus_App_Write_M_Registers a
  else if f = 22 then some (Modbus_App_Mask_Write_Register a)
  else if f = 23 then Modbus_App_Read_Write_M_Registers a
  else none

/-- The exception response of `Modbus_App_Manage_Request`:
`Response_pdu[0] = Msg[0] | 128; Response_pdu[1] = code; L_Response_pdu = 2`. -/
def exceptionResponse (a : App) (code : Nat) : App :=
  { a with
    Modbus_App_Response_pdu :=
      (a.Modbus_App_Response_pdu.set 0 ((rd a.Modbus_App_Msg 0 ||| 128) % 256)).set 1 code
    Modbus_App_L_Response_pdu := 2 }

/-! ### The CAN build: slave node, request management and controller -/

/-- A slave in the CAN build: the variables of Modbus_CAN.c and of
Modbus_app.c. -/
structure Node where
  can : State
  app : App
  deriving DecidableEq, Repr

/-- Source: the slave's `Modbus_CAN_to_App`: `Modbus_App_L_Msg_Set
(input_length)`, then `Modbus_App_Receive_Char (input_pdu[index], index)` for
`index < input_length`. -/
def Modbus_CAN_to_App (n : Node) : Node :=
  { n with
    app :=
      (List.range n.can.input_length).foldl
        (fun a index => Modbus_App_Receive_Char a (rd n.can.input_pdu index) index)
        (Modbus_App_L_Msg_Set n.app n.can.input_length) }

/-- Source: the CAN build of `Modbus_App_Manage_Request`
(Modbus_app.c:523-567); the `default` branch is the fatal-error handler. -/
def Modbus_App_Manage_Request (n : Node) : Option Node :=
  let r := Modbus_App_Check_Request_Data n.app n.can.modbus_broadcast
  if r.2 = 0 then
    (Modbus_App_Process_Action r.1).map
      (fun a => { can := Modbus_SetMainState n.can .MODBUS_PROCESSING, app := a })
  else if r.2 = 1 ∨ r.2 = 2 ∨ r.2 = 3 then
    if n.can.modbus_broadcast = 0 then
      some { can := Modbus_SetMainState n.can .MODBUS_ERROR, app := exceptionResponse r.1 r.2 }
    else some { n with app := r.1 }
  else none

/-- Source: the CAN build of the slave's `Modbus_App_Send`. -/
def Modbus_App_Send (n : Node) : Node :=
  { n with
    can := Modbus_CAN_FixOutput n.can n.app.Modbus_App_Response_pdu
      n.app.Modbus_App_L_Response_pdu }

/-- Source: the slave's `Modbus_CAN_Controller` (Modbus_CAN.c:340-364): the
state and the return value; in a state other than `MODBUS_IDLE` it ends in
`Modbus_CAN_Error_Management (110)`. -/
def Modbus_CAN_Controller (n : Node) : Option (Node × Nat) :=
  if n.can.modbus_slave_state = .MODBUS_IDLE then
    if n.can.modbus_complete_reception ≠ 0 then
      let n1 := Modbus_CAN_to_App n
      let n2 : Node := { n1 with can := Modbus_SetMainState n1.can .MODBUS_CHECKING }
      (Modbus_App_Manage_Request n2).map (fun n3 =>
        let n4 : Node := { n3 with can := { n3.can with modbus_complete_reception := 0 } }
        let n5 : Node :=
          if n4.can.modbus_broadcast = 0 then
            Modbus_App_Send { n4 with can := Modbus_SetMainState n4.can .MODBUS_REPLY }
          else n4
        ({ n5 with can := Modbus_SetMainState n5.can .MODBUS_IDLE }, 1))
    else some (n, 0)
  else none

end Slave

/-! ## Serial slave: Modbus_OSL.c with the RTU module Modbus_OSL_RTU.c -/

namespace Serial

/-- Source: `enum Modbus_OSL_Modes` (Modbus_OSL.h). -/
inductive Modbus_OSL_Modes where
  | MODBUS_OSL_MODE_RTU
  | MODBUS_OSL_MODE_ASCII
  | MDEFAULT
  deriving DecidableEq, Repr

/-- Source: `enum Modbus_OSL_MainStates` (Modbus_OSL.h). -/
inductive Modbus_OSL_MainStates where
  | MODBUS_OSL_INITIAL
  | MODBUS_OSL_IDLE
  | MODBUS_OSL_CHECKING
  | MODBUS_OSL_PROCESSING
  | MODBUS_OSL_REPLY
  | MODBUS_OSL_ERROR
  deriving DecidableEq, Repr

/-- Source: `enum Modbus_OSL_States` (Modbus_OSL.h). -/
inductive Modbus_OSL_States where
  | MODBUS_OSL_RTU_INITIAL
  | MODBUS_OSL_RTU_IDLE
  | MODBUS_OSL_RTU_RECEPTION
  | MODBUS_OSL_RTU_CONTROLANDWAITING
  | MODBUS_OSL_RTU_EMISSION
  | MODBUS_OSL_ASCII_IDLE
  | MODBUS_OSL_ASCII_RECEPTION
  | MODBUS_OSL_ASCII_WAITING_EOF
  | MODBUS_OSL_ASCII_EMISSION_START
  | MODBUS_OSL_ASCII_EMISSION
  | MODBUS_OSL_ASCII_EMISSION_END
  deriving DecidableEq, Repr

/-- The array a reception pointer of Modbus_OSL_RTU.c designates:
`Modbus_OSL_RTU_Msg1` or `Modbus_OSL_RTU_Msg2`. -/
inductive RtuBuffer where
  | Msg1
  | Msg2
  deriving DecidableEq, Repr

/-- The module variables of Modbus_OSL.c and Modbus_OSL_RTU.c, the variables
of the slave's Modbus_app.c, and the hardware effects the code has: `uartTx`,
the bytes handed to `UARTCharPut`, oldest first, and the last value loaded
into timer 0 (3.5T) and timer 1 (1.5T).  `Modbus_OSL_RTU_Msg_Complete` is a
pointer that designates no array before the first frame is published. -/
structure State where
  Modbus_OSL_Baudrate : Nat
  Modbus_OSL_Mode : Modbus_OSL_Modes
  Modbus_OSL_Frame : Modbus_OSL_Frames
  Modbus_OSL_Processing_Flag : Nat
  Modbus_OSL_Slave_Adress : Nat
  Modbus_OSL_Response_ADU : List Nat
  Modbus_OSL_L_Response_ADU : Nat
  Modbus_OSL_BroadCast : Nat
  Modbus_OSL_MainState : Modbus_OSL_MainStates
  Modbus_OSL_State : Modbus_OSL_States
  Modbus_OSL_RTU_Timeout_15 : Nat
  Modbus_OSL_RTU_Timeout_35 : Nat
  Modbus_OSL_RTU_Msg1 : List Nat
  Modbus_OSL_RTU_Msg2 : List Nat
  Modbus_OSL_RTU_Msg : RtuBuffer
  Modbus_OSL_RTU_Msg_Complete : Option RtuBuffer
  Modbus_OSL_RTU_L_Msg : Nat
  Modbus_OSL_RTU_Index : Nat
  app : Slave.App
  uartTx : List Nat
  timer0 : Option Nat
  timer1 : Option Nat
  deriving DecidableEq, Repr

/-- The array a reception pointer designates. -/
def buffer (s : State) : RtuBuffer → List Nat
  | .Msg1 => s.Modbus_OSL_RTU_Msg1
  | .Msg2 => s.Modbus_OSL_RTU_Msg2

/-- Source: `Modbus_OSL_Frame_Set`. -/
def Modbus_OSL_Frame_Set (s : State) (Flag : Modbus_OSL_Frames) : State :=
  { s with Modbus_OSL_Frame := Flag }

/-- Source: `Modbus_OSL_State_Set`. -/
def Modbus_OSL_State_Set (s : State) (st : Modbus_OSL_States) : State :=
  { s with Modbus_OSL_State := st }

/-- Source: `Modbus_OSL_MainState_Set`. -/
def Modbus_OSL_MainState_Set (s : State) (st : Modbus_OSL_MainStates) : State :=
  { s with Modbus_OSL_MainState := st }

/-- Source: `Modbus_OSL_RTU_Char_Get`; the index is an `unsigned char`.  A
read through the pointer before any frame was published is `none`. -/
def Modbus_OSL_RTU_Char_Get (s : State) (i : Nat) : Option Nat :=
  s.Modbus_OSL_RTU_Msg_Complete.map (fun b => rd (buffer s b) (i % 256))

/-- Source: `Modbus_OSL_RTU_L_Msg_Get`: `Modbus_OSL_RTU_L_Msg-2` returned as an
`unsigned char`. -/
def Modbus_OSL_RTU_L_Msg_Get (s : State) : Nat := (s.Modbus_OSL_RTU_L_Msg + 256 - 2) % 256

/-- Source: `Modbus_OSL_RTU_Control_CRC` on the module variables: the frame
flag is set by `Modbus_OSL_RTU_Check_CRC`. -/
def Modbus_OSL_RTU_Control_CRC (s : State) : Option (State × Nat) :=
  s.Modbus_OSL_RTU_Msg_Complete.bind (fun b =>
    (Modbus.Modbus_OSL_RTU_Control_CRC (buffer s b) s.Modbus_OSL_RTU_L_Msg).map
      (fun r => (Modbus_OSL_Frame_Set s r.1, r.2)))

/-- Source: `Modbus_OSL_Reception_Complete`. -/
def Modbus_OSL_Reception_Complete (s : State) : State :=
  { s with Modbus_OSL_Processing_Flag := 1 }

/-- Source: `Modbus_OSL_Processing_Msg`: the flag is returned and cleared. -/
def Modbus_OSL_Processing_Msg (s : State) : State × Nat :=
  ({ s with Modbus_OSL_Processing_Flag := 0 }, s.Modbus_OSL_Processing_Flag)

/-- Source: `Modbus_OSL_RTU_to_App`: `Modbus_App_Receive_Char
(Modbus_OSL_RTU_Char_Get (i), i-1)` for `1 <= i < Modbus_OSL_RTU_L_Msg_Get ()`,
then `Modbus_App_L_Msg_Set (Modbus_OSL_RTU_L_Msg_Get () - 1)`. -/
def Modbus_OSL_RTU_to_App (s : State) : Option State :=
  s.Modbus_OSL_RTU_Msg_Complete.map (fun b =>
    let a := (List.range (Modbus_OSL_RTU_L_Msg_Get s - 1)).foldl
      (fun a k => Slave.Modbus_App_Receive_Char a (rd (buffer s b) ((k + 1) % 256)) k) s.app
    { s with app := Slave.Modbus_App_L_Msg_Set a (Modbus_OSL_RTU_L_Msg_Get s + 256 - 1) })

/-- Source: `Modbus_OSL_Receive_Request`: the state and the return value.
Only the RTU mode is implemented: in any other mode the local
`Modbus_OSL_Slave` is compared without having been assigned (`none`). -/
def Modbus_OSL_Receive_Request (s : State) : Option (State × Nat) :=
  let p := Modbus_OSL_Processing_Msg s
  if p.2 ≠ 0 then
    let s1 := Modbus_OSL_MainState_Set p.1 .MODBUS_OSL_CHECKING
    match s1.Modbus_OSL_Mode with
    | .MODBUS_OSL_MODE_RTU =>
      (Modbus_OSL_RTU_Char_Get s1 0).bind (fun Modbus_OSL_Slave =>
        if Modbus_OSL_Slave = s1.Modbus_OSL_Slave_Adress ∨ Modbus_OSL_Slave = 0 then
          let s2 : State :=
            { s1 with Modbus_OSL_BroadCast := if Modbus_OSL_Slave = 0 then 1 else 0 }
          (Modbus_OSL_RTU_Control_CRC s2).bind (fun c =>
            if c.2 ≠ 0 then (Modbus_OSL_RTU_to_App c.1).map (fun s3 => (s3, 1))
            else
              some (Modbus_OSL_MainState_Set
                (Modbus_OSL_Frame_Set c.1 .MODBUS_OSL_Frame_OK) .MODBUS_OSL_IDLE, 0))
        else some (Modbus_OSL_MainState_Set s1 .MODBUS_OSL_IDLE, 0))
    | _ => none
  else some (p.1, 0)

/-- Source: the serial build of `Modbus_App_Manage_Request`
(Modbus_app.c:294-346); the `default` branch is `Modbus_Fatal_Error (10)`. -/
def Modbus_App_Manage_Request (s : State) : Option State :=
  let r := Slave.Modbus_App_Check_Request_Data s.app s.Modbus_OSL_BroadCast
  if r.2 = 0 then
    (Slave.Modbus_App_Process_Action r.1).map
      (fun a => { Modbus_OSL_MainState_Set s .MODBUS_OSL_PROCESSING with app := a })
  else if r.2 = 1 ∨ r.2 = 2 ∨ r.2 = 3 then
    if s.Modbus_OSL_BroadCast = 0 then
      some { Modbus_OSL_MainState_Set s .MODBUS_OSL_ERROR with
        app := Slave.exceptionResponse r.1 r.2 }
    else some { s with app := r.1 }
  else none

/-- Source: `Modbus_OSL_Send`: `UARTCharPut (UART1_BASE, mb_rsp_adu[i])` for
`i < L_adu`; `L_adu` is an `unsigned char`. -/
def Modbus_OSL_Send (s : State) (mb_rsp_adu : List Nat) (L_adu : Nat) : State :=
  { s with uartTx := s.uartTx ++ (List.range (L_adu % 256)).map (rd mb_rsp_adu) }

/-- Source: `Modbus_OSL_Output`: in RTU mode the ADU is mounted in
`Modbus_OSL_Response_ADU`, its length `L_pdu+3` is stored in an
`unsigned char`, the RTU state becomes EMISSION; the ADU is sent and timer 0
is loaded with 3.5T and enabled. -/
def Modbus_OSL_Output (s : State) (mb_rsp_pdu : List Nat) (L_pdu : Nat) : State :=
  let s1 : State :=
    match s.Modbus_OSL_Mode with
    | .MODBUS_OSL_MODE_RTU =>
      Modbus_OSL_State_Set
        { s with
          Modbus_OSL_Response_ADU :=
            Modbus_OSL_RTU_Mount_ADU mb_rsp_pdu s.Modbus_OSL_Slave_Adress (L_pdu % 256)
              s.Modbus_OSL_Response_ADU
          Modbus_OSL_L_Response_ADU := (L_pdu % 256 + 3) % 256 }
        .MODBUS_OSL_RTU_EMISSION
    | _ => s
  let s2 := Modbus_OSL_Send s1 s1.Modbus_OSL_Response_ADU s1.Modbus_OSL_L_Response_ADU
  if s2.Modbus_OSL_Mode = .MODBUS_OSL_MODE_RTU then
    { s2 with timer0 := some s2.Modbus_OSL_RTU_Timeout_35 }
  else s2

/-- Source: the serial build of the slave's `Modbus_App_Send`. -/
def Modbus_App_Send (s : State) : State :=
  Modbus_OSL_Output s s.app.Modbus_App_Response_pdu s.app.Modbus_App_L_Response_pdu

/-- Source: `Modbus_OSL_Serial_Comm`. -/
def Modbus_OSL_Serial_Comm (s : State) : Option State :=
  if s.Modbus_OSL_MainState = .MODBUS_OSL_IDLE then
    (Modbus_OSL_Receive_Request s).bind (fun r =>
      if r.2 ≠ 0 then
        (Modbus_App_Manage_Request r.1).map (fun s1 =>
          let s2 :=
            if s1.Modbus_OSL_BroadCast = 0 then
              Modbus_App_Send (Modbus_OSL_MainState_Set s1 .MODBUS_OSL_REPLY)
            else s1
          Modbus_OSL_MainState_Set s2 .MODBUS_OSL_IDLE)
      else some r.1)
  else some s

end Serial
/-! ## Serial slave: the RTU receiver of Modbus_OSL_RTU.c and the interrupt routines -/

namespace Serial

/-- The store `Modbus_OSL_RTU_Msg[Modbus_OSL_RTU_Index] = c` through the
reception pointer.  The arrays have 256 bytes: a store at a larger index lands
outside the array and is not represented, the two arrays keep their bytes. -/
def storeChar (s : State) (c : Nat) : State :=
  match s.Modbus_OSL_RTU_Msg with
  | .Msg1 =>
    { s with Modbus_OSL_RTU_Msg1 := s.Modbus_OSL_RTU_Msg1.set s.Modbus_OSL_RTU_Index (c % 256) }
  | .Msg2 =>
    { s with Modbus_OSL_RTU_Msg2 := s.Modbus_OSL_RTU_Msg2.set s.Modbus_OSL_RTU_Index (c % 256) }

/-- Source: `Modbus_OSL_RTU_15T` (Modbus_OSL_RTU.c:379-392); the `default`
branch is `Modbus_Fatal_Error (200)`. -/
def Modbus_OSL_RTU_15T (s : State) : Option State :=
  match s.Modbus_OSL_State with
  | .MODBUS_OSL_RTU_RECEPTION =>
    some { Modbus_OSL_State_Set s .MODBUS_OSL_RTU_CONTROLANDWAITING with
      timer1 := some s.Modbus_OSL_RTU_Timeout_15 }
  | _ => none

/-- Source: `Modbus_OSL_RTU_35T` (Modbus_OSL_RTU.c:414-464); the `default`
branch is `Modbus_Fatal_Error (210)`.  `Modbus_OSL_RTU_L_Msg` is an
`unsigned char`, `Modbus_OSL_RTU_Index` a `uint16_t`. -/
def Modbus_OSL_RTU_35T (s : State) : Option State :=
  match s.Modbus_OSL_State with
  | .MODBUS_OSL_RTU_INITIAL =>
    some { Modbus_OSL_MainState_Set (Modbus_OSL_State_Set s .MODBUS_OSL_RTU_IDLE)
        .MODBUS_OSL_IDLE with
      timer0 := some s.Modbus_OSL_RTU_Timeout_35 }
  | .MODBUS_OSL_RTU_CONTROLANDWAITING =>
    let s1 : State :=
      if s.Modbus_OSL_Frame = .MODBUS_OSL_Frame_OK ∧
          s.Modbus_OSL_MainState ≠ .MODBUS_OSL_ERROR then
        let s2 : State :=
          if s.Modbus_OSL_RTU_Msg = .Msg1 then
            { s with Modbus_OSL_RTU_Msg := .Msg2, Modbus_OSL_RTU_Msg_Complete := some .Msg1 }
          else
            { s with Modbus_OSL_RTU_Msg := .Msg1, Modbus_OSL_RTU_Msg_Complete := some .Msg2 }
        Modbus_OSL_Reception_Complete
          { s2 with Modbus_OSL_RTU_L_Msg := s2.Modbus_OSL_RTU_Index % 256 }
      else s
    some { Modbus_OSL_State_Set
        { Modbus_OSL_Frame_Set s1 .MODBUS_OSL_Frame_OK with Modbus_OSL_RTU_Index := 0 }
        .MODBUS_OSL_RTU_IDLE with
      timer0 := some s.Modbus_OSL_RTU_Timeout_35 }
  | .MODBUS_OSL_RTU_EMISSION =>
    some { Modbus_OSL_State_Set s .MODBUS_OSL_RTU_IDLE with
      timer0 := some s.Modbus_OSL_RTU_Timeout_35 }
  | _ => none

/-- Source: `Modbus_OSL_RTU_UART` (Modbus_OSL_RTU.c:466-531); `c` is the value
`UARTCharGetNonBlocking (UART1_BASE)` returns, stored into an `unsigned char`.
`TimerEnable` loads nothing; the `switch` has no `default` branch. -/
def Modbus_OSL_RTU_UART (s : State) (c : Nat) : State :=
  match s.Modbus_OSL_State with
  | .MODBUS_OSL_RTU_INITIAL => { s with timer0 := some s.Modbus_OSL_RTU_Timeout_35 }
  | .MODBUS_OSL_RTU_IDLE =>
    Modbus_OSL_State_Set
      { storeChar s c with Modbus_OSL_RTU_Index := (s.Modbus_OSL_RTU_Index + 1) % 65536 }
      .MODBUS_OSL_RTU_RECEPTION
  | .MODBUS_OSL_RTU_RECEPTION =>
    let s1 : State :=
      if s.Modbus_OSL_RTU_Index > 255 then Modbus_OSL_Frame_Set s .MODBUS_OSL_Frame_NOK else s
    { storeChar s1 c with
      timer0 := some s.Modbus_OSL_RTU_Timeout_35
      timer1 := some s.Modbus_OSL_RTU_Timeout_15
      Modbus_OSL_RTU_Index := (s.Modbus_OSL_RTU_Index + 1) % 65536 }
  | .MODBUS_OSL_RTU_CONTROLANDWAITING => Modbus_OSL_Frame_Set s .MODBUS_OSL_Frame_NOK
  | _ => s

/-- The value of `UART_INT_PE` in the driver header `driverlib/uart.h`: the
parity-error bit of the interrupt status. -/
def UART_INT_PE : Nat := 0x100

/-- The value of `UART_INT_RX` in the driver header `driverlib/uart.h`: the
receive bit of the interrupt status. -/
def UART_INT_RX : Nat := 0x010

/-- Source: `UART1IntHandler` (Modbus_OSL.c:311-355); `ulStatus` is the value
`UARTIntStatus (UART1_BASE, true)` returns and `c` the received character.  The
`default` branch of the mode switch is `Modbus_Fatal_Error (100)`. -/
def UART1IntHandler (s : State) (ulStatus c : Nat) : Option State :=
  if UART_INT_PE = ulStatus then some (Modbus_OSL_Frame_Set s .MODBUS_OSL_Frame_NOK)
  else
    match s.Modbus_OSL_Mode with
    | .MODBUS_OSL_MODE_RTU => some (Modbus_OSL_RTU_UART s c)
    | .MODBUS_OSL_MODE_ASCII => some s
    | _ => none

/-- Source: `Timer0IntHandler` (Modbus_OSL_Timers.c): the 3.5T interrupt. -/
def Timer0IntHandler (s : State) : Option State := Modbus_OSL_RTU_35T s

/-- Source: `Timer1IntHandler` (Modbus_OSL_Timers.c): the 1.5T interrupt. -/
def Timer1IntHandler (s : State) : Option State := Modbus_OSL_RTU_15T s

end Serial

/-! ## CAN receive filters -/

/-- Source: the acceptance rule of a receive message object as the module
documentation gives it (Modbus_CAN.h:19-25): `if (((OutMessage/InMessage) &
MessageObjectMask) == MessageObjectID) { Message accepted and placed into the
message object }`. -/
def accepted (ulMsgID ulMsgIDMask id : Nat) : Prop := id &&& ulMsgIDMask = ulMsgID

instance (ulMsgID ulMsgIDMask id : Nat) : Decidable (accepted ulMsgID ulMsgIDMask id) :=
  inferInstanceAs (Decidable (id &&& ulMsgIDMask = ulMsgID))

namespace Slave

/-- The identifier and mask with which `RxObject` is handed to
`CANMessageSet (..., MSG_OBJ_TYPE_RX)` for the receive objects 17 (unicast)
and 18 (broadcast) of a slave. -/
structure RxObjects where
  obj17_ulMsgID : Nat
  obj17_ulMsgIDMask : Nat
  obj18_ulMsgID : Nat
  obj18_ulMsgIDMask : Nat
  deriving DecidableEq, Repr

/-- Source: the slave's `Modbus_CAN_ReceptionConfiguration`
(Modbus_CAN.c:262-278): the completion flag is cleared and the two receive
objects are configured; the mask set for object 17 is kept for object 18. -/
def Modbus_CAN_ReceptionConfiguration (s : State) : State × RxObjects :=
  ({ s with modbus_complete_reception := 0 },
    { obj17_ulMsgID := (0x1 <<< 8) ||| s.slave
      obj17_ulMsgIDMask := 0x1FF
      obj18_ulMsgID := (0x1 <<< 8) ||| 0
      obj18_ulMsgIDMask := 0x1FF })

/-- Source: the slave's `Modbus_CAN_Init (bit_rate, slave_number)`
(Modbus_CAN.c:120-152): the variable part and the receive objects;
`slave_number` is an `unsigned char` parameter. -/
def Modbus_CAN_Init (s : State) (bit_rate : Modbus_CAN_BitRate) (slave_number : Nat) :
    State × RxObjects :=
  let s1 : State :=
    { Modbus_SetMainState s .MODBUS_INITIAL with
      slave := slave_number % 256
      modbus_bit_rate := bit_rate }
  let r := Modbus_CAN_ReceptionConfiguration s1
  (Modbus_SetMainState r.1 .MODBUS_IDLE, r.2)

/-- Source: the CAN build of `Modbus_Slave_Init` (Modbus_app.c:467-492): the
node, the receive objects configured (none when the slave number is refused)
and the return value.  The counts are `uint16_t` parameters, `slave` an
`unsigned char`; the four arrays are the memory the pointer arguments
designate. -/
def Modbus_Slave_Init (n : Node) (N_Coils : Nat) (Coils : List Nat) (N_D_Inputs : Nat)
    (D_Inputs : List Nat) (N_H_Registers : Nat) (H_Registers : List Nat) (N_I_Registers : Nat)
    (I_Registers : List Nat) (bit_rate : Modbus_CAN_BitRate) (slave : Nat) :
    Node × Option RxObjects × Nat :=
  let app : App :=
    { n.app with
      Modbus_App_N_Coils := N_Coils % 65536
      Modbus_App_N_D_Inputs := N_D_Inputs % 65536
      Modbus_App_N_H_Registers := N_H_Registers % 65536
      Modbus_App_N_I_Registers := N_I_Registers % 65536
      Modbus_App_Coils := Coils
      Modbus_App_D_Inputs := D_Inputs
      Modbus_App_H_Registers := H_Registers
      Modbus_App_I_Registers := I_Registers }
  if slave % 256 ≤ 247 then
    let r := Modbus_CAN_Init n.can bit_rate (slave % 256)
    ({ can := r.1, app := app }, some r.2, 0)
  else ({ n with app := app }, none, 1)

end Slave


/-! ## Master: Modbus_CAN.c and the CAN build of Modbus_app.c -/

namespace Master

/-- Source: `enum Modbus_MainState` of the master (Modbus_CAN.h:95-103). -/
inductive Modbus_MainState where
  | MODBUS_INITIAL
  | MODBUS_IDLE
  | MODBUS_WAITREPLY
  | MODBUS_TURNAROUND
  | MODBUS_PROCESSING
  | MODBUS_ERROR
  deriving DecidableEq, Repr

/-- The module variables of the master's Modbus_CAN.c and Modbus_app.c, and
three records of its surroundings: `userMem`, the bytes of the memory the
request pointers (`Data[k].PC`, `Data[k].PUI2`) refer to, indexed by address;
`canTx`, the frames handed to `CANMessageSet (..., MSG_OBJ_TYPE_TX)`, oldest
first; `timer1` / `timer2`, the load of the unicast / broadcast timer while it
is enabled. -/
structure State where
  modbus_master_state : Modbus_MainState
  modbus_max_attempts : Nat
  modbus_attempts : Nat
  modbus_forward_flag : Nat
  modbus_complete_transmission : Nat
  modbus_complete_reception : Nat
  modbus_broadcast_timeout : Nat
  modbus_unicast_timeout : Nat
  modbus_index : Nat
  input_pdu : List Nat
  input_length : Nat
  modbus_bit_rate : Modbus_CAN_BitRate
  RxObject_ulMsgID : Nat
  RxObject_ulMsgIDMask : Nat
  Modbus_FIFO_Tx : Modbus_FIFO_s
  Modbus_FIFO_Error : Modbus_FIFO_Errors
  Modbus_App_Request : Modbus_FIFO_Item
  Modbus_App_Actual_Req : Modbus_FIFO_Item
  Modbus_App_Error_Msg : Modbus_FIFO_E_Item
  Modbus_App_Msg : List Nat
  Modbus_App_L_Msg : Nat
  Modbus_App_Req_pdu : List Nat
  Modbus_App_L_Req_pdu : Nat
  userMem : List Nat
  canTx : List tCANMsgObject
  timer1 : Option Nat
  timer2 : Option Nat
  deriving DecidableEq, Repr

/-- Source: `Modbus_GetMainState`. -/
def Modbus_GetMainState (s : State) : Modbus_MainState := s.modbus_master_state

/-- Source: `Modbus_SetMainState`. -/
def Modbus_SetMainState (s : State) (state : Modbus_MainState) : State :=
  { s with modbus_master_state := state }

/-- Source: `Modbus_CAN_Init (bit_rate, attempts)`: the variable part. -/
def Modbus_CAN_Init (s : State) (bit_rate : Modbus_CAN_BitRate) (attempts : Nat) : State :=
  { s with
    modbus_max_attempts := attempts % 256
    modbus_bit_rate := bit_rate
    modbus_forward_flag := 0
    modbus_attempts := 1
    modbus_index := 0
    modbus_complete_transmission := 0
    modbus_complete_reception := 0
    modbus_master_state := .MODBUS_IDLE }

/-- The 32-bit word a C `int` / `unsigned long` expression leaves in an
`unsigned long` variable. -/
def toU32 (v : Int) : Nat := (v % 4294967296).toNat

/-- Source: `Modbus_CAN_UnicastTimeout (amount_guess)`: the timer load and
`TimerLoadSet` / `TimerEnable` on timer 1. -/
def Modbus_CAN_UnicastTimeout (s : State) (amount_guess : Nat) : State :=
  let g : Int := ((amount_guess % 65536 : Nat) : Int)
  let a : Int := (s.modbus_attempts : Int)
  let t : Nat :=
    match s.modbus_bit_rate with
    | .MODBUS_100KBPS => toU32 ((g * 9333333) + (900000 * g * 4) + ((a - 1) * 8000))
    | .MODBUS_1MBPS => toU32 ((g * 933333) + (900000 * g * 4) + ((a - 1) * 8000))
  { s with modbus_unicast_timeout := t, timer1 := some t }

/-- Source: `Modbus_CAN_BroadcastTimeout (amount_guess)`. -/
def Modbus_CAN_BroadcastTimeout (s : State) (amount_guess : Nat) : State :=
  let g : Int := ((amount_guess % 65536 : Nat) : Int)
  let t : Nat :=
    match s.modbus_bit_rate with
    | .MODBUS_100KBPS => toU32 (((g * 9333333) + (900000 * g * 4)) * 2)
    | .MODBUS_1MBPS => toU32 (((g * 933333) + (900000 * g * 4)) * 2)
  { s with modbus_broadcast_timeout := t, timer2 := some t }

/-- Source: `Modbus_CAN_RemoveTimeout`: `TimerDisable (TIMER1_BASE, TIMER_A)`. -/
def Modbus_CAN_RemoveTimeout (s : State) : State := { s with timer1 := none }

/-- Source: the master's `Modbus_CAN_ReceptionConfiguration (slave)`. -/
def Modbus_CAN_ReceptionConfiguration (s : State) (slave : Nat) : State :=
  { s with
    modbus_complete_reception := 0
    RxObject_ulMsgID := slave
    RxObject_ulMsgIDMask := 0x1FF }

/-- The `while (aux_length)` loop of the master's `Modbus_CAN_FixOutput`
(Modbus_CAN.c:243-304).  The first argument bounds the number of iterations;
`Modbus_CAN_FixOutput` passes more than the loop can use. -/
def Modbus_CAN_FixOutput_loop (mb_req_pdu : List Nat) (slave pdu_length amount_guess : Nat) :
    Nat → Nat → Nat → State → State
  | 0, _, _, s => s
  | fuel + 1, aux_length, iterations, s =>
    if aux_length = 0 then s
    else if aux_length ≤ MAX_FRAME then
      let registerr := if pdu_length ≤ MAX_FRAME then 0x1 else 0x7
      let TxObject : tCANMsgObject :=
        { ulMsgID := (registerr <<< 8) ||| slave
          ulMsgIDMask := 0x000
          ulFlags := .MSG_OBJ_TX_INT_ENABLE
          ulMsgLen := aux_length
          pucMsgData := txPayload mb_req_pdu iterations aux_length }
      let s1 :=
        if slave ≠ 0 then
          Modbus_CAN_UnicastTimeout (Modbus_SetMainState s .MODBUS_WAITREPLY) amount_guess
        else
          Modbus_CAN_BroadcastTimeout (Modbus_SetMainState s .MODBUS_TURNAROUND) amount_guess
      Modbus_CAN_FixOutput_loop mb_req_pdu slave pdu_length amount_guess fuel
        (aux_length - aux_length) iterations { s1 with canTx := s1.canTx ++ [TxObject] }
    else
      let registerr := if aux_length = pdu_length then 0x3 else 0x5
      let TxObject : tCANMsgObject :=
        { ulMsgID := (registerr <<< 8) ||| slave
          ulMsgIDMask := 0x000
          ulFlags := .MSG_OBJ_NO_FLAGS
          ulMsgLen := MAX_FRAME
          pucMsgData := txPayload mb_req_pdu iterations MAX_FRAME }
      Modbus_CAN_FixOutput_loop mb_req_pdu slave pdu_length amount_guess fuel
        (aux_length - MAX_FRAME) (iterations + 1) { s with canTx := s.canTx ++ [TxObject] }

/-- Source: the master's `Modbus_CAN_FixOutput (mb_req_pdu, slave, pdu_length,
amount_guess)`; `slave` and `pdu_length` are `unsigned char` parameters,
`amount_guess` a `uint16_t`. -/
def Modbus_CAN_FixOutput (s : State) (mb_req_pdu : List Nat) (slave pdu_length amount_guess : Nat) :
    State :=
  let slave := slave % 256
  let pdu_length := pdu_length % 256
  let s0 : State := { s with modbus_complete_transmission := 0 }
  let s1 :=
    if slave ≠ 0 then Modbus_CAN_ReceptionConfiguration s0 slave
    else { s0 with modbus_complete_reception := 0 }
  Modbus_CAN_FixOutput_loop mb_req_pdu slave pdu_length amount_guess (pdu_length + 1)
    pdu_length 0 s1

/-- Source: the master's `Modbus_CAN_CallBack`.  `new_data` is the value read
by `CANStatusGet (MODBUS_CAN, CAN_STS_NEWDAT)` and `rx` the message object 17
read by `CANMessageGet`. -/
def Modbus_CAN_CallBack (s : State) (new_data : Nat) (rx : tCANMsgObject) : State :=
  if (new_data &&& 0x10000) >>> (17 - 1) = 1 then
    if rx.ulMsgID &&& 0x700 = 0x000 then
      let s1 := Modbus_CAN_RemoveTimeout { s with modbus_complete_reception := 1 }
      { s1 with
        input_length := rx.ulMsgLen % 256
        modbus_index := rx.ulMsgLen % 256
        input_pdu := copyBytes s1.input_pdu 0 rx.pucMsgData 0 rx.ulMsgLen }
    else if rx.ulMsgID &&& 0x700 = 0x200 then
      { s with
        input_pdu := copyBytes s.input_pdu 0 rx.pucMsgData 0 rx.ulMsgLen
        modbus_index := rx.ulMsgLen % 256 }
    else if rx.ulMsgID &&& 0x700 = 0x400 ∨ rx.ulMsgID &&& 0x700 = 0x600 then
      let s1 : State :=
        { s with
          input_pdu := copyBytes s.input_pdu s.modbus_index rx.pucMsgData 0 rx.ulMsgLen
          modbus_index := (s.modbus_index + rx.ulMsgLen) % 256 }
      if rx.ulMsgID &&& 0x700 = 0x600 then
        let s2 := Modbus_CAN_RemoveTimeout { s1 with modbus_complete_reception := 1 }
        { s2 with input_length := s2.modbus_index }
      else s1
    else Modbus_SetMainState s .MODBUS_ERROR
  else Modbus_SetMainState s .MODBUS_ERROR

/-- Source: `Modbus_CAN_GetForwardFlag`: returns the flag and clears it. -/
def Modbus_CAN_GetForwardFlag (s : State) : State × Nat :=
  ({ s with modbus_forward_flag := 0 }, s.modbus_forward_flag)

/-- Source: `Modbus_CAN_Reset_Attempt`. -/
def Modbus_CAN_Reset_Attempt (s : State) : State := { s with modbus_attempts := 1 }

/-- Source: `Modbus_App_No_Response`. -/
def Modbus_App_No_Response (s : State) : State :=
  let e : Modbus_FIFO_E_Item :=
    { Request := s.Modbus_App_Actual_Req, Response0 := 0, Response1 := 0 }
  { s with
    Modbus_App_Error_Msg := e
    Modbus_FIFO_Error := (Modbus_FIFO_E_Enqueue s.Modbus_FIFO_Error e).1 }

/-- Source: `Modbus_CAN_Repeat_Request`. -/
def Modbus_CAN_Repeat_Request (s : State) : State :=
  if s.modbus_attempts < s.modbus_max_attempts then
    { s with modbus_attempts := (s.modbus_attempts + 1) % 256, modbus_forward_flag := 1 }
  else
    { Modbus_App_No_Response s with modbus_attempts := 1 }

/-- Source: `Modbus_CAN_Timeouts`; the `default` branch is the fatal-error
handler. -/
def Modbus_CAN_Timeouts (s : State) : Option State :=
  match Modbus_GetMainState s with
  | .MODBUS_WAITREPLY => some (Modbus_SetMainState s .MODBUS_ERROR)
  | .MODBUS_TURNAROUND => some (Modbus_SetMainState s .MODBUS_IDLE)
  | _ => none

/-- Source: `Modbus_CAN_UnicastTimeoutHandler`. -/
def Modbus_CAN_UnicastTimeoutHandler (s : State) : Option State :=
  if s.modbus_complete_reception = 0 then Modbus_CAN_Timeouts s else some s

/-- Source: `Modbus_CAN_BroadcastTimeoutHandler`. -/
def Modbus_CAN_BroadcastTimeoutHandler (s : State) : Option State := Modbus_CAN_Timeouts s

/-- Source: `Modbus_CAN_to_App`: `Modbus_App_L_Msg_Set (input_length)` and
`Modbus_App_Receive_Char (input_pdu[index], index)` for `index < input_length`. -/
def Modbus_CAN_to_App (s : State) : State :=
  { s with
    Modbus_App_L_Msg := s.input_length
    Modbus_App_Msg := copyBytes s.Modbus_App_Msg 0 s.input_pdu 0 s.input_length }

/-! ### Modbus_app.c: request encoders -/

/-- The view `Data[k].UI2` of a request slot. -/
def UI2 (r : Modbus_FIFO_Item) (k : Nat) : Nat := rd r.Data k % 65536

/-- The `uint16_t` a pointer `p` of type `uint16_t *` reads at `p[i]`
(little-endian, as on the Cortex-M3). -/
def ld16 (mem : List Nat) (p i : Nat) : Nat := rd mem (p + 2 * i) + 256 * rd mem (p + 2 * i + 1)

/-- The five header bytes all encoders write: function, `Data[0].UI2` and
`Data[1].UI2` high byte first. -/
def reqHeader (r : Modbus_FIFO_Item) (pdu : List Nat) : List Nat :=
  ((((pdu.set 0 (r.Function % 256)).set 1 ((UI2 r 0 >>> 8) % 256)).set 2 (UI2 r 0 % 256)).set 3
    ((UI2 r 1 >>> 8) % 256)).set 4 (UI2 r 1 % 256)

/-- Source: `Modbus_App_Standard_Request`. -/
def Modbus_App_Standard_Request (s : State) : State :=
  { s with
    Modbus_App_Req_pdu := reqHeader s.Modbus_App_Actual_Req s.Modbus_App_Req_pdu
    Modbus_App_L_Req_pdu := 5 }

/-- One pass of the inner loop of `Modbus_App_Write_M_Coils`: the byte built at
`Modbus_App_Req_pdu[6+k]` from the coils `j = 8 * n ..` while `j < Coils`. -/
def coilByte (mem : List Nat) (p coils n : Nat) : Nat :=
  (List.range 8).foldl
    (fun acc i => if 8 * n + i < coils then (acc ||| (rd mem (p + (8 * n + i)) <<< i)) % 256 else acc)
    0

/-- Source: `Modbus_App_Write_M_Coils`.  The outer loop runs once per started
group of 8 coils; `k` is an `unsigned char`. -/
def Modbus_App_Write_M_Coils (s : State) : State :=
  let r := s.Modbus_App_Actual_Req
  let pdu0 := reqHeader r s.Modbus_App_Req_pdu
  let pdu1 :=
    if UI2 r 1 % 8 = 0 then pdu0.set 5 ((UI2 r 1 / 8) % 256)
    else pdu0.set 5 ((UI2 r 1 / 8 + 1) % 256)
  let pdu2 := (List.range ((UI2 r 1 + 7) / 8)).foldl
    (fun a n => a.set (6 + n % 256) (coilByte s.userMem (rd r.Data 2) (UI2 r 1) n)) pdu1
  { s with
    Modbus_App_Req_pdu := pdu2
    Modbus_App_L_Req_pdu := (6 + rd pdu2 5) % 256 }

/-- Source: `Modbus_App_Write_M_Registers`.  The loop counter is an `unsigned
char` compared with a `uint16_t`: for 256 registers or more the loop does not
end (`none`). -/
def Modbus_App_Write_M_Registers (s : State) : Option State :=
  let r := s.Modbus_App_Actual_Req
  if UI2 r 1 > 255 then none
  else
    let pdu1 := (reqHeader r s.Modbus_App_Req_pdu).set 5 ((UI2 r 1 * 2) % 256)
    let pdu2 := (List.range (UI2 r 1)).foldl
      (fun a i =>
        (a.set (6 + 2 * i) ((ld16 s.userMem (rd r.Data 2) i >>> 8) % 256)).set (7 + 2 * i)
          (ld16 s.userMem (rd r.Data 2) i % 256))
      pdu1
    some { s with
      Modbus_App_Req_pdu := pdu2
      Modbus_App_L_Req_pdu := (6 + rd pdu2 5) % 256 }

/-- Source: `Modbus_App_Mask_Write_Register`. -/
def Modbus_App_Mask_Write_Register (s : State) : State :=
  let r := s.Modbus_App_Actual_Req
  { s with
    Modbus_App_Req_pdu :=
      ((reqHeader r s.Modbus_App_Req_pdu).set 5 ((UI2 r 2 >>> 8) % 256)).set 6 (UI2 r 2 % 256)
    Modbus_App_L_Req_pdu := 7 }

/-- Source: `Modbus_App_Read_Write_M_Registers` (request encoder); the loop
does not end for 256 registers or more (`none`). -/
def Modbus_App_Read_Write_M_Registers (s : State) : Option State :=
  let r := s.Modbus_App_Actual_Req
  if UI2 r 3 > 255 then none
  else
    let pdu1 :=
      (((((reqHeader r s.Modbus_App_Req_pdu).set 5 ((UI2 r 2 >>> 8) % 256)).set 6
        (UI2 r 2 % 256)).set 7 ((UI2 r 3 >>> 8) % 256)).set 8 (UI2 r 3 % 256)).set 9
        ((UI2 r 3 * 2) % 256)
    let pdu2 := (List.range (UI2 r 3)).foldl
      (fun a i =>
        (a.set (10 + 2 * i) ((ld16 s.userMem (rd r.Data 4) i >>> 8) % 256)).set (11 + 2 * i)
          (ld16 s.userMem (rd r.Data 4) i % 256))
      pdu1
    some { s with
      Modbus_App_Req_pdu := pdu2
      Modbus_App_L_Req_pdu := (10 + rd pdu2 9) % 256 }

/-- Source: the `switch (Request)` of the CAN build of `Modbus_App_Send`
(Modbus_app.c:531-573): the encoder chosen by the function code and the guess
`data_amount_to_wait` (a `uint16_t`).  An unknown function code ends in the
fatal-error handler. -/
def Modbus_App_Send_encode (s : State) : Option (State × Nat) :=
  let f := s.Modbus_App_Actual_Req.Function
  let Request := if f = 1 ∨ f = 2 ∨ f = 3 ∨ f = 4 ∨ f = 5 ∨ f = 6 then 1 else f
  if Request = 1 then
    let s1 := Modbus_App_Standard_Request s
    let d := rd s1.Modbus_App_Req_pdu 4 ||| rd s1.Modbus_App_Req_pdu 3
    if f = 3 ∨ f = 4 then some (s1, (d * 2 + 1 + 5 + 2) % 65536)
    else some (s1, (d + 1 + 5 + 2) % 65536)
  else if Request = 15 then
    let s1 := Modbus_App_Write_M_Coils s
    some (s1, (rd s1.Modbus_App_Req_pdu 5 + 1 + 5 + 6) % 65536)
  else if Request = 16 then
    (Modbus_App_Write_M_Registers s).map
      (fun s1 => (s1, (rd s1.Modbus_App_Req_pdu 5 * 2 + (1 + 5 + 6)) % 65536))
  else if Request = 22 then
    some (Modbus_App_Mask_Write_Register s, 14 + 1)
  else if Request = 23 then
    (Modbus_App_Read_Write_M_Registers s).map
      (fun s1 =>
        (s1, (((rd s1.Modbus_App_Req_pdu 4 ||| rd s1.Modbus_App_Req_pdu 3) * 2) % 65536 +
          ((rd s1.Modbus_App_Req_pdu 10 * 2) + 1 + 2 + 10)) % 65536))
  else none

/-- Source: the CAN build of `Modbus_App_Send` (Modbus_app.c:525-575): the
encoder and the guess, then `Modbus_CAN_FixOutput (Modbus_App_Req_pdu,
Modbus_App_Actual_Req.Slave, Modbus_App_L_Req_pdu, data_amount_to_wait)`. -/
def Modbus_App_Send (s : State) : Option State :=
  (Modbus_App_Send_encode s).map (fun b =>
    Modbus_CAN_FixOutput b.1 b.1.Modbus_App_Req_pdu b.1.Modbus_App_Actual_Req.Slave
      b.1.Modbus_App_L_Req_pdu b.2)

/-- Source: `Modbus_App_FIFOSend`: returns 0 when a request was dequeued and
sent, 1 when the queue was empty. -/
def Modbus_App_FIFOSend (s : State) : Option (State × Nat) :=
  let r := Modbus_FIFO_Dequeue s.Modbus_FIFO_Tx s.Modbus_App_Actual_Req
  if r.2.2 ≠ 0 then
    (Modbus_App_Send { s with Modbus_FIFO_Tx := r.1, Modbus_App_Actual_Req := r.2.1 }).map
      (fun s1 => (s1, 0))
  else some (s, 1)

/-- Source: `Modbus_App_Enqueue_Or_Send` (CAN build). -/
def Modbus_App_Enqueue_Or_Send (s : State) : Option (State × Nat) :=
  if Modbus_GetMainState s = .MODBUS_IDLE ∧ Modbus_FIFO_Empty s.Modbus_FIFO_Tx ≠ 0 then
    (Modbus_App_Send { s with Modbus_App_Actual_Req := s.Modbus_App_Request }).map
      (fun s1 => (s1, 0))
  else
    let r := Modbus_FIFO_Enqueue s.Modbus_FIFO_Tx s.Modbus_App_Request
    if r.2 ≠ 0 then some ({ s with Modbus_FIFO_Tx := r.1 }, 1)
    else some ({ s with Modbus_FIFO_Tx := r.1 }, 0)

/-! ### Modbus_app.c: response checks -/

/-- Source: `Modbus_App_Read_Single_Bits_CallBack`: returns the state (the
bits are stored through `Data[2].PC`) and the return value. -/
def Modbus_App_Read_Single_Bits_CallBack (s : State) : State × Nat :=
  let r := s.Modbus_App_Actual_Req
  let m := s.Modbus_App_Msg
  let bad :=
    if UI2 r 1 % 8 = 0 then rd m 1 ≠ UI2 r 1 / 8 ∨ s.Modbus_App_L_Msg ≠ UI2 r 1 / 8 + 2
    else rd m 1 ≠ UI2 r 1 / 8 + 1 ∨ s.Modbus_App_L_Msg ≠ UI2 r 1 / 8 + 3
  if bad then (s, 1)
  else
    let mem := (List.range (rd m 1)).foldl
      (fun a i => (List.range 8).foldl
        (fun b j => if 8 * i + j < UI2 r 1 then
            b.set (rd r.Data 2 + (8 * i + j)) ((rd m (i + 2) >>> j) &&& 1)
          else b) a)
      s.userMem
    ({ s with userMem := mem }, 0)

/-- The store loop of the register read callbacks: `p[i] = (Msg[2*i+2] << 8) |
Msg[2*i+3]` for `i < Msg[1] / 2`, through a `uint16_t *`. -/
def storeRegisters (mem m : List Nat) (p : Nat) : List Nat :=
  (List.range (rd m 1 / 2)).foldl
    (fun a i => (a.set (p + 2 * i) (rd m (2 * i + 3))).set (p + 2 * i + 1) (rd m (2 * i + 2)))
    mem

/-- Source: `Modbus_App_Read_Registers_CallBack`. -/
def Modbus_App_Read_Registers_CallBack (s : State) : State × Nat :=
  let r := s.Modbus_App_Actual_Req
  if rd s.Modbus_App_Msg 1 ≠ UI2 r 1 * 2 ∨ s.Modbus_App_L_Msg ≠ 2 + UI2 r 1 * 2 then (s, 1)
  else ({ s with userMem := storeRegisters s.userMem s.Modbus_App_Msg (rd r.Data 2) }, 0)

/-- Source: `Modbus_App_Write_CallBack`. -/
def Modbus_App_Write_CallBack (s : State) : Nat :=
  let r := s.Modbus_App_Actual_Req
  let m := s.Modbus_App_Msg
  if ((rd m 1 <<< 8) ||| rd m 2) ≠ UI2 r 0 ∨ ((rd m 3 <<< 8) ||| rd m 4) ≠ UI2 r 1 ∨
      s.Modbus_App_L_Msg ≠ 5 then 1
  else 0

/-- Source: `Modbus_App_Mask_Write_CallBack`. -/
def Modbus_App_Mask_Write_CallBack (s : State) : Nat :=
  let r := s.Modbus_App_Actual_Req
  let m := s.Modbus_App_Msg
  if ((rd m 1 <<< 8) ||| rd m 2) ≠ UI2 r 0 ∨ ((rd m 3 <<< 8) ||| rd m 4) ≠ UI2 r 1 ∨
      ((rd m 5 <<< 8) ||| rd m 6) ≠ UI2 r 2 ∨ s.Modbus_App_L_Msg ≠ 7 then 1
  else 0

/-- Source: `Modbus_App_Read_Write_M_Registers_CallBack`. -/
def Modbus_App_Read_Write_M_Registers_CallBack (s : State) : State × Nat :=
  let r := s.Modbus_App_Actual_Req
  if rd s.Modbus_App_Msg 1 ≠ UI2 r 1 * 2 ∨ s.Modbus_App_L_Msg ≠ 2 + UI2 r 1 * 2 then (s, 1)
  else ({ s with userMem := storeRegisters s.userMem s.Modbus_App_Msg (rd r.Data 5) }, 0)

/-- Source: the CAN build of `Modbus_App_Manage_CallBack`
(Modbus_app.c:405-476).  In the exception branch the source tests
`Modbus_App_Msg[0] == Modbus_App_Actual_Req.Function | 128`, which C parses as
`(Msg[0] == Function) | 128`, and `Modbus_App_Msg[1] != 11`. -/
def Modbus_App_Manage_CallBack (s : State) : Option State :=
  let m0 := rd s.Modbus_App_Msg 0
  let f := s.Modbus_App_Actual_Req.Function
  if m0 = f then
    let CallBack0 := f
    let CallBack1 := if m0 = 1 ∨ m0 = 2 then 1 else CallBack0
    let CallBack2 := if m0 = 3 ∨ m0 = 4 then 2 else CallBack1
    let CallBack := if m0 = 5 ∨ m0 = 6 ∨ m0 = 15 ∨ m0 = 16 then 3 else CallBack2
    let checked : Option State :=
      if CallBack = 1 then
        let r := Modbus_App_Read_Single_Bits_CallBack s
        some (if r.2 ≠ 0 then Modbus_SetMainState r.1 .MODBUS_ERROR else r.1)
      else if CallBack = 2 then
        let r := Modbus_App_Read_Registers_CallBack s
        some (if r.2 ≠ 0 then Modbus_SetMainState r.1 .MODBUS_ERROR else r.1)
      else if CallBack = 3 then
        some (if Modbus_App_Write_CallBack s ≠ 0 then Modbus_SetMainState s .MODBUS_ERROR else s)
      else if CallBack = 22 then
        some (if Modbus_App_Mask_Write_CallBack s ≠ 0 then Modbus_SetMainState s .MODBUS_ERROR
          else s)
      else if CallBack = 23 then
        let r := Modbus_App_Read_Write_M_Registers_CallBack s
        some (if r.2 ≠ 0 then Modbus_SetMainState r.1 .MODBUS_ERROR else r.1)
      else none
    checked.map (fun s1 =>
      if Modbus_GetMainState s1 ≠ .MODBUS_ERROR then
        Modbus_SetMainState (Modbus_CAN_Reset_Attempt s1) .MODBUS_IDLE
      else s1)
  else
    let s1 := Modbus_SetMainState s .MODBUS_ERROR
    if ((if m0 = f then 1 else 0) ||| 128) ≠ 0 then
      if s1.Modbus_App_L_Msg = 2 ∧
          (rd s1.Modbus_App_Msg 1 ≤ 8 ∨ rd s1.Modbus_App_Msg 1 = 10 ∨ rd s1.Modbus_App_Msg 1 ≠ 11)
      then
        let e : Modbus_FIFO_E_Item :=
          { Request := s1.Modbus_App_Actual_Req
            Response0 := rd s1.Modbus_App_Msg 0
            Response1 := rd s1.Modbus_App_Msg 1 }
        let s2 : State :=
          { s1 with
            Modbus_App_Error_Msg := e
            Modbus_FIFO_Error := (Modbus_FIFO_E_Enqueue s1.Modbus_FIFO_Error e).1 }
        some (Modbus_SetMainState (Modbus_CAN_Reset_Attempt s2) .MODBUS_IDLE)
      else some s1
    else some s1

/-- Source: the master's `Modbus_CAN_Controller`: the state and the return
value. -/
def Modbus_CAN_Controller (s : State) : Option (State × Nat) :=
  match Modbus_GetMainState s with
  | .MODBUS_IDLE =>
    let r := Modbus_CAN_GetForwardFlag s
    if r.2 ≠ 0 then (Modbus_App_Send r.1).map (fun s1 => (s1, 1))
    else
      (Modbus_App_FIFOSend r.1).map (fun q => if q.2 ≠ 0 then (q.1, 0) else (q.1, 1))
  | .MODBUS_WAITREPLY =>
    if s.modbus_complete_reception ≠ 0 then
      let s1 := Modbus_SetMainState { s with modbus_complete_reception := 0 } .MODBUS_PROCESSING
      (Modbus_App_Manage_CallBack (Modbus_CAN_to_App s1)).map (fun s2 => (s2, 1))
    else some (s, 1)
  | .MODBUS_TURNAROUND => some (s, 1)
  | .MODBUS_ERROR =>
    some (Modbus_SetMainState (Modbus_CAN_Repeat_Request s) .MODBUS_IDLE, 1)
  | _ => some (s, 1)

/-- Source: `Modbus_Master_Init` (CAN build): returns 1 when `attempts >= 1`
and the queues and the CAN module were initialised, 0 otherwise. -/
def Modbus_Master_Init (s : State) (bit_rate : Modbus_CAN_BitRate) (attempts : Nat) :
    State × Nat :=
  if attempts % 256 ≥ 1 then
    (Modbus_CAN_Init
      { s with
        Modbus_FIFO_Tx := Modbus_FIFO_Init s.Modbus_FIFO_Tx
        Modbus_FIFO_Error := Modbus_FIFO_E_Init s.Modbus_FIFO_Error } bit_rate attempts, 1)
  else (s, 0)

end Master
/-! ## Master: user request functions of Modbus_app.c -/

namespace Master

/-- The stores `Modbus_App_Request.Data[k] = v` of a user request function:
slot `k` of the six-slot array gets the raw word `v`. -/
def setData (r : Modbus_FIFO_Item) (k v : Nat) : Modbus_FIFO_Item :=
  { r with Data := r.Data.set k v }

/-- The end of every user request function: `if (Modbus_App_Enqueue_Or_Send ())
return 1; return 0;`. -/
def enqueueOrSendResult (s : State) : Option (State × Nat) :=
  (Modbus_App_Enqueue_Or_Send s).map (fun r => (r.1, if r.2 ≠ 0 then 1 else 0))

/-- Source: `Modbus_Read_H_Registers (Slave, Adress, Registers, Response)`
(Modbus_app.c:785-803); `Slave` is an `unsigned char`, `Adress` and `Registers`
are `uint16_t`, `Response` is the address the pointer designates in `userMem`.
The state and the return value. -/
def Modbus_Read_H_Registers (s : State) (Slave Adress Registers Response : Nat) :
    Option (State × Nat) :=
  let Slave := Slave % 256
  let Adress := Adress % 65536
  let Registers := Registers % 65536
  if Slave > 247 ∨ Slave = 0 ∨ Registers > 125 ∨ Registers = 0 ∨ Adress + Registers > 65535 then
    some (s, 1)
  else
    enqueueOrSendResult
      { s with
        Modbus_App_Request :=
          setData (setData (setData
            { s.Modbus_App_Request with Slave := Slave, Function := 3 } 0 Adress) 1 Registers)
            2 Response }

/-- Source: `Modbus_Read_I_Registers (Slave, Adress, Registers, Response)`
(Modbus_app.c:816-834). -/
def Modbus_Read_I_Registers (s : State) (Slave Adress Registers Response : Nat) :
    Option (State × Nat) :=
  let Slave := Slave % 256
  let Adress := Adress % 65536
  let Registers := Registers % 65536
  if Slave > 247 ∨ Slave = 0 ∨ Registers > 125 ∨ Registers = 0 ∨ Adress + Registers > 65535 then
    some (s, 1)
  else
    enqueueOrSendResult
      { s with
        Modbus_App_Request :=
          setData (setData (setData
            { s.Modbus_App_Request with Slave := Slave, Function := 4 } 0 Adress) 1 Registers)
            2 Response }

/-- Source: `Modbus_Write_M_Registers (Slave, Adress, Registers, Value)`
(Modbus_app.c:943-961); `Value` is the address the pointer designates in
`userMem`. -/
def Modbus_Write_M_Registers (s : State) (Slave Adress Registers Value : Nat) :
    Option (State × Nat) :=
  let Slave := Slave % 256
  let Adress := Adress % 65536
  let Registers := Registers % 65536
  if Slave > 247 ∨ Registers > 123 ∨ Registers = 0 ∨ Adress + Registers > 65535 then some (s, 1)
  else
    enqueueOrSendResult
      { s with
        Modbus_App_Request :=
          setData (setData (setData
            { s.Modbus_App_Request with Slave := Slave, Function := 16 } 0 Adress) 1 Registers)
            2 Value }

/-- Source: `Modbus_Read_Write_M_Registers (Slave, R_Adress, R_Registers,
Response, W_Adress, W_Registers, Value)` (Modbus_app.c:1014-1040). -/
def Modbus_Read_Write_M_Registers (s : State)
    (Slave R_Adress R_Registers Response W_Adress W_Registers Value : Nat) :
    Option (State × Nat) :=
  let Slave := Slave % 256
  let R_Adress := R_Adress % 65536
  let R_Registers := R_Registers % 65536
  let W_Adress := W_Adress % 65536
  let W_Registers := W_Registers % 65536
  if Slave > 247 ∨ Slave = 0 ∨ R_Registers > 125 ∨ R_Registers = 0 ∨
      R_Adress + R_Registers > 65535 ∨ W_Registers > 121 ∨ W_Registers = 0 ∨
      W_Adress + W_Registers > 65535 then some (s, 1)
  else
    enqueueOrSendResult
      { s with
        Modbus_App_Request :=
          setData (setData (setData (setData (setData (setData
            { s.Modbus_App_Request with Slave := Slave, Function := 23 } 0 R_Adress) 1
            R_Registers) 2 W_Adress) 3 W_Registers) 4 Value) 5 Response }

end Master

/-! ## Array accesses of the receive paths

The functions of this section list the array indices a routine of the source
stores to or reads from; they follow the same branches as the routine. -/

namespace Master

/-- Source: the master's `Modbus_CAN_CallBack` (Modbus_CAN.c:322-380): the
indices of `input_pdu` (an array of `MAX_PDU` bytes) the call stores to, in
order: `input_pdu[i]` for an individual or begin-long frame,
`input_pdu[modbus_index + i]` for a continuation-long or end-long frame, with
`i < RxObject.ulMsgLen`. -/
def Modbus_CAN_CallBack_writes (s : State) (new_data : Nat) (rx : tCANMsgObject) : List Nat :=
  if (new_data &&& 0x10000) >>> (17 - 1) = 1 then
    if rx.ulMsgID &&& 0x700 = 0x000 then List.range rx.ulMsgLen
    else if rx.ulMsgID &&& 0x700 = 0x200 then List.range rx.ulMsgLen
    else if rx.ulMsgID &&& 0x700 = 0x400 ∨ rx.ulMsgID &&& 0x700 = 0x600 then
      (List.range rx.ulMsgLen).map (fun i => s.modbus_index + i)
    else []
  else []

end Master

namespace Slave

/-- Source: the slave's `Modbus_CAN_CallBack` (Modbus_CAN.c:280-340): the
indices of `input_pdu` the call stores to, in order. -/
def Modbus_CAN_CallBack_writes (s : State) (new_data : Nat) (rx : tCANMsgObject) : List Nat :=
  let numObj := if s.modbus_broadcast ≠ 0 then 18 else 17
  let mask := if s.modbus_broadcast ≠ 0 then 0x20000 else 0x10000
  if (new_data &&& mask) >>> (numObj - 1) = 1 then
    if rx.ulMsgID &&& 0x700 = 0x100 then List.range rx.ulMsgLen
    else if rx.ulMsgID &&& 0x700 = 0x300 then List.range rx.ulMsgLen
    else if rx.ulMsgID &&& 0x700 = 0x500 ∨ rx.ulMsgID &&& 0x700 = 0x700 then
      (List.range rx.ulMsgLen).map (fun i => s.modbus_index + i)
    else []
  else []

end Slave

namespace Serial

/-- Source: `Modbus_OSL_RTU_UART` (Modbus_OSL_RTU.c:495-518): the index of the
active 256-byte array the call stores the character to,
`Modbus_OSL_RTU_Msg[Modbus_OSL_RTU_Index]` in IDLE and in RECEPTION; no store
in the other states. -/
def Modbus_OSL_RTU_UART_write (s : State) : Option Nat :=
  match s.Modbus_OSL_State with
  | .MODBUS_OSL_RTU_IDLE => some s.Modbus_OSL_RTU_Index
  | .MODBUS_OSL_RTU_RECEPTION => some s.Modbus_OSL_RTU_Index
  | _ => none

end Serial

/-- Source: `Modbus_OSL_RTU_Control_CRC` (Modbus_OSL_RTU.c:199-234): the
number of passes of the loop `while (L_pdu--)` of `Modbus_OSL_RTU_Check_CRC`,
whose argument is `Modbus_OSL_RTU_L_Msg-2` converted to `unsigned char`. -/
def Modbus_OSL_RTU_Control_CRC_passes (L_Msg : Nat) : Nat := (L_Msg + 256 - 2) % 256

/-- Source: `Modbus_OSL_RTU_Control_CRC`: the indices of the complete array
the call reads, in order: `*mb_pdu++` in each pass of the loop, then
`Modbus_OSL_RTU_Msg_Complete[Modbus_OSL_RTU_L_Msg-1]` and, when that byte is
inside the array and equals the high checksum byte,
`Modbus_OSL_RTU_Msg_Complete[Modbus_OSL_RTU_L_Msg-2]`.  The two compared
indices are C `int`s. -/
def Modbus_OSL_RTU_Control_CRC_reads (Msg_Complete : List Nat) (L_Msg : Nat) : List Int :=
  let passes := Modbus_OSL_RTU_Control_CRC_passes L_Msg
  let crc := crcLoop Msg_Complete passes 0 (0xFF, 0xFF)
  (List.range passes).map (fun i => (i : Int)) ++ [(L_Msg : Int) - 1] ++
    (if 1 ≤ L_Msg ∧ rd Msg_Complete (L_Msg - 1) = crc.1 then [(L_Msg : Int) - 2] else [])


/-! ## Auxiliary descriptions used in the proofs about CAN framing

These definitions are not translations of source functions: they name the
sequence of chunks the `while (aux_length)` loops walk through and the part of
a receiver the reassembly touches, so that the lemmas about the master and the
slave can be shared. -/

/-- Position of a frame in a chunked PDU. -/
inductive ChunkKind where
  | individual
  | beginLong
  | continuationLong
  | endLong
  deriving DecidableEq, Repr

/-- The chunks visited by a `Modbus_CAN_FixOutput` loop started with `fuel`
iterations left, `aux_length` bytes left and `iterations` full frames done:
kind, frame length and value of `iterations` of each frame. -/
def chunkPlan (pdu_length : Nat) : Nat → Nat → Nat → List (ChunkKind × Nat × Nat)
  | 0, _, _ => []
  | fuel + 1, aux_length, iterations =>
    if aux_length = 0 then []
    else if aux_length ≤ MAX_FRAME then
      ((if pdu_length ≤ MAX_FRAME then ChunkKind.individual else ChunkKind.endLong),
        aux_length, iterations) ::
        chunkPlan pdu_length fuel (aux_length - aux_length) iterations
    else
      ((if aux_length = pdu_length then ChunkKind.beginLong else ChunkKind.continuationLong),
        MAX_FRAME, iterations) ::
        chunkPlan pdu_length fuel (aux_length - MAX_FRAME) (iterations + 1)

/-- Type bits used by the master (request bit set). -/
def masterType : ChunkKind → Nat
  | .individual => 0x1
  | .beginLong => 0x3
  | .continuationLong => 0x5
  | .endLong => 0x7

/-- Type bits used by a slave (request bit clear). -/
def slaveType : ChunkKind → Nat
  | .individual => 0x0
  | .beginLong => 0x2
  | .continuationLong => 0x4
  | .endLong => 0x6

/-- The frame a loop emits for a chunk, given the type bits. -/
def chunkFrame (ty : ChunkKind → Nat) (slave : Nat) (mb_req_pdu : List Nat)
    (c : ChunkKind × Nat × Nat) : tCANMsgObject :=
  { ulMsgID := (ty c.1 <<< 8) ||| slave
    ulMsgIDMask := 0x000
    ulFlags :=
      if c.1 = .individual ∨ c.1 = .endLong then .MSG_OBJ_TX_INT_ENABLE else .MSG_OBJ_NO_FLAGS
    ulMsgLen := c.2.1
    pucMsgData := txPayload mb_req_pdu c.2.2 c.2.1 }

/-- The part of a receiver that `Modbus_CAN_CallBack` uses for reassembly. -/
structure RxView where
  modbus_index : Nat
  input_pdu : List Nat
  input_length : Nat
  modbus_complete_reception : Nat
  deriving DecidableEq, Repr

/-- What a `Modbus_CAN_CallBack` does to the reassembly variables for a frame
of the given kind with `n` payload bytes `d`. -/
def rxStep (v : RxView) (k : ChunkKind) (n : Nat) (d : List Nat) : RxView :=
  match k with
  | .individual =>
    { modbus_index := n % 256, input_pdu := copyBytes v.input_pdu 0 d 0 n,
      input_length := n % 256, modbus_complete_reception := 1 }
  | .beginLong =>
    { v with modbus_index := n % 256, input_pdu := copyBytes v.input_pdu 0 d 0 n }
  | .continuationLong =>
    { v with modbus_index := (v.modbus_index + n) % 256,
             input_pdu := copyBytes v.input_pdu v.modbus_index d 0 n }
  | .endLong =>
    { modbus_index := (v.modbus_index + n) % 256,
      input_pdu := copyBytes v.input_pdu v.modbus_index d 0 n,
      input_length := (v.modbus_index + n) % 256, modbus_complete_reception := 1 }

/-- Reassembly variables of a slave. -/
def Slave.rxView (s : Slave.State) : RxView :=
  ⟨s.modbus_index, s.input_pdu, s.input_length, s.modbus_complete_reception⟩

/-- Reassembly variables of the master. -/
def Master.rxView (s : Master.State) : RxView :=
  ⟨s.modbus_index, s.input_pdu, s.input_length, s.modbus_complete_reception⟩

/-- The value of `CAN_STS_NEWDAT` has the bit of the slave's receive object
set: object 17, or 18 when `modbus_broadcast` is set. -/
def Slave.newDataPending (s : Slave.State) (new_data : Nat) : Prop :=
  (new_data &&& (if s.modbus_broadcast ≠ 0 then 0x20000 else 0x10000)) >>>
    ((if s.modbus_broadcast ≠ 0 then 18 else 17) - 1) = 1

/-- The value of `CAN_STS_NEWDAT` has the bit of the master's receive object
17 set. -/
def Master.newDataPending (new_data : Nat) : Prop :=
  (new_data &&& 0x10000) >>> (17 - 1) = 1

instance (s : Slave.State) (nd : Nat) : Decidable (Slave.newDataPending s nd) := by
  unfold Slave.newDataPending; infer_instance

instance (nd : Nat) : Decidable (Master.newDataPending nd) := by
  unfold Master.newDataPending; infer_instance

/-- The frames a call appended to the transmit log `canTx`. -/
def newFrames (before after : List tCANMsgObject) : List tCANMsgObject :=
  after.drop before.length

/-- The (type, length) sequence the specification gives for a PDU of `n`
bytes, for given type values of the four kinds of frame: one individual frame
when `n <= 8`, otherwise begin-long (8), a continuation-long (8) for every
interior frame, and end-long with the remaining bytes. -/
def expectedTypeLen (tInd tBeg tCont tEnd n : Nat) : List (Nat × Nat) :=
  if n ≤ 8 then [(tInd, n)]
  else
    (tBeg, 8) :: (List.replicate ((n + 7) / 8 - 2) (tCont, 8) ++
      [(tEnd, n - 8 * ((n + 7) / 8 - 1))])

/-- The effect the specification gives for a received frame of kind `k` with
`n` payload bytes `d`, between the reassembly variables before (`v`) and after
(`w`) the call; bytes outside the written range are unchanged. -/
def rxEffect (k : ChunkKind) (n : Nat) (d : List Nat) (v w : RxView) : Prop :=
  match k with
  | .individual =>
    (∀ i, i < n → rd w.input_pdu i = rd d i) ∧
      (∀ j, n ≤ j → rd w.input_pdu j = rd v.input_pdu j) ∧
      w.input_length = n ∧ w.modbus_complete_reception = 1
  | .beginLong =>
    (∀ i, i < n → rd w.input_pdu i = rd d i) ∧
      (∀ j, n ≤ j → rd w.input_pdu j = rd v.input_pdu j) ∧
      w.modbus_index = n ∧ w.modbus_complete_reception = v.modbus_complete_reception ∧
      w.input_length = v.input_length
  | .continuationLong =>
    (∀ i, i < n → v.modbus_index + i < MAX_PDU →
        rd w.input_pdu (v.modbus_index + i) = rd d i) ∧
      (∀ j, (j < v.modbus_index ∨ v.modbus_index + n ≤ j) →
        rd w.input_pdu j = rd v.input_pdu j) ∧
      w.modbus_index = (v.modbus_index + n) % 256 ∧
      (v.modbus_index + n < 256 → w.modbus_index = v.modbus_index + n) ∧
      w.modbus_complete_reception = v.modbus_complete_reception ∧
      w.input_length = v.input_length
  | .endLong =>
    (∀ i, i < n → v.modbus_index + i < MAX_PDU →
        rd w.input_pdu (v.modbus_index + i) = rd d i) ∧
      (∀ j, (j < v.modbus_index ∨ v.modbus_index + n ≤ j) →
        rd w.input_pdu j = rd v.input_pdu j) ∧
      w.modbus_index = (v.modbus_index + n) % 256 ∧
      (v.modbus_index + n < 256 → w.modbus_index = v.modbus_index + n) ∧
      w.input_length = w.modbus_index ∧ w.modbus_complete_reception = 1

/-! ## The retry scenario of the master -/

namespace Master

/-- The records the user request functions of Modbus_app.c accept
(`Modbus_Read_Coils` ... `Modbus_Read_Write_M_Registers`, Modbus_app.c:721-1040):
the function code they store and the parameter checks they make before the
record reaches `Modbus_App_Enqueue_Or_Send`. -/
def UserRequest (r : Modbus_FIFO_Item) : Prop :=
  ((r.Function = 1 ∨ r.Function = 2) ∧ r.Slave ≤ 247 ∧ r.Slave ≠ 0 ∧ UI2 r 1 ≤ 2000 ∧
      UI2 r 1 ≠ 0 ∧ UI2 r 0 + UI2 r 1 ≤ 65535) ∨
    ((r.Function = 3 ∨ r.Function = 4) ∧ r.Slave ≤ 247 ∧ r.Slave ≠ 0 ∧ UI2 r 1 ≤ 125 ∧
      UI2 r 1 ≠ 0 ∧ UI2 r 0 + UI2 r 1 ≤ 65535) ∨
    ((r.Function = 5 ∨ r.Function = 6 ∨ r.Function = 22) ∧ r.Slave ≤ 247) ∨
    (r.Function = 15 ∧ r.Slave ≤ 247 ∧ UI2 r 1 ≤ 1968 ∧ UI2 r 1 ≠ 0 ∧
      UI2 r 0 + UI2 r 1 ≤ 65535) ∨
    (r.Function = 16 ∧ r.Slave ≤ 247 ∧ UI2 r 1 ≤ 123 ∧ UI2 r 1 ≠ 0 ∧
      UI2 r 0 + UI2 r 1 ≤ 65535) ∨
    (r.Function = 23 ∧ r.Slave ≤ 247 ∧ r.Slave ≠ 0 ∧ UI2 r 1 ≤ 125 ∧ UI2 r 1 ≠ 0 ∧
      UI2 r 0 + UI2 r 1 ≤ 65535 ∧ UI2 r 3 ≤ 121 ∧ UI2 r 3 ≠ 0 ∧ UI2 r 2 + UI2 r 3 ≤ 65535)

instance (r : Modbus_FIFO_Item) : Decidable (UserRequest r) := by
  unfold UserRequest; infer_instance

/-- Number of PDU transmissions recorded in a transmit log:
`Modbus_CAN_FixOutput` sets `MSG_OBJ_TX_INT_ENABLE` on the last frame of a PDU
and on no other frame. -/
def txCount (l : List tCANMsgObject) : Nat :=
  l.countP (fun f => f.ulFlags = .MSG_OBJ_TX_INT_ENABLE)

/-- The unicast timer fires, then the application loop polls
`Modbus_CAN_Controller` once. -/
def timeoutThenPoll (s : State) : Option State :=
  (Modbus_CAN_UnicastTimeoutHandler s).bind (fun s1 =>
    (Modbus_CAN_Controller s1).map (fun q => q.1))

/-- One unanswered attempt followed by the next one: the unicast timer fires,
a poll handles the error state, the next poll handles the idle state. -/
def retryCycle (s : State) : Option State :=
  (timeoutThenPoll s).bind (fun s1 => (Modbus_CAN_Controller s1).map (fun q => q.1))

/-- `k` consecutive retry cycles. -/
def retryCycles : Nat → State → Option State
  | 0, s => some s
  | k + 1, s => (retryCycle s).bind (retryCycles k)

/-- A transaction none of whose transmissions is answered, for a master that
goes through `k` retry cycles: the request is sent, every transmission ends in
a unicast timeout, and after the last timeout the controller is polled once. -/
def unansweredTransaction (k : Nat) (s : State) : Option State :=
  ((Modbus_App_Send s).bind (retryCycles k)).bind timeoutThenPoll

end Master

/-- The payload bytes a sequence of frames puts on the bus, in order: of each
frame the first `ulMsgLen` bytes of its data. -/
def framesPayload (frames : List tCANMsgObject) : List Nat :=
  frames.flatMap (fun f => f.pucMsgData.take f.ulMsgLen)

namespace Master

/-- The state in which the controller hands a completed reception to the
application (`Modbus_CAN_Controller`, case `MODBUS_WAITREPLY`): the completion
flag is cleared, the state is PROCESSING and `Modbus_CAN_to_App` has copied
the reassembled PDU. -/
def replyHandOver (s : State) : State :=
  Modbus_CAN_to_App
    (Modbus_SetMainState { s with modbus_complete_reception := 0 } .MODBUS_PROCESSING)

/-- The return value of the response check `Modbus_App_Manage_CallBack` runs
for the function code of the active request: `Read_Single_Bits` for 1 and 2,
`Read_Registers` for 3 and 4, `Write` for 5, 6, 15 and 16, `Mask_Write` for 22
and `Read_Write_M_Registers` for 23. -/
def responseCheck (t : State) : Nat :=
  let f := t.Modbus_App_Actual_Req.Function
  if f = 1 ∨ f = 2 then (Modbus_App_Read_Single_Bits_CallBack t).2
  else if f = 3 ∨ f = 4 then (Modbus_App_Read_Registers_CallBack t).2
  else if f = 5 ∨ f = 6 ∨ f = 15 ∨ f = 16 then Modbus_App_Write_CallBack t
  else if f = 22 then Modbus_App_Mask_Write_CallBack t
  else (Modbus_App_Read_Write_M_Registers_CallBack t).2

end Master
namespace Master

/-- The constant `T` of the timeout formula: the transfer time per byte,
933333 at 1 Mbps and 9333333 at 100 kbps (Modbus_CAN.h:223-224). -/
def transferTime : Modbus_CAN_BitRate → Nat
  | .MODBUS_100KBPS => 9333333
  | .MODBUS_1MBPS => 933333

/-- The unicast timeout of the formula for expected size `g` and attempt `a`
at transfer time `T`, as a natural number:
`g * T + 900000 * g * 4 + (a - 1) * 8000`. -/
def unicastFormula (T g a : Nat) : Nat := g * T + 900000 * g * 4 + (a - 1) * 8000

/-- The broadcast timeout of the formula: `2 * (g * T + 900000 * g * 4)`. -/
def broadcastFormula (T g : Nat) : Nat := 2 * (g * T + 900000 * g * 4)

end Master

namespace Serial

/-- The other of the two reception arrays. -/
def RtuBuffer.other : RtuBuffer → RtuBuffer
  | .Msg1 => .Msg2
  | .Msg2 => .Msg1

/-- The receiver after the characters `bytes` arrived one after the other, each
handled by `Modbus_OSL_RTU_UART`. -/
def receive (s : State) (bytes : List Nat) : State := bytes.foldl Modbus_OSL_RTU_UART s

/-- What happens to a serial slave: a UART interrupt with interrupt status
`ulStatus` and received character `c`, the expiry of the 1.5T timer, the expiry
of the 3.5T timer, or a pass of the main loop through
`Modbus_OSL_Serial_Comm`. -/
inductive Event where
  | uart (ulStatus c : Nat)
  | t15
  | t35
  | poll
  deriving DecidableEq, Repr

/-- The routine that handles an event. -/
def step (s : State) : Event → Option State
  | .uart ulStatus c => UART1IntHandler s ulStatus c
  | .t15 => Timer1IntHandler s
  | .t35 => Timer0IntHandler s
  | .poll => Modbus_OSL_Serial_Comm s

/-- A sequence of events handled one after the other; `none` when a routine
ends in the fatal-error handler or in an undefined read. -/
def run : State → List Event → Option State
  | s, [] => some s
  | s, e :: es => (step s e).bind (fun s1 => run s1 es)

end Serial

namespace Master

/-- What happens to a master: a call of `Modbus_CAN_Repeat_Request` or of
`Modbus_CAN_Reset_Attempt`, a pass of the main loop through
`Modbus_CAN_Controller`, the expiry of the unicast or of the broadcast timer,
a received frame handled by `Modbus_CAN_CallBack` (with the value of
`CAN_STS_NEWDAT` and the message object read), or a user request function that
leaves the record `r` in `Modbus_App_Request` and calls
`Modbus_App_Enqueue_Or_Send`. -/
inductive Event where
  | repeatRequest
  | resetAttempt
  | poll
  | unicastTimeout
  | broadcastTimeout
  | received (new_data : Nat) (rx : tCANMsgObject)
  | userRequest (r : Modbus_FIFO_Item)
  deriving DecidableEq, Repr

/-- The routine that handles an event. -/
def step (s : State) : Event → Option State
  | .repeatRequest => some (Modbus_CAN_Repeat_Request s)
  | .resetAttempt => some (Modbus_CAN_Reset_Attempt s)
  | .poll => (Modbus_CAN_Controller s).map (fun q => q.1)
  | .unicastTimeout => Modbus_CAN_UnicastTimeoutHandler s
  | .broadcastTimeout => Modbus_CAN_BroadcastTimeoutHandler s
  | .received new_data rx => some (Modbus_CAN_CallBack s new_data rx)
  | .userRequest r =>
    (Modbus_App_Enqueue_Or_Send { s with Modbus_App_Request := r }).map (fun q => q.1)

/-- A sequence of events handled one after the other; `none` when a routine
does not return. -/
def run : State → List Event → Option State
  | s, [] => some s
  | s, e :: es => (step s e).bind (fun s1 => run s1 es)

end Master


/-! ## Concrete states used by the witnesses -/

/-- A master state after `Modbus_Master_Init`-like reset, used in examples. -/
def exMaster : Master.State :=
  { modbus_master_state := .MODBUS_IDLE, modbus_max_attempts := 3, modbus_attempts := 1,
    modbus_forward_flag := 0, modbus_complete_transmission := 0,
    modbus_complete_reception := 0, modbus_broadcast_timeout := 0,
    modbus_unicast_timeout := 0, modbus_index := 0, input_pdu := List.replicate 256 0,
    input_length := 0, modbus_bit_rate := .MODBUS_1MBPS, RxObject_ulMsgID := 0,
    RxObject_ulMsgIDMask := 0,
    Modbus_FIFO_Tx := ⟨0, 0, 0, List.replicate 255 default⟩,
    Modbus_FIFO_Error := ⟨0, 0, 0, List.replicate 25 default⟩,
    Modbus_App_Request := default, Modbus_App_Actual_Req := default,
    Modbus_App_Error_Msg := default, Modbus_App_Msg := List.replicate 256 0,
    Modbus_App_L_Msg := 0, Modbus_App_Req_pdu := List.replicate 256 0,
    Modbus_App_L_Req_pdu := 0, userMem := [], canTx := [], timer1 := none, timer2 := none }

/-- Slave number 5 after `Modbus_CAN_Init`, used in examples. -/
def exSlave : Slave.State :=
  { modbus_slave_state := .MODBUS_IDLE, slave := 5, modbus_complete_reception := 0,
    modbus_broadcast := 0, input_length := 0, input_pdu := List.replicate 256 0,
    modbus_index := 0, modbus_bit_rate := .MODBUS_1MBPS, canTx := [] }


/-- The master just after sending the 5-byte request `03 00 00 00 01` to slave
5: it waits for the reply and no frame of a reply has been received. -/
def exMasterWaiting : Master.State :=
  Master.Modbus_CAN_FixOutput exMaster [3, 0, 0, 0, 1] 5 5 11

/-- A slave that received a begin-long frame of 8 bytes and nothing else. -/
def exSlaveAfterBegin : Slave.State :=
  Slave.Modbus_CAN_CallBack exSlave 0x10000
    ⟨0x305, 0, .MSG_OBJ_NO_FLAGS, 8, [16, 0, 0, 0, 2, 4, 1, 2]⟩

/-- A master, initialised with 3 attempts, about to send `Read Holding
Registers` (2 registers from address 16) to slave 5. -/
def exMasterRead : Master.State :=
  { exMaster with Modbus_App_Actual_Req := ⟨5, 3, [16, 2, 0, 0, 0, 0]⟩ }

/-- Application variables of a slave with 16 coils, 16 discrete inputs, 8
holding registers and 8 input registers, all zero. -/
def exApp : Slave.App :=
  { Modbus_App_Msg := List.replicate 256 0, Modbus_App_L_Msg := 0,
    Modbus_App_Response_pdu := List.replicate 256 0, Modbus_App_L_Response_pdu := 0,
    Modbus_App_Adress := 0, Modbus_App_Quantity := 0, Modbus_App_Value := 0,
    Modbus_App_N_Coils := 16, Modbus_App_N_D_Inputs := 16, Modbus_App_N_I_Registers := 8,
    Modbus_App_N_H_Registers := 8, Modbus_App_Coils := List.replicate 16 0,
    Modbus_App_D_Inputs := List.replicate 16 0, Modbus_App_H_Registers := List.replicate 8 0,
    Modbus_App_I_Registers := List.replicate 8 0 }

/-- Serial slave number 5 in RTU mode, idle, nothing received yet. -/
def exSerial : Serial.State :=
  { Modbus_OSL_Baudrate := 19200, Modbus_OSL_Mode := .MODBUS_OSL_MODE_RTU,
    Modbus_OSL_Frame := .MODBUS_OSL_Frame_OK, Modbus_OSL_Processing_Flag := 0,
    Modbus_OSL_Slave_Adress := 5, Modbus_OSL_Response_ADU := List.replicate 256 0,
    Modbus_OSL_L_Response_ADU := 0, Modbus_OSL_BroadCast := 0,
    Modbus_OSL_MainState := .MODBUS_OSL_IDLE, Modbus_OSL_State := .MODBUS_OSL_RTU_IDLE,
    Modbus_OSL_RTU_Timeout_15 := 6878, Modbus_OSL_RTU_Timeout_35 := 16032,
    Modbus_OSL_RTU_Msg1 := List.replicate 256 0, Modbus_OSL_RTU_Msg2 := List.replicate 256 0,
    Modbus_OSL_RTU_Msg := .Msg1, Modbus_OSL_RTU_Msg_Complete := none,
    Modbus_OSL_RTU_L_Msg := 0, Modbus_OSL_RTU_Index := 0, app := exApp, uartTx := [],
    timer0 := none, timer1 := none }

/-- The serial slave `exSerial` after the frame `frame` of `L` bytes was
published in `Modbus_OSL_RTU_Msg1`. -/
def exSerialPublished (frame : List Nat) (L : Nat) : Serial.State :=
  { exSerial with
    Modbus_OSL_RTU_Msg1 := frame ++ List.replicate (256 - frame.length) 0
    Modbus_OSL_RTU_Msg := .Msg2
    Modbus_OSL_RTU_Msg_Complete := some .Msg1
    Modbus_OSL_RTU_L_Msg := L
    Modbus_OSL_Processing_Flag := 1 }

/-- A CAN slave node: slave 5 of `exSlave` with the application variables
`exApp`. -/
def exNode : Slave.Node := { can := exSlave, app := exApp }

/-- The CAN slave `exNode`, idle, with the completely received broadcast
request `05 00 01 FF 00` (write single coil 1). -/
def exNodeBroadcast : Slave.Node :=
  { exNode with
    can :=
      { exSlave with
        modbus_broadcast := 1, modbus_complete_reception := 1, input_length := 5,
        input_pdu := [5, 0, 1, 0xFF, 0] ++ List.replicate 251 0 } }

/-- The master of `exMasterRead` on its second attempt, waiting for the reply
to `Read Holding Registers` (function 3, 2 registers) from slave 5, with the
PDU `reply` completely received. -/
def exMasterReplied (reply : List Nat) : Master.State :=
  { exMasterRead with
    modbus_master_state := .MODBUS_WAITREPLY
    modbus_attempts := 2
    modbus_complete_reception := 1
    input_pdu := reply ++ List.replicate (256 - reply.length) 0
    input_length := reply.length
    userMem := List.replicate 8 0 }

/-- The master `exMaster` configured for 100 kbps. -/
def exMaster100k : Master.State := { exMaster with modbus_bit_rate := .MODBUS_100KBPS }

/-- The serial slave `exSerial` after `n` characters of value 1 arrived in a
row and the 1.5T timer expired: the receiver is validating. -/
def exSerialValidating (n : Nat) : Option Serial.State :=
  Serial.Modbus_OSL_RTU_15T (Serial.receive exSerial (List.replicate n 1))

/-- Events of a serial slave: the four characters `05 03 00 00` (a frame for
slave 5 with a wrong checksum) closed by both timers; then the character `05`
of a new frame, a parity-error interrupt, a pass of the main loop, the
character `06`, and both timers. -/
def exParityEvents : List Serial.Event :=
  [.uart Serial.UART_INT_RX 5, .uart Serial.UART_INT_RX 3, .uart Serial.UART_INT_RX 0,
    .uart Serial.UART_INT_RX 0, .t15, .t35,
    .uart Serial.UART_INT_RX 5, .uart Serial.UART_INT_PE 0, .poll,
    .uart Serial.UART_INT_RX 6, .t15, .t35]

/-- The serial slave `exSerial` after the four characters `05 03 00 00` and
the expiry of the 1.5T timer: the receiver is validating. -/
def exSerialGap : Serial.State :=
  { exSerial with
    Modbus_OSL_State := .MODBUS_OSL_RTU_CONTROLANDWAITING
    Modbus_OSL_RTU_Msg1 := [5, 3, 0, 0] ++ List.replicate 252 0
    Modbus_OSL_RTU_Index := 4
    timer0 := some 16032
    timer1 := some 6878 }

/-- The master `exMaster` with a six-slot request record and 512 bytes of user
memory that hold the 16-bit words `0x1234, 0x1235, ...` (low byte first). -/
def exMasterUser : Master.State :=
  { exMaster with
    Modbus_App_Request := ⟨0, 0, List.replicate 6 0⟩
    Modbus_App_Actual_Req := ⟨0, 0, List.replicate 6 0⟩
    userMem := (List.range 256).flatMap (fun i => [(0x34 + i) % 256, 0x12 + (0x34 + i) / 256]) }

/-- The master `exMasterUser` configured for 100 kbps. -/
def exMasterUser100k : Master.State := { exMasterUser with modbus_bit_rate := .MODBUS_100KBPS }

/-- The application variables `exApp` of a slave after the request PDU `pdu`
of `L` bytes was handed over. -/
def exAppRequest (pdu : List Nat) (L : Nat) : Slave.App :=
  { exApp with
    Modbus_App_Msg := pdu.take L ++ List.replicate (256 - L) 0
    Modbus_App_L_Msg := L }

/-- A frame of the slave numbered 5 with type bits `t` and the payload `d`. -/
def exSlaveFrame (t : Nat) (d : List Nat) : tCANMsgObject :=
  ⟨(t <<< 8) ||| 5, 0, .MSG_OBJ_NO_FLAGS, d.length, d⟩

/-- Frames for the master: an individual frame of 7 bytes from slave 5, then
31 continuation-long frames of 8 bytes. -/
def exOverrunFrames : List tCANMsgObject :=
  exSlaveFrame 0 [1, 2, 3, 4, 5, 6, 7] :: List.replicate 31 (exSlaveFrame 4 (List.replicate 8 9))

/-- A frame of the master for slave 5 with type bits `t` and the payload `d`. -/
def exMasterFrame (t : Nat) (d : List Nat) : tCANMsgObject :=
  ⟨(t <<< 8) ||| 5, 0, .MSG_OBJ_NO_FLAGS, d.length, d⟩

/-- Frames for slave 5: an individual frame of 7 bytes from the master, then 31
continuation-long frames of 8 bytes. -/
def exOverrunFramesSlave : List tCANMsgObject :=
  exMasterFrame 1 [1, 2, 3, 4, 5, 6, 7] ::
    List.replicate 31 (exMasterFrame 5 (List.replicate 8 9))

/-- The master `exMasterUser` after `Modbus_Read_H_Registers (5, 16, 2, ...)`
was sent, the unicast timer expired and the controller was polled once: the
retry of that request is pending. -/
def exRetryPending : Option Master.State :=
  (Master.Modbus_Read_H_Registers exMasterUser 5 16 2 0).bind
    (fun r => Master.run r.1 [.unicastTimeout, .poll])


/-- The slave node `exNode` with the holding registers
`0x0A, 0x14, 0xABCD, 0x1234, 0x32, 0x3C, 0x46, 0x50`. -/
def exNodeRegs : Slave.Node :=
  { exNode with
    app := { exApp with
      Modbus_App_H_Registers := [0x0A, 0x14, 0xABCD, 0x1234, 0x32, 0x3C, 0x46, 0x50] } }

/-! ## Theorems: the Request Queue and the Failure Queue -/

theorem fifoInv_Init (q : Modbus_FIFO_s) (h : q.Buffer.length = MAX_ITEMS) :
    fifoInv (Modbus_FIFO_Init q) := by
  simp [fifoInv, Modbus_FIFO_Init, h, MAX_ITEMS]

theorem fifoContents_Init (q : Modbus_FIFO_s) : fifoContents (Modbus_FIFO_Init q) = [] := by
  simp [fifoContents, Modbus_FIFO_Init]

theorem fifoContents_length (q : Modbus_FIFO_s) : (fifoContents q).length = q.Items := by
  simp [fifoContents]

/-- A successful enqueue appends the record at the young end. -/
theorem fifo_enqueue_ok (q : Modbus_FIFO_s) (x : Modbus_FIFO_Item) (hinv : fifoInv q)
    (hnf : q.Items < MAX_ITEMS) :
    (Modbus_FIFO_Enqueue q x).2 = 0 ∧ fifoInv (Modbus_FIFO_Enqueue q x).1 ∧
      (Modbus_FIFO_Enqueue q x).1.Items = q.Items + 1 ∧
      fifoContents (Modbus_FIFO_Enqueue q x).1 = fifoContents q ++ [x] := by
  obtain ⟨hlen, htail, hitems, hhead⟩ := hinv
  simp only [MAX_ITEMS] at hlen htail hitems hhead hnf
  have hfull : Modbus_FIFO_Full q = 0 := by
    simp only [Modbus_FIFO_Full, MAX_ITEMS]; rw [if_neg (by omega)]
  have hmod : (q.Items + 1) % 256 = q.Items + 1 := Nat.mod_eq_of_lt (by omega)
  simp only [Modbus_FIFO_Enqueue, hfull, ne_eq, not_true_eq_false, if_false, hmod]
  refine ⟨trivial, ⟨?_, ?_, ?_, ?_⟩, trivial, ?_⟩
  · simp [hlen, MAX_ITEMS]
  · simpa [MAX_ITEMS] using htail
  · simp only [MAX_ITEMS]; omega
  · simp only [MAX_ITEMS, hhead]; omega
  · simp only [fifoContents, MAX_ITEMS, List.range_succ, List.map_append, List.map_cons,
      List.map_nil]
    congr 1
    · apply List.map_congr_left
      intro i hi
      have hi2 : i < q.Items := List.mem_range.mp hi
      have hne : q.Head ≠ (q.Tail + i) % 255 := by rw [hhead]; omega
      simp only [List.getD_eq_getElem?_getD]
      rw [List.getElem?_set_ne hne]
    · have hlt : q.Head < q.Buffer.length := by rw [hhead, hlen]; exact Nat.mod_lt _ (by omega)
      simp only [List.getD_eq_getElem?_getD, ← hhead]
      rw [List.getElem?_set_self hlt]
      rfl

/-- A successful dequeue removes and returns the oldest record. -/
theorem fifo_dequeue_ok (q : Modbus_FIFO_s) (out : Modbus_FIFO_Item) (hinv : fifoInv q)
    (hne : q.Items ≠ 0) :
    (Modbus_FIFO_Dequeue q out).2.2 = 1 ∧ fifoInv (Modbus_FIFO_Dequeue q out).1 ∧
      (Modbus_FIFO_Dequeue q out).1.Items + 1 = q.Items ∧
      fifoContents q =
        (Modbus_FIFO_Dequeue q out).2.1 :: fifoContents (Modbus_FIFO_Dequeue q out).1 := by
  obtain ⟨hlen, htail, hitems, hhead⟩ := hinv
  simp only [MAX_ITEMS] at hlen htail hitems hhead
  have hemp : Modbus_FIFO_Empty q = 0 := by simp [Modbus_FIFO_Empty, hne]
  have hmod : (q.Items + 256 - 1) % 256 = q.Items - 1 := by omega
  simp only [Modbus_FIFO_Dequeue, hemp, ne_eq, not_true_eq_false, if_false, hmod]
  refine ⟨trivial, ⟨?_, ?_, ?_, ?_⟩, by omega, ?_⟩
  · simp [hlen, MAX_ITEMS]
  · simp only [MAX_ITEMS]; omega
  · simp only [MAX_ITEMS]; omega
  · simp only [MAX_ITEMS, hhead]; omega
  · obtain ⟨m, hm⟩ : ∃ m, q.Items = m + 1 := ⟨q.Items - 1, by omega⟩
    simp only [fifoContents, MAX_ITEMS, hm, Nat.add_sub_cancel, List.range_succ_eq_map,
      List.map_cons, List.map_map, Nat.add_zero]
    rw [Nat.mod_eq_of_lt htail]
    congr 1
    apply List.map_congr_left
    intro i _
    simp only [Function.comp, Nat.succ_eq_add_one]
    congr 1
    omega

/-- One call: the circular buffer and the list queue return the same thing
and stay related. -/
theorem fifoStep_sim (q : Modbus_FIFO_s) (op : FifoOp) (hinv : fifoInv q) :
    (fifoStep q op).2 = (specStep (fifoContents q) op).2 ∧ fifoInv (fifoStep q op).1 ∧
      fifoContents (fifoStep q op).1 = (specStep (fifoContents q) op).1 ∧
      (fifoStep q op).1.Items + succDeq [(fifoStep q op).2] =
        q.Items + succEnq [(fifoStep q op).2] := by
  cases op with
  | enq x =>
    by_cases hf : q.Items < MAX_ITEMS
    · obtain ⟨h1, h2, h3, h4⟩ := fifo_enqueue_ok q x hinv hf
      have hl : ¬ (fifoContents q).length ≥ 255 := by
        rw [fifoContents_length]; simp only [MAX_ITEMS] at hf; omega
      refine ⟨?_, h2, ?_, ?_⟩
      · simp only [fifoStep, specStep, h1, hl, if_false]
      · simp only [fifoStep, specStep, h4, hl, if_false]
      · simp only [fifoStep, h1, h3, succDeq, succEnq]
    · have hfull : Modbus_FIFO_Full q = 1 := by
        simp only [Modbus_FIFO_Full]; rw [if_pos (by omega)]
      have hl : (fifoContents q).length ≥ 255 := by
        rw [fifoContents_length]; simp only [MAX_ITEMS] at hf; omega
      simp only [fifoStep, specStep, Modbus_FIFO_Enqueue, hfull, hl, if_true, succDeq, succEnq]
      simp [hinv]
  | deq =>
    by_cases he : q.Items = 0
    · have hemp : Modbus_FIFO_Empty q = 1 := by simp [Modbus_FIFO_Empty, he]
      have hc : fifoContents q = [] := by simp [fifoContents, he]
      simp only [fifoStep, specStep, Modbus_FIFO_Dequeue, hemp, hc, succDeq, succEnq]
      simp [hinv, hc]
    · obtain ⟨h1, h2, h3, h4⟩ := fifo_dequeue_ok q default hinv he
      refine ⟨?_, h2, ?_, ?_⟩
      · simp only [fifoStep, h1, h4, specStep]; simp
      · simp only [fifoStep, h4, specStep]
      · simp only [fifoStep, h1, succDeq, succEnq]; omega

theorem succEnq_cons (r : FifoRes) (rs : List FifoRes) :
    succEnq (r :: rs) = succEnq [r] + succEnq rs := by
  cases r with
  | enq ret => cases ret <;> simp [succEnq]; omega
  | deq ret out => simp [succEnq]

theorem succDeq_cons (r : FifoRes) (rs : List FifoRes) :
    succDeq (r :: rs) = succDeq [r] + succDeq rs := by
  cases r with
  | enq ret => simp [succDeq]
  | deq ret out => cases ret <;> simp [succDeq]; omega

/-- Any sequence of calls: the circular buffer simulates the list queue. -/
theorem fifoRun_sim (ops : List FifoOp) : ∀ q : Modbus_FIFO_s, fifoInv q →
    (fifoRun q ops).2 = (specRun (fifoContents q) ops).2 ∧
      fifoInv (fifoRun q ops).1 ∧
      fifoContents (fifoRun q ops).1 = (specRun (fifoContents q) ops).1 ∧
      (fifoRun q ops).1.Items + succDeq (fifoRun q ops).2 =
        q.Items + succEnq (fifoRun q ops).2 := by
  induction ops with
  | nil => intro q hinv; simp [fifoRun, specRun, hinv, succDeq, succEnq]
  | cons op ops ih =>
    intro q hinv
    obtain ⟨h1, h2, h3, h4⟩ := fifoStep_sim q op hinv
    obtain ⟨g1, g2, g3, g4⟩ := ih (fifoStep q op).1 h2
    simp only [fifoRun, specRun]
    rw [succDeq_cons, succEnq_cons]
    rw [h3] at g1 g3
    refine ⟨by rw [h1, g1], g2, g3, by omega⟩

/-- Claim C7.  Request queue bounds: on a queue holding 255 items
`Modbus_FIFO_Enqueue` returns 1 and returns the queue unchanged (Items, Head,
Tail and every stored item); on an empty queue `Modbus_FIFO_Dequeue` returns 0
and leaves the queue and the output record unchanged; for every other value of
the `unsigned char` counter enqueue returns 0 and dequeue returns 1. -/
theorem C7_request_queue_bounds (q : Modbus_FIFO_s) (x out : Modbus_FIFO_Item)
    (hItems : q.Items < 256) :
    (q.Items = 255 → Modbus_FIFO_Enqueue q x = (q, 1)) ∧
      (q.Items = 0 → Modbus_FIFO_Dequeue q out = (q, out, 0)) ∧
      (q.Items ≠ 255 → (Modbus_FIFO_Enqueue q x).2 = 0) ∧
      (q.Items ≠ 0 → (Modbus_FIFO_Dequeue q out).2.2 = 1) := by
  refine ⟨?_, ?_, ?_, ?_⟩
  · intro h; simp [Modbus_FIFO_Enqueue, Modbus_FIFO_Full, MAX_ITEMS, h]
  · intro h; simp [Modbus_FIFO_Dequeue, Modbus_FIFO_Empty, h]
  · intro h
    have : ¬ q.Items ≥ 255 := by omega
    simp [Modbus_FIFO_Enqueue, Modbus_FIFO_Full, MAX_ITEMS, this]
  · intro h; simp [Modbus_FIFO_Dequeue, Modbus_FIFO_Empty, h]

/-- A queue holding 255 records (built by 255 enqueues) and an empty one. -/
def c7FullQueue : Modbus_FIFO_s :=
  { Items := 255, Head := 0, Tail := 0, Buffer := List.replicate 255 default }

/-- Witness of C7 at a full queue: the hypotheses hold and the enqueue is refused. -/
theorem C7_request_queue_bounds_witness :
    c7FullQueue.Items < 256 ∧
      Modbus_FIFO_Enqueue c7FullQueue ⟨3, 6, [1, 2, 0, 0, 0, 0]⟩ = (c7FullQueue, 1) ∧
      (Modbus_FIFO_Dequeue c7FullQueue default).2.2 = 1 :=
  ⟨by decide,
    (C7_request_queue_bounds c7FullQueue ⟨3, 6, [1, 2, 0, 0, 0, 0]⟩ default (by decide)).1 rfl,
    (C7_request_queue_bounds c7FullQueue ⟨3, 6, [1, 2, 0, 0, 0, 0]⟩ default (by decide)).2.2.2
      (by decide)⟩

/-- Claim C8.  Request queue FIFO order: starting from `Modbus_FIFO_Init` (on
a buffer of the declared size), for every sequence of enqueue and dequeue
calls the circular buffer returns exactly what a list queue of capacity 255
returns (each successful dequeue yields the oldest record not yet dequeued),
its contents are the list, and `Items` is the number of successful enqueues
minus the number of successful dequeues. -/
theorem C8_request_queue_fifo_order (q0 : Modbus_FIFO_s)
    (hlen : q0.Buffer.length = MAX_ITEMS) (ops : List FifoOp) :
    (fifoRun (Modbus_FIFO_Init q0) ops).2 = (specRun [] ops).2 ∧
      fifoContents (fifoRun (Modbus_FIFO_Init q0) ops).1 = (specRun [] ops).1 ∧
      (fifoRun (Modbus_FIFO_Init q0) ops).1.Items = (specRun [] ops).1.length ∧
      (fifoRun (Modbus_FIFO_Init q0) ops).1.Items +
          succDeq (fifoRun (Modbus_FIFO_Init q0) ops).2 =
        succEnq (fifoRun (Modbus_FIFO_Init q0) ops).2 := by
  obtain ⟨h1, _, h3, h4⟩ := fifoRun_sim ops (Modbus_FIFO_Init q0) (fifoInv_Init q0 hlen)
  rw [fifoContents_Init] at h1 h3
  refine ⟨h1, h3, ?_, ?_⟩
  · rw [← h3, fifoContents_length]
  · simpa [Modbus_FIFO_Init] using h4

/-- A storage of the declared size whose counters hold garbage before `Init`. -/
def c8Storage : Modbus_FIFO_s :=
  { Items := 7, Head := 3, Tail := 200, Buffer := List.replicate 255 default }

/-- Two records and a call sequence used to exercise the queue. -/
def c8Ops : List FifoOp :=
  [.deq, .enq ⟨1, 3, [0, 2, 0, 0, 0, 0]⟩, .enq ⟨2, 6, [5, 9, 0, 0, 0, 0]⟩, .deq, .deq, .deq]

/-- Witness of C8: on `c8Ops` the dequeues return the two records in the
order they were enqueued, and the surrounding dequeues fail. -/
theorem C8_request_queue_fifo_order_witness :
    c8Storage.Buffer.length = MAX_ITEMS ∧
      (fifoRun (Modbus_FIFO_Init c8Storage) c8Ops).2 =
        [.deq 0 none, .enq 0, .enq 0, .deq 1 (some ⟨1, 3, [0, 2, 0, 0, 0, 0]⟩),
          .deq 1 (some ⟨2, 6, [5, 9, 0, 0, 0, 0]⟩), .deq 0 none] ∧
      (fifoRun (Modbus_FIFO_Init c8Storage) c8Ops).1.Items = 0 := by
  have h := C8_request_queue_fifo_order c8Storage (by decide) c8Ops
  refine ⟨by decide, ?_, ?_⟩
  · rw [h.1]; decide
  · rw [h.2.2.1]; decide

/-- A failure record used to fill the Failure Queue. -/
def c9Record (n : Nat) : Modbus_FIFO_E_Item := ⟨⟨n + 1, 3, [0, 1, 0, 0, 0, 0]⟩, 0, 0⟩

/-- The Failure Queue after `Modbus_FIFO_E_Init` and 25 enqueues: it holds
`MAX_E_ITEMS` records, one in every slot of `Buffer`. -/
def c9Queue25 : Modbus_FIFO_Errors :=
  (List.range 25).foldl (fun q n => (Modbus_FIFO_E_Enqueue q (c9Record n)).1)
    (Modbus_FIFO_E_Init ⟨0, 0, 0, List.replicate 25 default⟩)

/-- Claim C9 (code defect).  On the Failure Queue that already holds
`MAX_E_ITEMS` = 25 records, `Modbus_FIFO_E_Enqueue` does not return 1 and
does not leave the counters unchanged: the full check compares with
`MAX_ITEMS` = 255, so the call returns 0, `Items` becomes 26, `Head` becomes
26 and the record is stored at `Buffer[25]`, one past the 25-record array. -/
theorem C9_failure_queue_overflow_evaluated :
    c9Queue25.Items = MAX_E_ITEMS ∧ c9Queue25.Buffer.length = MAX_E_ITEMS ∧
      c9Queue25.Head = 25 ∧ c9Queue25.Tail = 0 ∧
      Modbus_FIFO_E_Full c9Queue25 = 0 ∧
      (Modbus_FIFO_E_Enqueue c9Queue25 (c9Record 25)).2 = 0 ∧
      (Modbus_FIFO_E_Enqueue c9Queue25 (c9Record 25)).1.Items = 26 ∧
      (Modbus_FIFO_E_Enqueue c9Queue25 (c9Record 25)).1.Head = 26 ∧
      Modbus_FIFO_E_Enqueue_writeIndex c9Queue25 = MAX_E_ITEMS := by
  decide

/-! ## Theorems: checksum -/

/-- The checksum loop only depends on the bytes it reads. -/
theorem crcLoop_congr (a b : List Nat) : ∀ (L p q : Nat) (st : Nat × Nat),
    (∀ i, i < L → rd a (p + i) = rd b (q + i)) → crcLoop a L p st = crcLoop b L q st := by
  intro L
  induction L with
  | zero => intro p q st _; rfl
  | succ L ih =>
    intro p q st h
    obtain ⟨hi, lo⟩ := st
    have h0 : rd a p = rd b q := by simpa using h 0 (Nat.succ_pos L)
    simp only [crcLoop, h0]
    apply ih
    intro i hi2
    have := h (i + 1) (by omega)
    simpa [Nat.add_assoc, Nat.add_comm 1 i] using this

theorem rd_set (l : List Nat) (i j v : Nat) :
    rd (l.set i v) j = if i = j ∧ j < l.length then v else rd l j := by
  unfold rd
  simp only [List.getD_eq_getElem?_getD, List.getElem?_set]
  by_cases hij : i = j
  · subst hij
    by_cases hl : i < l.length
    · simp [hl]
    · simp [hl, List.getElem?_eq_none (Nat.le_of_not_lt hl)]
  · simp [hij]

theorem rd_cons_succ (a : Nat) (l : List Nat) (k : Nat) : rd (a :: l) (k + 1) = rd l k := by
  simp [rd]

theorem rd_append (l r : List Nat) (j : Nat) :
    rd (l ++ r) j = if j < l.length then rd l j else rd r (j - l.length) := by
  unfold rd
  simp only [List.getD_eq_getElem?_getD]
  by_cases h : j < l.length
  · simp [h, List.getElem?_append_left]
  · simp [h, List.getElem?_append_right (Nat.le_of_not_lt h)]

theorem rd_take (l : List Nat) (n j : Nat) :
    rd (l.take n) j = if j < n then rd l j else 0 := by
  unfold rd
  simp only [List.getD_eq_getElem?_getD, List.getElem?_take]
  by_cases h : j < n <;> simp [h]

theorem rd_of_lt (l : List Nat) (j : Nat) (h : j < l.length) : rd l j = l.get ⟨j, h⟩ := by
  simp [rd, List.getD_eq_getElem?_getD, List.getElem?_eq_getElem h]

/-- Two byte arrays of the same size with the same reads are equal. -/
theorem list_ext_rd (a b : List Nat) (hl : a.length = b.length)
    (h : ∀ j, j < a.length → rd a j = rd b j) : a = b := by
  apply List.ext_getElem hl
  intro j h1 h2
  have := h j h1
  rw [rd_of_lt a j h1, rd_of_lt b j h2] at this
  simpa using this

/-- The copy loop of `Modbus_OSL_RTU_Mount_ADU`. -/
theorem mountCopy_spec (mb_pdu : List Nat) : ∀ (L : Nat) (a : List Nat),
    ((List.range L).foldl (fun a i => a.set (i + 1) (rd mb_pdu i)) a).length = a.length ∧
      ∀ j, rd ((List.range L).foldl (fun a i => a.set (i + 1) (rd mb_pdu i)) a) j =
        if 1 ≤ j ∧ j ≤ L ∧ j < a.length then rd mb_pdu (j - 1) else rd a j := by
  intro L
  induction L with
  | zero =>
    intro a
    refine ⟨by simp, fun j => ?_⟩
    have : ¬ (1 ≤ j ∧ j ≤ 0 ∧ j < a.length) := by omega
    simp only [List.range_zero, List.foldl_nil]
    rw [if_neg this]
  | succ L ih =>
    intro a
    obtain ⟨h1, h2⟩ := ih a
    simp only [List.range_succ, List.foldl_append, List.foldl_cons, List.foldl_nil,
      List.length_set, h1, true_and]
    intro j
    rw [rd_set, h1, h2]
    by_cases hj : L + 1 = j
    · subst hj
      by_cases hl : L + 1 < a.length
      · simp [hl]
      · simp [hl]
    · have : ¬ (L + 1 = j ∧ j < a.length) := fun h => hj h.1
      simp only [this, if_false]
      by_cases hc : 1 ≤ j ∧ j ≤ L ∧ j < a.length
      · have : 1 ≤ j ∧ j ≤ L + 1 ∧ j < a.length := ⟨hc.1, by omega, hc.2.2⟩
        simp [hc, this]
      · have : ¬ (1 ≤ j ∧ j ≤ L + 1 ∧ j < a.length) := by
          intro h; exact hc ⟨h.1, by omega, h.2.2⟩
        simp [hc, this]

/-- What `Modbus_OSL_RTU_Mount_ADU` leaves in a 256-byte buffer for a PDU of
at most 253 bytes: address, PDU, checksum low, checksum high. -/
theorem mount_ADU_layout (m : List Nat) (s : Nat) (adu0 : List Nat) (hm : m.length ≤ 253)
    (hadu : adu0.length = 256) :
    (Modbus_OSL_RTU_Mount_ADU m s m.length adu0).length = 256 ∧
      (Modbus_OSL_RTU_Mount_ADU m s m.length adu0).take (m.length + 3) =
        s :: m ++ [(crcLoop (s :: m) (m.length + 1) 0 (0xFF, 0xFF)).2,
          (crcLoop (s :: m) (m.length + 1) 0 (0xFF, 0xFF)).1] := by
  have hL : m.length % 256 = m.length := Nat.mod_eq_of_lt (by omega)
  have hL1 : (m.length + 1) % 256 = m.length + 1 := Nat.mod_eq_of_lt (by omega)
  obtain ⟨c1, c2⟩ := mountCopy_spec m m.length (adu0.set 0 s)
  simp only [List.length_set, hadu] at c1 c2
  have hcrc : crcLoop ((List.range m.length).foldl (fun a i => a.set (i + 1) (rd m i))
      (adu0.set 0 s)) (m.length + 1) 0 (0xFF, 0xFF) =
      crcLoop (s :: m) (m.length + 1) 0 (0xFF, 0xFF) := by
    apply crcLoop_congr
    intro i hi
    rw [c2]
    by_cases h0 : i = 0
    · subst h0; simp [rd_set, hadu, rd]
    · have : 1 ≤ 0 + i ∧ 0 + i ≤ m.length ∧ 0 + i < 256 := by omega
      simp only [this, and_self, if_true]
      obtain ⟨k, rfl⟩ : ∃ k, i = k + 1 := ⟨i - 1, by omega⟩
      simp [rd]
  simp only [Modbus_OSL_RTU_Mount_ADU, Modbus_OSL_RTU_Mount_CRC, hL, hL1, Nat.mod_mod, hcrc]
  refine ⟨by simp [c1], ?_⟩
  apply list_ext_rd
  · simp [c1]; omega
  · intro j hj
    simp only [List.length_take, List.length_set, c1] at hj
    have hj3 : j < m.length + 3 := by omega
    rw [rd_take, if_pos hj3, rd_set, rd_set, c2]
    simp only [List.length_set, c1]
    rw [List.cons_append, rd_set, hadu]
    by_cases h0 : j = 0
    · subst h0
      rw [if_neg (by omega), if_neg (by omega), if_neg (by omega), if_pos (by omega)]
      rfl
    · obtain ⟨k, rfl⟩ : ∃ k, j = k + 1 := ⟨j - 1, by omega⟩
      rw [rd_cons_succ, rd_append]
      by_cases ha : k = m.length + 1
      · subst ha
        rw [if_pos (by omega), if_neg (by omega)]
        simp [rd]
      · rw [if_neg (by omega)]
        by_cases hb : k = m.length
        · subst hb
          rw [if_pos (by omega), if_neg (by omega)]
          simp [rd]
        · rw [if_neg (by omega), if_pos (by omega), if_pos (by omega)]
          rfl

/-- Claim C10, amended.  Checksum append-then-validate: for every slave byte
`s` and every byte sequence `m` of at most 252 bytes, `Modbus_OSL_RTU_Mount_ADU`
leaves the frame `s ++ m ++ [crcLo, crcHi]` in the 256-byte output buffer, and a
complete buffer `Msg` that starts with this frame, with the one-byte length
`Modbus_OSL_RTU_L_Msg = |m| + 3`, passes the check: `Modbus_OSL_RTU_Check_CRC`
over all bytes except the last two marks the frame OK and
`Modbus_OSL_RTU_Control_CRC` returns 1. -/
theorem C10_checksum_append_validate (m : List Nat) (s : Nat) (adu0 Msg : List Nat)
    (hm : m.length ≤ 252) (hadu : adu0.length = 256)
    (hrx : Msg.take (m.length + 3) =
      (Modbus_OSL_RTU_Mount_ADU m s m.length adu0).take (m.length + 3)) :
    (Modbus_OSL_RTU_Mount_ADU m s m.length adu0).take (m.length + 3) =
        s :: m ++ [(crcLoop (s :: m) (m.length + 1) 0 (0xFF, 0xFF)).2,
          (crcLoop (s :: m) (m.length + 1) 0 (0xFF, 0xFF)).1] ∧
      Modbus_OSL_RTU_Check_CRC Msg (m.length + 3) Msg (m.length + 1) =
        some .MODBUS_OSL_Frame_OK ∧
      Modbus_OSL_RTU_Control_CRC Msg (m.length + 3) = some (.MODBUS_OSL_Frame_OK, 1) := by
  obtain ⟨_, hlay⟩ := mount_ADU_layout m s adu0 (by omega) hadu
  rw [hlay] at hrx
  have hread : ∀ j, j < m.length + 3 → rd Msg j =
      rd (s :: m ++ [(crcLoop (s :: m) (m.length + 1) 0 (0xFF, 0xFF)).2,
          (crcLoop (s :: m) (m.length + 1) 0 (0xFF, 0xFF)).1]) j := by
    intro j hj
    have := rd_take Msg (m.length + 3) j
    rw [if_pos hj, hrx] at this
    exact this.symm
  have hcrc : crcLoop Msg (m.length + 1) 0 (0xFF, 0xFF) =
      crcLoop (s :: m) (m.length + 1) 0 (0xFF, 0xFF) := by
    apply crcLoop_congr
    intro i hi
    rw [Nat.zero_add, hread i (by omega), List.cons_append]
    cases i with
    | zero => rfl
    | succ k => rw [rd_cons_succ, rd_cons_succ, rd_append, if_pos (by omega)]
  have hhi : rd Msg (m.length + 3 - 1) = (crcLoop (s :: m) (m.length + 1) 0 (0xFF, 0xFF)).1 := by
    rw [show m.length + 3 - 1 = (m.length + 1) + 1 by omega, hread _ (by omega),
      List.cons_append, rd_cons_succ, rd_append, if_neg (by omega)]
    simp [rd]
  have hlo : rd Msg (m.length + 3 - 2) = (crcLoop (s :: m) (m.length + 1) 0 (0xFF, 0xFF)).2 := by
    rw [show m.length + 3 - 2 = m.length + 1 by omega, hread _ (by omega),
      List.cons_append, rd_cons_succ, rd_append, if_neg (by omega)]
    simp [rd]
  have hcheck : Modbus_OSL_RTU_Check_CRC Msg (m.length + 3) Msg (m.length + 1) =
      some .MODBUS_OSL_Frame_OK := by
    simp only [Modbus_OSL_RTU_Check_CRC]
    rw [Nat.mod_eq_of_lt (by omega : m.length + 1 < 256), hcrc, if_neg (by omega), if_pos hhi,
      if_neg (by omega), if_pos hlo]
  refine ⟨hlay, hcheck, ?_⟩
  simp only [Modbus_OSL_RTU_Control_CRC]
  rw [show (m.length + 3 + 256 - 2) % 256 = m.length + 1 by omega, hcheck]

/-- Witness of C10: the read-holding-registers request `03 00 00 00 01` to
slave 17 is framed as `11 03 00 00 00 01 86 9A` and accepted. -/
theorem C10_checksum_append_validate_witness :
    (Modbus_OSL_RTU_Mount_ADU [3, 0, 0, 0, 1] 17 5 (List.replicate 256 0)).take 8 =
        [17, 3, 0, 0, 0, 1, 0x86, 0x9A] ∧
      Modbus_OSL_RTU_Control_CRC
        ([17, 3, 0, 0, 0, 1, 0x86, 0x9A] ++ List.replicate 248 0) 8 =
        some (.MODBUS_OSL_Frame_OK, 1) := by
  have h := C10_checksum_append_validate [3, 0, 0, 0, 1] 17 (List.replicate 256 0)
    ([17, 3, 0, 0, 0, 1, 0x86, 0x9A] ++ List.replicate 248 0) (by decide) (by decide)
    (by decide)
  exact ⟨h.1.trans (by decide), h.2.2⟩

/-- Claim C10 as stated fails for a 255-byte sequence: the length handed to
`Modbus_OSL_RTU_Mount_CRC` is `255 + 1` converted to `unsigned char`, that is
0, so the checksum of the empty sequence (`FF FF`) is written over `mb_adu[0]`
and `mb_adu[1]`; the buffer does not start with the slave byte and is not the
frame `s ++ m ++ [crcLo, crcHi]`. -/
theorem C10_counterexample_255_bytes :
    (List.replicate 255 7).length = 255 ∧
      rd (Modbus_OSL_RTU_Mount_ADU (List.replicate 255 7) 1 255 (List.replicate 256 0)) 0 = 0xFF ∧
      rd (Modbus_OSL_RTU_Mount_ADU (List.replicate 255 7) 1 255 (List.replicate 256 0)) 1 = 0xFF ∧
      (Modbus_OSL_RTU_Mount_ADU (List.replicate 255 7) 1 255 (List.replicate 256 0)).take 258 ≠
        1 :: List.replicate 255 7 ++
          [(crcLoop (1 :: List.replicate 255 7) 256 0 (0xFF, 0xFF)).2,
            (crcLoop (1 :: List.replicate 255 7) 256 0 (0xFF, 0xFF)).1] := by
  refine ⟨by decide, by decide, by decide, ?_⟩
  intro h
  have h0 := congrArg (fun l => rd l 0) h
  have h1 : rd (List.take 258 (Modbus_OSL_RTU_Mount_ADU (List.replicate 255 7) 1 255
      (List.replicate 256 0))) 0 = 0xFF := by
    rw [rd_take, if_pos (by decide)]; decide
  simp only [h1] at h0
  revert h0
  simp [rd]

/-! ## Theorems: CAN chunking and reassembly -/

/-- What a copy loop leaves in the destination array. -/
theorem copyBytes_spec (src : List Nat) (dOff sOff : Nat) : ∀ (n : Nat) (dst : List Nat),
    (copyBytes dst dOff src sOff n).length = dst.length ∧
      ∀ j, rd (copyBytes dst dOff src sOff n) j =
        if dOff ≤ j ∧ j < dOff + n ∧ j < dst.length then rd src (sOff + (j - dOff))
        else rd dst j := by
  intro n
  induction n with
  | zero =>
    intro dst
    refine ⟨by simp [copyBytes], fun j => ?_⟩
    simp only [copyBytes, List.range_zero, List.foldl_nil]
    rw [if_neg (by omega)]
  | succ n ih =>
    intro dst
    obtain ⟨h1, h2⟩ := ih dst
    simp only [copyBytes] at h1 h2 ⊢
    simp only [List.range_succ, List.foldl_append, List.foldl_cons, List.foldl_nil,
      List.length_set, h1, true_and]
    intro j
    rw [rd_set, h1, h2]
    by_cases hj : dOff + n = j ∧ j < dst.length
    · rw [if_pos hj, if_pos (by omega)]
      obtain ⟨hj1, _⟩ := hj
      subst hj1
      congr 1
      omega
    · rw [if_neg hj]
      by_cases hc : dOff ≤ j ∧ j < dOff + n ∧ j < dst.length
      · rw [if_pos hc, if_pos (by omega)]
      · rw [if_neg hc, if_neg (by omega)]

/-- The payload of a transmitted frame is the slice of the PDU it was cut from. -/
theorem txPayload_spec (p : List Nat) (iterations n : Nat) (hn : n ≤ MAX_FRAME) :
    (txPayload p iterations n).length = n ∧
      ∀ i, i < n → rd (txPayload p iterations n) i = rd p (iterations * MAX_FRAME + i) := by
  obtain ⟨h1, h2⟩ := copyBytes_spec p 0 (iterations * MAX_FRAME) n (List.replicate MAX_FRAME 0)
  rw [List.length_replicate] at h1 h2
  simp only [MAX_FRAME] at hn h1 h2 ⊢
  refine ⟨?_, fun i hi => ?_⟩
  · unfold txPayload
    rw [List.length_take]
    simp only [MAX_FRAME, h1]
    omega
  · unfold txPayload
    simp only [MAX_FRAME]
    rw [rd_take, if_pos hi, h2, if_pos (by omega)]
    simp

/-- Arming a timeout at the last frame does not touch the transmit log. -/
theorem master_arm_canTx (s : Master.State) (slave g : Nat) :
    (if slave = 0 then
        Master.Modbus_CAN_BroadcastTimeout (Master.Modbus_SetMainState s .MODBUS_TURNAROUND) g
      else
        Master.Modbus_CAN_UnicastTimeout (Master.Modbus_SetMainState s .MODBUS_WAITREPLY)
          g).canTx = s.canTx := by
  by_cases hs : slave = 0 <;>
    simp [hs, Master.Modbus_CAN_UnicastTimeout, Master.Modbus_CAN_BroadcastTimeout,
      Master.Modbus_SetMainState]

/-- The master loop appends exactly the frames of its chunk plan. -/
theorem master_loop_canTx (p : List Nat) (slave n g : Nat) : ∀ (fuel aux it : Nat)
    (s : Master.State),
    (Master.Modbus_CAN_FixOutput_loop p slave n g fuel aux it s).canTx =
      s.canTx ++ (chunkPlan n fuel aux it).map (chunkFrame masterType slave p) := by
  intro fuel
  induction fuel with
  | zero => intro aux it s; simp [Master.Modbus_CAN_FixOutput_loop, chunkPlan]
  | succ fuel ih =>
    intro aux it s
    by_cases h0 : aux = 0
    · simp [Master.Modbus_CAN_FixOutput_loop, chunkPlan, h0]
    · by_cases h8 : aux ≤ MAX_FRAME
      · by_cases hn : n ≤ MAX_FRAME
        · simp only [Master.Modbus_CAN_FixOutput_loop, chunkPlan, h0, h8, hn, if_true, if_false,
            ih]
          simp [chunkFrame, masterType, master_arm_canTx]
        · simp only [Master.Modbus_CAN_FixOutput_loop, chunkPlan, h0, h8, hn, if_true, if_false,
            ih]
          simp [chunkFrame, masterType, master_arm_canTx]
      · simp only [Master.Modbus_CAN_FixOutput_loop, chunkPlan, h0, h8, if_false, ih]
        by_cases hn : aux = n <;> simp [hn, chunkFrame, masterType]

/-- The slave loop appends exactly the frames of its chunk plan. -/
theorem slave_loop_canTx (p : List Nat) (n : Nat) : ∀ (fuel aux it : Nat) (s : Slave.State),
    (Slave.Modbus_CAN_FixOutput_loop p n fuel aux it s).canTx =
        s.canTx ++ (chunkPlan n fuel aux it).map (chunkFrame slaveType s.slave p) ∧
      (Slave.Modbus_CAN_FixOutput_loop p n fuel aux it s).slave = s.slave := by
  intro fuel
  induction fuel with
  | zero => intro aux it s; simp [Slave.Modbus_CAN_FixOutput_loop, chunkPlan]
  | succ fuel ih =>
    intro aux it s
    by_cases h0 : aux = 0
    · simp [Slave.Modbus_CAN_FixOutput_loop, chunkPlan, h0]
    · by_cases h8 : aux ≤ MAX_FRAME
      · simp only [Slave.Modbus_CAN_FixOutput_loop, chunkPlan, h0, h8, if_true, if_false, ih]
        by_cases hn : n ≤ MAX_FRAME <;> simp [hn, chunkFrame, slaveType]
      · simp only [Slave.Modbus_CAN_FixOutput_loop, chunkPlan, h0, h8, if_false, ih]
        by_cases hn : aux = n <;> simp [hn, chunkFrame, slaveType]

/-- The frames `Modbus_CAN_FixOutput` of the master appends to the transmit log. -/
theorem master_FixOutput_frames (s : Master.State) (p : List Nat) (slave n g : Nat)
    (hs : slave < 256) (hn : n < 256) :
    newFrames s.canTx (Master.Modbus_CAN_FixOutput s p slave n g).canTx =
      (chunkPlan n (n + 1) n 0).map (chunkFrame masterType slave p) := by
  simp only [Master.Modbus_CAN_FixOutput, Nat.mod_eq_of_lt hs, Nat.mod_eq_of_lt hn,
    master_loop_canTx, newFrames]
  by_cases h : slave = 0 <;> simp [h, Master.Modbus_CAN_ReceptionConfiguration]

/-- The frames `Modbus_CAN_FixOutput` of a slave appends to the transmit log. -/
theorem slave_FixOutput_frames (s : Slave.State) (p : List Nat) (n : Nat) (hn : n < 256) :
    newFrames s.canTx (Slave.Modbus_CAN_FixOutput s p n).canTx =
      (chunkPlan n (n + 1) n 0).map (chunkFrame slaveType s.slave p) := by
  simp only [Slave.Modbus_CAN_FixOutput, Nat.mod_eq_of_lt hn, (slave_loop_canTx _ _ _ _ _ _).1,
    newFrames]
  simp

/-- Arithmetic of CAN identifiers: type bits `t` over an 8-bit slave number. -/
theorem id_bits : ∀ t < 8, ∀ s < 256,
    ((t <<< 8) ||| s) >>> 8 = t ∧ ((t <<< 8) ||| s) &&& 0x700 = t * 256 ∧
      ((t <<< 8) ||| s) &&& 0xFF = s ∧ ((t <<< 8) ||| s) < 2048 ∧
      ((t <<< 8) ||| s) = t * 256 + s := by
  decide

theorem chunkPlan_zero (n : Nat) : ∀ fuel it, chunkPlan n fuel 0 it = [] := by
  intro fuel it
  cases fuel <;> simp [chunkPlan]

/-- A PDU of at most 8 bytes is one individual frame. -/
theorem chunkPlan_short (n : Nat) (h1 : 1 ≤ n) (h8 : n ≤ 8) :
    chunkPlan n (n + 1) n 0 = [(ChunkKind.individual, n, 0)] := by
  have h0 : ¬ n = 0 := by omega
  simp [chunkPlan, h0, MAX_FRAME, h8, chunkPlan_zero]

/-- After the first frame of a long PDU: continuation frames of 8 bytes, then
the end frame with the remainder. -/
theorem chunkPlan_tail (n : Nat) (hn : 8 < n) : ∀ (fuel aux it : Nat),
    0 < aux → aux < n → aux < fuel →
    chunkPlan n fuel aux it =
      (List.range ((aux - 1) / 8)).map (fun k => (ChunkKind.continuationLong, 8, it + k)) ++
        [(ChunkKind.endLong, aux - 8 * ((aux - 1) / 8), it + (aux - 1) / 8)] := by
  intro fuel
  induction fuel with
  | zero => intro aux it _ _ h; omega
  | succ fuel ih =>
    intro aux it h0 hlt hf
    have hne : ¬ aux = 0 := by omega
    have hnn : ¬ n ≤ 8 := by omega
    by_cases h8 : aux ≤ 8
    · have hq : (aux - 1) / 8 = 0 := by omega
      simp [chunkPlan, hne, MAX_FRAME, h8, hnn, chunkPlan_zero, hq]
    · have hne2 : ¬ aux = n := by omega
      obtain ⟨q, hq⟩ : ∃ q, (aux - 1) / 8 = q + 1 := ⟨(aux - 1) / 8 - 1, by omega⟩
      have hq2 : (aux - 8 - 1) / 8 = q := by omega
      have hrem : aux - 8 - 8 * q = aux - 8 * (q + 1) := by omega
      simp only [chunkPlan, hne, MAX_FRAME, h8, hne2, if_false]
      rw [ih (aux - 8) (it + 1) (by omega) (by omega) (by omega), hq, hq2, hrem,
        List.range_succ_eq_map]
      simp only [List.map_cons, List.map_map, List.cons_append, Nat.add_zero]
      congr 1
      congr 1
      · apply List.map_congr_left
        intro k _
        simp only [Function.comp, Nat.succ_eq_add_one]
        congr 2
        omega
      · congr 3
        omega

/-- A PDU of more than 8 bytes: begin frame, continuation frames, end frame. -/
theorem chunkPlan_long (n : Nat) (hn : 8 < n) :
    chunkPlan n (n + 1) n 0 =
      (ChunkKind.beginLong, 8, 0) ::
        ((List.range ((n + 7) / 8 - 2)).map (fun k => (ChunkKind.continuationLong, 8, 1 + k)) ++
          [(ChunkKind.endLong, n - 8 * ((n + 7) / 8 - 1), (n + 7) / 8 - 1)]) := by
  have h0 : ¬ n = 0 := by omega
  have h8 : ¬ n ≤ 8 := by omega
  have hq : (n - 8 - 1) / 8 = (n + 7) / 8 - 2 := by omega
  have hr : n - 8 - 8 * ((n + 7) / 8 - 2) = n - 8 * ((n + 7) / 8 - 1) := by omega
  have hi : 1 + ((n + 7) / 8 - 2) = (n + 7) / 8 - 1 := by omega
  simp only [chunkPlan, h0, MAX_FRAME, h8, if_false, if_true]
  rw [chunkPlan_tail n hn n (n - 8) 1 (by omega) (by omega) (by omega), hq, hr, hi]

/-- The kinds and lengths of the chunk plan are the sequence of the specification. -/
theorem chunkPlan_typeLen (ty : ChunkKind → Nat) (n : Nat) (h1 : 1 ≤ n) :
    (chunkPlan n (n + 1) n 0).map (fun c => (ty c.1, c.2.1)) =
      expectedTypeLen (ty .individual) (ty .beginLong) (ty .continuationLong) (ty .endLong) n := by
  by_cases h8 : n ≤ 8
  · rw [chunkPlan_short n h1 h8]
    simp [expectedTypeLen, h8]
  · rw [chunkPlan_long n (by omega)]
    have hr : List.map ((fun c : ChunkKind × Nat × Nat => (ty c.1, c.2.1)) ∘
        fun k => (ChunkKind.continuationLong, 8, 1 + k)) (List.range ((n + 7) / 8 - 2)) =
        List.replicate ((n + 7) / 8 - 2) (ty ChunkKind.continuationLong, 8) := by
      rw [List.eq_replicate_iff]
      simp
    simp [expectedTypeLen, h8, hr]

theorem chunkPlan_typeLen_master (n : Nat) (h1 : 1 ≤ n) :
    (chunkPlan n (n + 1) n 0).map (fun c => (masterType c.1, c.2.1)) =
      expectedTypeLen 1 3 5 7 n :=
  chunkPlan_typeLen masterType n h1

theorem chunkPlan_typeLen_slave (n : Nat) (h1 : 1 ≤ n) :
    (chunkPlan n (n + 1) n 0).map (fun c => (slaveType c.1, c.2.1)) =
      expectedTypeLen 0 2 4 6 n :=
  chunkPlan_typeLen slaveType n h1

theorem masterType_lt (k : ChunkKind) : masterType k < 8 := by cases k <;> decide

theorem slaveType_lt (k : ChunkKind) : slaveType k < 8 := by cases k <;> decide

/-- Claim C3.  Identifier encoding: the identifiers of the frames the master
emits to slave `s` are `(t << 8) | s` with `t` = 1 for the individual frame, 3
for begin-long, 5 for continuation-long and 7 for end-long; those of a slave
numbered `a` are `(t << 8) | a` with `t` = 0, 2, 4, 6; every such identifier
is below `2^11` and its low 8 bits are the slave number. -/
theorem C3_identifier_encoding (sm : Master.State) (ss : Slave.State) (p : List Nat)
    (slave g n : Nat) (h1 : 1 ≤ n) (hn : n ≤ 255) (hslave : slave < 256)
    (hss : ss.slave < 256) :
    (newFrames sm.canTx (Master.Modbus_CAN_FixOutput sm p slave n g).canTx).map
          (fun f => f.ulMsgID) =
        (expectedTypeLen 1 3 5 7 n).map (fun tl => (tl.1 <<< 8) ||| slave) ∧
      (∀ f ∈ newFrames sm.canTx (Master.Modbus_CAN_FixOutput sm p slave n g).canTx,
        f.ulMsgID < 2 ^ 11 ∧ f.ulMsgID &&& 0xFF = slave) ∧
      (newFrames ss.canTx (Slave.Modbus_CAN_FixOutput ss p n).canTx).map
          (fun f => f.ulMsgID) =
        (expectedTypeLen 0 2 4 6 n).map (fun tl => (tl.1 <<< 8) ||| ss.slave) ∧
      (∀ f ∈ newFrames ss.canTx (Slave.Modbus_CAN_FixOutput ss p n).canTx,
        f.ulMsgID < 2 ^ 11 ∧ f.ulMsgID &&& 0xFF = ss.slave) := by
  rw [master_FixOutput_frames sm p slave n g hslave (by omega),
    slave_FixOutput_frames ss p n (by omega)]
  refine ⟨?_, ?_, ?_, ?_⟩
  · rw [← chunkPlan_typeLen_master n h1, List.map_map, List.map_map]
    apply List.map_congr_left
    intro c _
    simp [chunkFrame]
  · intro f hf
    obtain ⟨c, _, rfl⟩ := List.mem_map.mp hf
    have := id_bits (masterType c.1) (masterType_lt c.1) slave hslave
    exact ⟨this.2.2.2.1, this.2.2.1⟩
  · rw [← chunkPlan_typeLen_slave n h1, List.map_map, List.map_map]
    apply List.map_congr_left
    intro c _
    simp [chunkFrame]
  · intro f hf
    obtain ⟨c, _, rfl⟩ := List.mem_map.mp hf
    have := id_bits (slaveType c.1) (slaveType_lt c.1) ss.slave hss
    exact ⟨this.2.2.2.1, this.2.2.1⟩

/-- Witness of C3: the identifiers of a 17-byte request to slave 5 and of a
17-byte answer of slave 5. -/
theorem C3_identifier_encoding_witness :
    (newFrames exMaster.canTx
        (Master.Modbus_CAN_FixOutput exMaster (List.range 17) 5 17 20).canTx).map
        (fun f => f.ulMsgID) = [0x305, 0x505, 0x705] ∧
      (newFrames exSlave.canTx (Slave.Modbus_CAN_FixOutput exSlave (List.range 17) 17).canTx).map
        (fun f => f.ulMsgID) = [0x205, 0x405, 0x605] := by
  have h := C3_identifier_encoding exMaster exSlave (List.range 17) 5 20 17 (by decide)
    (by decide) (by decide) (by decide)
  exact ⟨h.1.trans (by decide), h.2.2.1.trans (by decide)⟩

/-- A slave's `Modbus_CAN_CallBack` on a frame with the master's type bits acts
on the reassembly variables as `rxStep`, and leaves the rest of the slave alone. -/
theorem slave_CallBack_view (r : Slave.State) (nd : Nat) (rx : tCANMsgObject) (k : ChunkKind)
    (hnd : Slave.newDataPending r nd) (hid : rx.ulMsgID &&& 0x700 = masterType k * 256) :
    Slave.rxView (Slave.Modbus_CAN_CallBack r nd rx) =
        rxStep (Slave.rxView r) k rx.ulMsgLen rx.pucMsgData ∧
      (Slave.Modbus_CAN_CallBack r nd rx).modbus_broadcast = r.modbus_broadcast ∧
      (Slave.Modbus_CAN_CallBack r nd rx).modbus_slave_state = r.modbus_slave_state := by
  unfold Slave.newDataPending at hnd
  simp only [Slave.Modbus_CAN_CallBack]
  rw [if_pos hnd]
  cases k <;> simp [hid, masterType, Slave.rxView, rxStep]

/-- The master's `Modbus_CAN_CallBack` on a frame with a slave's type bits acts
on the reassembly variables as `rxStep`, and leaves the main state alone. -/
theorem master_CallBack_view (m : Master.State) (nd : Nat) (rx : tCANMsgObject) (k : ChunkKind)
    (hnd : Master.newDataPending nd) (hid : rx.ulMsgID &&& 0x700 = slaveType k * 256) :
    Master.rxView (Master.Modbus_CAN_CallBack m nd rx) =
        rxStep (Master.rxView m) k rx.ulMsgLen rx.pucMsgData ∧
      (Master.Modbus_CAN_CallBack m nd rx).modbus_master_state = m.modbus_master_state := by
  unfold Master.newDataPending at hnd
  simp only [Master.Modbus_CAN_CallBack]
  rw [if_pos hnd]
  cases k <;> simp [hid, slaveType, Master.rxView, rxStep, Master.Modbus_CAN_RemoveTimeout]

/-- `rxStep` has the effect the specification describes. -/
theorem rxStep_effect (v : RxView) (k : ChunkKind) (n : Nat) (d : List Nat) (hn : n ≤ 8)
    (hlen : v.input_pdu.length = MAX_PDU) :
    rxEffect k n d v (rxStep v k n d) := by
  have hmod : n % 256 = n := Nat.mod_eq_of_lt (by omega)
  simp only [MAX_PDU] at hlen
  cases k
  · obtain ⟨_, h2⟩ := copyBytes_spec d 0 0 n v.input_pdu
    refine ⟨fun i hi => ?_, fun j hj => ?_, hmod, rfl⟩
    · show rd (copyBytes v.input_pdu 0 d 0 n) i = rd d i
      rw [h2, if_pos (by omega)]; simp
    · show rd (copyBytes v.input_pdu 0 d 0 n) j = rd v.input_pdu j
      rw [h2, if_neg (by omega)]
  · obtain ⟨_, h2⟩ := copyBytes_spec d 0 0 n v.input_pdu
    refine ⟨fun i hi => ?_, fun j hj => ?_, hmod, rfl, rfl⟩
    · show rd (copyBytes v.input_pdu 0 d 0 n) i = rd d i
      rw [h2, if_pos (by omega)]; simp
    · show rd (copyBytes v.input_pdu 0 d 0 n) j = rd v.input_pdu j
      rw [h2, if_neg (by omega)]
  · obtain ⟨_, h2⟩ := copyBytes_spec d v.modbus_index 0 n v.input_pdu
    refine ⟨fun i hi hb => ?_, fun j hj => ?_, rfl, fun h => Nat.mod_eq_of_lt h, rfl, rfl⟩
    · show rd (copyBytes v.input_pdu v.modbus_index d 0 n) (v.modbus_index + i) = rd d i
      simp only [MAX_PDU] at hb
      rw [h2, if_pos (by omega)]; simp
    · show rd (copyBytes v.input_pdu v.modbus_index d 0 n) j = rd v.input_pdu j
      rw [h2, if_neg (by omega)]
  · obtain ⟨_, h2⟩ := copyBytes_spec d v.modbus_index 0 n v.input_pdu
    refine ⟨fun i hi hb => ?_, fun j hj => ?_, rfl, fun h => Nat.mod_eq_of_lt h, rfl, rfl⟩
    · show rd (copyBytes v.input_pdu v.modbus_index d 0 n) (v.modbus_index + i) = rd d i
      simp only [MAX_PDU] at hb
      rw [h2, if_pos (by omega)]; simp
    · show rd (copyBytes v.input_pdu v.modbus_index d 0 n) j = rd v.input_pdu j
      rw [h2, if_neg (by omega)]

/-- Claim C4.  Receive classification: on a received frame with payload `d`
of length `k <= 8`, `Modbus_CAN_CallBack` (of a slave for the request types 1,
3, 5, 7; of the master for the answer types 0, 2, 4, 6) does the following by
frame type.  Individual: `input_pdu[0..k) := d`, `input_length := k`,
completion flag set.  Begin-long: `input_pdu[0..k) := d`, running index `:= k`,
completion flag unchanged.  Continuation-long: `d` is written at offset running
index (for the positions inside `input_pdu`) and the `unsigned char` index
advances by `k`, completion flag unchanged.  End-long: the same append, then
`input_length :=` running index and the completion flag is set.  The main
state is not changed. -/
theorem C4_receive_classification (r : Slave.State) (m : Master.State) (nd : Nat)
    (rx : tCANMsgObject) (k : ChunkKind) (hk : rx.ulMsgLen ≤ 8)
    (hrlen : r.input_pdu.length = MAX_PDU) (hmlen : m.input_pdu.length = MAX_PDU) :
    (Slave.newDataPending r nd → rx.ulMsgID &&& 0x700 = masterType k * 256 →
        rxEffect k rx.ulMsgLen rx.pucMsgData (Slave.rxView r)
            (Slave.rxView (Slave.Modbus_CAN_CallBack r nd rx)) ∧
          (Slave.Modbus_CAN_CallBack r nd rx).modbus_slave_state = r.modbus_slave_state) ∧
      (Master.newDataPending nd → rx.ulMsgID &&& 0x700 = slaveType k * 256 →
        rxEffect k rx.ulMsgLen rx.pucMsgData (Master.rxView m)
            (Master.rxView (Master.Modbus_CAN_CallBack m nd rx)) ∧
          (Master.Modbus_CAN_CallBack m nd rx).modbus_master_state = m.modbus_master_state) := by
  refine ⟨fun hnd hid => ?_, fun hnd hid => ?_⟩
  · obtain ⟨h1, _, h3⟩ := slave_CallBack_view r nd rx k hnd hid
    rw [h1]
    exact ⟨rxStep_effect _ k _ _ hk hrlen, h3⟩
  · obtain ⟨h1, h3⟩ := master_CallBack_view m nd rx k hnd hid
    rw [h1]
    exact ⟨rxStep_effect _ k _ _ hk hmlen, h3⟩

/-- Reassembly of the chunks of a plan, on the reassembly variables. -/
theorem rx_plan_tail (p : List Nat) (n : Nat) (hn : 8 < n) (hn255 : n ≤ 255) :
    ∀ (fuel aux it : Nat) (v : RxView),
    0 < aux → aux < n → aux < fuel → aux + 8 * it = n → v.modbus_index = 8 * it →
    v.input_pdu.length = MAX_PDU → (∀ j, j < 8 * it → rd v.input_pdu j = rd p j) →
    ((chunkPlan n fuel aux it).foldl
        (fun v c => rxStep v c.1 c.2.1 (txPayload p c.2.2 c.2.1)) v).modbus_complete_reception = 1 ∧
      ((chunkPlan n fuel aux it).foldl
        (fun v c => rxStep v c.1 c.2.1 (txPayload p c.2.2 c.2.1)) v).input_length = n ∧
      ((chunkPlan n fuel aux it).foldl
        (fun v c => rxStep v c.1 c.2.1 (txPayload p c.2.2 c.2.1)) v).input_pdu.length = MAX_PDU ∧
      ∀ j, j < n → rd ((chunkPlan n fuel aux it).foldl
        (fun v c => rxStep v c.1 c.2.1 (txPayload p c.2.2 c.2.1)) v).input_pdu j = rd p j := by
  intro fuel
  induction fuel with
  | zero => intro aux it v _ _ h; omega
  | succ fuel ih =>
    intro aux it v h0 hlt hf hsum hidx hlen hpre
    have hne : ¬ aux = 0 := by omega
    have hnn : ¬ n ≤ 8 := by omega
    simp only [MAX_PDU] at hlen
    by_cases h8 : aux ≤ 8
    · obtain ⟨c1, c2⟩ := copyBytes_spec (txPayload p it aux) v.modbus_index 0 aux v.input_pdu
      obtain ⟨_, t2⟩ := txPayload_spec p it aux h8
      simp only [chunkPlan, hne, MAX_FRAME, h8, hnn, if_true, if_false, Nat.sub_self,
        chunkPlan_zero, List.foldl_cons, List.foldl_nil, rxStep]
      refine ⟨trivial, ?_, ?_, ?_⟩
      · show (v.modbus_index + aux) % 256 = n
        rw [hidx]; omega
      · show (copyBytes v.input_pdu v.modbus_index (txPayload p it aux) 0 aux).length = MAX_PDU
        rw [c1, hlen]; rfl
      · intro j hj
        show rd (copyBytes v.input_pdu v.modbus_index (txPayload p it aux) 0 aux) j = rd p j
        rw [c2]
        by_cases hin : v.modbus_index ≤ j
        · rw [if_pos (by omega), Nat.zero_add, t2 _ (by omega)]
          simp only [MAX_FRAME]
          congr 1
          omega
        · rw [if_neg (by omega)]
          exact hpre j (by omega)
    · have hne2 : ¬ aux = n := by omega
      obtain ⟨c1, c2⟩ := copyBytes_spec (txPayload p it 8) v.modbus_index 0 8 v.input_pdu
      obtain ⟨_, t2⟩ := txPayload_spec p it 8 (by decide)
      simp only [chunkPlan, hne, MAX_FRAME, h8, hne2, if_false, List.foldl_cons]
      apply ih (aux - 8) (it + 1) _ (by omega) (by omega) (by omega) (by omega)
      · show (v.modbus_index + 8) % 256 = 8 * (it + 1)
        rw [hidx]; omega
      · show (copyBytes v.input_pdu v.modbus_index (txPayload p it 8) 0 8).length = MAX_PDU
        rw [c1, hlen]; rfl
      · intro j hj
        show rd (copyBytes v.input_pdu v.modbus_index (txPayload p it 8) 0 8) j = rd p j
        rw [c2]
        by_cases hin : v.modbus_index ≤ j
        · rw [if_pos (by omega), Nat.zero_add, t2 _ (by omega)]
          simp only [MAX_FRAME]
          congr 1
          omega
        · rw [if_neg (by omega)]
          exact hpre j (by omega)

/-- Reassembly of all chunks of a PDU of 1..255 bytes, from any reassembly
state with a 256-byte buffer. -/
theorem rx_plan_all (p : List Nat) (n : Nat) (h1 : 1 ≤ n) (hn255 : n ≤ 255) (v : RxView)
    (hlen : v.input_pdu.length = MAX_PDU) :
    ((chunkPlan n (n + 1) n 0).foldl
        (fun v c => rxStep v c.1 c.2.1 (txPayload p c.2.2 c.2.1)) v).modbus_complete_reception = 1 ∧
      ((chunkPlan n (n + 1) n 0).foldl
        (fun v c => rxStep v c.1 c.2.1 (txPayload p c.2.2 c.2.1)) v).input_length = n ∧
      ((chunkPlan n (n + 1) n 0).foldl
        (fun v c => rxStep v c.1 c.2.1 (txPayload p c.2.2 c.2.1)) v).input_pdu.length = MAX_PDU ∧
      ∀ j, j < n → rd ((chunkPlan n (n + 1) n 0).foldl
        (fun v c => rxStep v c.1 c.2.1 (txPayload p c.2.2 c.2.1)) v).input_pdu j = rd p j := by
  have hlen2 : v.input_pdu.length = 256 := hlen
  by_cases h8 : n ≤ 8
  · obtain ⟨c1, c2⟩ := copyBytes_spec (txPayload p 0 n) 0 0 n v.input_pdu
    obtain ⟨_, t2⟩ := txPayload_spec p 0 n h8
    rw [chunkPlan_short n h1 h8]
    simp only [List.foldl_cons, List.foldl_nil, rxStep]
    refine ⟨trivial, Nat.mod_eq_of_lt (by omega), ?_, ?_⟩
    · show (copyBytes v.input_pdu 0 (txPayload p 0 n) 0 n).length = MAX_PDU
      rw [c1, hlen]
    · intro j hj
      show rd (copyBytes v.input_pdu 0 (txPayload p 0 n) 0 n) j = rd p j
      rw [c2, if_pos (by omega), Nat.zero_add, t2 _ (by omega)]
      simp
  · have h0 : ¬ n = 0 := by omega
    obtain ⟨c1, c2⟩ := copyBytes_spec (txPayload p 0 8) 0 0 8 v.input_pdu
    obtain ⟨_, t2⟩ := txPayload_spec p 0 8 (by decide)
    simp only [chunkPlan, h0, MAX_FRAME, h8, if_false, if_true, List.foldl_cons]
    apply rx_plan_tail p n (by omega) hn255 n (n - 8) 1 _ (by omega) (by omega) (by omega)
      (by omega)
    · rfl
    · show (copyBytes v.input_pdu 0 (txPayload p 0 8) 0 8).length = MAX_PDU
      rw [c1, hlen]
    · intro j hj
      show rd (copyBytes v.input_pdu 0 (txPayload p 0 8) 0 8) j = rd p j
      rw [c2, if_pos (by omega), Nat.zero_add, t2 _ (by omega)]
      simp

/-- Feeding a slave the frames the master emits for a plan is the plan's
reassembly on the slave's reassembly variables. -/
theorem slave_rx_fold (p : List Nat) (slave nd : Nat) (hslave : slave < 256) :
    ∀ (plan : List (ChunkKind × Nat × Nat)) (r : Slave.State), Slave.newDataPending r nd →
    Slave.rxView ((plan.map (chunkFrame masterType slave p)).foldl
        (fun r f => Slave.Modbus_CAN_CallBack r nd f) r) =
      plan.foldl (fun v c => rxStep v c.1 c.2.1 (txPayload p c.2.2 c.2.1)) (Slave.rxView r) := by
  intro plan
  induction plan with
  | nil => intro r _; rfl
  | cons c plan ih =>
    intro r hnd
    have hid : (chunkFrame masterType slave p c).ulMsgID &&& 0x700 = masterType c.1 * 256 :=
      (id_bits (masterType c.1) (masterType_lt c.1) slave hslave).2.1
    obtain ⟨h1, h2, _⟩ := slave_CallBack_view r nd (chunkFrame masterType slave p c) c.1 hnd hid
    simp only [List.map_cons, List.foldl_cons]
    rw [ih _ (by unfold Slave.newDataPending at hnd ⊢; rw [h2]; exact hnd), h1]
    rfl

/-- Feeding the master the frames a slave emits for a plan is the plan's
reassembly on the master's reassembly variables. -/
theorem master_rx_fold (p : List Nat) (slave nd : Nat) (hslave : slave < 256)
    (hnd : Master.newDataPending nd) :
    ∀ (plan : List (ChunkKind × Nat × Nat)) (m : Master.State),
    Master.rxView ((plan.map (chunkFrame slaveType slave p)).foldl
        (fun m f => Master.Modbus_CAN_CallBack m nd f) m) =
      plan.foldl (fun v c => rxStep v c.1 c.2.1 (txPayload p c.2.2 c.2.1)) (Master.rxView m) := by
  intro plan
  induction plan with
  | nil => intro m; rfl
  | cons c plan ih =>
    intro m
    have hid : (chunkFrame slaveType slave p c).ulMsgID &&& 0x700 = slaveType c.1 * 256 :=
      (id_bits (slaveType c.1) (slaveType_lt c.1) slave hslave).2.1
    obtain ⟨h1, _⟩ := master_CallBack_view m nd (chunkFrame slaveType slave p c) c.1 hnd hid
    simp only [List.map_cons, List.foldl_cons]
    rw [ih _, h1]
    rfl

/-- A buffer whose first `|p|` reads are those of `p` starts with `p`. -/
theorem take_eq_of_rd (buf p : List Nat) (hlen : p.length ≤ buf.length)
    (h : ∀ j, j < p.length → rd buf j = rd p j) : buf.take p.length = p := by
  apply list_ext_rd
  · rw [List.length_take]; omega
  · intro j hj
    rw [List.length_take] at hj
    rw [rd_take, if_pos (by omega)]
    exact h j (by omega)

/-- Claim C1, amended.  CAN round trip: for every PDU `p` with
`1 <= |p| <= 255` and every slave number, feeding the frames that
`Modbus_CAN_FixOutput` emits for `p`, in order, to the peer's
`Modbus_CAN_CallBack` (a slave for the master's frames, the master for a
slave's frames; new data pending at each call, 256-byte `input_pdu`, any
earlier reassembly state) ends with the completion flag set,
`input_length = |p|` and `input_pdu[0..|p|) = p`. -/
theorem C1_can_round_trip (sm : Master.State) (ss : Slave.State) (rs : Slave.State)
    (rm : Master.State) (p : List Nat) (slave g nd : Nat)
    (h1 : 1 ≤ p.length) (h255 : p.length ≤ 255) (hslave : slave < 256) (hss : ss.slave < 256)
    (hrs : rs.input_pdu.length = MAX_PDU) (hrm : rm.input_pdu.length = MAX_PDU)
    (hnds : Slave.newDataPending rs nd) (hndm : Master.newDataPending nd) :
    (((newFrames sm.canTx (Master.Modbus_CAN_FixOutput sm p slave p.length g).canTx).foldl
          (fun r f => Slave.Modbus_CAN_CallBack r nd f) rs).modbus_complete_reception = 1 ∧
        ((newFrames sm.canTx (Master.Modbus_CAN_FixOutput sm p slave p.length g).canTx).foldl
          (fun r f => Slave.Modbus_CAN_CallBack r nd f) rs).input_length = p.length ∧
        ((newFrames sm.canTx (Master.Modbus_CAN_FixOutput sm p slave p.length g).canTx).foldl
          (fun r f => Slave.Modbus_CAN_CallBack r nd f) rs).input_pdu.take p.length = p) ∧
      (((newFrames ss.canTx (Slave.Modbus_CAN_FixOutput ss p p.length).canTx).foldl
          (fun m f => Master.Modbus_CAN_CallBack m nd f) rm).modbus_complete_reception = 1 ∧
        ((newFrames ss.canTx (Slave.Modbus_CAN_FixOutput ss p p.length).canTx).foldl
          (fun m f => Master.Modbus_CAN_CallBack m nd f) rm).input_length = p.length ∧
        ((newFrames ss.canTx (Slave.Modbus_CAN_FixOutput ss p p.length).canTx).foldl
          (fun m f => Master.Modbus_CAN_CallBack m nd f) rm).input_pdu.take p.length = p) := by
  rw [master_FixOutput_frames sm p slave p.length g hslave (by omega),
    slave_FixOutput_frames ss p p.length (by omega)]
  constructor
  · have hv := slave_rx_fold p slave nd hslave (chunkPlan p.length (p.length + 1) p.length 0) rs
      hnds
    obtain ⟨a1, a2, a3, a4⟩ := rx_plan_all p p.length h1 h255 (Slave.rxView rs) hrs
    rw [← hv] at a1 a2 a3 a4
    refine ⟨a1, a2, take_eq_of_rd _ p ?_ a4⟩
    have : (Slave.rxView ((List.map (chunkFrame masterType slave p)
        (chunkPlan p.length (p.length + 1) p.length 0)).foldl
        (fun r f => Slave.Modbus_CAN_CallBack r nd f) rs)).input_pdu.length = 256 := a3
    simp only [Slave.rxView] at this
    omega
  · have hv := master_rx_fold p ss.slave nd hss hndm
      (chunkPlan p.length (p.length + 1) p.length 0) rm
    obtain ⟨a1, a2, a3, a4⟩ := rx_plan_all p p.length h1 h255 (Master.rxView rm) hrm
    rw [← hv] at a1 a2 a3 a4
    refine ⟨a1, a2, take_eq_of_rd _ p ?_ a4⟩
    have : (Master.rxView ((List.map (chunkFrame slaveType ss.slave p)
        (chunkPlan p.length (p.length + 1) p.length 0)).foldl
        (fun m f => Master.Modbus_CAN_CallBack m nd f) rm)).input_pdu.length = 256 := a3
    simp only [Master.rxView] at this
    omega

/-- Witness of C1: a 17-byte PDU sent by the master to slave 5 and reassembled
by the slave, and the same PDU sent by the slave and reassembled by the master. -/
theorem C1_can_round_trip_witness :
    ((newFrames exMaster.canTx
          (Master.Modbus_CAN_FixOutput exMaster (List.range 17) 5 17 20).canTx).foldl
        (fun r f => Slave.Modbus_CAN_CallBack r 0x10000 f) exSlave).input_pdu.take 17 =
        List.range 17 ∧
      ((newFrames exSlave.canTx (Slave.Modbus_CAN_FixOutput exSlave (List.range 17) 17).canTx).foldl
        (fun m f => Master.Modbus_CAN_CallBack m 0x10000 f) exMaster).input_length = 17 := by
  have h := C1_can_round_trip exMaster exSlave exSlave exMaster (List.range 17) 5 20 0x10000
    (by decide) (by decide) (by decide) (by decide) (by decide) (by decide) (by decide)
    (by decide)
  exact ⟨h.1.2.2, h.2.2.1⟩

/-- Claim C1 as stated fails for `|p| = 256`: the parameter `pdu_length` is an
`unsigned char`, the length 256 reaches `Modbus_CAN_FixOutput` as 0, the loop
`while (aux_length)` emits no frame and the peer's completion flag stays
clear. -/
theorem C1_counterexample_256_bytes :
    (List.replicate 256 7).length = 256 ∧
      newFrames exMaster.canTx
        (Master.Modbus_CAN_FixOutput exMaster (List.replicate 256 7) 5 256 20).canTx = [] ∧
      ((newFrames exMaster.canTx
          (Master.Modbus_CAN_FixOutput exMaster (List.replicate 256 7) 5 256 20).canTx).foldl
        (fun r f => Slave.Modbus_CAN_CallBack r 0x10000 f) exSlave).modbus_complete_reception = 0 ∧
      newFrames exSlave.canTx
        (Slave.Modbus_CAN_FixOutput exSlave (List.replicate 256 7) 256).canTx = [] ∧
      ((newFrames exSlave.canTx
          (Slave.Modbus_CAN_FixOutput exSlave (List.replicate 256 7) 256).canTx).foldl
        (fun m f => Master.Modbus_CAN_CallBack m 0x10000 f) exMaster).modbus_complete_reception =
        0 := by
  decide

/-- Witness of C4: a continuation-long frame of 2 bytes received by a slave
whose running index is 8 is stored at offsets 8 and 9, the index becomes 10 and
the completion flag stays clear. -/
theorem C4_receive_classification_witness :
    (Slave.Modbus_CAN_CallBack exSlaveAfterBegin 0x10000
        ⟨0x505, 0, .MSG_OBJ_NO_FLAGS, 2, [0xAA, 0xBB]⟩).modbus_index = 10 ∧
      (Slave.Modbus_CAN_CallBack exSlaveAfterBegin 0x10000
        ⟨0x505, 0, .MSG_OBJ_NO_FLAGS, 2, [0xAA, 0xBB]⟩).modbus_complete_reception = 0 ∧
      rd (Slave.Modbus_CAN_CallBack exSlaveAfterBegin 0x10000
        ⟨0x505, 0, .MSG_OBJ_NO_FLAGS, 2, [0xAA, 0xBB]⟩).input_pdu 9 = 0xBB := by
  have h := (C4_receive_classification exSlaveAfterBegin exMaster 0x10000
    ⟨0x505, 0, .MSG_OBJ_NO_FLAGS, 2, [0xAA, 0xBB]⟩ .continuationLong (by decide) (by decide)
    (by decide)).1 (by decide) (by decide)
  exact ⟨h.1.2.2.1, h.1.2.2.2.2.1, h.1.1 1 (by decide) (by decide)⟩

/-- Claim C5 as stated fails: a slave that has received nothing since
`Modbus_CAN_Init` (running index 0, flag clear) and gets an end-long frame, and
the master waiting for a reply of which no begin-long frame arrived, both keep
their main state (it does not become `MODBUS_ERROR`) and mark the reception
complete with the 2 payload bytes as the whole PDU. -/
theorem C5_counterexample_end_without_begin :
    (exSlave.modbus_index = 0 ∧ exSlave.modbus_complete_reception = 0 ∧
        (Slave.Modbus_CAN_CallBack exSlave 0x10000
          ⟨0x705, 0, .MSG_OBJ_TX_INT_ENABLE, 2, [9, 9]⟩).modbus_slave_state = .MODBUS_IDLE ∧
        (Slave.Modbus_CAN_CallBack exSlave 0x10000
          ⟨0x705, 0, .MSG_OBJ_TX_INT_ENABLE, 2, [9, 9]⟩).modbus_complete_reception = 1 ∧
        (Slave.Modbus_CAN_CallBack exSlave 0x10000
          ⟨0x705, 0, .MSG_OBJ_TX_INT_ENABLE, 2, [9, 9]⟩).input_length = 2) ∧
      (exMasterWaiting.modbus_master_state = .MODBUS_WAITREPLY ∧
        exMasterWaiting.modbus_complete_reception = 0 ∧
        (Master.Modbus_CAN_CallBack exMasterWaiting 0x10000
          ⟨0x605, 0, .MSG_OBJ_TX_INT_ENABLE, 2, [9, 9]⟩).modbus_master_state =
          .MODBUS_WAITREPLY ∧
        (Master.Modbus_CAN_CallBack exMasterWaiting 0x10000
          ⟨0x605, 0, .MSG_OBJ_TX_INT_ENABLE, 2, [9, 9]⟩).modbus_complete_reception = 1) := by
  decide

/-- Claim C5, amended.  `Modbus_CAN_CallBack` keeps no record of whether a
begin-long frame was received.  When new data is pending, a continuation-long
or end-long frame is appended at the running index whatever was received
before, the main state is left unchanged, and an end-long frame marks the
reception complete.  The main state is set to `MODBUS_ERROR` when no new data
is pending in the receive object or when the type bits of the identifier are
none of the four the receiver expects (frames with the other request/answer
bit); in that case the reassembly variables and the completion flag are
unchanged. -/
theorem C5_out_of_sequence_amended (r : Slave.State) (m : Master.State) (nd : Nat)
    (rx : tCANMsgObject) :
    (Slave.newDataPending r nd →
        (rx.ulMsgID &&& 0x700 = 0x500 →
          (Slave.Modbus_CAN_CallBack r nd rx).modbus_slave_state = r.modbus_slave_state ∧
            Slave.rxView (Slave.Modbus_CAN_CallBack r nd rx) =
              rxStep (Slave.rxView r) .continuationLong rx.ulMsgLen rx.pucMsgData) ∧
        (rx.ulMsgID &&& 0x700 = 0x700 →
          (Slave.Modbus_CAN_CallBack r nd rx).modbus_slave_state = r.modbus_slave_state ∧
            (Slave.Modbus_CAN_CallBack r nd rx).modbus_complete_reception = 1 ∧
            Slave.rxView (Slave.Modbus_CAN_CallBack r nd rx) =
              rxStep (Slave.rxView r) .endLong rx.ulMsgLen rx.pucMsgData)) ∧
      ((¬ Slave.newDataPending r nd ∨
          (rx.ulMsgID &&& 0x700 ≠ 0x100 ∧ rx.ulMsgID &&& 0x700 ≠ 0x300 ∧
            rx.ulMsgID &&& 0x700 ≠ 0x500 ∧ rx.ulMsgID &&& 0x700 ≠ 0x700)) →
        (Slave.Modbus_CAN_CallBack r nd rx).modbus_slave_state = .MODBUS_ERROR ∧
          Slave.rxView (Slave.Modbus_CAN_CallBack r nd rx) = Slave.rxView r) ∧
      (Master.newDataPending nd →
        (rx.ulMsgID &&& 0x700 = 0x400 →
          (Master.Modbus_CAN_CallBack m nd rx).modbus_master_state = m.modbus_master_state ∧
            Master.rxView (Master.Modbus_CAN_CallBack m nd rx) =
              rxStep (Master.rxView m) .continuationLong rx.ulMsgLen rx.pucMsgData) ∧
        (rx.ulMsgID &&& 0x700 = 0x600 →
          (Master.Modbus_CAN_CallBack m nd rx).modbus_master_state = m.modbus_master_state ∧
            (Master.Modbus_CAN_CallBack m nd rx).modbus_complete_reception = 1 ∧
            Master.rxView (Master.Modbus_CAN_CallBack m nd rx) =
              rxStep (Master.rxView m) .endLong rx.ulMsgLen rx.pucMsgData)) ∧
      ((¬ Master.newDataPending nd ∨
          (rx.ulMsgID &&& 0x700 ≠ 0x000 ∧ rx.ulMsgID &&& 0x700 ≠ 0x200 ∧
            rx.ulMsgID &&& 0x700 ≠ 0x400 ∧ rx.ulMsgID &&& 0x700 ≠ 0x600)) →
        (Master.Modbus_CAN_CallBack m nd rx).modbus_master_state = .MODBUS_ERROR ∧
          Master.rxView (Master.Modbus_CAN_CallBack m nd rx) = Master.rxView m) := by
  refine ⟨fun hnd => ⟨fun hid => ?_, fun hid => ?_⟩, fun h => ?_,
    fun hnd => ⟨fun hid => ?_, fun hid => ?_⟩, fun h => ?_⟩
  · obtain ⟨h1, _, h3⟩ := slave_CallBack_view r nd rx .continuationLong hnd hid
    exact ⟨h3, h1⟩
  · obtain ⟨h1, _, h3⟩ := slave_CallBack_view r nd rx .endLong hnd hid
    refine ⟨h3, ?_, h1⟩
    have := congrArg RxView.modbus_complete_reception h1
    simpa [Slave.rxView, rxStep] using this
  · simp only [Slave.Modbus_CAN_CallBack]
    rcases h with h | ⟨a, b, c, d⟩
    · unfold Slave.newDataPending at h
      rw [if_neg h]
      simp [Slave.Modbus_SetMainState, Slave.rxView]
    · by_cases hp : Slave.newDataPending r nd
      · unfold Slave.newDataPending at hp
        rw [if_pos hp]
        simp [a, b, c, d, Slave.Modbus_SetMainState, Slave.rxView]
      · unfold Slave.newDataPending at hp
        rw [if_neg hp]
        simp [Slave.Modbus_SetMainState, Slave.rxView]
  · obtain ⟨h1, h3⟩ := master_CallBack_view m nd rx .continuationLong hnd hid
    exact ⟨h3, h1⟩
  · obtain ⟨h1, h3⟩ := master_CallBack_view m nd rx .endLong hnd hid
    refine ⟨h3, ?_, h1⟩
    have := congrArg RxView.modbus_complete_reception h1
    simpa [Master.rxView, rxStep] using this
  · simp only [Master.Modbus_CAN_CallBack]
    rcases h with h | ⟨a, b, c, d⟩
    · unfold Master.newDataPending at h
      rw [if_neg h]
      simp [Master.Modbus_SetMainState, Master.rxView]
    · by_cases hp : Master.newDataPending nd
      · unfold Master.newDataPending at hp
        rw [if_pos hp]
        simp [a, b, c, d, Master.Modbus_SetMainState, Master.rxView]
      · unfold Master.newDataPending at hp
        rw [if_neg hp]
        simp [Master.Modbus_SetMainState, Master.rxView]

/-- Witness of C5 (amended): the slave that has seen no begin-long frame
accepts an end-long frame and completes, and a frame with an answer type
(request bit clear) makes it enter `MODBUS_ERROR` with the flag unchanged. -/
theorem C5_out_of_sequence_amended_witness :
    (Slave.Modbus_CAN_CallBack exSlave 0x10000
        ⟨0x705, 0, .MSG_OBJ_TX_INT_ENABLE, 2, [9, 9]⟩).modbus_slave_state = .MODBUS_IDLE ∧
      (Slave.Modbus_CAN_CallBack exSlave 0x10000
        ⟨0x705, 0, .MSG_OBJ_TX_INT_ENABLE, 2, [9, 9]⟩).modbus_complete_reception = 1 ∧
      (Slave.Modbus_CAN_CallBack exSlave 0x10000
        ⟨0x405, 0, .MSG_OBJ_NO_FLAGS, 8, [1, 2, 3, 4, 5, 6, 7, 8]⟩).modbus_slave_state =
        .MODBUS_ERROR := by
  have h := C5_out_of_sequence_amended exSlave exMaster 0x10000
    ⟨0x705, 0, .MSG_OBJ_TX_INT_ENABLE, 2, [9, 9]⟩
  have g := C5_out_of_sequence_amended exSlave exMaster 0x10000
    ⟨0x405, 0, .MSG_OBJ_NO_FLAGS, 8, [1, 2, 3, 4, 5, 6, 7, 8]⟩
  exact ⟨((h.1 (by decide)).2 (by decide)).1, ((h.1 (by decide)).2 (by decide)).2.1,
    (g.2.1 (Or.inr (by decide))).1⟩

/-! ## Theorems: the retry policy of the master -/

theorem master_loop_zero (p : List Nat) (slave n g : Nat) (fuel it : Nat) (s : Master.State) :
    Master.Modbus_CAN_FixOutput_loop p slave n g fuel 0 it s = s := by
  cases fuel <;> simp [Master.Modbus_CAN_FixOutput_loop]

/-- The state the master's loop ends in for a unicast PDU: waiting for the
reply, unicast timer armed, the frames of the plan appended to the log. -/
theorem master_loop_unicast (p : List Nat) (slave n g : Nat) (hs : slave ≠ 0) :
    ∀ (fuel aux it : Nat) (s : Master.State), 0 < aux → aux < fuel →
    Master.Modbus_CAN_FixOutput_loop p slave n g fuel aux it s =
      { s with
        modbus_master_state := .MODBUS_WAITREPLY
        modbus_unicast_timeout := (Master.Modbus_CAN_UnicastTimeout s g).modbus_unicast_timeout
        timer1 := some (Master.Modbus_CAN_UnicastTimeout s g).modbus_unicast_timeout
        canTx := s.canTx ++ (chunkPlan n fuel aux it).map (chunkFrame masterType slave p) } := by
  intro fuel
  induction fuel with
  | zero => intro aux it s _ h; omega
  | succ fuel ih =>
    intro aux it s h0 hf
    have hne : ¬ aux = 0 := by omega
    by_cases h8 : aux ≤ MAX_FRAME
    · simp only [Master.Modbus_CAN_FixOutput_loop, chunkPlan, hne, h8, if_true, if_false,
        Nat.sub_self, master_loop_zero, chunkPlan_zero, hs, ne_eq, not_false_eq_true]
      by_cases hn : n ≤ MAX_FRAME <;>
        simp [hn, chunkFrame, masterType, Master.Modbus_CAN_UnicastTimeout,
          Master.Modbus_SetMainState]
    · simp only [MAX_FRAME] at h8
      simp only [Master.Modbus_CAN_FixOutput_loop, chunkPlan, hne, MAX_FRAME, h8, if_false]
      rw [ih (aux - 8) (it + 1) _ (by omega) (by omega)]
      by_cases hn : aux = n <;>
        simp [hn, chunkFrame, masterType, Master.Modbus_CAN_UnicastTimeout, MAX_FRAME]

theorem txCount_append (a b : List tCANMsgObject) :
    Master.txCount (a ++ b) = Master.txCount a + Master.txCount b := by
  simp [Master.txCount, List.countP_append]

/-- A chunked PDU has exactly one frame with the transmit interrupt enabled. -/
theorem txCount_plan (ty : ChunkKind → Nat) (slave : Nat) (p : List Nat) (n : Nat) (h1 : 1 ≤ n) :
    Master.txCount ((chunkPlan n (n + 1) n 0).map (chunkFrame ty slave p)) = 1 := by
  by_cases h8 : n ≤ 8
  · rw [chunkPlan_short n h1 h8]
    simp [Master.txCount, chunkFrame]
  · rw [chunkPlan_long n (by omega)]
    simp only [List.map_cons, List.map_append, List.map_map, List.map_nil, Master.txCount,
      List.countP_cons, List.countP_append, List.countP_nil]
    have hz : List.countP (fun f => decide (f.ulFlags = TxFlags.MSG_OBJ_TX_INT_ENABLE))
        (List.map (chunkFrame ty slave p ∘ fun k => (ChunkKind.continuationLong, 8, 1 + k))
          (List.range ((n + 7) / 8 - 2))) = 0 := by
      rw [List.countP_eq_zero]
      intro a ha
      obtain ⟨k, _, rfl⟩ := List.mem_map.mp ha
      simp [chunkFrame]
    rw [hz]
    simp [chunkFrame]

/-- `Modbus_CAN_FixOutput` of the master for a non-empty unicast PDU. -/
theorem master_FixOutput_unicast (s : Master.State) (p : List Nat) (slave n g : Nat)
    (hs0 : slave ≠ 0) (hs : slave < 256) (hn0 : 0 < n) (hn : n < 256) :
    Master.Modbus_CAN_FixOutput s p slave n g =
      { s with
        modbus_complete_transmission := 0
        modbus_complete_reception := 0
        RxObject_ulMsgID := slave
        RxObject_ulMsgIDMask := 0x1FF
        modbus_master_state := .MODBUS_WAITREPLY
        modbus_unicast_timeout := (Master.Modbus_CAN_UnicastTimeout s g).modbus_unicast_timeout
        timer1 := some (Master.Modbus_CAN_UnicastTimeout s g).modbus_unicast_timeout
        canTx := s.canTx ++ (chunkPlan n (n + 1) n 0).map (chunkFrame masterType slave p) } := by
  simp only [Master.Modbus_CAN_FixOutput, Nat.mod_eq_of_lt hs, Nat.mod_eq_of_lt hn, hs0, ne_eq,
    not_false_eq_true, if_true]
  rw [master_loop_unicast p slave n g hs0 (n + 1) n 0 _ hn0 (by omega)]
  simp [Master.Modbus_CAN_ReceptionConfiguration, Master.Modbus_CAN_UnicastTimeout]

theorem reqHeader_length (r : Modbus_FIFO_Item) (pdu : List Nat) :
    (Master.reqHeader r pdu).length = pdu.length := by
  simp [Master.reqHeader]

/-- A loop that only stores at positions different from `j` keeps `pdu[j]`. -/
theorem foldl_set_keeps (idx : Nat → Nat) (val : Nat → Nat) (j : Nat) :
    ∀ (l : List Nat) (b : List Nat), (∀ i ∈ l, idx i ≠ j) →
    ((l.foldl (fun a i => a.set (idx i) (val i)) b).length = b.length ∧
      rd (l.foldl (fun a i => a.set (idx i) (val i)) b) j = rd b j) := by
  intro l
  induction l with
  | nil => intro b _; simp
  | cons x l ih =>
    intro b h
    obtain ⟨h1, h2⟩ := ih (b.set (idx x) (val x)) (fun i hi => h i (List.mem_cons_of_mem _ hi))
    simp only [List.foldl_cons]
    rw [h1, h2, rd_set, if_neg (fun hc => h x (List.mem_cons_self _ _) hc.1)]
    simp

/-- The same for the loops that store two bytes per pass. -/
theorem foldl_set2_keeps (i1 i2 : Nat → Nat) (v1 v2 : Nat → Nat) (j : Nat) :
    ∀ (l : List Nat) (b : List Nat), (∀ i ∈ l, i1 i ≠ j ∧ i2 i ≠ j) →
    ((l.foldl (fun a i => (a.set (i1 i) (v1 i)).set (i2 i) (v2 i)) b).length = b.length ∧
      rd (l.foldl (fun a i => (a.set (i1 i) (v1 i)).set (i2 i) (v2 i)) b) j = rd b j) := by
  intro l
  induction l with
  | nil => intro b _; simp
  | cons x l ih =>
    intro b h
    obtain ⟨h1, h2⟩ := ih ((b.set (i1 x) (v1 x)).set (i2 x) (v2 x))
      (fun i hi => h i (List.mem_cons_of_mem _ hi))
    have hx := h x (List.mem_cons_self _ _)
    simp only [List.foldl_cons]
    rw [h1, h2, rd_set, if_neg (fun hc => hx.2 hc.1), rd_set, if_neg (fun hc => hx.1 hc.1)]
    simp

/-- `Modbus_App_Write_M_Coils` for 1..1968 coils: only the PDU buffer and its
length change, the buffer keeps its size and the length is 7..252. -/
theorem coils_ok (s : Master.State)
    (hD : Master.UI2 s.Modbus_App_Actual_Req 1 ≤ 1968)
    (hlen : s.Modbus_App_Req_pdu.length = 256) :
    Master.Modbus_App_Write_M_Coils s =
        { s with
          Modbus_App_Req_pdu := (Master.Modbus_App_Write_M_Coils s).Modbus_App_Req_pdu
          Modbus_App_L_Req_pdu := (Master.Modbus_App_Write_M_Coils s).Modbus_App_L_Req_pdu } ∧
      (Master.Modbus_App_Write_M_Coils s).Modbus_App_Req_pdu.length = 256 ∧
      0 < (Master.Modbus_App_Write_M_Coils s).Modbus_App_L_Req_pdu ∧
      (Master.Modbus_App_Write_M_Coils s).Modbus_App_L_Req_pdu < 256 := by
  refine ⟨rfl, ?_⟩
  simp only [Master.Modbus_App_Write_M_Coils]
  by_cases h8 : Master.UI2 s.Modbus_App_Actual_Req 1 % 8 = 0
  · obtain ⟨k1, k2⟩ := foldl_set_keeps (fun n => 6 + n % 256)
      (fun n => Master.coilByte s.userMem (rd s.Modbus_App_Actual_Req.Data 2)
        (Master.UI2 s.Modbus_App_Actual_Req 1) n) 5
      (List.range ((Master.UI2 s.Modbus_App_Actual_Req 1 + 7) / 8))
      ((Master.reqHeader s.Modbus_App_Actual_Req s.Modbus_App_Req_pdu).set 5
        ((Master.UI2 s.Modbus_App_Actual_Req 1 / 8) % 256))
      (fun i _ => by show 6 + i % 256 ≠ 5; omega)
    simp only [h8, if_true]
    rw [k1, k2, rd_set, List.length_set, reqHeader_length, hlen, if_pos (by omega)]
    refine ⟨rfl, ?_, ?_⟩ <;> omega
  · obtain ⟨k1, k2⟩ := foldl_set_keeps (fun n => 6 + n % 256)
      (fun n => Master.coilByte s.userMem (rd s.Modbus_App_Actual_Req.Data 2)
        (Master.UI2 s.Modbus_App_Actual_Req 1) n) 5
      (List.range ((Master.UI2 s.Modbus_App_Actual_Req 1 + 7) / 8))
      ((Master.reqHeader s.Modbus_App_Actual_Req s.Modbus_App_Req_pdu).set 5
        ((Master.UI2 s.Modbus_App_Actual_Req 1 / 8 + 1) % 256))
      (fun i _ => by show 6 + i % 256 ≠ 5; omega)
    simp only [h8, if_false]
    rw [k1, k2, rd_set, List.length_set, reqHeader_length, hlen, if_pos (by omega)]
    refine ⟨rfl, ?_, ?_⟩ <;> omega

/-- `Modbus_App_Write_M_Registers` for 1..123 registers. -/
theorem registers_ok (s : Master.State)
    (hD : Master.UI2 s.Modbus_App_Actual_Req 1 ≤ 123)
    (hlen : s.Modbus_App_Req_pdu.length = 256) :
    ∃ s1, Master.Modbus_App_Write_M_Registers s = some s1 ∧
      s1 = { s with Modbus_App_Req_pdu := s1.Modbus_App_Req_pdu
                    Modbus_App_L_Req_pdu := s1.Modbus_App_L_Req_pdu } ∧
      s1.Modbus_App_Req_pdu.length = 256 ∧ 0 < s1.Modbus_App_L_Req_pdu ∧
      s1.Modbus_App_L_Req_pdu < 256 := by
  obtain ⟨k1, k2⟩ := foldl_set2_keeps (fun i => 6 + 2 * i) (fun i => 7 + 2 * i)
    (fun i => (Master.ld16 s.userMem (rd s.Modbus_App_Actual_Req.Data 2) i >>> 8) % 256)
    (fun i => Master.ld16 s.userMem (rd s.Modbus_App_Actual_Req.Data 2) i % 256) 5
    (List.range (Master.UI2 s.Modbus_App_Actual_Req 1))
    ((Master.reqHeader s.Modbus_App_Actual_Req s.Modbus_App_Req_pdu).set 5
      ((Master.UI2 s.Modbus_App_Actual_Req 1 * 2) % 256))
    (fun i _ => by
      show 6 + 2 * i ≠ 5 ∧ 7 + 2 * i ≠ 5
      constructor <;> omega)
  simp only [Master.Modbus_App_Write_M_Registers]
  rw [if_neg (by omega)]
  refine ⟨_, rfl, rfl, ?_, ?_, ?_⟩
  · dsimp only
    rw [k1, List.length_set, reqHeader_length, hlen]
  · dsimp only
    rw [k2, rd_set]
    simp only [List.length_set, reqHeader_length, hlen]
    rw [if_pos (by decide)]
    omega
  · dsimp only
    omega

/-- `Modbus_App_Read_Write_M_Registers` (encoder) for 1..121 written registers. -/
theorem read_write_ok (s : Master.State)
    (hD : Master.UI2 s.Modbus_App_Actual_Req 3 ≤ 121)
    (hlen : s.Modbus_App_Req_pdu.length = 256) :
    ∃ s1, Master.Modbus_App_Read_Write_M_Registers s = some s1 ∧
      s1 = { s with Modbus_App_Req_pdu := s1.Modbus_App_Req_pdu
                    Modbus_App_L_Req_pdu := s1.Modbus_App_L_Req_pdu } ∧
      s1.Modbus_App_Req_pdu.length = 256 ∧ 0 < s1.Modbus_App_L_Req_pdu ∧
      s1.Modbus_App_L_Req_pdu < 256 := by
  obtain ⟨k1, k2⟩ := foldl_set2_keeps (fun i => 10 + 2 * i) (fun i => 11 + 2 * i)
    (fun i => (Master.ld16 s.userMem (rd s.Modbus_App_Actual_Req.Data 4) i >>> 8) % 256)
    (fun i => Master.ld16 s.userMem (rd s.Modbus_App_Actual_Req.Data 4) i % 256) 9
    (List.range (Master.UI2 s.Modbus_App_Actual_Req 3))
    ((((((Master.reqHeader s.Modbus_App_Actual_Req s.Modbus_App_Req_pdu).set 5
      ((Master.UI2 s.Modbus_App_Actual_Req 2 >>> 8) % 256)).set 6
      (Master.UI2 s.Modbus_App_Actual_Req 2 % 256)).set 7
      ((Master.UI2 s.Modbus_App_Actual_Req 3 >>> 8) % 256)).set 8
      (Master.UI2 s.Modbus_App_Actual_Req 3 % 256)).set 9
      ((Master.UI2 s.Modbus_App_Actual_Req 3 * 2) % 256))
    (fun i _ => by
      show 10 + 2 * i ≠ 9 ∧ 11 + 2 * i ≠ 9
      constructor <;> omega)
  simp only [Master.Modbus_App_Read_Write_M_Registers]
  rw [if_neg (by omega)]
  refine ⟨_, rfl, rfl, ?_, ?_, ?_⟩
  · dsimp only
    rw [k1]
    simp [reqHeader_length, hlen]
  · dsimp only
    rw [k2, rd_set]
    simp only [List.length_set, reqHeader_length, hlen]
    rw [if_pos (by decide)]
    omega
  · dsimp only
    omega

/-- The encoder step of `Modbus_App_Send` for a record accepted by the user
request functions: it returns, changes only the PDU buffer and its length,
keeps the buffer size and leaves a length in 1..255. -/
theorem encode_user (s : Master.State) (hu : Master.UserRequest s.Modbus_App_Actual_Req)
    (hlen : s.Modbus_App_Req_pdu.length = 256) :
    ∃ s1 g, Master.Modbus_App_Send_encode s = some (s1, g) ∧
      s1 = { s with Modbus_App_Req_pdu := s1.Modbus_App_Req_pdu
                    Modbus_App_L_Req_pdu := s1.Modbus_App_L_Req_pdu } ∧
      s1.Modbus_App_Req_pdu.length = 256 ∧ 0 < s1.Modbus_App_L_Req_pdu ∧
      s1.Modbus_App_L_Req_pdu < 256 := by
  have hstd : (Master.Modbus_App_Standard_Request s).Modbus_App_Req_pdu.length = 256 := by
    simp [Master.Modbus_App_Standard_Request, reqHeader_length, hlen]
  have hmask : (Master.Modbus_App_Mask_Write_Register s).Modbus_App_Req_pdu.length = 256 := by
    simp [Master.Modbus_App_Mask_Write_Register, reqHeader_length, hlen]
  rcases hu with ⟨hf, _⟩ | ⟨hf, _⟩ | ⟨hf, _⟩ | ⟨hf, _, hD, _⟩ | ⟨hf, _, hD, _⟩ |
    ⟨hf, _, _, _, _, _, hD, _⟩
  · obtain ⟨g, hg⟩ : ∃ g, Master.Modbus_App_Send_encode s =
        some (Master.Modbus_App_Standard_Request s, g) := by
      rcases hf with hf | hf <;> simp [Master.Modbus_App_Send_encode, hf]
    exact ⟨_, g, hg, rfl, hstd, by simp [Master.Modbus_App_Standard_Request],
        by simp [Master.Modbus_App_Standard_Request]⟩
  · obtain ⟨g, hg⟩ : ∃ g, Master.Modbus_App_Send_encode s =
        some (Master.Modbus_App_Standard_Request s, g) := by
      rcases hf with hf | hf <;> simp [Master.Modbus_App_Send_encode, hf]
    exact ⟨_, g, hg, rfl, hstd, by simp [Master.Modbus_App_Standard_Request],
        by simp [Master.Modbus_App_Standard_Request]⟩
  · rcases hf with hf | hf | hf
    · obtain ⟨g, hg⟩ : ∃ g, Master.Modbus_App_Send_encode s =
          some (Master.Modbus_App_Standard_Request s, g) := by
        simp [Master.Modbus_App_Send_encode, hf]
      exact ⟨_, g, hg, rfl, hstd, by simp [Master.Modbus_App_Standard_Request],
        by simp [Master.Modbus_App_Standard_Request]⟩
    · obtain ⟨g, hg⟩ : ∃ g, Master.Modbus_App_Send_encode s =
          some (Master.Modbus_App_Standard_Request s, g) := by
        simp [Master.Modbus_App_Send_encode, hf]
      exact ⟨_, g, hg, rfl, hstd, by simp [Master.Modbus_App_Standard_Request],
        by simp [Master.Modbus_App_Standard_Request]⟩
    · obtain ⟨g, hg⟩ : ∃ g, Master.Modbus_App_Send_encode s =
          some (Master.Modbus_App_Mask_Write_Register s, g) := by
        simp [Master.Modbus_App_Send_encode, hf]
      exact ⟨_, g, hg, rfl, hmask, by simp [Master.Modbus_App_Mask_Write_Register],
        by simp [Master.Modbus_App_Mask_Write_Register]⟩
  · obtain ⟨c1, c2, c3, c4⟩ := coils_ok s hD hlen
    obtain ⟨g, hg⟩ : ∃ g, Master.Modbus_App_Send_encode s =
        some (Master.Modbus_App_Write_M_Coils s, g) := by
      simp [Master.Modbus_App_Send_encode, hf]
    exact ⟨_, g, hg, c1, c2, c3, c4⟩
  · obtain ⟨s1, e1, c1, c2, c3, c4⟩ := registers_ok s hD hlen
    obtain ⟨g, hg⟩ : ∃ g, Master.Modbus_App_Send_encode s = some (s1, g) := by
      simp [Master.Modbus_App_Send_encode, hf, e1]
    exact ⟨_, g, hg, c1, c2, c3, c4⟩
  · obtain ⟨s1, e1, c1, c2, c3, c4⟩ := read_write_ok s hD hlen
    obtain ⟨g, hg⟩ : ∃ g, Master.Modbus_App_Send_encode s = some (s1, g) := by
      simp [Master.Modbus_App_Send_encode, hf, e1]
    exact ⟨_, g, hg, c1, c2, c3, c4⟩

theorem user_slave_lt (r : Modbus_FIFO_Item) (hu : Master.UserRequest r) : r.Slave < 256 := by
  rcases hu with ⟨_, h, _⟩ | ⟨_, h, _⟩ | ⟨_, h⟩ | ⟨_, h, _⟩ | ⟨_, h, _⟩ | ⟨_, h, _⟩ <;> omega

/-- `Modbus_App_Send` for a unicast record accepted by the user request
functions: it returns, the master waits for the reply with the completion flag
clear, exactly one PDU transmission is appended to the log, addressed to the
slave of the record, and nothing else of the transaction state changes. -/
theorem send_user (s : Master.State) (hu : Master.UserRequest s.Modbus_App_Actual_Req)
    (huni : s.Modbus_App_Actual_Req.Slave ≠ 0) (hlen : s.Modbus_App_Req_pdu.length = 256) :
    ∃ pdu L t frames,
      Master.Modbus_App_Send s = some
        { s with
          Modbus_App_Req_pdu := pdu
          Modbus_App_L_Req_pdu := L
          modbus_complete_transmission := 0
          modbus_complete_reception := 0
          RxObject_ulMsgID := s.Modbus_App_Actual_Req.Slave
          RxObject_ulMsgIDMask := 0x1FF
          modbus_master_state := .MODBUS_WAITREPLY
          modbus_unicast_timeout := t
          timer1 := some t
          canTx := s.canTx ++ frames } ∧
      pdu.length = 256 ∧ Master.txCount frames = 1 ∧
      ∀ f ∈ frames, f.ulMsgID &&& 0xFF = s.Modbus_App_Actual_Req.Slave := by
  obtain ⟨s1, g, he, hs1, hl, hL0, hL⟩ := encode_user s hu hlen
  have hslave := user_slave_lt _ hu
  have he2 : Master.Modbus_App_Send_encode s = some
      ({ s with Modbus_App_Req_pdu := s1.Modbus_App_Req_pdu
                Modbus_App_L_Req_pdu := s1.Modbus_App_L_Req_pdu }, g) := by
    rw [← hs1]; exact he
  refine ⟨s1.Modbus_App_Req_pdu, s1.Modbus_App_L_Req_pdu,
    (Master.Modbus_CAN_UnicastTimeout s g).modbus_unicast_timeout,
    (chunkPlan s1.Modbus_App_L_Req_pdu (s1.Modbus_App_L_Req_pdu + 1) s1.Modbus_App_L_Req_pdu
      0).map (chunkFrame masterType s.Modbus_App_Actual_Req.Slave s1.Modbus_App_Req_pdu),
    ?_, hl, ?_, ?_⟩
  · simp only [Master.Modbus_App_Send, he2, Option.map_some']
    rw [master_FixOutput_unicast _ _ _ _ _ huni hslave hL0 hL]
    rfl
  · exact txCount_plan masterType _ _ _ hL0
  · intro f hf
    obtain ⟨c, _, rfl⟩ := List.mem_map.mp hf
    exact (id_bits (masterType c.1) (masterType_lt c.1) _ hslave).2.2.1

/-- A unicast timeout while the reply is outstanding, with attempts left: the
controller re-sends the active request once and waits again. -/
theorem retryCycle_resend (s : Master.State)
    (hst : s.modbus_master_state = .MODBUS_WAITREPLY) (hrx : s.modbus_complete_reception = 0)
    (hu : Master.UserRequest s.Modbus_App_Actual_Req)
    (huni : s.Modbus_App_Actual_Req.Slave ≠ 0) (hlen : s.Modbus_App_Req_pdu.length = 256)
    (hlt : s.modbus_attempts < s.modbus_max_attempts) (hmax : s.modbus_max_attempts ≤ 255) :
    ∃ s1, Master.retryCycle s = some s1 ∧
      s1.modbus_master_state = .MODBUS_WAITREPLY ∧ s1.modbus_complete_reception = 0 ∧
      s1.modbus_forward_flag = 0 ∧
      s1.Modbus_App_Actual_Req = s.Modbus_App_Actual_Req ∧
      s1.Modbus_App_Req_pdu.length = 256 ∧
      s1.modbus_attempts = s.modbus_attempts + 1 ∧
      s1.modbus_max_attempts = s.modbus_max_attempts ∧
      s1.Modbus_FIFO_Error = s.Modbus_FIFO_Error ∧
      s1.Modbus_FIFO_Tx = s.Modbus_FIFO_Tx ∧
      Master.txCount s1.canTx = Master.txCount s.canTx + 1 := by
  have hmod : (s.modbus_attempts + 1) % 256 = s.modbus_attempts + 1 :=
    Nat.mod_eq_of_lt (by omega)
  obtain ⟨pdu, L, t, frames, hsend, hl, hc, _⟩ := send_user
    { s with modbus_master_state := .MODBUS_IDLE, modbus_attempts := s.modbus_attempts + 1,
             modbus_forward_flag := 0 } hu huni hlen
  have hcyc : Master.retryCycle s = Master.Modbus_App_Send
      { s with modbus_master_state := .MODBUS_IDLE, modbus_attempts := s.modbus_attempts + 1,
               modbus_forward_flag := 0 } := by
    simp [Master.retryCycle, Master.timeoutThenPoll, Master.Modbus_CAN_UnicastTimeoutHandler,
      hrx, Master.Modbus_CAN_Timeouts, Master.Modbus_GetMainState, hst,
      Master.Modbus_SetMainState, Master.Modbus_CAN_Controller,
      Master.Modbus_CAN_Repeat_Request, hlt, hmod, Master.Modbus_CAN_GetForwardFlag]
    rw [show ((fun q : Master.State × Nat => q.1) ∘ fun s1 => (s1, 1)) = id from rfl,
      Option.map_id, id]
  rw [hcyc, hsend]
  refine ⟨_, rfl, ?_⟩
  simp [txCount_append, hc, hl]

/-- A unicast timeout while the reply is outstanding, with no attempt left: the
controller enqueues the "no response" record, resets the attempt counter and
goes idle without transmitting. -/
theorem timeoutThenPoll_give_up (s : Master.State)
    (hst : s.modbus_master_state = .MODBUS_WAITREPLY) (hrx : s.modbus_complete_reception = 0)
    (hge : ¬ s.modbus_attempts < s.modbus_max_attempts) :
    Master.timeoutThenPoll s = some
      { s with
        modbus_master_state := .MODBUS_IDLE
        modbus_attempts := 1
        Modbus_App_Error_Msg := ⟨s.Modbus_App_Actual_Req, 0, 0⟩
        Modbus_FIFO_Error :=
          (Modbus_FIFO_E_Enqueue s.Modbus_FIFO_Error ⟨s.Modbus_App_Actual_Req, 0, 0⟩).1 } := by
  simp [Master.timeoutThenPoll, Master.Modbus_CAN_UnicastTimeoutHandler, hrx,
    Master.Modbus_CAN_Timeouts, Master.Modbus_GetMainState, hst, Master.Modbus_SetMainState,
    Master.Modbus_CAN_Controller, Master.Modbus_CAN_Repeat_Request, hge,
    Master.Modbus_App_No_Response]

/-- The retry cycles of an unanswered unicast request: `k` timeouts with `k`
attempts left give `k` more transmissions, leave the failure queue alone and
use the attempts up. -/
theorem retryCycles_resend (k : Nat) : ∀ (w : Master.State),
    w.modbus_master_state = .MODBUS_WAITREPLY → w.modbus_complete_reception = 0 →
    Master.UserRequest w.Modbus_App_Actual_Req → w.Modbus_App_Actual_Req.Slave ≠ 0 →
    w.Modbus_App_Req_pdu.length = 256 → w.modbus_forward_flag = 0 →
    w.modbus_attempts + k = w.modbus_max_attempts → w.modbus_max_attempts ≤ 255 →
    ∃ s1, Master.retryCycles k w = some s1 ∧
      s1.modbus_master_state = .MODBUS_WAITREPLY ∧ s1.modbus_complete_reception = 0 ∧
      s1.modbus_forward_flag = 0 ∧
      s1.Modbus_App_Actual_Req = w.Modbus_App_Actual_Req ∧
      s1.modbus_attempts = w.modbus_max_attempts ∧
      s1.modbus_max_attempts = w.modbus_max_attempts ∧
      s1.Modbus_FIFO_Error = w.Modbus_FIFO_Error ∧
      s1.Modbus_FIFO_Tx = w.Modbus_FIFO_Tx ∧
      Master.txCount s1.canTx = Master.txCount w.canTx + k := by
  induction k with
  | zero =>
    intro w hst hrx _ _ _ hff hk _
    exact ⟨w, rfl, hst, hrx, hff, rfl, by omega, rfl, rfl, rfl, rfl⟩
  | succ k ih =>
    intro w hst hrx hu huni hlen _ hk hmax
    obtain ⟨s1, h1, hst1, hrx1, hff1, hreq1, hlen1, hatt1, hmax1, hfe1, hft1, hc1⟩ :=
      retryCycle_resend w hst hrx hu huni hlen (by omega) hmax
    obtain ⟨s2, h2, hst2, hrx2, hff2, hreq2, hatt2, hmax2, hfe2, hft2, hc2⟩ :=
      ih s1 hst1 hrx1 (hreq1 ▸ hu) (hreq1 ▸ huni) hlen1 hff1 (by omega) (by omega)
    refine ⟨s2, ?_, hst2, hrx2, hff2, hreq2.trans hreq1, by omega, by omega,
      hfe2.trans hfe1, hft2.trans hft1, by omega⟩
    simp [Master.retryCycles, h1, h2]

/-- What `Modbus_App_Send` leaves behind for a unicast user request. -/
theorem send_user_state (s : Master.State)
    (hu : Master.UserRequest s.Modbus_App_Actual_Req)
    (huni : s.Modbus_App_Actual_Req.Slave ≠ 0) (hlen : s.Modbus_App_Req_pdu.length = 256) :
    ∃ w, Master.Modbus_App_Send s = some w ∧
      w.modbus_master_state = .MODBUS_WAITREPLY ∧ w.modbus_complete_reception = 0 ∧
      w.modbus_forward_flag = s.modbus_forward_flag ∧
      w.Modbus_App_Actual_Req = s.Modbus_App_Actual_Req ∧
      w.Modbus_App_Req_pdu.length = 256 ∧
      w.modbus_attempts = s.modbus_attempts ∧
      w.modbus_max_attempts = s.modbus_max_attempts ∧
      w.Modbus_FIFO_Error = s.Modbus_FIFO_Error ∧
      Master.txCount w.canTx = Master.txCount s.canTx + 1 := by
  obtain ⟨pdu, L, t, frames, hsend, hl, hc, _⟩ := send_user s hu huni hlen
  exact ⟨_, hsend, rfl, rfl, rfl, rfl, hl, rfl, rfl, rfl, by simp [txCount_append, hc]⟩

/-- The retry bound for a request sent as a first attempt.  A master with
`modbus_max_attempts = N`, `1 ≤ N`
(and `N ≤ 255`, the range of the `unsigned char` counter), sends a unicast
request accepted by the user request functions, and every transmission ends in
a unicast timeout.  Then the run returns: after `N - 1` retry cycles the
request has been transmitted exactly `N` times in total and the failure queue
is untouched; the poll after the last timeout transmits nothing, enqueues
exactly one failure record, the active request with response bytes `0, 0`,
sets the attempt counter to 1 and leaves the master idle with the retry flag
clear.  The attempt counter is 1 and the retry flag clear when the request is
sent, and the failure queue is taken inside its 25-record storage. -/
theorem retry_bound_first_attempt (N : Nat) (s : Master.State)
    (hN : 1 ≤ N) (hN255 : N ≤ 255) (hmax : s.modbus_max_attempts = N)
    (hatt : s.modbus_attempts = 1) (hff : s.modbus_forward_flag = 0)
    (hu : Master.UserRequest s.Modbus_App_Actual_Req)
    (huni : s.Modbus_App_Actual_Req.Slave ≠ 0) (hlen : s.Modbus_App_Req_pdu.length = 256)
    (hitems : s.Modbus_FIFO_Error.Items < MAX_E_ITEMS)
    (hhead : s.Modbus_FIFO_Error.Head < MAX_E_ITEMS)
    (hbuf : s.Modbus_FIFO_Error.Buffer.length = MAX_E_ITEMS) :
    ∃ s1 s2,
      (Master.Modbus_App_Send s).bind (Master.retryCycles (N - 1)) = some s1 ∧
      Master.timeoutThenPoll s1 = some s2 ∧
      Master.unansweredTransaction (N - 1) s = some s2 ∧
      Master.txCount s1.canTx = Master.txCount s.canTx + N ∧
      s1.modbus_attempts = N ∧
      s1.Modbus_FIFO_Error = s.Modbus_FIFO_Error ∧
      s2.canTx = s1.canTx ∧
      s2.Modbus_FIFO_Error.Items = s.Modbus_FIFO_Error.Items + 1 ∧
      s2.Modbus_FIFO_Error.Tail = s.Modbus_FIFO_Error.Tail ∧
      s2.Modbus_FIFO_Error.Head = (s.Modbus_FIFO_Error.Head + 1) % MAX_ITEMS ∧
      s2.Modbus_FIFO_Error.Buffer =
        s.Modbus_FIFO_Error.Buffer.set s.Modbus_FIFO_Error.Head
          ⟨s.Modbus_App_Actual_Req, 0, 0⟩ ∧
      s2.Modbus_FIFO_Error.Buffer.getD s.Modbus_FIFO_Error.Head default =
        ⟨s.Modbus_App_Actual_Req, 0, 0⟩ ∧
      s2.modbus_attempts = 1 ∧
      s2.modbus_master_state = .MODBUS_IDLE ∧
      s2.modbus_forward_flag = 0 ∧
      s2.Modbus_App_Actual_Req = s.Modbus_App_Actual_Req := by
  obtain ⟨w, hsend, hstw, hrxw, hffw, hreqw, hlw, hattw, hmaxw, hfew, hcw⟩ :=
    send_user_state s hu huni hlen
  obtain ⟨s1, h1, hst1, hrx1, hff1, hreq1, hatt1, hmax1, hfe1, hft1, hc1⟩ :=
    retryCycles_resend (N - 1) w hstw hrxw (hreqw ▸ hu) (hreqw ▸ huni) hlw (hffw.trans hff)
      (by omega) (by omega)
  have hA : (Master.Modbus_App_Send s).bind (Master.retryCycles (N - 1)) = some s1 := by
    rw [hsend]; exact h1
  have hge : ¬ s1.modbus_attempts < s1.modbus_max_attempts := by omega
  have hB := timeoutThenPoll_give_up s1 hst1 hrx1 hge
  have hfull : Modbus_FIFO_E_Full s.Modbus_FIFO_Error = 0 := by
    simp only [Modbus_FIFO_E_Full, MAX_ITEMS, MAX_E_ITEMS] at *
    rw [if_neg (by omega)]
  have hreq1b : s1.Modbus_App_Actual_Req = s.Modbus_App_Actual_Req := hreq1.trans hreqw
  have hfe1b : s1.Modbus_FIFO_Error = s.Modbus_FIFO_Error := hfe1.trans hfew
  have hE : (Modbus_FIFO_E_Enqueue s1.Modbus_FIFO_Error ⟨s1.Modbus_App_Actual_Req, 0, 0⟩).1 =
      { s.Modbus_FIFO_Error with
        Items := (s.Modbus_FIFO_Error.Items + 1) % 256
        Buffer := s.Modbus_FIFO_Error.Buffer.set s.Modbus_FIFO_Error.Head
          ⟨s.Modbus_App_Actual_Req, 0, 0⟩
        Head := (s.Modbus_FIFO_Error.Head + 1) % MAX_ITEMS } := by
    rw [hfe1b, hreq1b]
    simp [Modbus_FIFO_E_Enqueue, hfull]
  refine ⟨s1, _, hA, hB, ?_, ?_, ?_, hfe1b, rfl, ?_, ?_, ?_, ?_, ?_, rfl, rfl, hff1, hreq1b⟩
  · simp [Master.unansweredTransaction, hA, hB]
  · omega
  · omega
  · show (Modbus_FIFO_E_Enqueue s1.Modbus_FIFO_Error ⟨s1.Modbus_App_Actual_Req, 0, 0⟩).1.Items = _
    rw [hE]; simp only [MAX_E_ITEMS] at hitems
    show (s.Modbus_FIFO_Error.Items + 1) % 256 = _
    omega
  · show (Modbus_FIFO_E_Enqueue s1.Modbus_FIFO_Error ⟨s1.Modbus_App_Actual_Req, 0, 0⟩).1.Tail = _
    rw [hE]
  · show (Modbus_FIFO_E_Enqueue s1.Modbus_FIFO_Error ⟨s1.Modbus_App_Actual_Req, 0, 0⟩).1.Head = _
    rw [hE]
  · show (Modbus_FIFO_E_Enqueue s1.Modbus_FIFO_Error ⟨s1.Modbus_App_Actual_Req, 0, 0⟩).1.Buffer = _
    rw [hE]
  · show (Modbus_FIFO_E_Enqueue s1.Modbus_FIFO_Error
      ⟨s1.Modbus_App_Actual_Req, 0, 0⟩).1.Buffer.getD _ _ = _
    rw [hE]
    simp only [MAX_E_ITEMS] at hhead hbuf
    simp [List.getD, List.getElem?_set_self, hbuf, hhead]

/-- The retry bound on the master of `exMasterRead` (3 attempts, `Read Holding
Registers` to slave 5): its transmissions all time out, it sends the request 3
times, records one failure with response bytes `0, 0` and ends with the attempt
counter at 1. -/
theorem retry_bound_first_attempt_example :
    ∃ s2, Master.unansweredTransaction 2 exMasterRead = some s2 ∧
      Master.txCount s2.canTx = 3 ∧ s2.Modbus_FIFO_Error.Items = 1 ∧
      s2.Modbus_FIFO_Error.Buffer.getD 0 default = ⟨⟨5, 3, [16, 2, 0, 0, 0, 0]⟩, 0, 0⟩ ∧
      s2.modbus_attempts = 1 := by
  obtain ⟨s1, s2, _, _, hU, hc, _, _, hcx, hi, _, _, _, hb, ha, _⟩ :=
    retry_bound_first_attempt 3 exMasterRead (by decide) (by decide) rfl rfl rfl (by decide)
      (by decide) rfl (by decide) (by decide) rfl
  exact ⟨s2, hU, by rw [hcx, hc]; rfl, hi, hb, ha⟩

/-- Claim C6, evaluated.  A master with `modbus_max_attempts = 3` sends the read
request A (function 3, slave 5, PDU `03 00 10 00 02`) and every transmission
ends in a unicast timeout: A is transmitted 3 times, one failure record
(A, 0, 0) is enqueued and the attempt counter is 1, as claimed.  When the
application calls `Modbus_Read_I_Registers (6, 0, 1, ...)` (request B, PDU
`04 00 00 00 01`) after the first timeout of A has been handled (attempt
counter 2, retry flag set), B is sent at once and every transmission of B ends
in a unicast timeout: B is transmitted 2 times, not 3, before its failure
record (B, 0, 0) is enqueued, A has been transmitted once and no failure record
is made for it. -/
theorem C6_retry_bound_evaluated :
    ((Master.Modbus_Read_H_Registers exMasterUser 5 16 2 0).bind (fun r => Master.run r.1
        [.unicastTimeout, .poll, .poll, .unicastTimeout, .poll, .poll, .unicastTimeout,
          .poll])).map
        (fun s => s.canTx.map (fun f => (f.ulMsgID, f.pucMsgData))) =
        some [(0x105, [3, 0, 16, 0, 2]), (0x105, [3, 0, 16, 0, 2]), (0x105, [3, 0, 16, 0, 2])] ∧
      ((Master.Modbus_Read_H_Registers exMasterUser 5 16 2 0).bind (fun r => Master.run r.1
        [.unicastTimeout, .poll, .poll, .unicastTimeout, .poll, .poll, .unicastTimeout,
          .poll])).map
        (fun s => (s.modbus_max_attempts, s.modbus_attempts, s.Modbus_FIFO_Error.Items)) =
        some (3, 1, 1) ∧
      ((Master.Modbus_Read_H_Registers exMasterUser 5 16 2 0).bind (fun r => Master.run r.1
        [.unicastTimeout, .poll, .poll, .unicastTimeout, .poll, .poll, .unicastTimeout,
          .poll])).map
        (fun s => ((s.Modbus_FIFO_Error.Buffer.getD 0 default).Request.Slave,
          (s.Modbus_FIFO_Error.Buffer.getD 0 default).Request.Function,
          (s.Modbus_FIFO_Error.Buffer.getD 0 default).Response0,
          (s.Modbus_FIFO_Error.Buffer.getD 0 default).Response1)) = some (5, 3, 0, 0) ∧
      exRetryPending.map (fun s => (s.modbus_max_attempts, s.modbus_attempts,
        s.modbus_forward_flag)) = some (3, 2, 1) ∧
      exRetryPending.map (fun s => s.canTx.map (fun f => (f.ulMsgID, f.pucMsgData))) =
        some [(0x105, [3, 0, 16, 0, 2])] ∧
      ((exRetryPending.bind (fun s => Master.Modbus_Read_I_Registers s 6 0 1 8)).bind
        (fun r => Master.run r.1 [.unicastTimeout, .poll, .poll, .unicastTimeout, .poll])).map
        (fun s => s.canTx.map (fun f => (f.ulMsgID, f.pucMsgData))) =
        some [(0x105, [3, 0, 16, 0, 2]), (0x106, [4, 0, 0, 0, 1]), (0x106, [4, 0, 0, 0, 1])] ∧
      ((exRetryPending.bind (fun s => Master.Modbus_Read_I_Registers s 6 0 1 8)).bind
        (fun r => Master.run r.1 [.unicastTimeout, .poll, .poll, .unicastTimeout, .poll])).map
        (fun s => (s.modbus_max_attempts, s.modbus_attempts, s.Modbus_FIFO_Error.Items)) =
        some (3, 1, 1) ∧
      ((exRetryPending.bind (fun s => Master.Modbus_Read_I_Registers s 6 0 1 8)).bind
        (fun r => Master.run r.1 [.unicastTimeout, .poll, .poll, .unicastTimeout, .poll])).map
        (fun s => ((s.Modbus_FIFO_Error.Buffer.getD 0 default).Request.Slave,
          (s.Modbus_FIFO_Error.Buffer.getD 0 default).Request.Function,
          (s.Modbus_FIFO_Error.Buffer.getD 0 default).Response0,
          (s.Modbus_FIFO_Error.Buffer.getD 0 default).Response1)) = some (6, 4, 0, 0) := by
  decide

/-! ## Theorems: checksum tables and the reference CRC -/

/-- Every row of `auchCRCLo` is found back at its own index: the table has no
repeated entry. -/
theorem auchCRCLo_index : ∀ x, x < 256 → auchCRCLo.indexOf (rd auchCRCLo x) = x := by
  decide

theorem auchCRC_lt : ∀ x, x < 256 → rd auchCRCLo x < 256 ∧ rd auchCRCHi x < 256 := by
  decide

/-- The two tables hold the result of eight reference bit steps on the index:
`auchCRCLo` its high byte and `auchCRCHi` its low byte. -/
theorem auchCRC_reference : ∀ x, x < 256 →
    Nat.iterate crc16_bit 8 x = rd auchCRCLo x * 256 + rd auchCRCHi x := by
  decide

theorem auchCRCLo_inj (x y : Nat) (hx : x < 256) (hy : y < 256)
    (h : rd auchCRCLo x = rd auchCRCLo y) : x = y := by
  rw [← auchCRCLo_index x hx, ← auchCRCLo_index y hy, h]

theorem xor_lt_256 (a b : Nat) (ha : a < 256) (hb : b < 256) : a ^^^ b < 256 :=
  Nat.xor_lt_two_pow (n := 8) ha hb

/-- The loop is a left fold of `crcStep` over the bytes it reads. -/
theorem crcLoop_eq_foldl (m : List Nat) : ∀ (l : List Nat) (p : Nat) (st : Nat × Nat),
    (∀ i, i < l.length → rd m (p + i) = rd l i) →
    crcLoop m l.length p st = l.foldl crcStep st := by
  intro l
  induction l with
  | nil => intro p st _; rfl
  | cons b l ih =>
    intro p st h
    obtain ⟨hi, lo⟩ := st
    have h0 : rd m p = b := by simpa [rd] using h 0 (by simp)
    simp only [List.length_cons, crcLoop, List.foldl_cons, crcStep, h0]
    apply ih
    intro i hi2
    have := h (i + 1) (by simp; omega)
    rw [rd_cons_succ] at this
    rw [← this]; congr 1; omega

theorem crcLoop_self (m : List Nat) (st : Nat × Nat) :
    crcLoop m m.length 0 st = m.foldl crcStep st :=
  crcLoop_eq_foldl m m 0 st (fun i _ => by rw [Nat.zero_add])

theorem crcStep_lt (st : Nat × Nat) (b : Nat) (h1 : st.1 < 256) (h2 : st.2 < 256)
    (hb : b < 256) : (crcStep st b).1 < 256 ∧ (crcStep st b).2 < 256 := by
  have hx := xor_lt_256 _ _ h2 hb
  exact ⟨(auchCRC_lt _ hx).1, xor_lt_256 _ _ h1 (auchCRC_lt _ hx).2⟩

theorem crcFold_lt : ∀ (l : List Nat) (st : Nat × Nat), (∀ b ∈ l, b < 256) →
    st.1 < 256 → st.2 < 256 → (l.foldl crcStep st).1 < 256 ∧ (l.foldl crcStep st).2 < 256 := by
  intro l
  induction l with
  | nil => intro st _ h1 h2; exact ⟨h1, h2⟩
  | cons b l ih =>
    intro st hb h1 h2
    have hs := crcStep_lt st b h1 h2 (hb b (by simp))
    exact ih _ (fun c hc => hb c (by simp [hc])) hs.1 hs.2

/-- For a fixed byte the loop body is injective in the register pair. -/
theorem crcStep_inj_state (s t : Nat × Nat) (b : Nat) (hs : s.2 < 256) (ht : t.2 < 256)
    (hb : b < 256) (h : crcStep s b = crcStep t b) : s = t := by
  obtain ⟨s1, s2⟩ := s
  obtain ⟨t1, t2⟩ := t
  simp only [crcStep, Prod.mk.injEq] at h
  have hx : s2 ^^^ b = t2 ^^^ b :=
    auchCRCLo_inj _ _ (xor_lt_256 _ _ hs hb) (xor_lt_256 _ _ ht hb) h.1
  have h2 : s2 = t2 := by
    have := congrArg (fun v => v ^^^ b) hx
    simpa [Nat.xor_assoc] using this
  have h1 : s1 = t1 := by
    have h3 := h.2
    rw [hx] at h3
    have := congrArg (fun v => v ^^^ rd auchCRCHi (t2 ^^^ b)) h3
    simpa [Nat.xor_assoc] using this
  rw [h1, h2]

/-- For a fixed register pair the loop body is injective in the byte. -/
theorem crcStep_inj_byte (s : Nat × Nat) (b c : Nat) (hs : s.2 < 256)
    (hb : b < 256) (hc : c < 256) (h : crcStep s b = crcStep s c) : b = c := by
  simp only [crcStep, Prod.mk.injEq] at h
  have hx := auchCRCLo_inj _ _ (xor_lt_256 _ _ hs hb) (xor_lt_256 _ _ hs hc) h.1
  exact Nat.xor_right_inj.mp hx

theorem crcFold_inj : ∀ (l : List Nat) (s t : Nat × Nat), (∀ b ∈ l, b < 256) →
    s.1 < 256 → s.2 < 256 → t.1 < 256 → t.2 < 256 →
    l.foldl crcStep s = l.foldl crcStep t → s = t := by
  intro l
  induction l with
  | nil => intro s t _ _ _ _ _ h; exact h
  | cons b l ih =>
    intro s t hb s1 s2 t1 t2 h
    have hbb := hb b (by simp)
    have hs := crcStep_lt s b s1 s2 hbb
    have ht := crcStep_lt t b t1 t2 hbb
    exact crcStep_inj_state s t b s2 t2 hbb
      (ih _ _ (fun c hc => hb c (by simp [hc])) hs.1 hs.2 ht.1 ht.2 h)

theorem flip_ne (b j : Nat) : b ^^^ 2 ^ j ≠ b := by
  intro h
  have h2 : b ^^^ 2 ^ j = b ^^^ 0 := by simpa using h
  have := Nat.xor_right_inj.mp h2
  exact absurd this (Nat.pos_iff_ne_zero.mp (Nat.two_pow_pos j))

theorem flip_lt (b j : Nat) (hb : b < 256) (hj : j < 8) : b ^^^ 2 ^ j < 256 :=
  xor_lt_256 _ _ hb (by
    have : 2 ^ j < 2 ^ 8 := Nat.pow_lt_pow_right (by decide) hj
    simpa using this)

theorem flipBit_split (m : List Nat) (i j : Nat) (hi : i < m.length) :
    m = m.take i ++ rd m i :: m.drop (i + 1) ∧
      flipBit m i j = m.take i ++ (rd m i ^^^ 2 ^ j) :: m.drop (i + 1) := by
  constructor
  · rw [rd_of_lt m i hi]
    simp
  · unfold flipBit
    rw [List.set_eq_take_append_cons_drop, if_pos hi]

/-- A single flipped bit changes the register pair the loop ends with. -/
theorem crcFold_flip (m : List Nat) (i j : Nat) (hb : ∀ b ∈ m, b < 256) (hi : i < m.length)
    (hj : j < 8) :
    (flipBit m i j).foldl crcStep (0xFF, 0xFF) ≠ m.foldl crcStep (0xFF, 0xFF) := by
  obtain ⟨h1, h2⟩ := flipBit_split m i j hi
  have hbi : rd m i < 256 := by
    rw [rd_of_lt m i hi]; exact hb _ (List.get_mem _ _ _)
  have hpre : ∀ b ∈ m.take i, b < 256 := fun b h => hb b (List.mem_of_mem_take h)
  have hpost : ∀ b ∈ m.drop (i + 1), b < 256 := fun b h => hb b (List.mem_of_mem_drop h)
  have hst := crcFold_lt (m.take i) (0xFF, 0xFF) hpre (by decide) (by decide)
  have e1 : m.foldl crcStep (0xFF, 0xFF) =
      (m.drop (i + 1)).foldl crcStep
        (crcStep ((m.take i).foldl crcStep (0xFF, 0xFF)) (rd m i)) := by
    rw [← List.foldl_cons, ← List.foldl_append, ← h1]
  have e2 : (flipBit m i j).foldl crcStep (0xFF, 0xFF) =
      (m.drop (i + 1)).foldl crcStep
        (crcStep ((m.take i).foldl crcStep (0xFF, 0xFF)) (rd m i ^^^ 2 ^ j)) := by
    rw [← List.foldl_cons, ← List.foldl_append, ← h2]
  intro h
  rw [e1, e2] at h
  have hf := flip_lt _ j hbi hj
  have hs1 := crcStep_lt _ _ hst.1 hst.2 hf
  have hs2 := crcStep_lt _ _ hst.1 hst.2 hbi
  have h3 := crcFold_inj _ _ _ hpost hs1.1 hs1.2 hs2.1 hs2.2 h
  exact flip_ne _ _ (crcStep_inj_byte _ _ _ hst.2 hf hbi h3)

theorem flipBit_length (m : List Nat) (i j : Nat) : (flipBit m i j).length = m.length := by
  simp [flipBit]

/-- The function `Modbus_OSL_RTU_Mount_CRC` on a buffer that holds `m` followed by two free
bytes appends `uchCRCLo`, then `uchCRCHi`. -/
theorem mount_CRC_append (m : List Nat) (hlen : m.length ≤ 255) :
    Modbus_OSL_RTU_Mount_CRC (m ++ [0, 0]) m.length =
      m ++ [(crcLoop m m.length 0 (0xFF, 0xFF)).2, (crcLoop m m.length 0 (0xFF, 0xFF)).1] := by
  have hc : crcLoop (m ++ [0, 0]) m.length 0 (0xFF, 0xFF) = crcLoop m m.length 0 (0xFF, 0xFF) := by
    apply crcLoop_congr
    intro i hi
    rw [Nat.zero_add, rd_append, if_pos hi]
  simp only [Modbus_OSL_RTU_Mount_CRC]
  rw [Nat.mod_eq_of_lt (by omega : m.length < 256), hc]
  apply list_ext_rd
  · simp
  · intro k hk
    simp only [List.length_set, List.length_append, List.length_cons, List.length_nil] at hk
    rw [rd_set, rd_set, rd_append, rd_append]
    simp only [List.length_set, List.length_append, List.length_cons, List.length_nil]
    by_cases h1 : k = m.length + 1
    · subst h1
      rw [if_pos ⟨rfl, by omega⟩, if_neg (by omega)]
      simp [rd]
    · rw [if_neg (by omega)]
      by_cases h2 : k = m.length
      · subst h2
        rw [if_pos ⟨rfl, by omega⟩, if_neg (by omega)]
        simp [rd]
      · rw [if_neg (by omega), if_pos (by omega), if_pos (by omega)]

/-- Claim C11 (checksum single-bit detection).  Let `m` be a non-empty byte
sequence short enough for the frame `m ++ checksum` to have a one-byte length
(`|m| + 2 <= 255`, the range of `Modbus_OSL_RTU_L_Msg`).  The checksum
`Modbus_OSL_RTU_Mount_CRC` appends to `m` is `[uchCRCLo, uchCRCHi]`; when the
complete buffer holds `m` with bit `j` of byte `i` flipped, followed by that
untouched checksum, `Modbus_OSL_RTU_Check_CRC` marks the frame NOK and
`Modbus_OSL_RTU_Control_CRC` returns 0. -/
theorem C11_single_bit_detection (m Msg : List Nat) (i j : Nat)
    (hbytes : ∀ b ∈ m, b < 256) (hlen : m.length ≤ 253) (hi : i < m.length) (hj : j < 8)
    (hrx : Msg.take (m.length + 2) =
      flipBit m i j ++ (Modbus_OSL_RTU_Mount_CRC (m ++ [0, 0]) m.length).drop m.length) :
    (Modbus_OSL_RTU_Mount_CRC (m ++ [0, 0]) m.length).drop m.length =
        [(crcLoop m m.length 0 (0xFF, 0xFF)).2, (crcLoop m m.length 0 (0xFF, 0xFF)).1] ∧
      Modbus_OSL_RTU_Check_CRC Msg (m.length + 2) Msg m.length =
        some .MODBUS_OSL_Frame_NOK ∧
      Modbus_OSL_RTU_Control_CRC Msg (m.length + 2) = some (.MODBUS_OSL_Frame_NOK, 0) := by
  have hdrop : (Modbus_OSL_RTU_Mount_CRC (m ++ [0, 0]) m.length).drop m.length =
      [(crcLoop m m.length 0 (0xFF, 0xFF)).2, (crcLoop m m.length 0 (0xFF, 0xFF)).1] := by
    rw [mount_CRC_append m (by omega)]
    simp
  rw [hdrop] at hrx
  have hfl := flipBit_length m i j
  have hread : ∀ k, k < m.length + 2 → rd Msg k =
      rd (flipBit m i j ++ [(crcLoop m m.length 0 (0xFF, 0xFF)).2,
        (crcLoop m m.length 0 (0xFF, 0xFF)).1]) k := by
    intro k hk
    have := rd_take Msg (m.length + 2) k
    rw [if_pos hk, hrx] at this
    exact this.symm
  have hcrc : crcLoop Msg m.length 0 (0xFF, 0xFF) = (flipBit m i j).foldl crcStep (0xFF, 0xFF) := by
    rw [← hfl]
    apply crcLoop_eq_foldl
    intro k hk
    rw [Nat.zero_add, hread k (by omega), rd_append, if_pos hk]
  have hne := crcFold_flip m i j hbytes hi hj
  rw [← hcrc, ← crcLoop_self] at hne
  have hhi : rd Msg (m.length + 2 - 1) = (crcLoop m m.length 0 (0xFF, 0xFF)).1 := by
    rw [show m.length + 2 - 1 = m.length + 1 by omega, hread _ (by omega), rd_append,
      if_neg (by omega)]
    simp [rd, hfl]
  have hlo : rd Msg (m.length + 2 - 2) = (crcLoop m m.length 0 (0xFF, 0xFF)).2 := by
    rw [show m.length + 2 - 2 = m.length by omega, hread _ (by omega), rd_append,
      if_neg (by omega)]
    simp [rd, hfl]
  have hcheck : Modbus_OSL_RTU_Check_CRC Msg (m.length + 2) Msg m.length =
      some .MODBUS_OSL_Frame_NOK := by
    simp only [Modbus_OSL_RTU_Check_CRC]
    rw [Nat.mod_eq_of_lt (by omega : m.length < 256), if_neg (by omega), hhi, hlo]
    by_cases h1 : (crcLoop m m.length 0 (0xFF, 0xFF)).1 = (crcLoop Msg m.length 0 (0xFF, 0xFF)).1
    · rw [if_pos h1, if_neg (by omega)]
      have h2 : (crcLoop m m.length 0 (0xFF, 0xFF)).2 ≠
          (crcLoop Msg m.length 0 (0xFF, 0xFF)).2 := by
        intro h2
        exact hne (Prod.ext h1.symm h2.symm)
      rw [if_neg h2]
    · rw [if_neg h1]
  refine ⟨hdrop, hcheck, ?_⟩
  simp only [Modbus_OSL_RTU_Control_CRC]
  rw [show (m.length + 2 + 256 - 2) % 256 = m.length by omega, hcheck]

/-- Witness of C11: in the frame `11 03 00 00 00 01 86 9A`, flipping bit 0 of
the fourth byte gives `11 03 00 01 00 01 86 9A`, which is rejected. -/
theorem C11_single_bit_detection_witness :
    Modbus_OSL_RTU_Control_CRC ([17, 3, 0, 1, 0, 1, 0x86, 0x9A] ++ List.replicate 248 0) 8 =
      some (.MODBUS_OSL_Frame_NOK, 0) :=
  (C11_single_bit_detection [17, 3, 0, 0, 0, 1]
    ([17, 3, 0, 1, 0, 1, 0x86, 0x9A] ++ List.replicate 248 0) 3 0
    (by decide) (by decide) (by decide) (by decide) (by decide)).2.2

/-- A bit step commutes with xoring an even value into the register. -/
theorem crc16_bit_xor (a x : Nat) (ha : a % 2 = 0) :
    crc16_bit (a ^^^ x) = (a / 2) ^^^ crc16_bit x := by
  have hp : (a ^^^ x) % 2 = x % 2 := by rw [Nat.xor_mod_two_eq]; omega
  have hs : (a ^^^ x) >>> 1 = (a / 2) ^^^ (x >>> 1) := by
    rw [Nat.shiftRight_eq_div_pow, Nat.shiftRight_eq_div_pow, Nat.pow_one, Nat.xor_div_two]
  unfold crc16_bit
  rw [hp, hs]
  by_cases h : x % 2 = 1
  · rw [if_pos h, if_pos h, Nat.xor_assoc]
  · rw [if_neg h, if_neg h]

theorem crc16_iterate_xor : ∀ (k a x : Nat), a % 2 ^ k = 0 →
    Nat.iterate crc16_bit k (a ^^^ x) = (a / 2 ^ k) ^^^ Nat.iterate crc16_bit k x := by
  intro k
  induction k with
  | zero => intro a x _; simp
  | succ k ih =>
    intro a x ha
    have h2 : a % 2 = 0 := by
      have : 2 ∣ a := Nat.dvd_trans (Dvd.intro_left (2 ^ k) rfl) (Nat.dvd_of_mod_eq_zero ha)
      omega
    have hk : (a / 2) % 2 ^ k = 0 := by
      obtain ⟨c, hc⟩ := Nat.dvd_of_mod_eq_zero ha
      rw [hc, Nat.pow_succ, Nat.mul_comm (2 ^ k) 2, Nat.mul_assoc,
        Nat.mul_div_cancel_left _ (by decide : 0 < 2)]
      exact Nat.mul_mod_right _ _
    rw [Function.iterate_succ_apply, Function.iterate_succ_apply, crc16_bit_xor a x h2,
      ih (a / 2) (crc16_bit x) hk, Nat.div_div_eq_div_mul, Nat.pow_succ, Nat.mul_comm 2 (2 ^ k)]

/-- A high part and a low byte share no bit. -/
theorem high_add_low (a l : Nat) (hl : l < 256) : a * 256 + l = (a * 256) ^^^ l := by
  apply Nat.eq_of_testBit_eq
  intro i
  have e : a * 256 + l = 2 ^ 8 * a + l := by omega
  have e2 : a * 256 = 2 ^ 8 * a := by omega
  rw [Nat.testBit_xor, e, e2, Nat.testBit_mul_pow_two_add a (by simpa using hl),
    Nat.testBit_mul_pow_two]
  by_cases h : i < 8
  · simp [h, Nat.not_le.mpr h]
  · have hl2 : l.testBit i = false :=
      Nat.testBit_lt_two_pow (Nat.lt_of_lt_of_le (by simpa using hl)
        (Nat.pow_le_pow_right (by decide) (Nat.le_of_not_lt h)))
    simp [h, Nat.le_of_not_lt h, hl2]

/-- The loop body is one byte of the reference checksum on the register
`uchCRCHi * 256 + uchCRCLo`. -/
theorem crcStep_reference (st : Nat × Nat) (b : Nat) (h1 : st.1 < 256) (h2 : st.2 < 256)
    (hb : b < 256) :
    (crcStep st b).1 * 256 + (crcStep st b).2 = crc16_byte (st.1 * 256 + st.2) b := by
  have hx := xor_lt_256 _ _ h2 hb
  have ht := auchCRC_lt _ hx
  unfold crc16_byte
  rw [high_add_low _ _ h2, Nat.xor_assoc,
    crc16_iterate_xor 8 (st.1 * 256) (st.2 ^^^ b) (by omega), auchCRC_reference _ hx,
    show st.1 * 256 / 2 ^ 8 = st.1 by omega]
  simp only [crcStep]
  rw [high_add_low _ _ ht.2, high_add_low _ _ (xor_lt_256 _ _ h1 ht.2)]
  ac_rfl

theorem crcFold_reference : ∀ (l : List Nat) (st : Nat × Nat), (∀ b ∈ l, b < 256) →
    st.1 < 256 → st.2 < 256 →
    (l.foldl crcStep st).1 * 256 + (l.foldl crcStep st).2 =
      l.foldl crc16_byte (st.1 * 256 + st.2) := by
  intro l
  induction l with
  | nil => intro st _ _ _; rfl
  | cons b l ih =>
    intro st hb h1 h2
    have hbb := hb b (by simp)
    have hs := crcStep_lt st b h1 h2 hbb
    simp only [List.foldl_cons]
    rw [ih _ (fun c hc => hb c (by simp [hc])) hs.1 hs.2, crcStep_reference st b h1 h2 hbb]

/-- The register pair the loop of the source ends with, for the bytes of `m`:
the high and the low byte of the reference CRC-16/MODBUS. -/
theorem crcLoop_reference (m : List Nat) (hb : ∀ b ∈ m, b < 256) :
    crcLoop m m.length 0 (0xFF, 0xFF) = (crc16_modbus m / 256, crc16_modbus m % 256) := by
  have h := crcFold_reference m (0xFF, 0xFF) hb (by decide) (by decide)
  have hl := crcFold_lt m (0xFF, 0xFF) hb (by decide) (by decide)
  rw [crcLoop_self]
  have e : crc16_modbus m = (m.foldl crcStep (0xFF, 0xFF)).1 * 256 +
      (m.foldl crcStep (0xFF, 0xFF)).2 := by
    rw [h]; rfl
  apply Prod.ext
  · show _ = crc16_modbus m / 256
    omega
  · show _ = crc16_modbus m % 256
    omega

/-- Claim C12 (checksum reference equivalence).  For every byte sequence `m`
the value `uchCRCHi << 8 | uchCRCLo` the two-table loop of the source ends
with equals the bit-by-bit CRC-16/MODBUS reference `crc16_modbus m`
(reflected polynomial `0xA001`, initial value `0xFFFF`, no final xor).  For a
length that fits the `unsigned char` parameter, `Modbus_OSL_RTU_Mount_CRC`
appends the low then the high byte of that reference value, and
`Modbus_OSL_RTU_Check_CRC` marks the frame OK exactly when the last two bytes
of the complete frame are the low and the high byte of the reference value. -/
theorem C12_checksum_reference (m rest Msg : List Nat) (L_Msg : Nat)
    (hb : ∀ b ∈ m, b < 256) :
    ((crcLoop m m.length 0 (0xFF, 0xFF)).1 <<< 8 ||| (crcLoop m m.length 0 (0xFF, 0xFF)).2) =
        crc16_modbus m ∧
      (m.length ≤ 255 →
        Modbus_OSL_RTU_Mount_CRC (m ++ [0, 0]) m.length =
            m ++ [crc16_modbus m % 256, crc16_modbus m / 256] ∧
          (2 ≤ L_Msg →
            Modbus_OSL_RTU_Check_CRC Msg L_Msg (m ++ rest) m.length =
              some (if rd Msg (L_Msg - 1) = crc16_modbus m / 256 ∧
                  rd Msg (L_Msg - 2) = crc16_modbus m % 256
                then .MODBUS_OSL_Frame_OK else .MODBUS_OSL_Frame_NOK))) := by
  have href := crcLoop_reference m hb
  refine ⟨?_, fun hlen => ⟨?_, fun hL => ?_⟩⟩
  · rw [href]
    show (crc16_modbus m / 256) <<< 8 ||| crc16_modbus m % 256 = crc16_modbus m
    rw [Nat.shiftLeft_eq, Nat.mul_comm,
      ← Nat.mul_add_lt_is_or (by simpa using Nat.mod_lt (crc16_modbus m) (by decide : 0 < 256))]
    show 256 * (crc16_modbus m / 256) + crc16_modbus m % 256 = crc16_modbus m
    exact Nat.div_add_mod _ _
  · rw [mount_CRC_append m hlen, href]
  · have hc : crcLoop (m ++ rest) m.length 0 (0xFF, 0xFF) =
        crcLoop m m.length 0 (0xFF, 0xFF) := by
      apply crcLoop_congr
      intro i hi
      rw [Nat.zero_add, rd_append, if_pos hi]
    simp only [Modbus_OSL_RTU_Check_CRC]
    rw [Nat.mod_eq_of_lt (by omega : m.length < 256), hc, href, if_neg (by omega)]
    by_cases h1 : rd Msg (L_Msg - 1) = crc16_modbus m / 256
    · rw [if_pos h1, if_neg (by omega)]
      by_cases h2 : rd Msg (L_Msg - 2) = crc16_modbus m % 256
      · rw [if_pos h2, if_pos ⟨h1, h2⟩]
      · rw [if_neg h2, if_neg (fun h => h2 h.2)]
    · rw [if_neg h1, if_neg (fun h => h1 h.1)]

/-- Witness of C12: the check value of CRC-16/MODBUS, `0x4B37` for the ASCII
digits `123456789`, is what the two-table loop computes, and `37 4B` is what
`Modbus_OSL_RTU_Mount_CRC` appends. -/
theorem C12_checksum_reference_witness :
    crc16_modbus [0x31, 0x32, 0x33, 0x34, 0x35, 0x36, 0x37, 0x38, 0x39] = 0x4B37 ∧
      ((crcLoop [0x31, 0x32, 0x33, 0x34, 0x35, 0x36, 0x37, 0x38, 0x39] 9 0 (0xFF, 0xFF)).1 <<< 8 |||
        (crcLoop [0x31, 0x32, 0x33, 0x34, 0x35, 0x36, 0x37, 0x38, 0x39] 9 0 (0xFF, 0xFF)).2) =
        0x4B37 ∧
      Modbus_OSL_RTU_Mount_CRC ([0x31, 0x32, 0x33, 0x34, 0x35, 0x36, 0x37, 0x38, 0x39] ++ [0, 0])
        9 = [0x31, 0x32, 0x33, 0x34, 0x35, 0x36, 0x37, 0x38, 0x39, 0x37, 0x4B] := by
  have h := C12_checksum_reference [0x31, 0x32, 0x33, 0x34, 0x35, 0x36, 0x37, 0x38, 0x39] []
    [] 2 (by decide)
  have hv : crc16_modbus [0x31, 0x32, 0x33, 0x34, 0x35, 0x36, 0x37, 0x38, 0x39] = 0x4B37 := by
    decide
  refine ⟨hv, h.1.trans hv, ?_⟩
  have h2 := (h.2 (by decide)).1
  rw [hv] at h2
  exact h2

/-! ## Theorems: serial output -/

theorem map_rd_range (l : List Nat) : ∀ (n : Nat), n ≤ l.length →
    (List.range n).map (rd l) = l.take n := by
  intro n hn
  apply list_ext_rd
  · simp [hn]
  · intro j hj
    simp only [List.length_map, List.length_range] at hj
    rw [rd_take, if_pos hj, rd_of_lt _ _ (by simpa using hj)]
    simp

/-- Claim C13, amended.  Serial frame layout: for every slave byte `s` and
every PDU `p` of length `L <= 252`, `Modbus_OSL_RTU_Mount_ADU` writes
`adu[0] = s`, `adu[1..L] = p`, `adu[L+1]` = low byte and `adu[L+2]` = high byte
of the CRC-16/MODBUS of `adu[0..L]`, and the slave's `Modbus_OSL_Output` in RTU
mode transmits exactly these `L + 3` bytes in this order. -/
theorem C13_serial_frame_layout (st : Serial.State) (p : List Nat)
    (hp : p.length ≤ 252) (hbytes : ∀ b ∈ p, b < 256) (hs : st.Modbus_OSL_Slave_Adress < 256)
    (hmode : st.Modbus_OSL_Mode = .MODBUS_OSL_MODE_RTU)
    (hadu : st.Modbus_OSL_Response_ADU.length = 256) :
    (Modbus_OSL_RTU_Mount_ADU p st.Modbus_OSL_Slave_Adress p.length
        st.Modbus_OSL_Response_ADU).take (p.length + 3) =
        st.Modbus_OSL_Slave_Adress :: p ++
          [crc16_modbus (st.Modbus_OSL_Slave_Adress :: p) % 256,
            crc16_modbus (st.Modbus_OSL_Slave_Adress :: p) / 256] ∧
      (Serial.Modbus_OSL_Output st p p.length).uartTx =
        st.uartTx ++ (st.Modbus_OSL_Slave_Adress :: p ++
          [crc16_modbus (st.Modbus_OSL_Slave_Adress :: p) % 256,
            crc16_modbus (st.Modbus_OSL_Slave_Adress :: p) / 256]) ∧
      (Serial.Modbus_OSL_Output st p p.length).Modbus_OSL_L_Response_ADU = p.length + 3 ∧
      (Serial.Modbus_OSL_Output st p p.length).Modbus_OSL_State = .MODBUS_OSL_RTU_EMISSION := by
  obtain ⟨hl, hlay⟩ := mount_ADU_layout p st.Modbus_OSL_Slave_Adress st.Modbus_OSL_Response_ADU
    (by omega) hadu
  have href := crcLoop_reference (st.Modbus_OSL_Slave_Adress :: p) (by
    intro b hb
    rcases List.mem_cons.mp hb with h | h
    · rw [h]; exact hs
    · exact hbytes b h)
  rw [List.length_cons] at href
  rw [href] at hlay
  have hL : p.length % 256 = p.length := Nat.mod_eq_of_lt (by omega)
  have hL3 : (p.length + 3) % 256 = p.length + 3 := Nat.mod_eq_of_lt (by omega)
  refine ⟨hlay, ?_, ?_, ?_⟩
  · simp only [Serial.Modbus_OSL_Output, hmode, Serial.Modbus_OSL_State_Set,
      Serial.Modbus_OSL_Send, hL, hL3, if_true]
    rw [map_rd_range _ _ (by omega), hlay]
  · simp only [Serial.Modbus_OSL_Output, hmode, Serial.Modbus_OSL_State_Set,
      Serial.Modbus_OSL_Send, hL, hL3, if_true]
  · simp only [Serial.Modbus_OSL_Output, hmode, Serial.Modbus_OSL_State_Set,
      Serial.Modbus_OSL_Send, if_true]

/-- Witness of C13: slave 5 answering with the PDU `03 02 00 2A` transmits
`05 03 02 00 2A` followed by the checksum bytes `C8 5B`. -/
theorem C13_serial_frame_layout_witness :
    (Serial.Modbus_OSL_Output exSerial [3, 2, 0, 0x2A] 4).uartTx =
      [5, 3, 2, 0, 0x2A, 0xC8, 0x5B] := by
  have h := (C13_serial_frame_layout exSerial [3, 2, 0, 0x2A] (by decide) (by decide)
    (by decide) rfl rfl).2.1
  exact h.trans (by decide)

/-- Claim C13 as stated fails for a PDU of 253 bytes, the largest the serial
build declares (`MAX_PDU`): the frame is mounted in the 256-byte buffer, but
its length `253 + 3` is stored in the `unsigned char`
`Modbus_OSL_L_Response_ADU` as 0 and `Modbus_OSL_Send` transmits no byte. -/
theorem C13_counterexample_253_bytes :
    (List.replicate 253 7).length = 253 ∧
      rd (Serial.Modbus_OSL_Output exSerial (List.replicate 253 7) 253).Modbus_OSL_Response_ADU 0
        = 5 ∧
      (Serial.Modbus_OSL_Output exSerial (List.replicate 253 7) 253).Modbus_OSL_L_Response_ADU
        = 0 ∧
      (Serial.Modbus_OSL_Output exSerial (List.replicate 253 7) 253).uartTx = [] := by
  decide

/-! ## Theorems: the slave's request management -/

/-- The checking functions leave the request untouched and return 0, 1, 2 or
3; after a 0 the quantities are small enough for the loops of the process
functions to end. -/
theorem check_request_data (a : Slave.App) (b : Nat) :
    (Slave.Modbus_App_Check_Request_Data a b).1.Modbus_App_Msg = a.Modbus_App_Msg ∧
      (Slave.Modbus_App_Check_Request_Data a b).2 ≤ 3 ∧
      ((Slave.Modbus_App_Check_Request_Data a b).2 = 0 →
        (rd a.Modbus_App_Msg 0 = 3 ∨ rd a.Modbus_App_Msg 0 = 4 ∨ rd a.Modbus_App_Msg 0 = 16 ∨
            rd a.Modbus_App_Msg 0 = 23 →
          (Slave.Modbus_App_Check_Request_Data a b).1.Modbus_App_Quantity < 256) ∧
        (rd a.Modbus_App_Msg 0 = 23 → Slave.be16 a.Modbus_App_Msg 3 < 256) ∧
        (rd a.Modbus_App_Msg 0 = 15 →
          (Slave.Modbus_App_Check_Request_Data a b).1.Modbus_App_Value < 256) ∧
        (rd a.Modbus_App_Msg 0 = 1 ∨ rd a.Modbus_App_Msg 0 = 2 ∨ rd a.Modbus_App_Msg 0 = 3 ∨
          rd a.Modbus_App_Msg 0 = 4 ∨ rd a.Modbus_App_Msg 0 = 5 ∨ rd a.Modbus_App_Msg 0 = 6 ∨
          rd a.Modbus_App_Msg 0 = 15 ∨ rd a.Modbus_App_Msg 0 = 16 ∨
          rd a.Modbus_App_Msg 0 = 22 ∨ rd a.Modbus_App_Msg 0 = 23)) := by
  unfold Slave.Modbus_App_Check_Request_Data
  dsimp only
  by_cases h1 : rd a.Modbus_App_Msg 0 = 1
  · rw [if_pos h1]
    unfold Slave.Modbus_App_Read_Coils_Check
    dsimp only
    split_ifs <;> simp_all
  rw [if_neg h1]
  by_cases h2 : rd a.Modbus_App_Msg 0 = 2
  · rw [if_pos h2]
    unfold Slave.Modbus_App_Read_D_Inputs_Check
    dsimp only
    split_ifs <;> simp_all
  rw [if_neg h2]
  by_cases h3 : rd a.Modbus_App_Msg 0 = 3
  · rw [if_pos h3]
    unfold Slave.Modbus_App_Read_H_Registers_Check
    dsimp only
    (split_ifs <;> simp_all)
    omega
  rw [if_neg h3]
  by_cases h4 : rd a.Modbus_App_Msg 0 = 4
  · rw [if_pos h4]
    unfold Slave.Modbus_App_Read_I_Registers_Check
    dsimp only
    (split_ifs <;> simp_all)
    omega
  rw [if_neg h4]
  by_cases h5 : rd a.Modbus_App_Msg 0 = 5
  · rw [if_pos h5]
    unfold Slave.Modbus_App_Write_Coil_Check
    dsimp only
    split_ifs <;> simp_all
  rw [if_neg h5]
  by_cases h6 : rd a.Modbus_App_Msg 0 = 6
  · rw [if_pos h6]
    unfold Slave.Modbus_App_Write_Register_Check
    dsimp only
    split_ifs <;> simp_all
  rw [if_neg h6]
  by_cases h15 : rd a.Modbus_App_Msg 0 = 15
  · rw [if_pos h15]
    unfold Slave.Modbus_App_Write_M_Coils_Check
    dsimp only
    split_ifs <;> simp_all <;> omega
  rw [if_neg h15]
  by_cases h16 : rd a.Modbus_App_Msg 0 = 16
  · rw [if_pos h16]
    unfold Slave.Modbus_App_Write_M_Registers_Check
    dsimp only
    (split_ifs <;> simp_all)
    omega
  rw [if_neg h16]
  by_cases h22 : rd a.Modbus_App_Msg 0 = 22
  · rw [if_pos h22]
    unfold Slave.Modbus_App_Mask_Write_Register_Check
    dsimp only
    split_ifs <;> simp_all
  rw [if_neg h22]
  by_cases h23 : rd a.Modbus_App_Msg 0 = 23
  · rw [if_pos h23]
    unfold Slave.Modbus_App_Read_Write_M_Registers_Check
    dsimp only
    (split_ifs <;> simp_all)
    omega
  rw [if_neg h23]
  simp

/-- After a check that returned 0 the process function of the request
returns. -/
theorem process_after_check (a : Slave.App) (b : Nat)
    (h : (Slave.Modbus_App_Check_Request_Data a b).2 = 0) :
    ∃ a1, Slave.Modbus_App_Process_Action (Slave.Modbus_App_Check_Request_Data a b).1 =
      some a1 := by
  obtain ⟨hm, _, h0⟩ := check_request_data a b
  obtain ⟨hq, hq23, hv, hf⟩ := h0 h
  unfold Slave.Modbus_App_Process_Action
  dsimp only
  rw [hm]
  by_cases h1 : rd a.Modbus_App_Msg 0 = 1
  · rw [if_pos h1]; exact ⟨_, rfl⟩
  rw [if_neg h1]
  by_cases h2 : rd a.Modbus_App_Msg 0 = 2
  · rw [if_pos h2]; exact ⟨_, rfl⟩
  rw [if_neg h2]
  by_cases h3 : rd a.Modbus_App_Msg 0 = 3
  · rw [if_pos h3]
    have := hq (Or.inl h3)
    unfold Slave.Modbus_App_Read_H_Registers
    dsimp only
    rw [if_neg (by omega)]
    exact ⟨_, rfl⟩
  rw [if_neg h3]
  by_cases h4 : rd a.Modbus_App_Msg 0 = 4
  · rw [if_pos h4]
    have := hq (Or.inr (Or.inl h4))
    unfold Slave.Modbus_App_Read_I_Registers
    dsimp only
    rw [if_neg (by omega)]
    exact ⟨_, rfl⟩
  rw [if_neg h4]
  by_cases h5 : rd a.Modbus_App_Msg 0 = 5
  · rw [if_pos h5]; exact ⟨_, rfl⟩
  rw [if_neg h5]
  by_cases h6 : rd a.Modbus_App_Msg 0 = 6
  · rw [if_pos h6]; exact ⟨_, rfl⟩
  rw [if_neg h6]
  by_cases h15 : rd a.Modbus_App_Msg 0 = 15
  · rw [if_pos h15]
    have := hv h15
    unfold Slave.Modbus_App_Write_M_Coils
    dsimp only
    rw [if_neg (by omega)]
    exact ⟨_, rfl⟩
  rw [if_neg h15]
  by_cases h16 : rd a.Modbus_App_Msg 0 = 16
  · rw [if_pos h16]
    have := hq (Or.inr (Or.inr (Or.inl h16)))
    unfold Slave.Modbus_App_Write_M_Registers
    dsimp only
    rw [if_neg (by omega)]
    exact ⟨_, rfl⟩
  rw [if_neg h16]
  by_cases h22 : rd a.Modbus_App_Msg 0 = 22
  · rw [if_pos h22]; exact ⟨_, rfl⟩
  rw [if_neg h22]
  by_cases h23 : rd a.Modbus_App_Msg 0 = 23
  · rw [if_pos h23]
    have := hq (Or.inr (Or.inr (Or.inr h23)))
    have := hq23 h23
    unfold Slave.Modbus_App_Read_Write_M_Registers
    dsimp only
    rw [if_neg (by omega), hm, if_neg (by omega)]
    exact ⟨_, rfl⟩
  exfalso
  rcases hf with h | h | h | h | h | h | h | h | h | h <;> contradiction

/-- The CAN build of `Modbus_App_Manage_Request` returns; of the CAN
variables it touches the main state only. -/
theorem can_manage_request (n : Slave.Node) :
    ∃ n1, Slave.Modbus_App_Manage_Request n = some n1 ∧
      n1.can.canTx = n.can.canTx ∧ n1.can.modbus_broadcast = n.can.modbus_broadcast ∧
      n1.can.slave = n.can.slave := by
  unfold Slave.Modbus_App_Manage_Request
  dsimp only
  obtain ⟨hm, h3, _⟩ := check_request_data n.app n.can.modbus_broadcast
  by_cases h0 : (Slave.Modbus_App_Check_Request_Data n.app n.can.modbus_broadcast).2 = 0
  · rw [if_pos h0]
    obtain ⟨a1, ha1⟩ := process_after_check n.app n.can.modbus_broadcast h0
    rw [ha1]
    exact ⟨_, rfl, rfl, rfl, rfl⟩
  · rw [if_neg h0, if_pos (by omega)]
    by_cases hb : n.can.modbus_broadcast = 0
    · rw [if_pos hb]
      exact ⟨_, rfl, rfl, rfl, rfl⟩
    · rw [if_neg hb]
      exact ⟨_, rfl, rfl, rfl, rfl⟩

/-- The serial build of `Modbus_App_Manage_Request` returns; outside the
application variables it touches the main state only. -/
theorem serial_manage_request (s : Serial.State) :
    ∃ s1, Serial.Modbus_App_Manage_Request s = some s1 ∧
      s1.uartTx = s.uartTx ∧ s1.Modbus_OSL_BroadCast = s.Modbus_OSL_BroadCast ∧
      s1.Modbus_OSL_State = s.Modbus_OSL_State ∧
      s1.Modbus_OSL_Response_ADU = s.Modbus_OSL_Response_ADU ∧
      s1.Modbus_OSL_L_Response_ADU = s.Modbus_OSL_L_Response_ADU ∧
      s1.timer0 = s.timer0 ∧
      s1.Modbus_OSL_Processing_Flag = s.Modbus_OSL_Processing_Flag := by
  unfold Serial.Modbus_App_Manage_Request
  dsimp only
  obtain ⟨hm, h3, _⟩ := check_request_data s.app s.Modbus_OSL_BroadCast
  by_cases h0 : (Slave.Modbus_App_Check_Request_Data s.app s.Modbus_OSL_BroadCast).2 = 0
  · rw [if_pos h0]
    obtain ⟨a1, ha1⟩ := process_after_check s.app s.Modbus_OSL_BroadCast h0
    rw [ha1]
    exact ⟨_, rfl, rfl, rfl, rfl, rfl, rfl, rfl, rfl⟩
  · rw [if_neg h0, if_pos (by omega)]
    by_cases hb : s.Modbus_OSL_BroadCast = 0
    · rw [if_pos hb]
      exact ⟨_, rfl, rfl, rfl, rfl, rfl, rfl, rfl, rfl⟩
    · rw [if_neg hb]
      exact ⟨_, rfl, rfl, rfl, rfl, rfl, rfl, rfl, rfl⟩

/-- The function `Modbus_OSL_Receive_Request` on a published frame addressed to this slave
or to all slaves, with a valid checksum: the request is handed to the
application, the return value is 1 and the broadcast flag tells which of the
two addresses it was. -/
theorem receive_request_accept (s : Serial.State) (b : Serial.RtuBuffer)
    (hflag : s.Modbus_OSL_Processing_Flag ≠ 0)
    (hmode : s.Modbus_OSL_Mode = .MODBUS_OSL_MODE_RTU)
    (hbuf : s.Modbus_OSL_RTU_Msg_Complete = some b)
    (haddr : rd (Serial.buffer s b) 0 = s.Modbus_OSL_Slave_Adress ∨ rd (Serial.buffer s b) 0 = 0)
    (hcrc : Modbus.Modbus_OSL_RTU_Control_CRC (Serial.buffer s b) s.Modbus_OSL_RTU_L_Msg =
      some (.MODBUS_OSL_Frame_OK, 1)) :
    ∃ s1, Serial.Modbus_OSL_Receive_Request s = some (s1, 1) ∧
      s1.uartTx = s.uartTx ∧ s1.Modbus_OSL_State = s.Modbus_OSL_State ∧
      s1.Modbus_OSL_BroadCast = (if rd (Serial.buffer s b) 0 = 0 then 1 else 0) ∧
      s1.Modbus_OSL_Response_ADU = s.Modbus_OSL_Response_ADU ∧
      s1.Modbus_OSL_L_Response_ADU = s.Modbus_OSL_L_Response_ADU ∧
      s1.Modbus_OSL_Slave_Adress = s.Modbus_OSL_Slave_Adress ∧
      s1.Modbus_OSL_Mode = s.Modbus_OSL_Mode ∧
      s1.timer0 = s.timer0 ∧
      s1.Modbus_OSL_Processing_Flag = 0 := by
  cases b <;>
    simp [Serial.Modbus_OSL_Receive_Request, Serial.Modbus_OSL_Processing_Msg, hflag, hmode,
      Serial.Modbus_OSL_MainState_Set, Serial.Modbus_OSL_RTU_Char_Get, hbuf, Serial.buffer,
      Serial.Modbus_OSL_RTU_Control_CRC, Serial.Modbus_OSL_Frame_Set,
      Serial.Modbus_OSL_RTU_to_App, Serial.Modbus_OSL_RTU_L_Msg_Get] at haddr hcrc ⊢ <;>
    simp [haddr, hcrc]

/-- Claim C14 (broadcast suppression).  CAN slave: in state IDLE with a
completely received request that came through message object 18
(`modbus_broadcast` set), one pass of `Modbus_CAN_Controller` returns 1, hands
no frame to the CAN controller and ends in state IDLE.  Serial slave: in state
IDLE with a published frame whose address byte is 0 and whose checksum is
valid, one pass of `Modbus_OSL_Serial_Comm` returns, transmits no byte, leaves
the RTU state (no EMISSION) and the output buffer alone and ends in state
IDLE.  Both hold for every request, whatever `Modbus_App_Check_Request_Data`
returns for it (0, 1, 2 or 3). -/
theorem C14_broadcast_suppression (n : Slave.Node) (s : Serial.State) (b : Serial.RtuBuffer)
    (hidle : n.can.modbus_slave_state = .MODBUS_IDLE)
    (hrx : n.can.modbus_complete_reception ≠ 0)
    (hbc : n.can.modbus_broadcast ≠ 0)
    (hmain : s.Modbus_OSL_MainState = .MODBUS_OSL_IDLE)
    (hflag : s.Modbus_OSL_Processing_Flag ≠ 0)
    (hmode : s.Modbus_OSL_Mode = .MODBUS_OSL_MODE_RTU)
    (hbuf : s.Modbus_OSL_RTU_Msg_Complete = some b)
    (haddr : rd (Serial.buffer s b) 0 = 0)
    (hcrc : Modbus.Modbus_OSL_RTU_Control_CRC (Serial.buffer s b) s.Modbus_OSL_RTU_L_Msg =
      some (.MODBUS_OSL_Frame_OK, 1)) :
    (∃ n1, Slave.Modbus_CAN_Controller n = some (n1, 1) ∧
        n1.can.canTx = n.can.canTx ∧
        n1.can.modbus_slave_state = .MODBUS_IDLE ∧
        n1.can.modbus_complete_reception = 0 ∧
        (Slave.Modbus_App_Check_Request_Data (Slave.Modbus_CAN_to_App n).app
          n.can.modbus_broadcast).2 ≤ 3) ∧
      (∃ s1, Serial.Modbus_OSL_Serial_Comm s = some s1 ∧
        s1.uartTx = s.uartTx ∧
        s1.Modbus_OSL_MainState = .MODBUS_OSL_IDLE ∧
        s1.Modbus_OSL_State = s.Modbus_OSL_State ∧
        s1.Modbus_OSL_Response_ADU = s.Modbus_OSL_Response_ADU ∧
        s1.Modbus_OSL_Processing_Flag = 0) := by
  constructor
  · obtain ⟨n1, h1, htx, hb1, _⟩ := can_manage_request
      { Slave.Modbus_CAN_to_App n with
        can := Slave.Modbus_SetMainState (Slave.Modbus_CAN_to_App n).can .MODBUS_CHECKING }
    have hb2 : n1.can.modbus_broadcast ≠ 0 := by rw [hb1]; exact hbc
    refine ⟨{ can := (Slave.Modbus_SetMainState { n1.can with modbus_complete_reception := 0 }
        Slave.Modbus_MainState.MODBUS_IDLE), app := n1.app }, ?_, ?_, ?_, ?_, (check_request_data _ _).2.1⟩
    · simp only [Slave.Modbus_CAN_Controller, hidle, hrx, if_true, ne_eq, not_false_eq_true,
        h1, Option.map_some', if_neg hb2]
    · exact htx
    · rfl
    · rfl
  · obtain ⟨s1, h1, htx, hst, hb1, hadu, _, _, _, _, hpf⟩ :=
      receive_request_accept s b hflag hmode hbuf (Or.inr haddr) hcrc
    rw [if_pos haddr] at hb1
    obtain ⟨s2, h2, htx2, hb2, hst2, hadu2, _, _, hpf2⟩ := serial_manage_request s1
    have hb3 : s2.Modbus_OSL_BroadCast ≠ 0 := by rw [hb2, hb1]; decide
    refine ⟨Serial.Modbus_OSL_MainState_Set s2 .MODBUS_OSL_IDLE, ?_, ?_, rfl, ?_, ?_, ?_⟩
    · simp only [Serial.Modbus_OSL_Serial_Comm, hmain, if_true, h1, Option.some_bind, ne_eq,
        one_ne_zero, not_false_eq_true, h2, Option.map_some', if_neg hb3]
    · exact htx2.trans htx
    · exact hst2.trans hst
    · exact hadu2.trans hadu
    · exact hpf2.trans hpf

/-- Witness of C14: the broadcast request `05 00 01 FF 00` (write single coil)
on the CAN slave, and the serial frame `00 05 00 01 FF 00 DC 2B` on the serial
slave, are processed without any transmission. -/
theorem C14_broadcast_suppression_witness :
    (∃ n1, Slave.Modbus_CAN_Controller exNodeBroadcast = some (n1, 1) ∧
        n1.can.canTx = [] ∧ n1.can.modbus_slave_state = .MODBUS_IDLE) ∧
      (∃ s1, Serial.Modbus_OSL_Serial_Comm
          (exSerialPublished [0, 5, 0, 1, 0xFF, 0, 0xDC, 0x2B] 8) = some s1 ∧
        s1.uartTx = [] ∧ s1.Modbus_OSL_MainState = .MODBUS_OSL_IDLE) := by
  obtain ⟨⟨n1, h1, h2, h3, _⟩, ⟨s1, g1, g2, g3, _⟩⟩ :=
    C14_broadcast_suppression exNodeBroadcast
      (exSerialPublished [0, 5, 0, 1, 0xFF, 0, 0xDC, 0x2B] 8) .Msg1
      (by decide) (by decide) (by decide) (by decide) (by decide) (by decide) rfl (by decide)
      (by decide)
  exact ⟨⟨n1, h1, h2, h3⟩, ⟨s1, g1, g2, g3⟩⟩

/-- Claim C15 (mismatched-address discard, serial slave).  For every
published frame whose leading byte is neither the slave's configured address
nor 0, `Modbus_OSL_Receive_Request` returns 0 and leaves the main state IDLE;
the pass of `Modbus_OSL_Serial_Comm` ends there: the only variables that
change are the reception flag (cleared) and the main state (IDLE), so the
application variables, among them the message buffer, the output buffer and
the bytes transmitted are unchanged: neither `Modbus_App_Manage_Request` nor
`Modbus_App_Send` has run. -/
theorem C15_mismatched_address_discard (s : Serial.State) (b : Serial.RtuBuffer)
    (hmain : s.Modbus_OSL_MainState = .MODBUS_OSL_IDLE)
    (hflag : s.Modbus_OSL_Processing_Flag ≠ 0)
    (hmode : s.Modbus_OSL_Mode = .MODBUS_OSL_MODE_RTU)
    (hbuf : s.Modbus_OSL_RTU_Msg_Complete = some b)
    (h1 : rd (Serial.buffer s b) 0 ≠ s.Modbus_OSL_Slave_Adress)
    (h0 : rd (Serial.buffer s b) 0 ≠ 0) :
    Serial.Modbus_OSL_Receive_Request s =
        some ({ s with Modbus_OSL_Processing_Flag := 0 }, 0) ∧
      Serial.Modbus_OSL_Serial_Comm s = some { s with Modbus_OSL_Processing_Flag := 0 } ∧
      ∀ s1, Serial.Modbus_OSL_Serial_Comm s = some s1 →
        s1.Modbus_OSL_MainState = .MODBUS_OSL_IDLE ∧ s1.app = s.app ∧
          s1.app.Modbus_App_Msg = s.app.Modbus_App_Msg ∧ s1.uartTx = s.uartTx ∧
          s1.Modbus_OSL_State = s.Modbus_OSL_State ∧
          s1.Modbus_OSL_Response_ADU = s.Modbus_OSL_Response_ADU := by
  have hr : Serial.Modbus_OSL_Receive_Request s =
      some ({ s with Modbus_OSL_Processing_Flag := 0 }, 0) := by
    cases b <;>
      simp [Serial.Modbus_OSL_Receive_Request, Serial.Modbus_OSL_Processing_Msg, hflag, hmode,
        Serial.Modbus_OSL_MainState_Set, Serial.Modbus_OSL_RTU_Char_Get, hbuf, Serial.buffer,
        ← hmain] at h1 h0 ⊢ <;>
      simp [h1, h0]
  have hc : Serial.Modbus_OSL_Serial_Comm s = some { s with Modbus_OSL_Processing_Flag := 0 } := by
    simp [Serial.Modbus_OSL_Serial_Comm, hmain, hr]
  refine ⟨hr, hc, ?_⟩
  intro s1 hs1
  rw [hc] at hs1
  cases hs1
  exact ⟨hmain, rfl, rfl, rfl, rfl, rfl⟩

/-- Witness of C15: slave 5 presented with the frame `07 03 00 00 00 01 84 6C`,
addressed to slave 7. -/
theorem C15_mismatched_address_discard_witness :
    Serial.Modbus_OSL_Serial_Comm (exSerialPublished [7, 3, 0, 0, 0, 1, 0x84, 0x6C] 8) =
      some { exSerialPublished [7, 3, 0, 0, 0, 1, 0x84, 0x6C] 8 with
        Modbus_OSL_Processing_Flag := 0 } :=
  (C15_mismatched_address_discard (exSerialPublished [7, 3, 0, 0, 0, 1, 0x84, 0x6C] 8) .Msg1
    (by decide) (by decide) (by decide) rfl (by decide) (by decide)).2.1

/-! ## Theorems: dispatch and reply handling of the master -/

/-- The state the master's loop ends in for a broadcast PDU: turnaround,
broadcast timer armed, the frames of the plan appended to the log. -/
theorem master_loop_broadcast (p : List Nat) (n g : Nat) :
    ∀ (fuel aux it : Nat) (s : Master.State), 0 < aux → aux < fuel →
    Master.Modbus_CAN_FixOutput_loop p 0 n g fuel aux it s =
      { s with
        modbus_master_state := .MODBUS_TURNAROUND
        modbus_broadcast_timeout :=
          (Master.Modbus_CAN_BroadcastTimeout s g).modbus_broadcast_timeout
        timer2 := some (Master.Modbus_CAN_BroadcastTimeout s g).modbus_broadcast_timeout
        canTx := s.canTx ++ (chunkPlan n fuel aux it).map (chunkFrame masterType 0 p) } := by
  intro fuel
  induction fuel with
  | zero => intro aux it s _ h; omega
  | succ fuel ih =>
    intro aux it s h0 hf
    have hne : ¬ aux = 0 := by omega
    by_cases h8 : aux ≤ MAX_FRAME
    · simp only [Master.Modbus_CAN_FixOutput_loop, chunkPlan, hne, h8, if_true, if_false,
        Nat.sub_self, master_loop_zero, chunkPlan_zero, ne_eq, not_true_eq_false]
      by_cases hn : n ≤ MAX_FRAME <;>
        simp [hn, chunkFrame, masterType, Master.Modbus_CAN_BroadcastTimeout,
          Master.Modbus_SetMainState]
    · simp only [MAX_FRAME] at h8
      simp only [Master.Modbus_CAN_FixOutput_loop, chunkPlan, hne, MAX_FRAME, h8, if_false]
      rw [ih (aux - 8) (it + 1) _ (by omega) (by omega)]
      by_cases hn : aux = n <;>
        simp [hn, chunkFrame, masterType, Master.Modbus_CAN_BroadcastTimeout, MAX_FRAME]

/-- The function `Modbus_CAN_FixOutput` of the master for a non-empty broadcast PDU. -/
theorem master_FixOutput_broadcast (s : Master.State) (p : List Nat) (n g : Nat)
    (hn0 : 0 < n) (hn : n < 256) :
    Master.Modbus_CAN_FixOutput s p 0 n g =
      { s with
        modbus_complete_transmission := 0
        modbus_complete_reception := 0
        modbus_master_state := .MODBUS_TURNAROUND
        modbus_broadcast_timeout :=
          (Master.Modbus_CAN_BroadcastTimeout s g).modbus_broadcast_timeout
        timer2 := some (Master.Modbus_CAN_BroadcastTimeout s g).modbus_broadcast_timeout
        canTx := s.canTx ++ (chunkPlan n (n + 1) n 0).map (chunkFrame masterType 0 p) } := by
  simp only [Master.Modbus_CAN_FixOutput, Nat.zero_mod, Nat.mod_eq_of_lt hn, ne_eq,
    not_true_eq_false, if_false]
  rw [master_loop_broadcast p n g (n + 1) n 0 _ hn0 (by omega)]
  simp [Master.Modbus_CAN_BroadcastTimeout]

/-- The function codes the user request functions store. -/
theorem user_function (r : Modbus_FIFO_Item) (hu : Master.UserRequest r) :
    r.Function = 1 ∨ r.Function = 2 ∨ r.Function = 3 ∨ r.Function = 4 ∨ r.Function = 5 ∨
      r.Function = 6 ∨ r.Function = 15 ∨ r.Function = 16 ∨ r.Function = 22 ∨
      r.Function = 23 := by
  rcases hu with ⟨h, _⟩ | ⟨h, _⟩ | ⟨h, _⟩ | ⟨h, _⟩ | ⟨h, _⟩ | ⟨h, _⟩ <;> omega

/-- What `Modbus_App_Send` does for a record accepted by the user request
functions, unicast or broadcast: it returns, exactly one PDU transmission is
appended to the log, addressed to the slave of the record; the master then
waits for the reply (unicast) or for the turnaround delay (broadcast); the
queues, the active and the pending request and the retry variables are
unchanged. -/
theorem send_user_any (s : Master.State) (hu : Master.UserRequest s.Modbus_App_Actual_Req)
    (hlen : s.Modbus_App_Req_pdu.length = 256) :
    ∃ w frames, Master.Modbus_App_Send s = some w ∧
      w.canTx = s.canTx ++ frames ∧ Master.txCount frames = 1 ∧
      (∀ f ∈ frames, f.ulMsgID &&& 0xFF = s.Modbus_App_Actual_Req.Slave) ∧
      w.modbus_master_state =
        (if s.Modbus_App_Actual_Req.Slave ≠ 0 then .MODBUS_WAITREPLY else .MODBUS_TURNAROUND) ∧
      w.Modbus_App_Actual_Req = s.Modbus_App_Actual_Req ∧
      w.Modbus_App_Request = s.Modbus_App_Request ∧
      w.Modbus_FIFO_Tx = s.Modbus_FIFO_Tx ∧
      w.Modbus_FIFO_Error = s.Modbus_FIFO_Error ∧
      w.modbus_attempts = s.modbus_attempts ∧
      w.modbus_max_attempts = s.modbus_max_attempts ∧
      w.modbus_forward_flag = s.modbus_forward_flag ∧
      w.Modbus_App_Req_pdu.length = 256 := by
  by_cases huni : s.Modbus_App_Actual_Req.Slave ≠ 0
  · obtain ⟨pdu, L, t, frames, hsend, hl, hc, hf⟩ := send_user s hu huni hlen
    refine ⟨_, frames, hsend, rfl, hc, hf, ?_, rfl, rfl, rfl, rfl, rfl, rfl, rfl, hl⟩
    rw [if_pos huni]
  · have h0 : s.Modbus_App_Actual_Req.Slave = 0 := by simpa using huni
    obtain ⟨s1, g, he, hs1, hl, hL0, hL⟩ := encode_user s hu hlen
    have he2 : Master.Modbus_App_Send_encode s = some
        ({ s with Modbus_App_Req_pdu := s1.Modbus_App_Req_pdu
                  Modbus_App_L_Req_pdu := s1.Modbus_App_L_Req_pdu }, g) := by
      rw [← hs1]; exact he
    have hsend : Master.Modbus_App_Send s = some
        { s with
          Modbus_App_Req_pdu := s1.Modbus_App_Req_pdu
          Modbus_App_L_Req_pdu := s1.Modbus_App_L_Req_pdu
          modbus_complete_transmission := 0
          modbus_complete_reception := 0
          modbus_master_state := .MODBUS_TURNAROUND
          modbus_broadcast_timeout :=
            (Master.Modbus_CAN_BroadcastTimeout s g).modbus_broadcast_timeout
          timer2 := some (Master.Modbus_CAN_BroadcastTimeout s g).modbus_broadcast_timeout
          canTx := s.canTx ++ (chunkPlan s1.Modbus_App_L_Req_pdu (s1.Modbus_App_L_Req_pdu + 1)
            s1.Modbus_App_L_Req_pdu 0).map (chunkFrame masterType 0 s1.Modbus_App_Req_pdu) } := by
      simp only [Master.Modbus_App_Send, he2, Option.map_some', h0]
      rw [master_FixOutput_broadcast _ _ _ _ hL0 hL]
      rfl
    refine ⟨_, _, hsend, rfl, txCount_plan masterType _ _ _ hL0, ?_, ?_, rfl, rfl, rfl, rfl,
      rfl, rfl, rfl, hl⟩
    · intro f hf
      obtain ⟨c, _, rfl⟩ := List.mem_map.mp hf
      rw [h0]
      exact (id_bits (masterType c.1) (masterType_lt c.1) 0 (by decide)).2.2.1
    · rw [if_neg huni]

/-- The function `Modbus_App_Manage_CallBack` returns when the active request carries one
of the function codes of the user request functions. -/
theorem manage_callback_returns (t : Master.State)
    (hf : t.Modbus_App_Actual_Req.Function = 1 ∨ t.Modbus_App_Actual_Req.Function = 2 ∨
      t.Modbus_App_Actual_Req.Function = 3 ∨ t.Modbus_App_Actual_Req.Function = 4 ∨
      t.Modbus_App_Actual_Req.Function = 5 ∨ t.Modbus_App_Actual_Req.Function = 6 ∨
      t.Modbus_App_Actual_Req.Function = 15 ∨ t.Modbus_App_Actual_Req.Function = 16 ∨
      t.Modbus_App_Actual_Req.Function = 22 ∨ t.Modbus_App_Actual_Req.Function = 23) :
    ∃ w, Master.Modbus_App_Manage_CallBack t = some w := by
  by_cases hm : rd t.Modbus_App_Msg 0 = t.Modbus_App_Actual_Req.Function
  · rcases hf with h | h | h | h | h | h | h | h | h | h <;>
      simp [Master.Modbus_App_Manage_CallBack, hm, h]
  · simp only [Master.Modbus_App_Manage_CallBack, hm, if_false]
    split_ifs <;> exact ⟨_, rfl⟩

/-! ### The bytes a transmission of the master carries -/

theorem rd_drop (l : List Nat) (k j : Nat) : rd (l.drop k) j = rd l (k + j) := by
  simp [rd, List.getD_eq_getElem?_getD, List.getElem?_drop]

/-- The payload of a transmitted frame, as a slice of a PDU that holds it. -/
theorem txPayload_eq (p : List Nat) (it n : Nat) (hn : n ≤ 8) (hp : 8 * it + n ≤ p.length) :
    txPayload p it n = (p.drop (8 * it)).take n := by
  obtain ⟨h1, h2⟩ := txPayload_spec p it n hn
  apply list_ext_rd
  · rw [h1, List.length_take, List.length_drop]
    omega
  · intro j hj
    rw [h1] at hj
    rw [h2 j hj, rd_take, if_pos hj, rd_drop]
    simp only [MAX_FRAME]
    congr 1
    omega

theorem framesPayload_nil : framesPayload [] = [] := rfl

theorem framesPayload_cons (f : tCANMsgObject) (fs : List tCANMsgObject) :
    framesPayload (f :: fs) = f.pucMsgData.take f.ulMsgLen ++ framesPayload fs := by
  simp [framesPayload]

/-- The frames of a chunk plan carry the bytes of the PDU from the position the
plan starts at. -/
theorem plan_payload (ty : ChunkKind → Nat) (slave : Nat) (p : List Nat) (n : Nat) :
    ∀ (fuel aux it : Nat), aux < fuel → 8 * it + aux ≤ p.length →
    framesPayload ((chunkPlan n fuel aux it).map (chunkFrame ty slave p)) =
      (p.drop (8 * it)).take aux := by
  intro fuel
  induction fuel with
  | zero => intro aux it h _; omega
  | succ fuel ih =>
    intro aux it hf hp
    by_cases h0 : aux = 0
    · subst h0
      simp [chunkPlan, framesPayload]
    · by_cases h8 : aux ≤ MAX_FRAME
      · have h8b : aux ≤ 8 := h8
        simp only [chunkPlan, h0, h8, if_true, if_false, Nat.sub_self, chunkPlan_zero,
          List.map_cons, List.map_nil]
        rw [framesPayload_cons, framesPayload_nil, List.append_nil]
        show List.take aux (txPayload p it aux) = _
        rw [txPayload_eq p it aux h8b hp, List.take_take, Nat.min_self]
      · have h8b : ¬ aux ≤ 8 := h8
        have hrec := ih (aux - MAX_FRAME) (it + 1) (by simp only [MAX_FRAME]; omega)
          (by simp only [MAX_FRAME]; omega)
        simp only [chunkPlan, h0, h8, if_false, List.map_cons]
        rw [framesPayload_cons, hrec]
        show List.take MAX_FRAME (txPayload p it MAX_FRAME) ++ _ = _
        rw [txPayload_eq p it MAX_FRAME (by simp [MAX_FRAME]) (by simp only [MAX_FRAME]; omega),
          List.take_take, Nat.min_self]
        simp only [MAX_FRAME]
        have e2 : aux = 8 + (aux - 8) := by omega
        have e3 : List.drop (8 * (it + 1)) p = List.drop 8 (List.drop (8 * it) p) := by
          rw [List.drop_drop]
          congr 1
        rw [e3]
        conv_rhs => rw [e2, List.take_add]

/-- The transmit loop of the master leaves the request buffer and its length
alone. -/
theorem master_loop_pdu (p : List Nat) (slave n g : Nat) : ∀ (fuel aux it : Nat)
    (s : Master.State),
    (Master.Modbus_CAN_FixOutput_loop p slave n g fuel aux it s).Modbus_App_Req_pdu =
        s.Modbus_App_Req_pdu ∧
      (Master.Modbus_CAN_FixOutput_loop p slave n g fuel aux it s).Modbus_App_L_Req_pdu =
        s.Modbus_App_L_Req_pdu := by
  intro fuel
  induction fuel with
  | zero => intro aux it s; simp [Master.Modbus_CAN_FixOutput_loop]
  | succ fuel ih =>
    intro aux it s
    by_cases h0 : aux = 0
    · simp [Master.Modbus_CAN_FixOutput_loop, h0]
    · by_cases h8 : aux ≤ MAX_FRAME
      · simp only [Master.Modbus_CAN_FixOutput_loop, h0, h8, if_true, if_false, ih]
        by_cases hs : slave = 0 <;>
          simp [hs, Master.Modbus_CAN_UnicastTimeout, Master.Modbus_CAN_BroadcastTimeout,
            Master.Modbus_SetMainState]
      · simp only [Master.Modbus_CAN_FixOutput_loop, h0, h8, if_false, ih]
        simp

/-- `Modbus_CAN_FixOutput` of the master leaves the request buffer and its
length alone. -/
theorem master_FixOutput_pdu (s : Master.State) (p : List Nat) (slave n g : Nat) :
    (Master.Modbus_CAN_FixOutput s p slave n g).Modbus_App_Req_pdu = s.Modbus_App_Req_pdu ∧
      (Master.Modbus_CAN_FixOutput s p slave n g).Modbus_App_L_Req_pdu =
        s.Modbus_App_L_Req_pdu := by
  simp only [Master.Modbus_CAN_FixOutput, master_loop_pdu]
  by_cases hs : slave % 256 = 0 <;> simp [hs, Master.Modbus_CAN_ReceptionConfiguration]

/-- The first five bytes of a list that has them. -/
theorem take_five (l : List Nat) (h : 5 ≤ l.length) :
    l.take 5 = [rd l 0, rd l 1, rd l 2, rd l 3, rd l 4] := by
  apply list_ext_rd
  · simp; omega
  · intro j hj
    rw [List.length_take] at hj
    have hj5 : j < 5 := by omega
    rw [rd_take, if_pos hj5]
    interval_cases j <;> rfl

/-- The header bytes `reqHeader` writes into a buffer of 256 bytes. -/
theorem reqHeader_bytes (r : Modbus_FIFO_Item) (pdu : List Nat) (hpdu : pdu.length = 256) :
    rd (Master.reqHeader r pdu) 0 = r.Function % 256 ∧
      rd (Master.reqHeader r pdu) 1 = (Master.UI2 r 0 >>> 8) % 256 ∧
      rd (Master.reqHeader r pdu) 2 = Master.UI2 r 0 % 256 ∧
      rd (Master.reqHeader r pdu) 3 = (Master.UI2 r 1 >>> 8) % 256 ∧
      rd (Master.reqHeader r pdu) 4 = Master.UI2 r 1 % 256 := by
  simp [Master.reqHeader, rd_set, hpdu]

/-- `Modbus_App_Write_M_Coils` for 1..1968 coils keeps the five header bytes
and leaves a length of at least 5. -/
theorem coils_header (s : Master.State)
    (hD : Master.UI2 s.Modbus_App_Actual_Req 1 ≤ 1968)
    (hlen : s.Modbus_App_Req_pdu.length = 256) :
    5 ≤ (Master.Modbus_App_Write_M_Coils s).Modbus_App_L_Req_pdu ∧
      ∀ j, j < 5 → rd (Master.Modbus_App_Write_M_Coils s).Modbus_App_Req_pdu j =
        rd (Master.reqHeader s.Modbus_App_Actual_Req s.Modbus_App_Req_pdu) j := by
  have key : ∀ v : Nat, v ≤ 247 →
      5 ≤ (6 + rd ((List.range ((Master.UI2 s.Modbus_App_Actual_Req 1 + 7) / 8)).foldl
        (fun a n => a.set (6 + n % 256)
          (Master.coilByte s.userMem (rd s.Modbus_App_Actual_Req.Data 2)
            (Master.UI2 s.Modbus_App_Actual_Req 1) n))
        ((Master.reqHeader s.Modbus_App_Actual_Req s.Modbus_App_Req_pdu).set 5 (v % 256))) 5) %
          256 ∧
        ∀ j, j < 5 →
          rd ((List.range ((Master.UI2 s.Modbus_App_Actual_Req 1 + 7) / 8)).foldl
            (fun a n => a.set (6 + n % 256)
              (Master.coilByte s.userMem (rd s.Modbus_App_Actual_Req.Data 2)
                (Master.UI2 s.Modbus_App_Actual_Req 1) n))
            ((Master.reqHeader s.Modbus_App_Actual_Req s.Modbus_App_Req_pdu).set 5 (v % 256))) j =
            rd (Master.reqHeader s.Modbus_App_Actual_Req s.Modbus_App_Req_pdu) j := by
    intro v hv
    constructor
    · obtain ⟨_, k2⟩ := foldl_set_keeps (fun n => 6 + n % 256)
        (fun n => Master.coilByte s.userMem (rd s.Modbus_App_Actual_Req.Data 2)
          (Master.UI2 s.Modbus_App_Actual_Req 1) n) 5
        (List.range ((Master.UI2 s.Modbus_App_Actual_Req 1 + 7) / 8))
        ((Master.reqHeader s.Modbus_App_Actual_Req s.Modbus_App_Req_pdu).set 5 (v % 256))
        (fun i _ => by show 6 + i % 256 ≠ 5; omega)
      rw [k2, rd_set, reqHeader_length, hlen, if_pos (by omega)]
      omega
    · intro j hj
      obtain ⟨_, k2⟩ := foldl_set_keeps (fun n => 6 + n % 256)
        (fun n => Master.coilByte s.userMem (rd s.Modbus_App_Actual_Req.Data 2)
          (Master.UI2 s.Modbus_App_Actual_Req 1) n) j
        (List.range ((Master.UI2 s.Modbus_App_Actual_Req 1 + 7) / 8))
        ((Master.reqHeader s.Modbus_App_Actual_Req s.Modbus_App_Req_pdu).set 5 (v % 256))
        (fun i _ => by show 6 + i % 256 ≠ j; omega)
      rw [k2, rd_set, if_neg (by omega)]
  simp only [Master.Modbus_App_Write_M_Coils]
  by_cases h8 : Master.UI2 s.Modbus_App_Actual_Req 1 % 8 = 0
  · simp only [h8, if_true]
    exact key _ (by omega)
  · simp only [h8, if_false]
    exact key _ (by omega)

/-- `Modbus_App_Write_M_Registers` for 1..123 registers keeps the five header
bytes and leaves a length of at least 5. -/
theorem registers_header (s s1 : Master.State)
    (hD : Master.UI2 s.Modbus_App_Actual_Req 1 ≤ 123)
    (hlen : s.Modbus_App_Req_pdu.length = 256)
    (h : Master.Modbus_App_Write_M_Registers s = some s1) :
    5 ≤ s1.Modbus_App_L_Req_pdu ∧
      ∀ j, j < 5 → rd s1.Modbus_App_Req_pdu j =
        rd (Master.reqHeader s.Modbus_App_Actual_Req s.Modbus_App_Req_pdu) j := by
  simp only [Master.Modbus_App_Write_M_Registers] at h
  rw [if_neg (by omega)] at h
  simp only [Option.some.injEq] at h
  subst h
  constructor
  · obtain ⟨_, k2⟩ := foldl_set2_keeps (fun i => 6 + 2 * i) (fun i => 7 + 2 * i)
      (fun i => (Master.ld16 s.userMem (rd s.Modbus_App_Actual_Req.Data 2) i >>> 8) % 256)
      (fun i => Master.ld16 s.userMem (rd s.Modbus_App_Actual_Req.Data 2) i % 256) 5
      (List.range (Master.UI2 s.Modbus_App_Actual_Req 1))
      ((Master.reqHeader s.Modbus_App_Actual_Req s.Modbus_App_Req_pdu).set 5
        ((Master.UI2 s.Modbus_App_Actual_Req 1 * 2) % 256))
      (fun i _ => by
        show 6 + 2 * i ≠ 5 ∧ 7 + 2 * i ≠ 5
        constructor <;> omega)
    dsimp only
    rw [k2, rd_set, reqHeader_length, hlen, if_pos (by omega)]
    omega
  · intro j hj
    obtain ⟨_, k2⟩ := foldl_set2_keeps (fun i => 6 + 2 * i) (fun i => 7 + 2 * i)
      (fun i => (Master.ld16 s.userMem (rd s.Modbus_App_Actual_Req.Data 2) i >>> 8) % 256)
      (fun i => Master.ld16 s.userMem (rd s.Modbus_App_Actual_Req.Data 2) i % 256) j
      (List.range (Master.UI2 s.Modbus_App_Actual_Req 1))
      ((Master.reqHeader s.Modbus_App_Actual_Req s.Modbus_App_Req_pdu).set 5
        ((Master.UI2 s.Modbus_App_Actual_Req 1 * 2) % 256))
      (fun i _ => by
        show 6 + 2 * i ≠ j ∧ 7 + 2 * i ≠ j
        constructor <;> omega)
    dsimp only
    rw [k2, rd_set, if_neg (by omega)]

/-- `Modbus_App_Read_Write_M_Registers` (encoder) for 1..121 written registers
keeps the five header bytes and leaves a length of at least 5. -/
theorem read_write_header (s s1 : Master.State)
    (hD : Master.UI2 s.Modbus_App_Actual_Req 3 ≤ 121)
    (hlen : s.Modbus_App_Req_pdu.length = 256)
    (h : Master.Modbus_App_Read_Write_M_Registers s = some s1) :
    5 ≤ s1.Modbus_App_L_Req_pdu ∧
      ∀ j, j < 5 → rd s1.Modbus_App_Req_pdu j =
        rd (Master.reqHeader s.Modbus_App_Actual_Req s.Modbus_App_Req_pdu) j := by
  simp only [Master.Modbus_App_Read_Write_M_Registers] at h
  rw [if_neg (by omega)] at h
  simp only [Option.some.injEq] at h
  subst h
  constructor
  · obtain ⟨_, k2⟩ := foldl_set2_keeps (fun i => 10 + 2 * i) (fun i => 11 + 2 * i)
      (fun i => (Master.ld16 s.userMem (rd s.Modbus_App_Actual_Req.Data 4) i >>> 8) % 256)
      (fun i => Master.ld16 s.userMem (rd s.Modbus_App_Actual_Req.Data 4) i % 256) 9
      (List.range (Master.UI2 s.Modbus_App_Actual_Req 3))
      ((((((Master.reqHeader s.Modbus_App_Actual_Req s.Modbus_App_Req_pdu).set 5
        ((Master.UI2 s.Modbus_App_Actual_Req 2 >>> 8) % 256)).set 6
        (Master.UI2 s.Modbus_App_Actual_Req 2 % 256)).set 7
        ((Master.UI2 s.Modbus_App_Actual_Req 3 >>> 8) % 256)).set 8
        (Master.UI2 s.Modbus_App_Actual_Req 3 % 256)).set 9
        ((Master.UI2 s.Modbus_App_Actual_Req 3 * 2) % 256))
      (fun i _ => by
        show 10 + 2 * i ≠ 9 ∧ 11 + 2 * i ≠ 9
        constructor <;> omega)
    dsimp only
    rw [k2, rd_set]
    simp only [List.length_set, reqHeader_length, hlen]
    rw [if_pos (by decide)]
    omega
  · intro j hj
    obtain ⟨_, k2⟩ := foldl_set2_keeps (fun i => 10 + 2 * i) (fun i => 11 + 2 * i)
      (fun i => (Master.ld16 s.userMem (rd s.Modbus_App_Actual_Req.Data 4) i >>> 8) % 256)
      (fun i => Master.ld16 s.userMem (rd s.Modbus_App_Actual_Req.Data 4) i % 256) j
      (List.range (Master.UI2 s.Modbus_App_Actual_Req 3))
      ((((((Master.reqHeader s.Modbus_App_Actual_Req s.Modbus_App_Req_pdu).set 5
        ((Master.UI2 s.Modbus_App_Actual_Req 2 >>> 8) % 256)).set 6
        (Master.UI2 s.Modbus_App_Actual_Req 2 % 256)).set 7
        ((Master.UI2 s.Modbus_App_Actual_Req 3 >>> 8) % 256)).set 8
        (Master.UI2 s.Modbus_App_Actual_Req 3 % 256)).set 9
        ((Master.UI2 s.Modbus_App_Actual_Req 3 * 2) % 256))
      (fun i _ => by
        show 10 + 2 * i ≠ j ∧ 11 + 2 * i ≠ j
        constructor <;> omega)
    dsimp only
    rw [k2, rd_set, if_neg (by omega), rd_set, if_neg (by omega), rd_set, if_neg (by omega),
      rd_set, if_neg (by omega), rd_set, if_neg (by omega)]

/-- The encoder step of `Modbus_App_Send` for a record accepted by the user
request functions: the PDU has at least 5 bytes and starts with the function
code and the two 16-bit fields `Data[0].UI2`, `Data[1].UI2`, high byte first. -/
theorem encode_user_header (s s1 : Master.State) (g : Nat)
    (hu : Master.UserRequest s.Modbus_App_Actual_Req)
    (hlen : s.Modbus_App_Req_pdu.length = 256)
    (he : Master.Modbus_App_Send_encode s = some (s1, g)) :
    5 ≤ s1.Modbus_App_L_Req_pdu ∧
      s1.Modbus_App_Req_pdu.take 5 =
        [s.Modbus_App_Actual_Req.Function,
          (Master.UI2 s.Modbus_App_Actual_Req 0 >>> 8) % 256,
          Master.UI2 s.Modbus_App_Actual_Req 0 % 256,
          (Master.UI2 s.Modbus_App_Actual_Req 1 >>> 8) % 256,
          Master.UI2 s.Modbus_App_Actual_Req 1 % 256] := by
  obtain ⟨s1b, gb, heb, _, hl, _, _⟩ := encode_user s hu hlen
  rw [he] at heb
  simp only [Option.some.injEq, Prod.mk.injEq] at heb
  obtain ⟨e1, _⟩ := heb
  subst e1
  have hfun : s.Modbus_App_Actual_Req.Function % 256 = s.Modbus_App_Actual_Req.Function := by
    have := user_function _ hu
    omega
  obtain ⟨b0, b1, b2, b3, b4⟩ := reqHeader_bytes s.Modbus_App_Actual_Req s.Modbus_App_Req_pdu hlen
  have main : 5 ≤ s1.Modbus_App_L_Req_pdu ∧
      ∀ j, j < 5 → rd s1.Modbus_App_Req_pdu j =
        rd (Master.reqHeader s.Modbus_App_Actual_Req s.Modbus_App_Req_pdu) j := by
    have hstd : Master.Modbus_App_Send_encode s = some (s1, g) →
        (∃ g2, Master.Modbus_App_Send_encode s =
          some (Master.Modbus_App_Standard_Request s, g2)) →
        5 ≤ s1.Modbus_App_L_Req_pdu ∧
          ∀ j, j < 5 → rd s1.Modbus_App_Req_pdu j =
            rd (Master.reqHeader s.Modbus_App_Actual_Req s.Modbus_App_Req_pdu) j := by
      intro h1 h2
      obtain ⟨g2, h2⟩ := h2
      rw [h1] at h2
      simp only [Option.some.injEq, Prod.mk.injEq] at h2
      rw [h2.1]
      exact ⟨Nat.le_refl 5, fun j _ => rfl⟩
    rcases hu with ⟨hf, _⟩ | ⟨hf, _⟩ | ⟨hf, _⟩ | ⟨hf, _, hD, _⟩ | ⟨hf, _, hD, _⟩ |
      ⟨hf, _, _, _, _, _, hD, _⟩
    · exact hstd he (by rcases hf with hf | hf <;> simp [Master.Modbus_App_Send_encode, hf])
    · exact hstd he (by rcases hf with hf | hf <;> simp [Master.Modbus_App_Send_encode, hf])
    · rcases hf with hf | hf | hf
      · exact hstd he (by simp [Master.Modbus_App_Send_encode, hf])
      · exact hstd he (by simp [Master.Modbus_App_Send_encode, hf])
      · have h2 : Master.Modbus_App_Send_encode s =
            some (Master.Modbus_App_Mask_Write_Register s, 14 + 1) := by
          simp [Master.Modbus_App_Send_encode, hf]
        rw [he] at h2
        simp only [Option.some.injEq, Prod.mk.injEq] at h2
        rw [h2.1]
        refine ⟨by simp [Master.Modbus_App_Mask_Write_Register], fun j hj => ?_⟩
        simp only [Master.Modbus_App_Mask_Write_Register]
        rw [rd_set, if_neg (by omega), rd_set, if_neg (by omega)]
    · have h2 : ∃ g2, Master.Modbus_App_Send_encode s =
          some (Master.Modbus_App_Write_M_Coils s, g2) := by
        simp [Master.Modbus_App_Send_encode, hf]
      obtain ⟨g2, h2⟩ := h2
      rw [he] at h2
      simp only [Option.some.injEq, Prod.mk.injEq] at h2
      rw [h2.1]
      exact coils_header s hD hlen
    · obtain ⟨s2, e2, _⟩ := registers_ok s hD hlen
      have h2 : ∃ g2, Master.Modbus_App_Send_encode s = some (s2, g2) := by
        simp [Master.Modbus_App_Send_encode, hf, e2]
      obtain ⟨g2, h2⟩ := h2
      rw [he] at h2
      simp only [Option.some.injEq, Prod.mk.injEq] at h2
      rw [h2.1]
      exact registers_header s s2 hD hlen e2
    · obtain ⟨s2, e2, _⟩ := read_write_ok s hD hlen
      have h2 : ∃ g2, Master.Modbus_App_Send_encode s = some (s2, g2) := by
        simp [Master.Modbus_App_Send_encode, hf, e2]
      obtain ⟨g2, h2⟩ := h2
      rw [he] at h2
      simp only [Option.some.injEq, Prod.mk.injEq] at h2
      rw [h2.1]
      exact read_write_header s s2 hD hlen e2
  refine ⟨main.1, ?_⟩
  rw [take_five _ (by omega), main.2 0 (by omega), main.2 1 (by omega), main.2 2 (by omega),
    main.2 3 (by omega), main.2 4 (by omega), b0, b1, b2, b3, b4, hfun]

/-- The PDU and its length the encoder step of `Modbus_App_Send` builds depend
on the active request, the request buffer and the user memory only. -/
theorem encode_congr (s t : Master.State)
    (h1 : s.Modbus_App_Actual_Req = t.Modbus_App_Actual_Req)
    (h2 : s.Modbus_App_Req_pdu = t.Modbus_App_Req_pdu) (h3 : s.userMem = t.userMem) :
    (Master.Modbus_App_Send_encode s).map
        (fun b => (b.1.Modbus_App_Req_pdu, b.1.Modbus_App_L_Req_pdu)) =
      (Master.Modbus_App_Send_encode t).map
        (fun b => (b.1.Modbus_App_Req_pdu, b.1.Modbus_App_L_Req_pdu)) := by
  simp only [Master.Modbus_App_Send_encode, Master.Modbus_App_Standard_Request,
    Master.Modbus_App_Write_M_Coils, Master.Modbus_App_Write_M_Registers,
    Master.Modbus_App_Mask_Write_Register, Master.Modbus_App_Read_Write_M_Registers, h1, h2, h3]
  split_ifs <;> simp

/-- What `Modbus_App_Send` puts on the bus for a record accepted by the user
request functions: the PDU in the request buffer is the one the encoder builds
for the active request, it has 5..255 bytes and starts with the function code
and the fields `Data[0].UI2`, `Data[1].UI2` of the record, and the payload
bytes of the frames appended to the log are exactly that PDU. -/
theorem send_user_carries (s w : Master.State) (frames : List tCANMsgObject)
    (hu : Master.UserRequest s.Modbus_App_Actual_Req)
    (hlen : s.Modbus_App_Req_pdu.length = 256)
    (hs : Master.Modbus_App_Send s = some w) (h1 : w.canTx = s.canTx ++ frames) :
    (Master.Modbus_App_Send_encode s).map
        (fun b => (b.1.Modbus_App_Req_pdu, b.1.Modbus_App_L_Req_pdu)) =
        some (w.Modbus_App_Req_pdu, w.Modbus_App_L_Req_pdu) ∧
      5 ≤ w.Modbus_App_L_Req_pdu ∧ w.Modbus_App_L_Req_pdu ≤ 255 ∧
      w.Modbus_App_Req_pdu.take 5 =
        [s.Modbus_App_Actual_Req.Function,
          (Master.UI2 s.Modbus_App_Actual_Req 0 >>> 8) % 256,
          Master.UI2 s.Modbus_App_Actual_Req 0 % 256,
          (Master.UI2 s.Modbus_App_Actual_Req 1 >>> 8) % 256,
          Master.UI2 s.Modbus_App_Actual_Req 1 % 256] ∧
      framesPayload frames = w.Modbus_App_Req_pdu.take w.Modbus_App_L_Req_pdu := by
  obtain ⟨s1, g, he, hs1, hl, hL0, hL⟩ := encode_user s hu hlen
  obtain ⟨k1, k2⟩ := encode_user_header s s1 g hu hlen he
  have hslave := user_slave_lt _ hu
  have hreq : s1.Modbus_App_Actual_Req = s.Modbus_App_Actual_Req := by rw [hs1]
  have hctx : s1.canTx = s.canTx := by rw [hs1]
  have hw : w = Master.Modbus_CAN_FixOutput s1 s1.Modbus_App_Req_pdu
      s1.Modbus_App_Actual_Req.Slave s1.Modbus_App_L_Req_pdu g := by
    simp only [Master.Modbus_App_Send, he, Option.map_some', Option.some.injEq] at hs
    exact hs.symm
  obtain ⟨p1, p2⟩ := master_FixOutput_pdu s1 s1.Modbus_App_Req_pdu
    s1.Modbus_App_Actual_Req.Slave s1.Modbus_App_L_Req_pdu g
  rw [← hw] at p1 p2
  have hfr := master_FixOutput_frames s1 s1.Modbus_App_Req_pdu s1.Modbus_App_Actual_Req.Slave
    s1.Modbus_App_L_Req_pdu g (by rw [hreq]; exact hslave) hL
  rw [← hw, hctx, h1] at hfr
  have hfr2 : frames = (chunkPlan s1.Modbus_App_L_Req_pdu (s1.Modbus_App_L_Req_pdu + 1)
      s1.Modbus_App_L_Req_pdu 0).map
      (chunkFrame masterType s1.Modbus_App_Actual_Req.Slave s1.Modbus_App_Req_pdu) := by
    rw [← hfr]
    simp [newFrames]
  refine ⟨?_, ?_, ?_, ?_, ?_⟩
  · rw [he, p1, p2]
    rfl
  · rw [p2]; exact k1
  · rw [p2]; omega
  · rw [p1]; exact k2
  · rw [hfr2, p1, p2, plan_payload masterType _ s1.Modbus_App_Req_pdu _ _ _ 0 (by omega)
      (by omega)]
    simp

/-- Claim C16 (master IDLE dispatch policy).  In state IDLE
`Modbus_CAN_Controller` (a) with the retry flag set clears it and re-sends the
active request, one PDU transmission, without touching the Request Queue;
(b) with the flag clear and a non-empty queue dequeues the entry at the tail
(the oldest) into the active slot and sends it; (c) with the flag clear and an
empty queue changes nothing and returns 0.  In every state the controller
returns 0 or 1, and 0 exactly when the state is IDLE, the retry flag is clear
and the queue is empty.  In (a) and (b) the PDU that is sent is the one the
encoder step of `Modbus_App_Send` builds for that request: it has 5..255 bytes,
starts with the function code and the fields `Data[0].UI2`, `Data[1].UI2` of
the request (high byte first), and the payload bytes of the frames appended to
the transmit log are exactly the bytes of that PDU.  The records sent, and the
active request a received reply is checked against, are records accepted by
the user request functions. -/
theorem C16_idle_dispatch (s : Master.State)
    (hlen : s.Modbus_App_Req_pdu.length = 256)
    (huA : (s.modbus_master_state = .MODBUS_IDLE ∧ s.modbus_forward_flag ≠ 0) ∨
        (s.modbus_master_state = .MODBUS_WAITREPLY ∧ s.modbus_complete_reception ≠ 0) →
      Master.UserRequest s.Modbus_App_Actual_Req)
    (huQ : s.modbus_master_state = .MODBUS_IDLE → s.modbus_forward_flag = 0 →
      s.Modbus_FIFO_Tx.Items ≠ 0 →
      Master.UserRequest (s.Modbus_FIFO_Tx.Buffer.getD s.Modbus_FIFO_Tx.Tail default)) :
    (s.modbus_master_state = .MODBUS_IDLE → s.modbus_forward_flag ≠ 0 →
        ∃ w frames, Master.Modbus_CAN_Controller s = some (w, 1) ∧
          w.modbus_forward_flag = 0 ∧ w.Modbus_FIFO_Tx = s.Modbus_FIFO_Tx ∧
          w.Modbus_App_Actual_Req = s.Modbus_App_Actual_Req ∧
          w.canTx = s.canTx ++ frames ∧ Master.txCount frames = 1 ∧
          (∀ f ∈ frames, f.ulMsgID &&& 0xFF = s.Modbus_App_Actual_Req.Slave) ∧
          (Master.Modbus_App_Send_encode s).map
            (fun b => (b.1.Modbus_App_Req_pdu, b.1.Modbus_App_L_Req_pdu)) =
            some (w.Modbus_App_Req_pdu, w.Modbus_App_L_Req_pdu) ∧
          5 ≤ w.Modbus_App_L_Req_pdu ∧ w.Modbus_App_L_Req_pdu ≤ 255 ∧
          w.Modbus_App_Req_pdu.take 5 =
            [s.Modbus_App_Actual_Req.Function,
              (Master.UI2 s.Modbus_App_Actual_Req 0 >>> 8) % 256, Master.UI2 s.Modbus_App_Actual_Req 0 % 256,
              (Master.UI2 s.Modbus_App_Actual_Req 1 >>> 8) % 256, Master.UI2 s.Modbus_App_Actual_Req 1 % 256] ∧
          framesPayload frames = w.Modbus_App_Req_pdu.take w.Modbus_App_L_Req_pdu) ∧
      (s.modbus_master_state = .MODBUS_IDLE → s.modbus_forward_flag = 0 →
        s.Modbus_FIFO_Tx.Items ≠ 0 →
        ∃ w frames, Master.Modbus_CAN_Controller s = some (w, 1) ∧
          w.Modbus_App_Actual_Req = s.Modbus_FIFO_Tx.Buffer.getD s.Modbus_FIFO_Tx.Tail default ∧
          w.Modbus_FIFO_Tx = (Modbus_FIFO_Dequeue s.Modbus_FIFO_Tx s.Modbus_App_Actual_Req).1 ∧
          w.Modbus_FIFO_Tx.Items = (s.Modbus_FIFO_Tx.Items + 256 - 1) % 256 ∧
          w.canTx = s.canTx ++ frames ∧ Master.txCount frames = 1 ∧
          (∀ f ∈ frames, f.ulMsgID &&& 0xFF =
            (s.Modbus_FIFO_Tx.Buffer.getD s.Modbus_FIFO_Tx.Tail default).Slave) ∧
          (Master.Modbus_App_Send_encode 
            { s with Modbus_App_Actual_Req :=
                s.Modbus_FIFO_Tx.Buffer.getD s.Modbus_FIFO_Tx.Tail default }).map
            (fun b => (b.1.Modbus_App_Req_pdu, b.1.Modbus_App_L_Req_pdu)) =
            some (w.Modbus_App_Req_pdu, w.Modbus_App_L_Req_pdu) ∧
          5 ≤ w.Modbus_App_L_Req_pdu ∧ w.Modbus_App_L_Req_pdu ≤ 255 ∧
          w.Modbus_App_Req_pdu.take 5 =
            [(s.Modbus_FIFO_Tx.Buffer.getD s.Modbus_FIFO_Tx.Tail default).Function,
              (Master.UI2 (s.Modbus_FIFO_Tx.Buffer.getD s.Modbus_FIFO_Tx.Tail default) 0 >>> 8) % 256, Master.UI2 (s.Modbus_FIFO_Tx.Buffer.getD s.Modbus_FIFO_Tx.Tail default) 0 % 256,
              (Master.UI2 (s.Modbus_FIFO_Tx.Buffer.getD s.Modbus_FIFO_Tx.Tail default) 1 >>> 8) % 256, Master.UI2 (s.Modbus_FIFO_Tx.Buffer.getD s.Modbus_FIFO_Tx.Tail default) 1 % 256] ∧
          framesPayload frames = w.Modbus_App_Req_pdu.take w.Modbus_App_L_Req_pdu) ∧
      (s.modbus_master_state = .MODBUS_IDLE → s.modbus_forward_flag = 0 →
        s.Modbus_FIFO_Tx.Items = 0 → Master.Modbus_CAN_Controller s = some (s, 0)) ∧
      ∃ w r, Master.Modbus_CAN_Controller s = some (w, r) ∧ (r = 0 ∨ r = 1) ∧
        (r = 0 ↔ s.modbus_master_state = .MODBUS_IDLE ∧ s.modbus_forward_flag = 0 ∧
          s.Modbus_FIFO_Tx.Items = 0) := by
  have hctl : s.modbus_master_state = .MODBUS_IDLE → Master.Modbus_CAN_Controller s =
      (if s.modbus_forward_flag ≠ 0 then
        (Master.Modbus_App_Send { s with modbus_forward_flag := 0 }).map (fun s1 => (s1, 1))
      else
        (Master.Modbus_App_FIFOSend { s with modbus_forward_flag := 0 }).map
          (fun q => if q.2 ≠ 0 then (q.1, 0) else (q.1, 1))) := by
    intro hi
    unfold Master.Modbus_CAN_Controller
    rw [show Master.Modbus_GetMainState s = .MODBUS_IDLE from hi]
    rfl
  have ha : s.modbus_master_state = .MODBUS_IDLE → s.modbus_forward_flag ≠ 0 →
      ∃ w frames, Master.Modbus_CAN_Controller s = some (w, 1) ∧
        w.modbus_forward_flag = 0 ∧ w.Modbus_FIFO_Tx = s.Modbus_FIFO_Tx ∧
        w.Modbus_App_Actual_Req = s.Modbus_App_Actual_Req ∧
        w.canTx = s.canTx ++ frames ∧ Master.txCount frames = 1 ∧
        (∀ f ∈ frames, f.ulMsgID &&& 0xFF = s.Modbus_App_Actual_Req.Slave) ∧
        (Master.Modbus_App_Send_encode s).map
          (fun b => (b.1.Modbus_App_Req_pdu, b.1.Modbus_App_L_Req_pdu)) =
          some (w.Modbus_App_Req_pdu, w.Modbus_App_L_Req_pdu) ∧
        5 ≤ w.Modbus_App_L_Req_pdu ∧ w.Modbus_App_L_Req_pdu ≤ 255 ∧
        w.Modbus_App_Req_pdu.take 5 =
          [s.Modbus_App_Actual_Req.Function,
            (Master.UI2 s.Modbus_App_Actual_Req 0 >>> 8) % 256, Master.UI2 s.Modbus_App_Actual_Req 0 % 256,
            (Master.UI2 s.Modbus_App_Actual_Req 1 >>> 8) % 256, Master.UI2 s.Modbus_App_Actual_Req 1 % 256] ∧
        framesPayload frames = w.Modbus_App_Req_pdu.take w.Modbus_App_L_Req_pdu := by
    intro hi hff
    obtain ⟨w, frames, hs, h1, h2, h3, _, h5, _, h7, _, _, _, h11, _⟩ :=
      send_user_any { s with modbus_forward_flag := 0 } (huA (Or.inl ⟨hi, hff⟩)) hlen
    obtain ⟨c1, c2, c3, c4, c5⟩ := send_user_carries { s with modbus_forward_flag := 0 } w frames
      (huA (Or.inl ⟨hi, hff⟩)) hlen hs h1
    rw [encode_congr { s with modbus_forward_flag := 0 } s rfl rfl rfl] at c1
    refine ⟨w, frames, ?_, h11, h7, h5, h1, h2, h3, c1, c2, c3, c4, c5⟩
    rw [hctl hi, if_pos hff, hs]
    rfl
  have hb : s.modbus_master_state = .MODBUS_IDLE → s.modbus_forward_flag = 0 →
      s.Modbus_FIFO_Tx.Items ≠ 0 →
      ∃ w frames, Master.Modbus_CAN_Controller s = some (w, 1) ∧
        w.Modbus_App_Actual_Req = s.Modbus_FIFO_Tx.Buffer.getD s.Modbus_FIFO_Tx.Tail default ∧
        w.Modbus_FIFO_Tx = (Modbus_FIFO_Dequeue s.Modbus_FIFO_Tx s.Modbus_App_Actual_Req).1 ∧
        w.Modbus_FIFO_Tx.Items = (s.Modbus_FIFO_Tx.Items + 256 - 1) % 256 ∧
        w.canTx = s.canTx ++ frames ∧ Master.txCount frames = 1 ∧
        (∀ f ∈ frames, f.ulMsgID &&& 0xFF =
          (s.Modbus_FIFO_Tx.Buffer.getD s.Modbus_FIFO_Tx.Tail default).Slave) ∧
        (Master.Modbus_App_Send_encode 
          { s with Modbus_App_Actual_Req :=
              s.Modbus_FIFO_Tx.Buffer.getD s.Modbus_FIFO_Tx.Tail default }).map
          (fun b => (b.1.Modbus_App_Req_pdu, b.1.Modbus_App_L_Req_pdu)) =
          some (w.Modbus_App_Req_pdu, w.Modbus_App_L_Req_pdu) ∧
        5 ≤ w.Modbus_App_L_Req_pdu ∧ w.Modbus_App_L_Req_pdu ≤ 255 ∧
        w.Modbus_App_Req_pdu.take 5 =
          [(s.Modbus_FIFO_Tx.Buffer.getD s.Modbus_FIFO_Tx.Tail default).Function,
            (Master.UI2 (s.Modbus_FIFO_Tx.Buffer.getD s.Modbus_FIFO_Tx.Tail default) 0 >>> 8) % 256, Master.UI2 (s.Modbus_FIFO_Tx.Buffer.getD s.Modbus_FIFO_Tx.Tail default) 0 % 256,
            (Master.UI2 (s.Modbus_FIFO_Tx.Buffer.getD s.Modbus_FIFO_Tx.Tail default) 1 >>> 8) % 256, Master.UI2 (s.Modbus_FIFO_Tx.Buffer.getD s.Modbus_FIFO_Tx.Tail default) 1 % 256] ∧
        framesPayload frames = w.Modbus_App_Req_pdu.take w.Modbus_App_L_Req_pdu := by
    intro hi hff hq
    have hd : Modbus_FIFO_Dequeue s.Modbus_FIFO_Tx s.Modbus_App_Actual_Req =
        ({ s.Modbus_FIFO_Tx with
            Items := (s.Modbus_FIFO_Tx.Items + 256 - 1) % 256
            Tail := (s.Modbus_FIFO_Tx.Tail + 1) % MAX_ITEMS },
          s.Modbus_FIFO_Tx.Buffer.getD s.Modbus_FIFO_Tx.Tail default, 1) := by
      simp [Modbus_FIFO_Dequeue, Modbus_FIFO_Empty, hq]
    obtain ⟨w, frames, hs, h1, h2, h3, _, h5, _, h7, _, _, _, _, _⟩ :=
      send_user_any
        { s with
          modbus_forward_flag := 0
          Modbus_FIFO_Tx :=
            { s.Modbus_FIFO_Tx with
              Items := (s.Modbus_FIFO_Tx.Items + 256 - 1) % 256
              Tail := (s.Modbus_FIFO_Tx.Tail + 1) % MAX_ITEMS }
          Modbus_App_Actual_Req := s.Modbus_FIFO_Tx.Buffer.getD s.Modbus_FIFO_Tx.Tail default }
        (huQ hi hff hq) hlen
    obtain ⟨c1, c2, c3, c4, c5⟩ := send_user_carries
      { s with
        modbus_forward_flag := 0
        Modbus_FIFO_Tx :=
          { s.Modbus_FIFO_Tx with
            Items := (s.Modbus_FIFO_Tx.Items + 256 - 1) % 256
            Tail := (s.Modbus_FIFO_Tx.Tail + 1) % MAX_ITEMS }
        Modbus_App_Actual_Req := s.Modbus_FIFO_Tx.Buffer.getD s.Modbus_FIFO_Tx.Tail default }
      w frames (huQ hi hff hq) hlen hs h1
    rw [encode_congr
      { s with
        modbus_forward_flag := 0
        Modbus_FIFO_Tx :=
          { s.Modbus_FIFO_Tx with
            Items := (s.Modbus_FIFO_Tx.Items + 256 - 1) % 256
            Tail := (s.Modbus_FIFO_Tx.Tail + 1) % MAX_ITEMS }
        Modbus_App_Actual_Req := s.Modbus_FIFO_Tx.Buffer.getD s.Modbus_FIFO_Tx.Tail default }
      { s with Modbus_App_Actual_Req :=
          s.Modbus_FIFO_Tx.Buffer.getD s.Modbus_FIFO_Tx.Tail default } rfl rfl rfl] at c1
    refine ⟨w, frames, ?_, h5, ?_, ?_, h1, h2, h3, c1, c2, c3, c4, c5⟩
    · rw [hctl hi, if_neg (not_not.mpr hff)]
      simp only [Master.Modbus_App_FIFOSend, hd, ne_eq, one_ne_zero, not_false_eq_true, if_true]
      have hs2 := congrArg (Option.map (fun s1 : Master.State => (s1, 0))) hs
      have hs3 := congrArg (Option.map (fun q : Master.State × Nat =>
        if q.2 ≠ 0 then (q.1, 0) else (q.1, 1))) hs2
      exact hs3
    · rw [h7, hd]
    · rw [h7]
  have hc : s.modbus_master_state = .MODBUS_IDLE → s.modbus_forward_flag = 0 →
      s.Modbus_FIFO_Tx.Items = 0 → Master.Modbus_CAN_Controller s = some (s, 0) := by
    intro hi hff hq
    have hself : ({ s with modbus_forward_flag := 0 } : Master.State) = s := by
      rw [← hff]
    rw [hctl hi, if_neg (not_not.mpr hff), hself]
    simp [Master.Modbus_App_FIFOSend, Modbus_FIFO_Dequeue, Modbus_FIFO_Empty, hq]
  refine ⟨ha, hb, hc, ?_⟩
  by_cases hi : s.modbus_master_state = .MODBUS_IDLE
  · by_cases hff : s.modbus_forward_flag = 0
    · by_cases hq : s.Modbus_FIFO_Tx.Items = 0
      · exact ⟨s, 0, hc hi hff hq, Or.inl rfl, by simp [hi, hff, hq]⟩
      · obtain ⟨w, _, hw, _⟩ := hb hi hff hq
        exact ⟨w, 1, hw, Or.inr rfl, by simp [hq]⟩
    · obtain ⟨w, _, hw, _⟩ := ha hi hff
      exact ⟨w, 1, hw, Or.inr rfl, by simp [hff]⟩
  · have hr : ∃ w, Master.Modbus_CAN_Controller s = some (w, 1) := by
      cases hst : s.modbus_master_state with
      | MODBUS_IDLE => exact absurd hst hi
      | MODBUS_WAITREPLY =>
        have hc : Master.Modbus_CAN_Controller s =
            (if s.modbus_complete_reception ≠ 0 then
              (Master.Modbus_App_Manage_CallBack (Master.Modbus_CAN_to_App
                (Master.Modbus_SetMainState { s with modbus_complete_reception := 0 }
                  .MODBUS_PROCESSING))).map (fun s2 => (s2, 1))
            else some (s, 1)) := by
          unfold Master.Modbus_CAN_Controller
          rw [show Master.Modbus_GetMainState s = .MODBUS_WAITREPLY from hst]
        by_cases hrx : s.modbus_complete_reception = 0
        · exact ⟨s, by rw [hc, if_neg (not_not.mpr hrx)]⟩
        · obtain ⟨w, hw⟩ := manage_callback_returns
            (Master.Modbus_CAN_to_App (Master.Modbus_SetMainState
              { s with modbus_complete_reception := 0 } .MODBUS_PROCESSING))
            (user_function _ (huA (Or.inr ⟨hst, hrx⟩)))
          exact ⟨w, by rw [hc, if_pos hrx, hw]; rfl⟩
      | MODBUS_INITIAL =>
        refine ⟨s, ?_⟩
        unfold Master.Modbus_CAN_Controller
        rw [show Master.Modbus_GetMainState s = .MODBUS_INITIAL from hst]
      | MODBUS_TURNAROUND =>
        refine ⟨s, ?_⟩
        unfold Master.Modbus_CAN_Controller
        rw [show Master.Modbus_GetMainState s = .MODBUS_TURNAROUND from hst]
      | MODBUS_PROCESSING =>
        refine ⟨s, ?_⟩
        unfold Master.Modbus_CAN_Controller
        rw [show Master.Modbus_GetMainState s = .MODBUS_PROCESSING from hst]
      | MODBUS_ERROR =>
        refine ⟨Master.Modbus_SetMainState (Master.Modbus_CAN_Repeat_Request s) .MODBUS_IDLE, ?_⟩
        unfold Master.Modbus_CAN_Controller
        rw [show Master.Modbus_GetMainState s = .MODBUS_ERROR from hst]
    obtain ⟨w, hw⟩ := hr
    exact ⟨w, 1, hw, Or.inr rfl, by simp [hi]⟩

/-- Witness of C16: the master of `exMasterRead` with the retry flag set
re-sends its active request, the frames carry the PDU `03 00 10 00 02`; the
freshly initialised master `exMaster`, with an empty queue, returns 0 and
changes nothing. -/
theorem C16_idle_dispatch_witness :
    (∃ w frames, Master.Modbus_CAN_Controller { exMasterRead with modbus_forward_flag := 1 } =
        some (w, 1) ∧ w.modbus_forward_flag = 0 ∧ w.canTx = frames ∧
        Master.txCount frames = 1 ∧ framesPayload frames = [3, 0, 16, 0, 2]) ∧
      Master.Modbus_CAN_Controller exMaster = some (exMaster, 0) := by
  constructor
  · obtain ⟨w, frames, h1, h2, _, _, h5, h6, _, c1, _, _, _, c5⟩ :=
      (C16_idle_dispatch { exMasterRead with modbus_forward_flag := 1 } (by decide)
        (fun _ => by decide) (fun _ h => absurd h (by decide))).1 (by decide) (by decide)
    have e : ((Master.Modbus_App_Send_encode { exMasterRead with modbus_forward_flag := 1 }).map
        (fun b => (b.1.Modbus_App_Req_pdu, b.1.Modbus_App_L_Req_pdu))).map
        (fun q => q.1.take q.2) = some [3, 0, 16, 0, 2] := by decide
    rw [c1] at e
    simp only [Option.map_some', Option.some.injEq] at e
    exact ⟨w, frames, h1, h2, by simpa using h5, h6, c5.trans e⟩
  · exact (C16_idle_dispatch exMaster (by decide)
      (fun h => by
        rcases h with ⟨_, h⟩ | ⟨h, _⟩
        · exact absurd rfl h
        · exact absurd h (by decide))
      (fun _ _ h => absurd rfl h)).2.2.1 (by decide) (by decide) (by decide)

/-- Claim C17 (queue while busy).  `Modbus_App_Enqueue_Or_Send`, called with a
request `Modbus_App_Request` accepted by a user request function: when the
master is IDLE and the Request Queue is empty the request becomes the active
request and is transmitted at once and 0 is returned (one PDU transmission:
the PDU the encoder step of `Modbus_App_Send` builds for the request, 5..255
bytes that start with its function code and its fields `Data[0].UI2`,
`Data[1].UI2`, and the payload bytes of the frames appended to the transmit log
are exactly the bytes of that PDU);
in every other case nothing is transmitted, the active request and the master
state are unchanged (only the queue changes), and the return value is 1
exactly when the queue was full: a full queue is left as it is, otherwise the
request is stored at the head of the queue and the item count grows by one. -/
theorem C17_queue_while_busy (s : Master.State)
    (hlen : s.Modbus_App_Req_pdu.length = 256)
    (hu : Master.UserRequest s.Modbus_App_Request) :
    (s.modbus_master_state = .MODBUS_IDLE ∧ s.Modbus_FIFO_Tx.Items = 0 →
        ∃ w frames, Master.Modbus_App_Enqueue_Or_Send s = some (w, 0) ∧
          w.Modbus_App_Actual_Req = s.Modbus_App_Request ∧
          w.Modbus_FIFO_Tx = s.Modbus_FIFO_Tx ∧
          w.canTx = s.canTx ++ frames ∧ Master.txCount frames = 1 ∧
          (∀ f ∈ frames, f.ulMsgID &&& 0xFF = s.Modbus_App_Request.Slave) ∧
          (Master.Modbus_App_Send_encode 
            { s with Modbus_App_Actual_Req := s.Modbus_App_Request }).map
            (fun b => (b.1.Modbus_App_Req_pdu, b.1.Modbus_App_L_Req_pdu)) =
            some (w.Modbus_App_Req_pdu, w.Modbus_App_L_Req_pdu) ∧
          5 ≤ w.Modbus_App_L_Req_pdu ∧ w.Modbus_App_L_Req_pdu ≤ 255 ∧
          w.Modbus_App_Req_pdu.take 5 =
            [s.Modbus_App_Request.Function,
              (Master.UI2 s.Modbus_App_Request 0 >>> 8) % 256, Master.UI2 s.Modbus_App_Request 0 % 256,
              (Master.UI2 s.Modbus_App_Request 1 >>> 8) % 256, Master.UI2 s.Modbus_App_Request 1 % 256] ∧
          framesPayload frames = w.Modbus_App_Req_pdu.take w.Modbus_App_L_Req_pdu) ∧
      (¬ (s.modbus_master_state = .MODBUS_IDLE ∧ s.Modbus_FIFO_Tx.Items = 0) →
        Master.Modbus_App_Enqueue_Or_Send s =
            some ({ s with
                Modbus_FIFO_Tx := (Modbus_FIFO_Enqueue s.Modbus_FIFO_Tx s.Modbus_App_Request).1 },
              (Modbus_FIFO_Enqueue s.Modbus_FIFO_Tx s.Modbus_App_Request).2) ∧
          (s.Modbus_FIFO_Tx.Items ≥ MAX_ITEMS →
            Modbus_FIFO_Enqueue s.Modbus_FIFO_Tx s.Modbus_App_Request =
              (s.Modbus_FIFO_Tx, 1)) ∧
          (s.Modbus_FIFO_Tx.Items < MAX_ITEMS →
            Modbus_FIFO_Enqueue s.Modbus_FIFO_Tx s.Modbus_App_Request =
              ({ s.Modbus_FIFO_Tx with
                  Items := s.Modbus_FIFO_Tx.Items + 1
                  Buffer := s.Modbus_FIFO_Tx.Buffer.set s.Modbus_FIFO_Tx.Head
                    s.Modbus_App_Request
                  Head := (s.Modbus_FIFO_Tx.Head + 1) % MAX_ITEMS }, 0))) := by
  constructor
  · rintro ⟨hi, hq⟩
    obtain ⟨w, frames, hs, h1, h2, h3, _, h5, _, h7, _⟩ :=
      send_user_any { s with Modbus_App_Actual_Req := s.Modbus_App_Request } hu hlen
    obtain ⟨c1, c2, c3, c4, c5⟩ := send_user_carries
      { s with Modbus_App_Actual_Req := s.Modbus_App_Request } w frames hu hlen hs h1
    refine ⟨w, frames, ?_, h5, h7, h1, h2, h3, c1, c2, c3, c4, c5⟩
    unfold Master.Modbus_App_Enqueue_Or_Send
    rw [if_pos ⟨hi, by simp [Modbus_FIFO_Empty, hq]⟩, hs]
    rfl
  · intro hn
    have hcond : ¬ (Master.Modbus_GetMainState s = .MODBUS_IDLE ∧
        Modbus_FIFO_Empty s.Modbus_FIFO_Tx ≠ 0) := by
      intro h
      apply hn
      refine ⟨h.1, ?_⟩
      by_contra hq
      exact h.2 (by simp [Modbus_FIFO_Empty, hq])
    refine ⟨?_, ?_, ?_⟩
    · unfold Master.Modbus_App_Enqueue_Or_Send
      rw [if_neg hcond]
      by_cases hf : Modbus_FIFO_Full s.Modbus_FIFO_Tx ≠ 0
      · simp [Modbus_FIFO_Enqueue, hf]
      · simp [Modbus_FIFO_Enqueue, hf]
    · intro hfull
      simp [Modbus_FIFO_Enqueue, Modbus_FIFO_Full, hfull]
    · intro hfree
      have h1 : (s.Modbus_FIFO_Tx.Items + 1) % 256 = s.Modbus_FIFO_Tx.Items + 1 := by
        simp only [MAX_ITEMS] at hfree
        omega
      simp [Modbus_FIFO_Enqueue, Modbus_FIFO_Full, Nat.not_le.mpr hfree, h1]

/-- Witness of C17: the master `exMasterWaiting` (a reply is outstanding) asked
to send the request of `exMasterRead` enqueues it and transmits nothing; the
idle master `exMaster` with an empty queue transmits it at once, the frames
carry the PDU `03 00 10 00 02`. -/
theorem C17_queue_while_busy_witness :
    (∃ w, Master.Modbus_App_Enqueue_Or_Send
        { exMasterWaiting with Modbus_App_Request := ⟨5, 3, [16, 2, 0, 0, 0, 0]⟩ } =
        some (w, 0) ∧ w.canTx = exMasterWaiting.canTx ∧ w.Modbus_FIFO_Tx.Items = 1 ∧
        w.modbus_master_state = .MODBUS_WAITREPLY) ∧
      ∃ w frames, Master.Modbus_App_Enqueue_Or_Send
        { exMaster with Modbus_App_Request := ⟨5, 3, [16, 2, 0, 0, 0, 0]⟩ } = some (w, 0) ∧
        w.canTx = frames ∧ framesPayload frames = [3, 0, 16, 0, 2] := by
  constructor
  · obtain ⟨h1, _, h3⟩ := (C17_queue_while_busy
      { exMasterWaiting with Modbus_App_Request := ⟨5, 3, [16, 2, 0, 0, 0, 0]⟩ }
      (by decide) (by decide)).2 (by decide)
    rw [h3 (by decide)] at h1
    exact ⟨_, h1, rfl, rfl, by decide⟩
  · obtain ⟨w, frames, h1, _, _, h4, _, _, c1, _, _, _, c5⟩ := (C17_queue_while_busy
      { exMaster with Modbus_App_Request := ⟨5, 3, [16, 2, 0, 0, 0, 0]⟩ }
      (by decide) (by decide)).1 (by decide)
    have e : ((Master.Modbus_App_Send_encode
        { exMaster with
          Modbus_App_Request := ⟨5, 3, [16, 2, 0, 0, 0, 0]⟩
          Modbus_App_Actual_Req := ⟨5, 3, [16, 2, 0, 0, 0, 0]⟩ }).map
        (fun b => (b.1.Modbus_App_Req_pdu, b.1.Modbus_App_L_Req_pdu))).map
        (fun q => q.1.take q.2) = some [3, 0, 16, 0, 2] := by decide
    rw [show ({ exMaster with
          Modbus_App_Request := ⟨5, 3, [16, 2, 0, 0, 0, 0]⟩
          Modbus_App_Actual_Req := ⟨5, 3, [16, 2, 0, 0, 0, 0]⟩ } : Master.State) =
        { ({ exMaster with Modbus_App_Request := ⟨5, 3, [16, 2, 0, 0, 0, 0]⟩ } : Master.State) with
          Modbus_App_Actual_Req :=
            ({ exMaster with
              Modbus_App_Request := ⟨5, 3, [16, 2, 0, 0, 0, 0]⟩ } : Master.State).Modbus_App_Request }
        from rfl, c1] at e
    simp only [Option.map_some', Option.some.injEq] at e
    exact ⟨w, frames, h1, by simpa using h4, c5.trans e⟩

/-- The response checks return 0 or 1 and, of the variables of the master,
change `userMem` only. -/
theorem callbacks_frame (t : Master.State) :
    ((Master.Modbus_App_Read_Single_Bits_CallBack t).2 = 0 ∨
        (Master.Modbus_App_Read_Single_Bits_CallBack t).2 = 1) ∧
      (Master.Modbus_App_Read_Single_Bits_CallBack t).1 =
        { t with userMem := (Master.Modbus_App_Read_Single_Bits_CallBack t).1.userMem } ∧
      ((Master.Modbus_App_Read_Registers_CallBack t).2 = 0 ∨
        (Master.Modbus_App_Read_Registers_CallBack t).2 = 1) ∧
      (Master.Modbus_App_Read_Registers_CallBack t).1 =
        { t with userMem := (Master.Modbus_App_Read_Registers_CallBack t).1.userMem } ∧
      ((Master.Modbus_App_Read_Write_M_Registers_CallBack t).2 = 0 ∨
        (Master.Modbus_App_Read_Write_M_Registers_CallBack t).2 = 1) ∧
      (Master.Modbus_App_Read_Write_M_Registers_CallBack t).1 =
        { t with
          userMem := (Master.Modbus_App_Read_Write_M_Registers_CallBack t).1.userMem } ∧
      (Master.Modbus_App_Write_CallBack t = 0 ∨ Master.Modbus_App_Write_CallBack t = 1) ∧
      (Master.Modbus_App_Mask_Write_CallBack t = 0 ∨
        Master.Modbus_App_Mask_Write_CallBack t = 1) := by
  refine ⟨?_, ?_, ?_, ?_, ?_, ?_, ?_, ?_⟩
  · unfold Master.Modbus_App_Read_Single_Bits_CallBack; dsimp only; split_ifs <;> simp
  · unfold Master.Modbus_App_Read_Single_Bits_CallBack; dsimp only; split_ifs <;> rfl
  · unfold Master.Modbus_App_Read_Registers_CallBack; dsimp only; split_ifs <;> simp
  · unfold Master.Modbus_App_Read_Registers_CallBack; dsimp only; split_ifs <;> rfl
  · unfold Master.Modbus_App_Read_Write_M_Registers_CallBack; dsimp only; split_ifs <;> simp
  · unfold Master.Modbus_App_Read_Write_M_Registers_CallBack; dsimp only; split_ifs <;> rfl
  · unfold Master.Modbus_App_Write_CallBack; dsimp only; split_ifs <;> simp
  · unfold Master.Modbus_App_Mask_Write_CallBack; dsimp only; split_ifs <;> simp

/-- The tail of `Modbus_App_Manage_CallBack` after a response check with
return value `ret` that left the state `u`. -/
theorem manage_tail (u : Master.State) (ret : Nat) (hu : u.modbus_master_state = .MODBUS_PROCESSING)
    (hret : ret = 0 ∨ ret = 1) :
    ∃ w, (some (if ret ≠ 0 then Master.Modbus_SetMainState u .MODBUS_ERROR else u)).map
        (fun s1 =>
          if Master.Modbus_GetMainState s1 ≠ .MODBUS_ERROR then
            Master.Modbus_SetMainState (Master.Modbus_CAN_Reset_Attempt s1) .MODBUS_IDLE
          else s1) = some w ∧
      w.modbus_complete_reception = u.modbus_complete_reception ∧
      w.Modbus_App_Msg = u.Modbus_App_Msg ∧ w.Modbus_App_L_Msg = u.Modbus_App_L_Msg ∧
      w.Modbus_FIFO_Error = u.Modbus_FIFO_Error ∧ w.canTx = u.canTx ∧
      w.modbus_forward_flag = u.modbus_forward_flag ∧
      (ret = 0 → w.modbus_attempts = 1 ∧ w.modbus_master_state = .MODBUS_IDLE) ∧
      (ret = 1 → w.modbus_master_state = .MODBUS_ERROR ∧
        w.modbus_attempts = u.modbus_attempts) := by
  rcases hret with h | h
  · subst h
    refine ⟨Master.Modbus_SetMainState (Master.Modbus_CAN_Reset_Attempt u) .MODBUS_IDLE, ?_,
      rfl, rfl, rfl, rfl, rfl, rfl, fun _ => ⟨rfl, rfl⟩, fun h => absurd h (by decide)⟩
    simp [Master.Modbus_GetMainState, hu]
  · subst h
    refine ⟨Master.Modbus_SetMainState u .MODBUS_ERROR, ?_,
      rfl, rfl, rfl, rfl, rfl, rfl, fun h => absurd h (by decide), fun _ => ⟨rfl, rfl⟩⟩
    simp [Master.Modbus_GetMainState, Master.Modbus_SetMainState]

/-- The function `Modbus_App_Manage_CallBack` for a reply whose first byte is the function
code of the active request: the response check of that function code, then the
common tail. -/
theorem manage_callback_match (t : Master.State)
    (hf : t.Modbus_App_Actual_Req.Function = 1 ∨ t.Modbus_App_Actual_Req.Function = 2 ∨
      t.Modbus_App_Actual_Req.Function = 3 ∨ t.Modbus_App_Actual_Req.Function = 4 ∨
      t.Modbus_App_Actual_Req.Function = 5 ∨ t.Modbus_App_Actual_Req.Function = 6 ∨
      t.Modbus_App_Actual_Req.Function = 15 ∨ t.Modbus_App_Actual_Req.Function = 16 ∨
      t.Modbus_App_Actual_Req.Function = 22 ∨ t.Modbus_App_Actual_Req.Function = 23)
    (hm : rd t.Modbus_App_Msg 0 = t.Modbus_App_Actual_Req.Function) :
    ∃ u, Master.Modbus_App_Manage_CallBack t =
        (some (if Master.responseCheck t ≠ 0 then Master.Modbus_SetMainState u .MODBUS_ERROR
          else u)).map
          (fun s1 =>
            if Master.Modbus_GetMainState s1 ≠ .MODBUS_ERROR then
              Master.Modbus_SetMainState (Master.Modbus_CAN_Reset_Attempt s1) .MODBUS_IDLE
            else s1) ∧
      u = { t with userMem := u.userMem } ∧
      (Master.responseCheck t = 0 ∨ Master.responseCheck t = 1) := by
  obtain ⟨b1, b2, r1, r2, w1, w2, c1, c2⟩ := callbacks_frame t
  rcases hf with h | h | h | h | h | h | h | h | h | h
  · exact ⟨(Master.Modbus_App_Read_Single_Bits_CallBack t).1,
      by simp [Master.Modbus_App_Manage_CallBack, Master.responseCheck, hm, h], b2,
      by simpa [Master.responseCheck, h] using b1⟩
  · exact ⟨(Master.Modbus_App_Read_Single_Bits_CallBack t).1,
      by simp [Master.Modbus_App_Manage_CallBack, Master.responseCheck, hm, h], b2,
      by simpa [Master.responseCheck, h] using b1⟩
  · exact ⟨(Master.Modbus_App_Read_Registers_CallBack t).1,
      by simp [Master.Modbus_App_Manage_CallBack, Master.responseCheck, hm, h], r2,
      by simpa [Master.responseCheck, h] using r1⟩
  · exact ⟨(Master.Modbus_App_Read_Registers_CallBack t).1,
      by simp [Master.Modbus_App_Manage_CallBack, Master.responseCheck, hm, h], r2,
      by simpa [Master.responseCheck, h] using r1⟩
  · exact ⟨t, by simp [Master.Modbus_App_Manage_CallBack, Master.responseCheck, hm, h], rfl,
      by simpa [Master.responseCheck, h] using c1⟩
  · exact ⟨t, by simp [Master.Modbus_App_Manage_CallBack, Master.responseCheck, hm, h], rfl,
      by simpa [Master.responseCheck, h] using c1⟩
  · exact ⟨t, by simp [Master.Modbus_App_Manage_CallBack, Master.responseCheck, hm, h], rfl,
      by simpa [Master.responseCheck, h] using c1⟩
  · exact ⟨t, by simp [Master.Modbus_App_Manage_CallBack, Master.responseCheck, hm, h], rfl,
      by simpa [Master.responseCheck, h] using c1⟩
  · exact ⟨t, by simp [Master.Modbus_App_Manage_CallBack, Master.responseCheck, hm, h], rfl,
      by simpa [Master.responseCheck, h] using c2⟩
  · exact ⟨(Master.Modbus_App_Read_Write_M_Registers_CallBack t).1,
      by simp [Master.Modbus_App_Manage_CallBack, Master.responseCheck, hm, h], w2,
      by simpa [Master.responseCheck, h] using w1⟩

/-- Claim C18 (reply acceptance).  When `Modbus_CAN_Controller` in WAITREPLY
finds the completion flag set, it returns 1, the flag is cleared and the
reassembled PDU is handed to the application (`Modbus_App_L_Msg` is
`input_length`, `Modbus_App_Msg` holds the bytes of `input_pdu`).  If the first
byte handed over equals the function code of the active request (one of the
codes of the user request functions), then: if the response check of that
function returns 0 the attempt counter becomes 1 and the state IDLE; if it
returns 1 the state becomes ERROR and the attempt counter is unchanged; the
check returns 0 or 1.  Neither the failure queue nor the transmit log
changes. -/
theorem C18_reply_acceptance (s : Master.State)
    (hst : s.modbus_master_state = .MODBUS_WAITREPLY)
    (hrx : s.modbus_complete_reception ≠ 0)
    (hf : s.Modbus_App_Actual_Req.Function = 1 ∨ s.Modbus_App_Actual_Req.Function = 2 ∨
      s.Modbus_App_Actual_Req.Function = 3 ∨ s.Modbus_App_Actual_Req.Function = 4 ∨
      s.Modbus_App_Actual_Req.Function = 5 ∨ s.Modbus_App_Actual_Req.Function = 6 ∨
      s.Modbus_App_Actual_Req.Function = 15 ∨ s.Modbus_App_Actual_Req.Function = 16 ∨
      s.Modbus_App_Actual_Req.Function = 22 ∨ s.Modbus_App_Actual_Req.Function = 23)
    (hm : rd (Master.replyHandOver s).Modbus_App_Msg 0 = s.Modbus_App_Actual_Req.Function) :
    (1 ≤ s.input_length → 0 < s.Modbus_App_Msg.length →
        rd (Master.replyHandOver s).Modbus_App_Msg 0 = rd s.input_pdu 0) ∧
      ∃ w, Master.Modbus_CAN_Controller s = some (w, 1) ∧
        w.modbus_complete_reception = 0 ∧
        w.Modbus_App_L_Msg = s.input_length ∧
        w.Modbus_App_Msg = copyBytes s.Modbus_App_Msg 0 s.input_pdu 0 s.input_length ∧
        w.Modbus_FIFO_Error = s.Modbus_FIFO_Error ∧ w.canTx = s.canTx ∧
        (Master.responseCheck (Master.replyHandOver s) = 0 ∨
          Master.responseCheck (Master.replyHandOver s) = 1) ∧
        (Master.responseCheck (Master.replyHandOver s) = 0 →
          w.modbus_attempts = 1 ∧ w.modbus_master_state = .MODBUS_IDLE) ∧
        (Master.responseCheck (Master.replyHandOver s) = 1 →
          w.modbus_master_state = .MODBUS_ERROR ∧ w.modbus_attempts = s.modbus_attempts) := by
  constructor
  · intro h1 h2
    have := (copyBytes_spec s.input_pdu 0 0 s.input_length s.Modbus_App_Msg).2 0
    rw [if_pos ⟨Nat.le_refl 0, by omega, h2⟩] at this
    exact this
  · have hc : Master.Modbus_CAN_Controller s =
        (Master.Modbus_App_Manage_CallBack (Master.replyHandOver s)).map
          (fun s2 => (s2, 1)) := by
      unfold Master.Modbus_CAN_Controller
      rw [show Master.Modbus_GetMainState s = .MODBUS_WAITREPLY from hst]
      simp only [hrx, ne_eq, not_false_eq_true, if_true]
      rfl
    obtain ⟨u, hu1, hu2, hret⟩ := manage_callback_match (Master.replyHandOver s) hf hm
    have hup : u.modbus_master_state = .MODBUS_PROCESSING := by rw [hu2]; rfl
    obtain ⟨w, hw, k1, k2, k3, k4, k5, _, k7, k8⟩ :=
      manage_tail u (Master.responseCheck (Master.replyHandOver s)) hup hret
    refine ⟨w, ?_, ?_, ?_, ?_, ?_, ?_, hret, k7, ?_⟩
    · rw [hc, hu1, hw]; rfl
    · rw [k1, hu2]; rfl
    · rw [k3, hu2]; rfl
    · rw [k2, hu2]; rfl
    · rw [k4, hu2]; rfl
    · rw [k5, hu2]; rfl
    · intro h
      obtain ⟨e1, e2⟩ := k8 h
      refine ⟨e1, ?_⟩
      rw [e2, hu2]; rfl

/-- Witness of C18: the reply `03 04 12 34 56 78` to the read of 2 holding
registers is accepted: attempt counter 1, state IDLE. -/
theorem C18_reply_acceptance_witness :
    ∃ w, Master.Modbus_CAN_Controller (exMasterReplied [3, 4, 0x12, 0x34, 0x56, 0x78]) =
        some (w, 1) ∧ w.modbus_complete_reception = 0 ∧ w.modbus_attempts = 1 ∧
        w.modbus_master_state = .MODBUS_IDLE := by
  obtain ⟨w, h1, h2, _, _, _, _, _, h8, _⟩ :=
    (C18_reply_acceptance (exMasterReplied [3, 4, 0x12, 0x34, 0x56, 0x78]) (by decide)
      (by decide) (by decide) (by decide)).2
  obtain ⟨h9, h10⟩ := h8 (by decide)
  exact ⟨w, h1, h2, h9, h10⟩

/-- Claim C19, evaluated.  The active request has function code 3 and the
master is on its second attempt.  The exception reply `83 02` is final: one
failure record (request, `83 02`) is enqueued, the attempt counter is 1, the
retry flag is clear and the state is IDLE.  The exception reply `83 0B` (code
11) is not: the source tests `Modbus_App_Msg[1]!=11` where its comment says
"Type 1-8, 10 or 11", so no record is enqueued, the attempt counter stays 2
and the state stays ERROR, from which the controller retries the request. -/
theorem C19_exception_code_11_evaluated :
    (Master.Modbus_App_Manage_CallBack (Master.replyHandOver (exMasterReplied [0x83, 2]))).map
        (fun w => (w.modbus_master_state, w.modbus_attempts, w.modbus_forward_flag,
          w.Modbus_FIFO_Error.Items, w.Modbus_FIFO_Error.Buffer.getD 0 default)) =
        some (.MODBUS_IDLE, 1, 0, 1, ⟨⟨5, 3, [16, 2, 0, 0, 0, 0]⟩, 0x83, 2⟩) ∧
      (Master.Modbus_App_Manage_CallBack (Master.replyHandOver (exMasterReplied [0x83, 11]))).map
        (fun w => (w.modbus_master_state, w.modbus_attempts, w.modbus_forward_flag,
          w.Modbus_FIFO_Error.Items)) =
        some (.MODBUS_ERROR, 2, 0, 0) ∧
      ((Master.Modbus_CAN_Controller (exMasterReplied [0x83, 11])).bind
        (fun r => Master.Modbus_CAN_Controller r.1)).map
        (fun r => (r.1.modbus_master_state, r.1.modbus_attempts, r.1.modbus_forward_flag,
          r.1.Modbus_FIFO_Error.Items)) =
        some (.MODBUS_IDLE, 3, 1, 0) := by
  decide

/-- Claim C20, evaluated.  The active request has function code 3; the reply
`04 02` starts with neither `03` nor `83`.  The source tests
`Modbus_App_Msg[0] == Modbus_App_Actual_Req.Function | 128`, which C reads as
`(Modbus_App_Msg[0] == Function) | 128` and which is never 0, under the comment
"If the answer is the expected exception": the 2-byte reply is taken for an
exception reply, a failure record (request, `04 02`) is enqueued, the attempt
counter is reset and the state is IDLE, not ERROR.  The 3-byte reply
`04 02 00` fails the length test of the same branch and leaves the state
ERROR with no record, as the claim says. -/
theorem C20_unexpected_function_evaluated :
    (Master.Modbus_App_Manage_CallBack (Master.replyHandOver (exMasterReplied [4, 2]))).map
        (fun w => (w.modbus_master_state, w.modbus_attempts, w.Modbus_FIFO_Error.Items,
          w.Modbus_FIFO_Error.Buffer.getD 0 default)) =
        some (.MODBUS_IDLE, 1, 1, ⟨⟨5, 3, [16, 2, 0, 0, 0, 0]⟩, 4, 2⟩) ∧
      (Master.Modbus_App_Manage_CallBack (Master.replyHandOver (exMasterReplied [4, 2, 0]))).map
        (fun w => (w.modbus_master_state, w.modbus_attempts, w.Modbus_FIFO_Error.Items)) =
        some (.MODBUS_ERROR, 2, 0) := by
  decide
/-! ## Master timeouts -/

/-- Claim C21: `Modbus_CAN_Timeouts` takes a master in WAITREPLY to ERROR and a
master in TURNAROUND to IDLE, changing no other variable (attempt counter,
retry flag, queues and all the rest keep their values); in each of the other
four states it ends in the fatal-error handler and does not return. -/
theorem C21_timeout_transitions (s : Master.State) :
    Master.Modbus_CAN_Timeouts { s with modbus_master_state := .MODBUS_WAITREPLY } =
        some { s with modbus_master_state := .MODBUS_ERROR } ∧
      Master.Modbus_CAN_Timeouts { s with modbus_master_state := .MODBUS_TURNAROUND } =
        some { s with modbus_master_state := .MODBUS_IDLE } ∧
      Master.Modbus_CAN_Timeouts { s with modbus_master_state := .MODBUS_INITIAL } = none ∧
      Master.Modbus_CAN_Timeouts { s with modbus_master_state := .MODBUS_IDLE } = none ∧
      Master.Modbus_CAN_Timeouts { s with modbus_master_state := .MODBUS_PROCESSING } = none ∧
      Master.Modbus_CAN_Timeouts { s with modbus_master_state := .MODBUS_ERROR } = none := by
  refine ⟨rfl, rfl, rfl, rfl, rfl, rfl⟩

/-- Claim C22: when the completion flag is set, `Modbus_CAN_UnicastTimeoutHandler`
returns and leaves every variable of the master (state, attempt counter, retry
flag, reassembly buffer, queues) as it was; it only clears the timer
interrupt. -/
theorem C22_late_unicast_timeout (s : Master.State) (h : s.modbus_complete_reception ≠ 0) :
    Master.Modbus_CAN_UnicastTimeoutHandler s = some s := by
  simp [Master.Modbus_CAN_UnicastTimeoutHandler, h]

theorem C22_late_unicast_timeout_witness :
    (exMasterReplied [3, 4, 0, 1, 0, 2]).modbus_complete_reception ≠ 0 ∧
      Master.Modbus_CAN_UnicastTimeoutHandler (exMasterReplied [3, 4, 0, 1, 0, 2]) =
        some (exMasterReplied [3, 4, 0, 1, 0, 2]) :=
  ⟨by simp [exMasterReplied], C22_late_unicast_timeout _ (by simp [exMasterReplied])⟩

theorem toU32_of_lt (n : Nat) (h : n < 4294967296) : Master.toU32 (n : Int) = n := by
  unfold Master.toU32
  omega

/-- Claim C23 (counterexample): at 100 kbps and expected size 504 (the guess
for a request that writes 123 registers) the formula gives 6518399832 for a
first attempt, but the unicast timer is loaded with 2223432536. -/
theorem C23_counterexample_wrap :
    Master.unicastFormula (Master.transferTime exMaster100k.modbus_bit_rate) 504
        exMaster100k.modbus_attempts = 6518399832 ∧
      (Master.Modbus_CAN_UnicastTimeout exMaster100k 504).timer1 = some 2223432536 ∧
      (Master.Modbus_CAN_UnicastTimeout exMaster100k 504).modbus_unicast_timeout =
        2223432536 := by
  simp [Master.unicastFormula, Master.transferTime, exMaster100k, exMaster,
    Master.Modbus_CAN_UnicastTimeout, Master.toU32]

/-- Claim C23 (amended): for an expected size `g` (16 bits) and a current
attempt `a ≥ 1`, with `T` the transfer time of the bit rate: when
`g*T + 900000*g*4 + (a-1)*8000` is below `2^32` it is the unicast timer load;
when `2*(g*T + 900000*g*4)` is below `2^32` it is the broadcast timer load and
is twice the unicast load of a first attempt; and when the unicast value of
attempt `a+1` is below `2^32`, it exceeds that of attempt `a` by 8000. -/
theorem C23_timeout_formula_in_range (s : Master.State) (g : Nat) (hg : g < 65536)
    (ha : 1 ≤ s.modbus_attempts) :
    (Master.unicastFormula (Master.transferTime s.modbus_bit_rate) g s.modbus_attempts < 2 ^ 32 →
        (Master.Modbus_CAN_UnicastTimeout s g).timer1 =
            some (Master.unicastFormula (Master.transferTime s.modbus_bit_rate) g
              s.modbus_attempts) ∧
          (Master.Modbus_CAN_UnicastTimeout s g).modbus_unicast_timeout =
            Master.unicastFormula (Master.transferTime s.modbus_bit_rate) g s.modbus_attempts) ∧
      (Master.broadcastFormula (Master.transferTime s.modbus_bit_rate) g < 2 ^ 32 →
        (Master.Modbus_CAN_BroadcastTimeout s g).timer2 =
            some (Master.broadcastFormula (Master.transferTime s.modbus_bit_rate) g) ∧
          (Master.Modbus_CAN_BroadcastTimeout s g).modbus_broadcast_timeout =
            Master.broadcastFormula (Master.transferTime s.modbus_bit_rate) g ∧
          (Master.Modbus_CAN_BroadcastTimeout s g).modbus_broadcast_timeout =
            2 * (Master.Modbus_CAN_UnicastTimeout { s with modbus_attempts := 1 }
              g).modbus_unicast_timeout) ∧
      (Master.unicastFormula (Master.transferTime s.modbus_bit_rate) g
            (s.modbus_attempts + 1) < 2 ^ 32 →
        (Master.Modbus_CAN_UnicastTimeout { s with modbus_attempts := s.modbus_attempts + 1 }
            g).modbus_unicast_timeout =
          (Master.Modbus_CAN_UnicastTimeout s g).modbus_unicast_timeout + 8000) := by
  have hgm : g % 65536 = g := Nat.mod_eq_of_lt hg
  obtain ⟨k, hk⟩ : ∃ k, s.modbus_attempts = k + 1 := ⟨s.modbus_attempts - 1, by omega⟩
  have hu : ∀ (T : Nat) (j : Nat), g * T + 900000 * g * 4 + j * 8000 < 4294967296 →
      Master.toU32 (((g : Nat) : Int) * (T : Int) + 900000 * ((g : Nat) : Int) * 4 +
        (((j + 1 : Nat) : Int) - 1) * 8000) = g * T + 900000 * g * 4 + j * 8000 := by
    intro T j h
    rw [← toU32_of_lt _ h]
    congr 1
    push_cast
    ring
  have hb : ∀ (T : Nat), 2 * (g * T + 900000 * g * 4) < 4294967296 →
      Master.toU32 ((((g : Nat) : Int) * (T : Int) + 900000 * ((g : Nat) : Int) * 4) * 2) =
        2 * (g * T + 900000 * g * 4) := by
    intro T h
    rw [← toU32_of_lt _ h]
    congr 1
    push_cast
    ring
  have e1 : (2 : Nat) ^ 32 = 4294967296 := by norm_num
  rw [e1]
  refine ⟨?_, ?_, ?_⟩
  · intro h
    have := hu (Master.transferTime s.modbus_bit_rate) k
      (by simpa [Master.unicastFormula, hk] using h)
    cases hr : s.modbus_bit_rate <;>
      simp [Master.Modbus_CAN_UnicastTimeout, Master.unicastFormula, Master.transferTime, hr,
        hgm, hk] at this ⊢ <;> exact this
  · intro h
    have hB := hb (Master.transferTime s.modbus_bit_rate)
      (by simpa [Master.broadcastFormula] using h)
    have hU := hu (Master.transferTime s.modbus_bit_rate) 0
      (by simp only [Master.broadcastFormula] at h; omega)
    cases hr : s.modbus_bit_rate <;>
      simp [Master.Modbus_CAN_BroadcastTimeout, Master.Modbus_CAN_UnicastTimeout,
        Master.broadcastFormula, Master.transferTime, hr, hgm] at hB hU ⊢ <;>
      refine ⟨hB, ?_⟩ <;> rw [hB, hU]
  · intro h
    have h1 := hu (Master.transferTime s.modbus_bit_rate) (k + 1)
      (by simpa [Master.unicastFormula, hk] using h)
    have h0 := hu (Master.transferTime s.modbus_bit_rate) k
      (by simp only [Master.unicastFormula, hk] at h; omega)
    cases hr : s.modbus_bit_rate <;>
      simp [Master.Modbus_CAN_UnicastTimeout, Master.transferTime, hr, hgm, hk] at h0 h1 ⊢ <;>
      rw [h0, h1] <;> ring

theorem C23_timeout_formula_in_range_witness :
    (11 < 65536 ∧ 1 ≤ exMaster.modbus_attempts) ∧
      (Master.Modbus_CAN_UnicastTimeout exMaster 11).timer1 = some 49866663 ∧
      (Master.Modbus_CAN_BroadcastTimeout exMaster 11).timer2 = some 99733326 ∧
      (Master.Modbus_CAN_BroadcastTimeout exMaster 11).modbus_broadcast_timeout =
        2 * (Master.Modbus_CAN_UnicastTimeout { exMaster with modbus_attempts := 1 }
          11).modbus_unicast_timeout ∧
      (Master.Modbus_CAN_UnicastTimeout
          { exMaster with modbus_attempts := exMaster.modbus_attempts + 1 }
          11).modbus_unicast_timeout =
        (Master.Modbus_CAN_UnicastTimeout exMaster 11).modbus_unicast_timeout + 8000 :=
  have h := C23_timeout_formula_in_range exMaster 11 (by norm_num) (by simp [exMaster])
  have b1 : Master.unicastFormula (Master.transferTime exMaster.modbus_bit_rate) 11
      exMaster.modbus_attempts = 49866663 := by
    simp [Master.unicastFormula, Master.transferTime, exMaster]
  have b2 : Master.broadcastFormula (Master.transferTime exMaster.modbus_bit_rate) 11 =
      99733326 := by
    simp [Master.broadcastFormula, Master.transferTime, exMaster]
  have b3 : Master.unicastFormula (Master.transferTime exMaster.modbus_bit_rate) 11
      (exMaster.modbus_attempts + 1) = 49874663 := by
    simp [Master.unicastFormula, Master.transferTime, exMaster]
  ⟨⟨by norm_num, by simp [exMaster]⟩, b1 ▸ (h.1 (by rw [b1]; norm_num)).1,
    b2 ▸ (h.2.1 (by rw [b2]; norm_num)).1, (h.2.1 (by rw [b2]; norm_num)).2.2,
    h.2.2 (by rw [b3]; norm_num)⟩
/-! ## Theorems: the RTU receiver -/

/-- One character in RECEPTION: the variables the routine leaves alone, the
frame flag, the index and the active array. -/
theorem uart_reception_step (s : Serial.State) (c : Nat)
    (h : s.Modbus_OSL_State = .MODBUS_OSL_RTU_RECEPTION) :
    Serial.Modbus_OSL_RTU_UART s c =
      { s with
        Modbus_OSL_RTU_Msg1 := (Serial.Modbus_OSL_RTU_UART s c).Modbus_OSL_RTU_Msg1
        Modbus_OSL_RTU_Msg2 := (Serial.Modbus_OSL_RTU_UART s c).Modbus_OSL_RTU_Msg2
        Modbus_OSL_RTU_Index := (s.Modbus_OSL_RTU_Index + 1) % 65536
        Modbus_OSL_Frame :=
          if s.Modbus_OSL_RTU_Index > 255 then .MODBUS_OSL_Frame_NOK else s.Modbus_OSL_Frame
        timer0 := some s.Modbus_OSL_RTU_Timeout_35
        timer1 := some s.Modbus_OSL_RTU_Timeout_15 } ∧
      Serial.buffer (Serial.Modbus_OSL_RTU_UART s c) s.Modbus_OSL_RTU_Msg =
        (Serial.buffer s s.Modbus_OSL_RTU_Msg).set s.Modbus_OSL_RTU_Index (c % 256) ∧
      Serial.buffer (Serial.Modbus_OSL_RTU_UART s c) s.Modbus_OSL_RTU_Msg.other =
        Serial.buffer s s.Modbus_OSL_RTU_Msg.other := by
  unfold Serial.Modbus_OSL_RTU_UART
  rw [h]
  by_cases hi : s.Modbus_OSL_RTU_Index > 255 <;> cases hm : s.Modbus_OSL_RTU_Msg <;>
    simp [hi, hm, Serial.storeChar, Serial.Modbus_OSL_Frame_Set, Serial.buffer,
      Serial.RtuBuffer.other, h]

/-- Characters in RECEPTION: what `receive` leaves alone. -/
theorem receive_reception_frame (bytes : List Nat) : ∀ (s : Serial.State),
    s.Modbus_OSL_State = .MODBUS_OSL_RTU_RECEPTION →
    Serial.receive s bytes =
      { s with
        Modbus_OSL_RTU_Msg1 := (Serial.receive s bytes).Modbus_OSL_RTU_Msg1
        Modbus_OSL_RTU_Msg2 := (Serial.receive s bytes).Modbus_OSL_RTU_Msg2
        Modbus_OSL_RTU_Index := (Serial.receive s bytes).Modbus_OSL_RTU_Index
        Modbus_OSL_Frame := (Serial.receive s bytes).Modbus_OSL_Frame
        timer0 := (Serial.receive s bytes).timer0
        timer1 := (Serial.receive s bytes).timer1 } := by
  induction bytes with
  | nil => intro s _; rfl
  | cons c rest ih =>
    intro s h
    have h1 := (uart_reception_step s c h).1
    have hs : (Serial.Modbus_OSL_RTU_UART s c).Modbus_OSL_State = .MODBUS_OSL_RTU_RECEPTION := by
      rw [h1]; exact h
    have h2 := ih _ hs
    have e : Serial.receive s (c :: rest) = Serial.receive (Serial.Modbus_OSL_RTU_UART s c) rest :=
      rfl
    rw [e]
    generalize Serial.receive (Serial.Modbus_OSL_RTU_UART s c) rest = r at h2 ⊢
    generalize Serial.Modbus_OSL_RTU_UART s c = u at h1 h2
    rw [h2, h1]

/-- Characters in RECEPTION: a frame marked NOK stays NOK, and the frame is
marked NOK once a character arrives at an index above 255. -/
theorem receive_reception_nok (bytes : List Nat) : ∀ (s : Serial.State),
    s.Modbus_OSL_State = .MODBUS_OSL_RTU_RECEPTION →
    (s.Modbus_OSL_Frame = .MODBUS_OSL_Frame_NOK →
        (Serial.receive s bytes).Modbus_OSL_Frame = .MODBUS_OSL_Frame_NOK) ∧
      (s.Modbus_OSL_RTU_Index ≤ 256 → 256 < s.Modbus_OSL_RTU_Index + bytes.length →
        (Serial.receive s bytes).Modbus_OSL_Frame = .MODBUS_OSL_Frame_NOK) := by
  induction bytes with
  | nil =>
    intro s _
    exact ⟨fun h => h, fun h1 h2 => by simp at h2; omega⟩
  | cons c rest ih =>
    intro s h
    have h1 := (uart_reception_step s c h).1
    have hs : (Serial.Modbus_OSL_RTU_UART s c).Modbus_OSL_State = .MODBUS_OSL_RTU_RECEPTION := by
      rw [h1]; exact h
    have hf : (Serial.Modbus_OSL_RTU_UART s c).Modbus_OSL_Frame =
        if s.Modbus_OSL_RTU_Index > 255 then .MODBUS_OSL_Frame_NOK else s.Modbus_OSL_Frame := by
      rw [h1]
    have hx : (Serial.Modbus_OSL_RTU_UART s c).Modbus_OSL_RTU_Index =
        (s.Modbus_OSL_RTU_Index + 1) % 65536 := by
      rw [h1]
    obtain ⟨i1, i2⟩ := ih _ hs
    have e : Serial.receive s (c :: rest) = Serial.receive (Serial.Modbus_OSL_RTU_UART s c) rest :=
      rfl
    rw [e]
    refine ⟨fun hn => i1 ?_, fun hle hlen => ?_⟩
    · rw [hf, hn]; simp
    · by_cases hi : s.Modbus_OSL_RTU_Index > 255
      · exact i1 (by rw [hf, if_pos hi])
      · apply i2
        · rw [hx]; omega
        · rw [hx]; simp only [List.length_cons] at hlen; omega

/-- Characters in RECEPTION that fit the array: the frame flag is not touched,
the index counts them and the active array holds them from the old index on;
the other array is not touched. -/
theorem receive_reception_fits (bytes : List Nat) : ∀ (s : Serial.State),
    s.Modbus_OSL_State = .MODBUS_OSL_RTU_RECEPTION →
    s.Modbus_OSL_RTU_Index + bytes.length ≤ 256 →
    (Serial.receive s bytes).Modbus_OSL_Frame = s.Modbus_OSL_Frame ∧
      (Serial.receive s bytes).Modbus_OSL_RTU_Index = s.Modbus_OSL_RTU_Index + bytes.length ∧
      (Serial.buffer (Serial.receive s bytes) s.Modbus_OSL_RTU_Msg).length =
        (Serial.buffer s s.Modbus_OSL_RTU_Msg).length ∧
      (∀ j, rd (Serial.buffer (Serial.receive s bytes) s.Modbus_OSL_RTU_Msg) j =
        if s.Modbus_OSL_RTU_Index ≤ j ∧ j < s.Modbus_OSL_RTU_Index + bytes.length ∧
            j < (Serial.buffer s s.Modbus_OSL_RTU_Msg).length
          then rd bytes (j - s.Modbus_OSL_RTU_Index) % 256
          else rd (Serial.buffer s s.Modbus_OSL_RTU_Msg) j) ∧
      Serial.buffer (Serial.receive s bytes) s.Modbus_OSL_RTU_Msg.other =
        Serial.buffer s s.Modbus_OSL_RTU_Msg.other := by
  induction bytes with
  | nil =>
    intro s _ _
    refine ⟨rfl, rfl, rfl, fun j => ?_, rfl⟩
    rw [if_neg (by simp; omega)]
    rfl
  | cons c rest ih =>
    intro s h hlen
    simp only [List.length_cons] at hlen
    obtain ⟨h1, hb, ho⟩ := uart_reception_step s c h
    have hs : (Serial.Modbus_OSL_RTU_UART s c).Modbus_OSL_State = .MODBUS_OSL_RTU_RECEPTION := by
      rw [h1]; exact h
    have hf : (Serial.Modbus_OSL_RTU_UART s c).Modbus_OSL_Frame = s.Modbus_OSL_Frame := by
      rw [h1]; simp; omega
    have hx : (Serial.Modbus_OSL_RTU_UART s c).Modbus_OSL_RTU_Index =
        s.Modbus_OSL_RTU_Index + 1 := by
      rw [h1]; simp; omega
    have hm : (Serial.Modbus_OSL_RTU_UART s c).Modbus_OSL_RTU_Msg = s.Modbus_OSL_RTU_Msg := by
      rw [h1]
    obtain ⟨i1, i2, i3, i4, i5⟩ := ih _ hs (by rw [hx]; omega)
    have e : Serial.receive s (c :: rest) = Serial.receive (Serial.Modbus_OSL_RTU_UART s c) rest :=
      rfl
    rw [e]
    rw [hm] at i3 i4 i5
    rw [hx] at i2 i4
    rw [hb] at i3 i4
    rw [ho] at i5
    refine ⟨i1.trans hf, by rw [i2]; simp only [List.length_cons]; omega, ?_, fun j => ?_, i5⟩
    · rw [i3, List.length_set]
    · rw [i4, List.length_set, rd_set]
      simp only [List.length_cons]
      by_cases hj : s.Modbus_OSL_RTU_Index = j
      · subst hj
        rw [if_neg (by omega)]
        by_cases hl : s.Modbus_OSL_RTU_Index < (Serial.buffer s s.Modbus_OSL_RTU_Msg).length
        · rw [if_pos ⟨rfl, hl⟩, if_pos ⟨Nat.le_refl _, by omega, hl⟩, Nat.sub_self]
          rfl
        · rw [if_neg (by omega), if_neg (by omega)]
      · by_cases hc : s.Modbus_OSL_RTU_Index + 1 ≤ j ∧
            j < s.Modbus_OSL_RTU_Index + 1 + rest.length ∧
            j < (Serial.buffer s s.Modbus_OSL_RTU_Msg).length
        · rw [if_pos hc, if_pos (by omega)]
          rw [show j - s.Modbus_OSL_RTU_Index = (j - (s.Modbus_OSL_RTU_Index + 1)) + 1 by omega,
            rd_cons_succ]
        · rw [if_neg hc, if_neg (by omega), if_neg (by omega)]

/-- The first character of a frame, received in IDLE. -/
theorem uart_idle_step (s : Serial.State) (c : Nat)
    (h : s.Modbus_OSL_State = .MODBUS_OSL_RTU_IDLE) :
    Serial.Modbus_OSL_RTU_UART s c =
      { s with
        Modbus_OSL_RTU_Msg1 := (Serial.Modbus_OSL_RTU_UART s c).Modbus_OSL_RTU_Msg1
        Modbus_OSL_RTU_Msg2 := (Serial.Modbus_OSL_RTU_UART s c).Modbus_OSL_RTU_Msg2
        Modbus_OSL_RTU_Index := (s.Modbus_OSL_RTU_Index + 1) % 65536
        Modbus_OSL_State := .MODBUS_OSL_RTU_RECEPTION } ∧
      Serial.buffer (Serial.Modbus_OSL_RTU_UART s c) s.Modbus_OSL_RTU_Msg =
        (Serial.buffer s s.Modbus_OSL_RTU_Msg).set s.Modbus_OSL_RTU_Index (c % 256) ∧
      Serial.buffer (Serial.Modbus_OSL_RTU_UART s c) s.Modbus_OSL_RTU_Msg.other =
        Serial.buffer s s.Modbus_OSL_RTU_Msg.other := by
  unfold Serial.Modbus_OSL_RTU_UART
  rw [h]
  cases hm : s.Modbus_OSL_RTU_Msg <;>
    simp [hm, Serial.storeChar, Serial.Modbus_OSL_State_Set, Serial.buffer,
      Serial.RtuBuffer.other, h]

/-- The 1.5T expiry in RECEPTION. -/
theorem rtu_15T_reception (s : Serial.State)
    (h : s.Modbus_OSL_State = .MODBUS_OSL_RTU_RECEPTION) :
    Serial.Modbus_OSL_RTU_15T s =
      some { s with
        Modbus_OSL_State := .MODBUS_OSL_RTU_CONTROLANDWAITING
        timer1 := some s.Modbus_OSL_RTU_Timeout_15 } := by
  simp [Serial.Modbus_OSL_RTU_15T, h, Serial.Modbus_OSL_State_Set]

/-- The 3.5T expiry in CONTROLANDWAITING on a frame that is published. -/
theorem rtu_35T_publish (s : Serial.State)
    (h : s.Modbus_OSL_State = .MODBUS_OSL_RTU_CONTROLANDWAITING)
    (hf : s.Modbus_OSL_Frame = .MODBUS_OSL_Frame_OK)
    (hm : s.Modbus_OSL_MainState ≠ .MODBUS_OSL_ERROR) :
    Serial.Modbus_OSL_RTU_35T s =
      some { s with
        Modbus_OSL_RTU_Msg := s.Modbus_OSL_RTU_Msg.other
        Modbus_OSL_RTU_Msg_Complete := some s.Modbus_OSL_RTU_Msg
        Modbus_OSL_RTU_L_Msg := s.Modbus_OSL_RTU_Index % 256
        Modbus_OSL_Processing_Flag := 1
        Modbus_OSL_Frame := .MODBUS_OSL_Frame_OK
        Modbus_OSL_RTU_Index := 0
        Modbus_OSL_State := .MODBUS_OSL_RTU_IDLE
        timer0 := some s.Modbus_OSL_RTU_Timeout_35 } := by
  unfold Serial.Modbus_OSL_RTU_35T
  rw [h]
  cases hb : s.Modbus_OSL_RTU_Msg <;>
    simp [hf, hm, hb, Serial.Modbus_OSL_Reception_Complete, Serial.Modbus_OSL_Frame_Set,
      Serial.Modbus_OSL_State_Set, Serial.RtuBuffer.other]

/-- The 3.5T expiry in CONTROLANDWAITING on a frame that is discarded. -/
theorem rtu_35T_discard (s : Serial.State)
    (h : s.Modbus_OSL_State = .MODBUS_OSL_RTU_CONTROLANDWAITING)
    (hn : ¬ (s.Modbus_OSL_Frame = .MODBUS_OSL_Frame_OK ∧
      s.Modbus_OSL_MainState ≠ .MODBUS_OSL_ERROR)) :
    Serial.Modbus_OSL_RTU_35T s =
      some { s with
        Modbus_OSL_Frame := .MODBUS_OSL_Frame_OK
        Modbus_OSL_RTU_Index := 0
        Modbus_OSL_State := .MODBUS_OSL_RTU_IDLE
        timer0 := some s.Modbus_OSL_RTU_Timeout_35 } := by
  unfold Serial.Modbus_OSL_RTU_35T
  rw [h]
  simp only [if_neg hn]
  simp [Serial.Modbus_OSL_Frame_Set, Serial.Modbus_OSL_State_Set]

/-- Characters that start in IDLE: after the first one the receiver is in
RECEPTION. -/
theorem receive_idle (s : Serial.State) (c : Nat) (rest : List Nat)
    (h : s.Modbus_OSL_State = .MODBUS_OSL_RTU_IDLE) :
    Serial.receive s (c :: rest) = Serial.receive (Serial.Modbus_OSL_RTU_UART s c) rest ∧
      (Serial.Modbus_OSL_RTU_UART s c).Modbus_OSL_State = .MODBUS_OSL_RTU_RECEPTION := by
  refine ⟨rfl, ?_⟩
  rw [(uart_idle_step s c h).1]

/-- Characters that start in IDLE: what `receive` leaves alone. -/
theorem receive_idle_frame (s : Serial.State) (bytes : List Nat) (hne : bytes ≠ [])
    (h : s.Modbus_OSL_State = .MODBUS_OSL_RTU_IDLE) :
    Serial.receive s bytes =
      { s with
        Modbus_OSL_RTU_Msg1 := (Serial.receive s bytes).Modbus_OSL_RTU_Msg1
        Modbus_OSL_RTU_Msg2 := (Serial.receive s bytes).Modbus_OSL_RTU_Msg2
        Modbus_OSL_RTU_Index := (Serial.receive s bytes).Modbus_OSL_RTU_Index
        Modbus_OSL_Frame := (Serial.receive s bytes).Modbus_OSL_Frame
        Modbus_OSL_State := .MODBUS_OSL_RTU_RECEPTION
        timer0 := (Serial.receive s bytes).timer0
        timer1 := (Serial.receive s bytes).timer1 } := by
  cases bytes with
  | nil => exact absurd rfl hne
  | cons c rest =>
    obtain ⟨e, hs⟩ := receive_idle s c rest h
    have h1 := (uart_idle_step s c h).1
    have h2 := receive_reception_frame rest _ hs
    rw [e]
    generalize Serial.receive (Serial.Modbus_OSL_RTU_UART s c) rest = r at h2 ⊢
    generalize Serial.Modbus_OSL_RTU_UART s c = u at h1 h2
    rw [h2, h1]

/-- Claim C24 (counterexample): 256 characters arrive in a row at the idle
receiver `exSerial` and the 1.5T timer expires: the frame flag is still OK, and
the 3.5T expiry publishes the frame (reception-complete flag 1, complete
pointer on the first array) with the complete length 0. -/
theorem C24_counterexample_256_bytes :
    (List.replicate 256 1).length = 256 ∧
      exSerial.Modbus_OSL_State = .MODBUS_OSL_RTU_IDLE ∧
      (exSerial.Modbus_OSL_Processing_Flag, exSerial.Modbus_OSL_RTU_Msg_Complete) = (0, none) ∧
      (exSerialValidating 256).map (fun s => s.Modbus_OSL_Frame) =
        some .MODBUS_OSL_Frame_OK ∧
      ((exSerialValidating 256).bind Serial.Modbus_OSL_RTU_35T).map
          (fun s => (s.Modbus_OSL_Processing_Flag, s.Modbus_OSL_RTU_Msg_Complete,
            s.Modbus_OSL_RTU_L_Msg)) = some (1, some .Msg1, 0) := by
  decide

/-- Claim C24 (amended): when more than 256 characters arrive in a row at a
receiver in IDLE (receive index 0), the frame is marked NOK when the 1.5T
timer expires, and the 3.5T expiry that follows returns to IDLE without
publishing: the reception-complete flag, `Modbus_OSL_RTU_L_Msg`,
`Modbus_OSL_RTU_Msg_Complete` and the active array pointer are as before the
first character.  (The characters after the 256th are stored past the end of
the array; those stores are not represented.) -/
theorem C24_oversize_frame_amended (s : Serial.State) (bytes : List Nat)
    (hidle : s.Modbus_OSL_State = .MODBUS_OSL_RTU_IDLE) (hidx : s.Modbus_OSL_RTU_Index = 0)
    (hlen : 256 < bytes.length) :
    ∃ s1 s2, Serial.Modbus_OSL_RTU_15T (Serial.receive s bytes) = some s1 ∧
      s1.Modbus_OSL_Frame = .MODBUS_OSL_Frame_NOK ∧
      Serial.Modbus_OSL_RTU_35T s1 = some s2 ∧
      s2.Modbus_OSL_Processing_Flag = s.Modbus_OSL_Processing_Flag ∧
      s2.Modbus_OSL_RTU_L_Msg = s.Modbus_OSL_RTU_L_Msg ∧
      s2.Modbus_OSL_RTU_Msg_Complete = s.Modbus_OSL_RTU_Msg_Complete ∧
      s2.Modbus_OSL_RTU_Msg = s.Modbus_OSL_RTU_Msg ∧
      s2.Modbus_OSL_State = .MODBUS_OSL_RTU_IDLE ∧ s2.Modbus_OSL_RTU_Index = 0 := by
  cases bytes with
  | nil => simp at hlen
  | cons c rest =>
    simp only [List.length_cons] at hlen
    have hfr := receive_idle_frame s (c :: rest) (by simp) hidle
    obtain ⟨e, hs⟩ := receive_idle s c rest hidle
    have hx : (Serial.Modbus_OSL_RTU_UART s c).Modbus_OSL_RTU_Index = 1 := by
      rw [(uart_idle_step s c hidle).1]; simp [hidx]
    have hnok : (Serial.receive s (c :: rest)).Modbus_OSL_Frame = .MODBUS_OSL_Frame_NOK := by
      rw [e]
      exact (receive_reception_nok rest _ hs).2 (by rw [hx]; omega) (by rw [hx]; omega)
    have hst : (Serial.receive s (c :: rest)).Modbus_OSL_State = .MODBUS_OSL_RTU_RECEPTION := by
      rw [hfr]
    generalize Serial.receive s (c :: rest) = r at hfr hnok hst
    refine ⟨_, _, rtu_15T_reception r hst, hnok, rtu_35T_discard _ rfl ?_, ?_⟩
    · simp [hnok]
    · rw [hfr]
      simp

theorem C24_oversize_frame_amended_witness :
    exSerial.Modbus_OSL_State = .MODBUS_OSL_RTU_IDLE ∧ exSerial.Modbus_OSL_RTU_Index = 0 ∧
      256 < (List.replicate 257 1).length ∧
      ∃ s1 s2, Serial.Modbus_OSL_RTU_15T (Serial.receive exSerial (List.replicate 257 1)) =
          some s1 ∧
        s1.Modbus_OSL_Frame = .MODBUS_OSL_Frame_NOK ∧
        Serial.Modbus_OSL_RTU_35T s1 = some s2 ∧
        s2.Modbus_OSL_Processing_Flag = exSerial.Modbus_OSL_Processing_Flag ∧
        s2.Modbus_OSL_RTU_L_Msg = exSerial.Modbus_OSL_RTU_L_Msg ∧
        s2.Modbus_OSL_RTU_Msg_Complete = exSerial.Modbus_OSL_RTU_Msg_Complete ∧
        s2.Modbus_OSL_RTU_Msg = exSerial.Modbus_OSL_RTU_Msg ∧
        s2.Modbus_OSL_State = .MODBUS_OSL_RTU_IDLE ∧ s2.Modbus_OSL_RTU_Index = 0 :=
  ⟨rfl, rfl, by simp, C24_oversize_frame_amended exSerial (List.replicate 257 1) rfl rfl (by simp)⟩

/-- Claim C25 (counterexample): after 256 characters and the 1.5T expiry the
receiver `exSerial` is in CONTROLANDWAITING with frame flag OK, main state IDLE
and receive index 256; `Modbus_OSL_RTU_35T` publishes the frame and sets the
complete length to 0, not to the 256 characters received. -/
theorem C25_counterexample_length_256 :
    (exSerialValidating 256).map
        (fun s => (s.Modbus_OSL_State, s.Modbus_OSL_Frame, s.Modbus_OSL_MainState,
          s.Modbus_OSL_RTU_Index)) =
        some (.MODBUS_OSL_RTU_CONTROLANDWAITING, .MODBUS_OSL_Frame_OK, .MODBUS_OSL_IDLE, 256) ∧
      ((exSerialValidating 256).bind Serial.Modbus_OSL_RTU_35T).map
          (fun s => (s.Modbus_OSL_Processing_Flag, s.Modbus_OSL_RTU_L_Msg)) = some (1, 0) := by
  decide

/-- Claim C25 (amended): `Modbus_OSL_RTU_35T` in state CONTROLANDWAITING
returns; when the frame flag is OK and the main state is not ERROR it makes
the active array the complete one, switches the active pointer to the other
array, sets the one-byte complete length to the receive index modulo 256 (the
number of characters received when there are at most 255) and raises the
reception-complete flag; otherwise it changes none of these.  In both cases
the frame flag becomes OK, the receive index 0, the RTU state IDLE and timer 0
is loaded with 3.5T; nothing else changes. -/
theorem C25_long_timer_validating (s : Serial.State)
    (h : s.Modbus_OSL_State = .MODBUS_OSL_RTU_CONTROLANDWAITING) :
    (s.Modbus_OSL_Frame = .MODBUS_OSL_Frame_OK ∧ s.Modbus_OSL_MainState ≠ .MODBUS_OSL_ERROR →
        Serial.Modbus_OSL_RTU_35T s =
          some { s with
            Modbus_OSL_RTU_Msg := s.Modbus_OSL_RTU_Msg.other
            Modbus_OSL_RTU_Msg_Complete := some s.Modbus_OSL_RTU_Msg
            Modbus_OSL_RTU_L_Msg := s.Modbus_OSL_RTU_Index % 256
            Modbus_OSL_Processing_Flag := 1
            Modbus_OSL_Frame := .MODBUS_OSL_Frame_OK
            Modbus_OSL_RTU_Index := 0
            Modbus_OSL_State := .MODBUS_OSL_RTU_IDLE
            timer0 := some s.Modbus_OSL_RTU_Timeout_35 }) ∧
      (¬ (s.Modbus_OSL_Frame = .MODBUS_OSL_Frame_OK ∧
          s.Modbus_OSL_MainState ≠ .MODBUS_OSL_ERROR) →
        Serial.Modbus_OSL_RTU_35T s =
          some { s with
            Modbus_OSL_Frame := .MODBUS_OSL_Frame_OK
            Modbus_OSL_RTU_Index := 0
            Modbus_OSL_State := .MODBUS_OSL_RTU_IDLE
            timer0 := some s.Modbus_OSL_RTU_Timeout_35 }) ∧
      (s.Modbus_OSL_RTU_Index ≤ 255 → s.Modbus_OSL_RTU_Index % 256 = s.Modbus_OSL_RTU_Index) :=
  ⟨fun hp => rtu_35T_publish s h hp.1 hp.2, fun hn => rtu_35T_discard s h hn,
    fun hi => Nat.mod_eq_of_lt (by omega)⟩

theorem C25_long_timer_validating_witness :
    exSerialGap.Modbus_OSL_State = .MODBUS_OSL_RTU_CONTROLANDWAITING ∧
      Serial.Modbus_OSL_RTU_15T (Serial.receive exSerial [5, 3, 0, 0]) = some exSerialGap ∧
      Serial.Modbus_OSL_RTU_35T exSerialGap =
        some { exSerialGap with
          Modbus_OSL_RTU_Msg := .Msg2
          Modbus_OSL_RTU_Msg_Complete := some .Msg1
          Modbus_OSL_RTU_L_Msg := 4
          Modbus_OSL_Processing_Flag := 1
          Modbus_OSL_Frame := .MODBUS_OSL_Frame_OK
          Modbus_OSL_RTU_Index := 0
          Modbus_OSL_State := .MODBUS_OSL_RTU_IDLE
          timer0 := some 16032 } :=
  ⟨rfl, by decide, (C25_long_timer_validating exSerialGap rfl).1 ⟨rfl, by decide⟩⟩

/-- Claim C27, evaluated on the events `exParityEvents` at the idle slave
`exSerial` (number 5): a frame with a wrong checksum is published; during the
reception of the next frame (first character `05`) the UART reports a parity
error and the frame flag is NOK; a pass of the main loop then checks the
checksum of the published frame and leaves the frame flag OK; the second
frame (`05 06`) is published by its closing 3.5T expiry. -/
theorem C27_parity_error_published_evaluated :
    (Serial.run exSerial (exParityEvents.take 6)).map
        (fun s => (s.Modbus_OSL_Processing_Flag, s.Modbus_OSL_RTU_Msg_Complete,
          s.Modbus_OSL_RTU_L_Msg, s.Modbus_OSL_State)) =
        some (1, some .Msg1, 4, .MODBUS_OSL_RTU_IDLE) ∧
      (Serial.run exSerial (exParityEvents.take 8)).map
        (fun s => (s.Modbus_OSL_Frame, s.Modbus_OSL_State, s.Modbus_OSL_RTU_Index)) =
        some (.MODBUS_OSL_Frame_NOK, .MODBUS_OSL_RTU_RECEPTION, 1) ∧
      (Serial.run exSerial (exParityEvents.take 9)).map
        (fun s => (s.Modbus_OSL_Frame, s.Modbus_OSL_State, s.Modbus_OSL_Processing_Flag,
          s.Modbus_OSL_MainState)) =
        some (.MODBUS_OSL_Frame_OK, .MODBUS_OSL_RTU_RECEPTION, 0, .MODBUS_OSL_IDLE) ∧
      (Serial.run exSerial exParityEvents).map
        (fun s => (s.Modbus_OSL_Processing_Flag, s.Modbus_OSL_RTU_Msg_Complete,
          s.Modbus_OSL_RTU_L_Msg, s.Modbus_OSL_RTU_Msg2.take 2)) =
        some (1, some .Msg2, 2, [5, 6]) := by
  decide

/-! ## Theorems: serial round trip -/

/-- A complete array that starts with the frame `s ++ m ++ [crcLo, crcHi]`
passes the checksum control. -/
theorem control_CRC_frame (m : List Nat) (s : Nat) (Msg : List Nat) (hm : m.length ≤ 252)
    (hread : ∀ j, j < m.length + 3 → rd Msg j =
      rd (s :: m ++ [(crcLoop (s :: m) (m.length + 1) 0 (0xFF, 0xFF)).2,
          (crcLoop (s :: m) (m.length + 1) 0 (0xFF, 0xFF)).1]) j) :
    Modbus_OSL_RTU_Control_CRC Msg (m.length + 3) = some (.MODBUS_OSL_Frame_OK, 1) := by
  have hcrc : crcLoop Msg (m.length + 1) 0 (0xFF, 0xFF) =
      crcLoop (s :: m) (m.length + 1) 0 (0xFF, 0xFF) := by
    apply crcLoop_congr
    intro i hi
    rw [Nat.zero_add, hread i (by omega), List.cons_append]
    cases i with
    | zero => rfl
    | succ k => rw [rd_cons_succ, rd_cons_succ, rd_append, if_pos (by omega)]
  have hhi : rd Msg (m.length + 3 - 1) = (crcLoop (s :: m) (m.length + 1) 0 (0xFF, 0xFF)).1 := by
    rw [show m.length + 3 - 1 = (m.length + 1) + 1 by omega, hread _ (by omega),
      List.cons_append, rd_cons_succ, rd_append, if_neg (by omega)]
    simp [rd]
  have hlo : rd Msg (m.length + 3 - 2) = (crcLoop (s :: m) (m.length + 1) 0 (0xFF, 0xFF)).2 := by
    rw [show m.length + 3 - 2 = m.length + 1 by omega, hread _ (by omega),
      List.cons_append, rd_cons_succ, rd_append, if_neg (by omega)]
    simp [rd]
  have hcheck : Modbus_OSL_RTU_Check_CRC Msg (m.length + 3) Msg (m.length + 1) =
      some .MODBUS_OSL_Frame_OK := by
    simp only [Modbus_OSL_RTU_Check_CRC]
    rw [Nat.mod_eq_of_lt (by omega : m.length + 1 < 256), hcrc, if_neg (by omega), if_pos hhi,
      if_neg (by omega), if_pos hlo]
  simp only [Modbus_OSL_RTU_Control_CRC]
  rw [show (m.length + 3 + 256 - 2) % 256 = m.length + 1 by omega, hcheck]

/-- The copy loop of `Modbus_OSL_RTU_to_App`. -/
theorem to_App_loop (buf : List Nat) (a0 : Slave.App) : ∀ (n : Nat), n ≤ 255 →
    ((List.range n).foldl
        (fun a k => Slave.Modbus_App_Receive_Char a (rd buf ((k + 1) % 256)) k)
        a0).Modbus_App_Msg.length = a0.Modbus_App_Msg.length ∧
      ∀ j, rd ((List.range n).foldl
          (fun a k => Slave.Modbus_App_Receive_Char a (rd buf ((k + 1) % 256)) k)
          a0).Modbus_App_Msg j =
        if j < n ∧ j < a0.Modbus_App_Msg.length then rd buf (j + 1) % 256
        else rd a0.Modbus_App_Msg j := by
  intro n
  induction n with
  | zero =>
    intro _
    refine ⟨rfl, fun j => ?_⟩
    rw [if_neg (by omega)]
    rfl
  | succ n ih =>
    intro hn
    obtain ⟨h1, h2⟩ := ih (by omega)
    rw [List.range_succ, List.foldl_append]
    simp only [List.foldl_cons, List.foldl_nil]
    generalize (List.range n).foldl
      (fun a k => Slave.Modbus_App_Receive_Char a (rd buf ((k + 1) % 256)) k) a0 = A at h1 h2 ⊢
    simp only [Slave.Modbus_App_Receive_Char, List.length_set]
    refine ⟨h1, fun j => ?_⟩
    rw [rd_set, h1, h2, Nat.mod_eq_of_lt (by omega : n < 256),
      Nat.mod_eq_of_lt (by omega : n + 1 < 256)]
    by_cases hj : n = j ∧ j < a0.Modbus_App_Msg.length
    · obtain ⟨hj1, hj2⟩ := hj
      subst hj1
      rw [if_pos ⟨rfl, hj2⟩, if_pos ⟨by omega, hj2⟩]
    · rw [if_neg hj]
      by_cases hc : j < n ∧ j < a0.Modbus_App_Msg.length
      · rw [if_pos hc, if_pos (by omega)]
      · rw [if_neg hc, if_neg (by omega)]

/-- The function `Modbus_OSL_Receive_Request` on a published frame for this slave with a
valid checksum: the application variables it leaves. -/
theorem receive_request_hand_over (s : Serial.State) (b : Serial.RtuBuffer)
    (hflag : s.Modbus_OSL_Processing_Flag ≠ 0)
    (hmode : s.Modbus_OSL_Mode = .MODBUS_OSL_MODE_RTU)
    (hbuf : s.Modbus_OSL_RTU_Msg_Complete = some b)
    (haddr : rd (Serial.buffer s b) 0 = s.Modbus_OSL_Slave_Adress ∨ rd (Serial.buffer s b) 0 = 0)
    (hcrc : Modbus.Modbus_OSL_RTU_Control_CRC (Serial.buffer s b) s.Modbus_OSL_RTU_L_Msg =
      some (.MODBUS_OSL_Frame_OK, 1)) :
    ∃ s1, Serial.Modbus_OSL_Receive_Request s = some (s1, 1) ∧
      s1.app = Slave.Modbus_App_L_Msg_Set
        ((List.range (Serial.Modbus_OSL_RTU_L_Msg_Get s - 1)).foldl
          (fun a k => Slave.Modbus_App_Receive_Char a (rd (Serial.buffer s b) ((k + 1) % 256)) k)
          s.app)
        (Serial.Modbus_OSL_RTU_L_Msg_Get s + 256 - 1) := by
  cases b <;>
    simp [Serial.Modbus_OSL_Receive_Request, Serial.Modbus_OSL_Processing_Msg, hflag, hmode,
      Serial.Modbus_OSL_MainState_Set, Serial.Modbus_OSL_RTU_Char_Get, hbuf, Serial.buffer,
      Serial.Modbus_OSL_RTU_Control_CRC, Serial.Modbus_OSL_Frame_Set,
      Serial.Modbus_OSL_RTU_to_App, Serial.Modbus_OSL_RTU_L_Msg_Get] at haddr hcrc ⊢ <;>
    simp [haddr, hcrc]

/-- Claim C28 (amended).  Serial round trip: for every slave address `a` up to
247 and every PDU `p` of at most 252 bytes, the frame `Modbus_OSL_RTU_Mount_ADU`
builds for `p` and `a`, delivered character by character to an RTU receiver in
IDLE (receive index 0, frame flag OK, main state not ERROR, RTU mode) and
closed by the 1.5T and the 3.5T expiry, is published with its length
`|p| + 3` in the array that was active; it passes
`Modbus_OSL_RTU_Control_CRC`, and `Modbus_OSL_Receive_Request` on a slave
with address `a` returns 1 and leaves exactly `p`, with length `|p|`, in the
application's message array. -/
theorem C28_serial_round_trip (s : Serial.State) (a : Nat) (p adu0 : List Nat)
    (ha : a ≤ 247) (hp : p.length ≤ 252) (hbytes : ∀ b ∈ p, b < 256)
    (hadu : adu0.length = 256)
    (hmode : s.Modbus_OSL_Mode = .MODBUS_OSL_MODE_RTU)
    (haddr : s.Modbus_OSL_Slave_Adress = a)
    (hidle : s.Modbus_OSL_State = .MODBUS_OSL_RTU_IDLE)
    (hidx : s.Modbus_OSL_RTU_Index = 0)
    (hframe : s.Modbus_OSL_Frame = .MODBUS_OSL_Frame_OK)
    (hmain : s.Modbus_OSL_MainState ≠ .MODBUS_OSL_ERROR)
    (hb1 : s.Modbus_OSL_RTU_Msg1.length = 256) (hb2 : s.Modbus_OSL_RTU_Msg2.length = 256)
    (happ : s.app.Modbus_App_Msg.length = 256) :
    ∃ s1 s2 s3,
      Serial.Modbus_OSL_RTU_15T (Serial.receive s
        ((Modbus_OSL_RTU_Mount_ADU p a p.length adu0).take (p.length + 3))) = some s1 ∧
      Serial.Modbus_OSL_RTU_35T s1 = some s2 ∧
      s2.Modbus_OSL_Processing_Flag = 1 ∧
      s2.Modbus_OSL_RTU_Msg_Complete = some s.Modbus_OSL_RTU_Msg ∧
      s2.Modbus_OSL_RTU_L_Msg = p.length + 3 ∧
      (Serial.buffer s2 s.Modbus_OSL_RTU_Msg).take (p.length + 3) =
        (Modbus_OSL_RTU_Mount_ADU p a p.length adu0).take (p.length + 3) ∧
      (Serial.Modbus_OSL_RTU_Control_CRC s2).map (fun r => r.2) = some 1 ∧
      Serial.Modbus_OSL_Receive_Request s2 = some (s3, 1) ∧
      s3.app.Modbus_App_Msg.take p.length = p ∧
      s3.app.Modbus_App_L_Msg = p.length := by
  obtain ⟨_, hlay⟩ := mount_ADU_layout p a adu0 (by omega) hadu
  rw [hlay]
  have hall : ∀ b ∈ a :: p, b < 256 := by
    intro b hb
    rcases List.mem_cons.mp hb with h | h
    · omega
    · exact hbytes b h
  have hcb := crcFold_lt (a :: p) (0xFF, 0xFF) hall (by decide) (by decide)
  rw [← crcLoop_self, List.length_cons] at hcb
  have hctl := control_CRC_frame p a
  generalize crcLoop (a :: p) (p.length + 1) 0 (0xFF, 0xFF) = crc at hcb hctl ⊢
  -- the characters of the frame are bytes
  have hF : ∀ j, rd (a :: p ++ [crc.2, crc.1]) j < 256 := by
    intro j
    by_cases hj : j < (a :: p ++ [crc.2, crc.1]).length
    · rw [rd_of_lt _ j hj]
      have hmem := List.get_mem (a :: p ++ [crc.2, crc.1]) j hj
      generalize (a :: p ++ [crc.2, crc.1]).get ⟨j, hj⟩ = x at hmem
      simp only [List.cons_append, List.mem_cons, List.mem_append, List.mem_singleton,
        List.not_mem_nil, or_false] at hmem
      rcases hmem with h | h | h | h
      · omega
      · exact hbytes x h
      · omega
      · omega
    · have hnone : (a :: p ++ [crc.2, crc.1])[j]? = none :=
        List.getElem?_eq_none (Nat.le_of_not_lt hj)
      simp only [rd, List.getD_eq_getElem?_getD, hnone]
      decide
  have hFlen : (p ++ [crc.2, crc.1]).length = p.length + 2 := by simp
  -- the first character, then the others
  obtain ⟨e1, hs⟩ := receive_idle s a (p ++ [crc.2, crc.1]) hidle
  obtain ⟨u1, ub, _⟩ := uart_idle_step s a hidle
  have ux : (Serial.Modbus_OSL_RTU_UART s a).Modbus_OSL_RTU_Index = 1 := by
    rw [u1]; simp [hidx]
  have uf : (Serial.Modbus_OSL_RTU_UART s a).Modbus_OSL_Frame = .MODBUS_OSL_Frame_OK := by
    rw [u1]; exact hframe
  have um : (Serial.Modbus_OSL_RTU_UART s a).Modbus_OSL_RTU_Msg = s.Modbus_OSL_RTU_Msg := by
    rw [u1]
  have hblen : (Serial.buffer s s.Modbus_OSL_RTU_Msg).length = 256 := by
    cases hb : s.Modbus_OSL_RTU_Msg <;> simp [Serial.buffer, hb1, hb2]
  obtain ⟨f1, f2, f3, f4, _⟩ := receive_reception_fits (p ++ [crc.2, crc.1])
    (Serial.Modbus_OSL_RTU_UART s a) hs (by rw [ux, hFlen]; omega)
  rw [um, ub] at f3 f4
  rw [List.length_set, hblen] at f3
  rw [ux, hFlen] at f2
  rw [uf] at f1
  rw [List.cons_append]
  rw [← e1] at f1 f2 f3 f4
  have hfr := receive_idle_frame s (a :: (p ++ [crc.2, crc.1])) (by simp) hidle
  have hread : ∀ j, j < p.length + 3 →
      rd (Serial.buffer (Serial.receive s (a :: (p ++ [crc.2, crc.1]))) s.Modbus_OSL_RTU_Msg) j =
        rd (a :: p ++ [crc.2, crc.1]) j := by
    intro j hj
    rw [f4, ux, hFlen, List.length_set, hblen, rd_set, hidx, hblen]
    cases j with
    | zero =>
      rw [if_neg (by omega), if_pos ⟨rfl, by omega⟩]
      exact Nat.mod_eq_of_lt (by omega)
    | succ k =>
      rw [if_pos (by omega), Nat.add_sub_cancel, List.cons_append, rd_cons_succ]
      have := hF (k + 1)
      rw [List.cons_append, rd_cons_succ] at this
      exact Nat.mod_eq_of_lt this
  have hst : (Serial.receive s (a :: (p ++ [crc.2, crc.1]))).Modbus_OSL_State =
      .MODBUS_OSL_RTU_RECEPTION := by
    rw [hfr]
  generalize Serial.receive s (a :: (p ++ [crc.2, crc.1])) = r at f1 f2 f3 hfr hread hst
  have rmsg : r.Modbus_OSL_RTU_Msg = s.Modbus_OSL_RTU_Msg := by rw [hfr]
  have rmain : r.Modbus_OSL_MainState = s.Modbus_OSL_MainState := by rw [hfr]
  have rmode : r.Modbus_OSL_Mode = s.Modbus_OSL_Mode := by rw [hfr]
  have raddr : r.Modbus_OSL_Slave_Adress = s.Modbus_OSL_Slave_Adress := by rw [hfr]
  have rapp : r.app = s.app := by rw [hfr]
  -- both timers
  have h15 := rtu_15T_reception r hst
  have h35 := rtu_35T_publish
    { r with
      Modbus_OSL_State := .MODBUS_OSL_RTU_CONTROLANDWAITING
      timer1 := some r.Modbus_OSL_RTU_Timeout_15 } rfl f1 (by rw [← rmain] at hmain; exact hmain)
  obtain ⟨s2, hs2, hflag, hcomp, hL, hbuf2, hmode2, haddr2, happ2⟩ : ∃ s2,
      Serial.Modbus_OSL_RTU_35T
        { r with
          Modbus_OSL_State := .MODBUS_OSL_RTU_CONTROLANDWAITING
          timer1 := some r.Modbus_OSL_RTU_Timeout_15 } = some s2 ∧
      s2.Modbus_OSL_Processing_Flag = 1 ∧
      s2.Modbus_OSL_RTU_Msg_Complete = some s.Modbus_OSL_RTU_Msg ∧
      s2.Modbus_OSL_RTU_L_Msg = p.length + 3 ∧
      Serial.buffer s2 s.Modbus_OSL_RTU_Msg = Serial.buffer r s.Modbus_OSL_RTU_Msg ∧
      s2.Modbus_OSL_Mode = .MODBUS_OSL_MODE_RTU ∧
      s2.Modbus_OSL_Slave_Adress = a ∧
      s2.app = s.app := by
    refine ⟨_, h35, rfl, ?_, ?_, ?_, ?_, ?_, ?_⟩
    · simp only [rmsg]
    · simp only [f2]; omega
    · cases s.Modbus_OSL_RTU_Msg <;> rfl
    · simp only [rmode, hmode]
    · simp only [raddr, haddr]
    · simp only [rapp]
  have hcrc : Modbus.Modbus_OSL_RTU_Control_CRC (Serial.buffer s2 s.Modbus_OSL_RTU_Msg)
      s2.Modbus_OSL_RTU_L_Msg = some (.MODBUS_OSL_Frame_OK, 1) := by
    rw [hL, hbuf2]
    exact hctl _ hp hread
  have h0 : rd (Serial.buffer s2 s.Modbus_OSL_RTU_Msg) 0 = s2.Modbus_OSL_Slave_Adress := by
    rw [hbuf2, hread 0 (by omega), haddr2]
    rfl
  obtain ⟨s3, hs3, happ3⟩ := receive_request_hand_over s2 s.Modbus_OSL_RTU_Msg
    (by rw [hflag]; decide) hmode2 hcomp (Or.inl h0) hcrc
  have hget : Serial.Modbus_OSL_RTU_L_Msg_Get s2 = p.length + 1 := by
    simp only [Serial.Modbus_OSL_RTU_L_Msg_Get, hL]; omega
  rw [hget, Nat.add_sub_cancel, happ2, hbuf2] at happ3
  obtain ⟨l1, l2⟩ := to_App_loop (Serial.buffer r s.Modbus_OSL_RTU_Msg) s.app p.length (by omega)
  refine ⟨_, s2, s3, h15, hs2, hflag, hcomp, hL, ?_, ?_, hs3, ?_, ?_⟩
  · rw [hbuf2]
    have hlenF : (a :: p ++ [crc.2, crc.1]).length = p.length + 3 := by simp
    have := take_eq_of_rd (Serial.buffer r s.Modbus_OSL_RTU_Msg) (a :: p ++ [crc.2, crc.1])
      (by rw [hlenF, f3]; omega) (fun j hj => hread j (by rw [hlenF] at hj; exact hj))
    rw [hlenF] at this
    exact this
  · simp [Serial.Modbus_OSL_RTU_Control_CRC, hcomp, hcrc]
  · rw [happ3]
    simp only [Slave.Modbus_App_L_Msg_Set]
    apply take_eq_of_rd
    · rw [l1, happ]; omega
    · intro j hj
      rw [l2, happ, if_pos ⟨hj, by omega⟩, hread (j + 1) (by omega), List.cons_append,
        rd_cons_succ, rd_append, if_pos hj]
      exact Nat.mod_eq_of_lt (hbytes _ (by rw [rd_of_lt p j hj]; exact List.get_mem p j hj))
  · rw [happ3]
    simp only [Slave.Modbus_App_L_Msg_Set]
    omega

theorem C28_serial_round_trip_witness :
    ∃ s1 s2 s3,
      Serial.Modbus_OSL_RTU_15T (Serial.receive exSerial
        ((Modbus_OSL_RTU_Mount_ADU [3, 0, 0, 0, 1] 5 5 (List.replicate 256 0)).take 8)) =
          some s1 ∧
      Serial.Modbus_OSL_RTU_35T s1 = some s2 ∧
      s2.Modbus_OSL_Processing_Flag = 1 ∧
      s2.Modbus_OSL_RTU_Msg_Complete = some .Msg1 ∧
      s2.Modbus_OSL_RTU_L_Msg = 8 ∧
      (Serial.buffer s2 .Msg1).take 8 =
        (Modbus_OSL_RTU_Mount_ADU [3, 0, 0, 0, 1] 5 5 (List.replicate 256 0)).take 8 ∧
      (Serial.Modbus_OSL_RTU_Control_CRC s2).map (fun r => r.2) = some 1 ∧
      Serial.Modbus_OSL_Receive_Request s2 = some (s3, 1) ∧
      s3.app.Modbus_App_Msg.take 5 = [3, 0, 0, 0, 1] ∧
      s3.app.Modbus_App_L_Msg = 5 :=
  C28_serial_round_trip exSerial 5 [3, 0, 0, 0, 1] (List.replicate 256 0) (by decide)
    (by decide) (by decide) (by decide) rfl rfl rfl rfl rfl (by decide) (by decide) (by decide)
    (by decide)

/-- Claim C28 (counterexample): a PDU of 253 bytes for slave 5.  The 256
characters of its frame, delivered to the idle receiver `exSerial` and closed
by both timers, are published with the complete length 0; the checksum control
then compares the bytes at the indices -1 and -2 of the complete array, so
neither `Modbus_OSL_RTU_Control_CRC` nor `Modbus_OSL_Receive_Request` has a
defined result and nothing is handed to the application. -/
theorem C28_counterexample_253_bytes :
    (List.replicate 253 7).length = 253 ∧
      ((Modbus_OSL_RTU_Mount_ADU (List.replicate 253 7) 5 253 (List.replicate 256 0)).take
        256).length = 256 ∧
      ((Serial.Modbus_OSL_RTU_15T (Serial.receive exSerial
          ((Modbus_OSL_RTU_Mount_ADU (List.replicate 253 7) 5 253 (List.replicate 256 0)).take
            256))).bind Serial.Modbus_OSL_RTU_35T).map
        (fun s => (s.Modbus_OSL_Processing_Flag, s.Modbus_OSL_RTU_Msg_Complete,
          s.Modbus_OSL_RTU_L_Msg, (Serial.Modbus_OSL_RTU_Control_CRC s).isNone,
          (Serial.Modbus_OSL_Receive_Request s).isNone)) =
        some (1, some .Msg1, 0, true, true) := by
  decide

/-! ## Theorems: CAN receive filters -/

/-- Mask `0x1FF` keeps the low nine bits of an identifier. -/
theorem and_1FF (id : Nat) : id &&& 0x1FF = id % 512 :=
  Nat.and_pow_two_sub_one_eq_mod id 9

/-- The identifier of a frame with type bits `t` for slave number `s`, under
the mask `0x1FF`. -/
theorem id_low9 (t s : Nat) (ht : t < 8) (hs : s < 256) :
    ((t <<< 8) ||| s) &&& 0x1FF = (t % 2) * 256 + s := by
  rw [and_1FF, (id_bits t ht s hs).2.2.2.2]
  omega

/-- Claim C29: after `Modbus_CAN_ReceptionConfiguration (s)` the master's
receive object (identifier `s`, mask `0x1FF`, acceptance rule
`(id & mask) == ID`) accepts an 11-bit identifier if and only if its low 8
bits are `s` and bit 8, the request/answer bit, is 0; bits 9 and 10 play no
part.  Hence every frame `Modbus_CAN_FixOutput` of the slave numbered `s`
emits is accepted, and every frame `Modbus_CAN_FixOutput` of a master emits,
to whatever slave, is rejected. -/
theorem C29_master_receive_filter (st : Master.State) (s : Nat) (hs : s < 256) :
    (∀ id, id < 2048 →
      (accepted (Master.Modbus_CAN_ReceptionConfiguration st s).RxObject_ulMsgID
          (Master.Modbus_CAN_ReceptionConfiguration st s).RxObject_ulMsgIDMask id ↔
        id % 256 = s ∧ (id / 256) % 2 = 0)) ∧
      (∀ id t, id < 512 → t < 4 →
        (accepted (Master.Modbus_CAN_ReceptionConfiguration st s).RxObject_ulMsgID
            (Master.Modbus_CAN_ReceptionConfiguration st s).RxObject_ulMsgIDMask
            (t * 512 + id) ↔
          accepted (Master.Modbus_CAN_ReceptionConfiguration st s).RxObject_ulMsgID
            (Master.Modbus_CAN_ReceptionConfiguration st s).RxObject_ulMsgIDMask id)) ∧
      (∀ (ss : Slave.State) (p : List Nat) (n : Nat), ss.slave = s → n < 256 →
        ∀ f ∈ newFrames ss.canTx (Slave.Modbus_CAN_FixOutput ss p n).canTx,
          accepted (Master.Modbus_CAN_ReceptionConfiguration st s).RxObject_ulMsgID
            (Master.Modbus_CAN_ReceptionConfiguration st s).RxObject_ulMsgIDMask f.ulMsgID) ∧
      (∀ (sm : Master.State) (p : List Nat) (slave n g : Nat), slave < 256 → n < 256 →
        ∀ f ∈ newFrames sm.canTx (Master.Modbus_CAN_FixOutput sm p slave n g).canTx,
          ¬ accepted (Master.Modbus_CAN_ReceptionConfiguration st s).RxObject_ulMsgID
            (Master.Modbus_CAN_ReceptionConfiguration st s).RxObject_ulMsgIDMask f.ulMsgID) := by
  have hacc : ∀ id, accepted (Master.Modbus_CAN_ReceptionConfiguration st s).RxObject_ulMsgID
      (Master.Modbus_CAN_ReceptionConfiguration st s).RxObject_ulMsgIDMask id ↔
      id % 512 = s := by
    intro id
    simp only [accepted, Master.Modbus_CAN_ReceptionConfiguration]
    rw [and_1FF]
  refine ⟨fun id _ => ?_, fun id t _ _ => ?_, fun ss p n hss hn f hf => ?_,
    fun sm p slave n g hslave hn f hf => ?_⟩
  · rw [hacc]; omega
  · rw [hacc, hacc]; omega
  · rw [slave_FixOutput_frames ss p n hn] at hf
    obtain ⟨c, _, rfl⟩ := List.mem_map.mp hf
    have h9 := id_low9 (slaveType c.1) ss.slave (slaveType_lt c.1) (by omega)
    rw [hacc, ← and_1FF]
    simp only [chunkFrame]
    rw [h9, hss]
    cases c.1 <;> simp [slaveType]
  · rw [master_FixOutput_frames sm p slave n g hslave hn] at hf
    obtain ⟨c, _, rfl⟩ := List.mem_map.mp hf
    have h9 := id_low9 (masterType c.1) slave (masterType_lt c.1) hslave
    rw [hacc, ← and_1FF]
    simp only [chunkFrame]
    rw [h9]
    cases c.1 <;> simp [masterType] <;> omega

theorem C29_master_receive_filter_witness :
    (5 : Nat) < 256 ∧
      accepted (Master.Modbus_CAN_ReceptionConfiguration exMaster 5).RxObject_ulMsgID
        (Master.Modbus_CAN_ReceptionConfiguration exMaster 5).RxObject_ulMsgIDMask 0x605 ∧
      ¬ accepted (Master.Modbus_CAN_ReceptionConfiguration exMaster 5).RxObject_ulMsgID
        (Master.Modbus_CAN_ReceptionConfiguration exMaster 5).RxObject_ulMsgIDMask 0x705 :=
  ⟨by decide,
    ((C29_master_receive_filter exMaster 5 (by decide)).1 0x605 (by decide)).mpr (by decide),
    fun h => absurd
      (((C29_master_receive_filter exMaster 5 (by decide)).1 0x705 (by decide)).mp h).2
      (by decide)⟩

/-- Claim C30 (counterexample): `Modbus_Slave_Init` accepts the slave number 0
(return value 0), the two receive objects are then configured with the same
identifier `0x100` and mask `0x1FF`, and the master's broadcast frame
(identifier `0x100`) is accepted by both. -/
theorem C30_counterexample_slave_0 :
    (Slave.Modbus_Slave_Init exNode 16 (List.replicate 16 0) 16 (List.replicate 16 0) 8
        (List.replicate 8 0) 8 (List.replicate 8 0) .MODBUS_1MBPS 0).2 =
        (some ⟨0x100, 0x1FF, 0x100, 0x1FF⟩, 0) ∧
      (newFrames exMaster.canTx
          (Master.Modbus_CAN_FixOutput exMaster [5, 0, 1, 0xFF, 0] 0 5 11).canTx).map
        (fun f => f.ulMsgID) = [0x100] ∧
      accepted 0x100 0x1FF 0x100 := by
  decide

/-- Claim C30 (amended): for every slave number `a` from 1 to 247,
`Modbus_Slave_Init` returns 0 and configures the receive objects so that a
frame the master emits for slave number `s` is accepted by the unicast object
(17) if and only if `s = a`, by the broadcast object (18) if and only if
`s = 0`, and by no means by both; a slave number above 247 is refused with
return value 1 and no receive object is configured. -/
theorem C30_slave_receive_filters (n : Slave.Node) (N_Coils : Nat) (Coils : List Nat)
    (N_D_Inputs : Nat) (D_Inputs : List Nat) (N_H_Registers : Nat) (H_Registers : List Nat)
    (N_I_Registers : Nat) (I_Registers : List Nat) (bit_rate : Modbus_CAN_BitRate) (a : Nat)
    (ha : a < 256) :
    (247 < a →
      (Slave.Modbus_Slave_Init n N_Coils Coils N_D_Inputs D_Inputs N_H_Registers H_Registers
        N_I_Registers I_Registers bit_rate a).2 = (none, 1)) ∧
    (1 ≤ a → a ≤ 247 →
      ∃ n1 rx, Slave.Modbus_Slave_Init n N_Coils Coils N_D_Inputs D_Inputs N_H_Registers
            H_Registers N_I_Registers I_Registers bit_rate a = (n1, some rx, 0) ∧
        n1.can.slave = a ∧
        ∀ (sm : Master.State) (p : List Nat) (s m g : Nat), s < 256 → m < 256 →
          ∀ f ∈ newFrames sm.canTx (Master.Modbus_CAN_FixOutput sm p s m g).canTx,
            (accepted rx.obj17_ulMsgID rx.obj17_ulMsgIDMask f.ulMsgID ↔ s = a) ∧
            (accepted rx.obj18_ulMsgID rx.obj18_ulMsgIDMask f.ulMsgID ↔ s = 0) ∧
            ¬ (accepted rx.obj17_ulMsgID rx.obj17_ulMsgIDMask f.ulMsgID ∧
              accepted rx.obj18_ulMsgID rx.obj18_ulMsgIDMask f.ulMsgID)) := by
  have ham : a % 256 = a := Nat.mod_eq_of_lt ha
  refine ⟨fun h => ?_, fun h1 h247 => ?_⟩
  · simp [Slave.Modbus_Slave_Init, ham, Nat.not_le.mpr h]
  · refine ⟨(Slave.Modbus_Slave_Init n N_Coils Coils N_D_Inputs D_Inputs N_H_Registers
        H_Registers N_I_Registers I_Registers bit_rate a).1,
      (Slave.Modbus_CAN_Init n.can bit_rate a).2, ?_, ?_, ?_⟩
    · simp only [Slave.Modbus_Slave_Init, ham, if_pos h247]
    · simp [Slave.Modbus_Slave_Init, h247, Slave.Modbus_CAN_Init,
        Slave.Modbus_CAN_ReceptionConfiguration, Slave.Modbus_SetMainState, ham]
    · intro sm p s m g hs hm f hf
      rw [master_FixOutput_frames sm p s m g hs hm] at hf
      obtain ⟨c, _, rfl⟩ := List.mem_map.mp hf
      have h9 := id_low9 (masterType c.1) s (masterType_lt c.1) hs
      have h17 := (id_bits 1 (by decide) a ha).2.2.2.2
      have h18 : (0x1 <<< 8) ||| 0 = 256 := by decide
      have hodd : masterType c.1 % 2 = 1 := by cases c.1 <;> rfl
      simp only [accepted, chunkFrame, Slave.Modbus_CAN_Init,
        Slave.Modbus_CAN_ReceptionConfiguration, Slave.Modbus_SetMainState, ham]
      rw [h9, h17, h18, hodd]
      omega

theorem C30_slave_receive_filters_witness :
    (5 : Nat) < 256 ∧ 1 ≤ 5 ∧ 5 ≤ 247 ∧
      ∃ n1 rx, Slave.Modbus_Slave_Init exNode 16 (List.replicate 16 0) 16 (List.replicate 16 0)
            8 (List.replicate 8 0) 8 (List.replicate 8 0) .MODBUS_1MBPS 5 = (n1, some rx, 0) ∧
        n1.can.slave = 5 ∧
        ∀ (sm : Master.State) (p : List Nat) (s m g : Nat), s < 256 → m < 256 →
          ∀ f ∈ newFrames sm.canTx (Master.Modbus_CAN_FixOutput sm p s m g).canTx,
            (accepted rx.obj17_ulMsgID rx.obj17_ulMsgIDMask f.ulMsgID ↔ s = 5) ∧
            (accepted rx.obj18_ulMsgID rx.obj18_ulMsgIDMask f.ulMsgID ↔ s = 0) ∧
            ¬ (accepted rx.obj17_ulMsgID rx.obj17_ulMsgIDMask f.ulMsgID ∧
              accepted rx.obj18_ulMsgID rx.obj18_ulMsgIDMask f.ulMsgID) :=
  ⟨by decide, by decide, by decide,
    (C30_slave_receive_filters exNode 16 (List.replicate 16 0) 16 (List.replicate 16 0) 8
      (List.replicate 8 0) 8 (List.replicate 8 0) .MODBUS_1MBPS 5 (by decide)).2 (by decide)
      (by decide)⟩

/-! ## Theorems: slave number, register transfers -/

/-- Claim C32, evaluated: the master's `Modbus_Write_M_Registers` for slave 5,
address 2 and the two values `0x1234, 0x1235` builds the request PDU
`10 00 02 00 02 04 12 34 12 35`; the slave's check returns 0 for it and
`Modbus_App_Write_M_Registers` of the slave stores `0x12 | 0x34 = 0x36` and
`0x12 | 0x35 = 0x37` in the holding registers 2 and 3. -/
theorem C32_write_registers_evaluated :
    Master.ld16 exMasterUser.userMem 0 0 = 0x1234 ∧
      Master.ld16 exMasterUser.userMem 0 1 = 0x1235 ∧
      (Master.Modbus_Write_M_Registers exMasterUser 5 2 2 0).map
        (fun r => (r.2, r.1.Modbus_App_Req_pdu.take 10, r.1.Modbus_App_L_Req_pdu)) =
        some (0, [16, 0, 2, 0, 2, 4, 0x12, 0x34, 0x12, 0x35], 10) ∧
      (Slave.Modbus_App_Check_Request_Data
        (exAppRequest [16, 0, 2, 0, 2, 4, 0x12, 0x34, 0x12, 0x35] 10) 0).2 = 0 ∧
      (Slave.Modbus_App_Write_M_Registers_Check
        (exAppRequest [16, 0, 2, 0, 2, 4, 0x12, 0x34, 0x12, 0x35] 10)).2 = 0 ∧
      (Slave.Modbus_App_Process_Action
        (Slave.Modbus_App_Check_Request_Data
          (exAppRequest [16, 0, 2, 0, 2, 4, 0x12, 0x34, 0x12, 0x35] 10) 0).1).map
        (fun a => a.Modbus_App_H_Registers) = some [0, 0, 0x36, 0x37, 0, 0, 0, 0] := by
  decide

/-! ### Read Holding Registers: request, response and callback -/

/-- Splitting a 16-bit value into its two bytes and joining them again. -/
theorem be16_split (A : Nat) (hA : A < 65536) :
    ((((A >>> 8) % 256) <<< 8) ||| (A % 256)) % 65536 = A := by
  have e : ((A >>> 8) % 256) <<< 8 = 2 ^ 8 * ((A >>> 8) % 256) := by
    rw [Nat.shiftLeft_eq, Nat.mul_comm]
  rw [e, ← Nat.mul_add_lt_is_or (by omega : A % 256 < 2 ^ 8), Nat.shiftRight_eq_div_pow]
  omega

/-- A loop that stores two bytes per pass at consecutive positions from `c`
on: what it leaves in the array. -/
theorem foldl_set2_spec (i1 i2 v1 v2 : Nat → Nat) (c : Nat) (h1 : ∀ i, i1 i = c + 2 * i)
    (h2 : ∀ i, i2 i = c + 2 * i + 1) : ∀ (n : Nat) (b : List Nat),
    ((List.range n).foldl (fun a i => (a.set (i1 i) (v1 i)).set (i2 i) (v2 i)) b).length =
        b.length ∧
      ∀ j, rd ((List.range n).foldl (fun a i => (a.set (i1 i) (v1 i)).set (i2 i) (v2 i)) b) j =
        if c ≤ j ∧ j < c + 2 * n ∧ j < b.length then
          (if (j - c) % 2 = 0 then v1 ((j - c) / 2) else v2 ((j - c) / 2))
        else rd b j := by
  intro n
  induction n with
  | zero =>
    intro b
    refine ⟨rfl, fun j => ?_⟩
    rw [if_neg (by omega)]
    rfl
  | succ n ih =>
    intro b
    obtain ⟨k1, k2⟩ := ih b
    rw [List.range_succ, List.foldl_append]
    simp only [List.foldl_cons, List.foldl_nil]
    generalize (List.range n).foldl (fun a i => (a.set (i1 i) (v1 i)).set (i2 i) (v2 i)) b = A
      at k1 k2 ⊢
    refine ⟨by simp [k1], fun j => ?_⟩
    rw [rd_set, rd_set, List.length_set, k1, k2, h1, h2]
    by_cases ha : c + 2 * n + 1 = j ∧ j < b.length
    · obtain ⟨ha1, ha2⟩ := ha
      subst ha1
      rw [if_pos ⟨rfl, ha2⟩, if_pos ⟨by omega, by omega, ha2⟩, if_neg (by omega)]
      congr 1
      omega
    · rw [if_neg ha]
      by_cases hb : c + 2 * n = j ∧ j < b.length
      · obtain ⟨hb1, hb2⟩ := hb
        subst hb1
        rw [if_pos ⟨rfl, hb2⟩, if_pos ⟨by omega, by omega, hb2⟩, if_pos (by omega)]
        congr 1
        omega
      · rw [if_neg hb]
        have hiff : (c ≤ j ∧ j < c + 2 * (n + 1) ∧ j < b.length) ↔
            (c ≤ j ∧ j < c + 2 * n ∧ j < b.length) := by
          constructor <;> intro h <;> omega
        rw [if_congr hiff rfl rfl]

/-- The request record `Modbus_Read_H_Registers` builds. -/
theorem read_H_call (sm : Master.State) (S A q R : Nat) (hS1 : 1 ≤ S) (hS : S ≤ 247)
    (hq1 : 1 ≤ q) (hq : q ≤ 125) (hA : A + q ≤ 65535)
    (hidle : sm.modbus_master_state = .MODBUS_IDLE) (hempty : sm.Modbus_FIFO_Tx.Items = 0) :
    ∃ sm1, Master.Modbus_Read_H_Registers sm S A q R = some (sm1, 0) ∧
      sm1.Modbus_App_Actual_Req =
        Master.setData (Master.setData (Master.setData
          { sm.Modbus_App_Request with Slave := S, Function := 3 } 0 A) 1 q) 2 R ∧
      sm1.Modbus_App_Req_pdu =
        Master.reqHeader (Master.setData (Master.setData (Master.setData
          { sm.Modbus_App_Request with Slave := S, Function := 3 } 0 A) 1 q) 2 R)
          sm.Modbus_App_Req_pdu ∧
      sm1.Modbus_App_L_Req_pdu = 5 ∧ sm1.userMem = sm.userMem ∧
      sm1.Modbus_App_Msg = sm.Modbus_App_Msg := by
  have hSm : S % 256 = S := Nat.mod_eq_of_lt (by omega)
  have hAm : A % 65536 = A := Nat.mod_eq_of_lt (by omega)
  have hqm : q % 65536 = q := Nat.mod_eq_of_lt (by omega)
  simp only [Master.Modbus_Read_H_Registers, hSm, hAm, hqm]
  rw [if_neg (by omega)]
  simp only [Master.enqueueOrSendResult, Master.Modbus_App_Enqueue_Or_Send]
  rw [if_pos ⟨hidle, by simp [Modbus_FIFO_Empty, hempty]⟩]
  simp only [Master.Modbus_App_Send, Master.Modbus_App_Send_encode, Master.setData]
  simp only [true_or, or_true, if_true, Option.map_some']
  rw [master_FixOutput_unicast _ _ _ _ _
    (by simp only [Master.Modbus_App_Standard_Request]; omega)
    (by simp only [Master.Modbus_App_Standard_Request]; omega)
    (by simp only [Master.Modbus_App_Standard_Request]; omega)
    (by simp only [Master.Modbus_App_Standard_Request]; omega)]
  exact ⟨_, rfl, rfl, rfl, rfl, rfl, rfl⟩

/-- The copy loop of the slave's `Modbus_CAN_to_App`. -/
theorem slave_to_App_loop (buf : List Nat) : ∀ (k : Nat), k ≤ 256 → ∀ (a0 : Slave.App),
    (List.range k).foldl (fun a index => Slave.Modbus_App_Receive_Char a (rd buf index) index) a0 =
        { a0 with Modbus_App_Msg := ((List.range k).foldl
            (fun a index => Slave.Modbus_App_Receive_Char a (rd buf index) index)
            a0).Modbus_App_Msg } ∧
      ((List.range k).foldl (fun a index => Slave.Modbus_App_Receive_Char a (rd buf index) index)
        a0).Modbus_App_Msg.length = a0.Modbus_App_Msg.length ∧
      ∀ j, rd ((List.range k).foldl
          (fun a index => Slave.Modbus_App_Receive_Char a (rd buf index) index)
          a0).Modbus_App_Msg j =
        if j < k ∧ j < a0.Modbus_App_Msg.length then rd buf j % 256
        else rd a0.Modbus_App_Msg j := by
  intro k
  induction k with
  | zero =>
    intro _ a0
    refine ⟨rfl, rfl, fun j => ?_⟩
    rw [if_neg (by omega)]
    rfl
  | succ k ih =>
    intro hk a0
    obtain ⟨e1, e2, e3⟩ := ih (by omega) a0
    rw [List.range_succ, List.foldl_append]
    simp only [List.foldl_cons, List.foldl_nil]
    generalize (List.range k).foldl
      (fun a index => Slave.Modbus_App_Receive_Char a (rd buf index) index) a0 = B at e1 e2 e3 ⊢
    have hk2 : k % 256 = k := Nat.mod_eq_of_lt (by omega)
    refine ⟨?_, ?_, fun j => ?_⟩
    · rw [e1]
      simp [Slave.Modbus_App_Receive_Char]
    · simp [Slave.Modbus_App_Receive_Char, e2]
    · simp only [Slave.Modbus_App_Receive_Char, hk2]
      rw [rd_set, e2, e3]
      by_cases hj : k = j ∧ j < a0.Modbus_App_Msg.length
      · obtain ⟨hj1, hj2⟩ := hj
        subst hj1
        rw [if_pos ⟨rfl, hj2⟩, if_pos ⟨by omega, hj2⟩]
      · rw [if_neg hj]
        have hiff : (j < k + 1 ∧ j < a0.Modbus_App_Msg.length) ↔
            (j < k ∧ j < a0.Modbus_App_Msg.length) := by
          constructor <;> intro h <;> omega
        rw [if_congr hiff rfl rfl]

/-- The slave's `Modbus_CAN_to_App`: the message buffer gets the first
`input_length` bytes of `input_pdu`, the message length `input_length`. -/
theorem slave_to_App_spec (n : Slave.Node) (hL : n.can.input_length ≤ 255) :
    (Slave.Modbus_CAN_to_App n).app =
        { n.app with
          Modbus_App_Msg := (Slave.Modbus_CAN_to_App n).app.Modbus_App_Msg
          Modbus_App_L_Msg := n.can.input_length } ∧
      (Slave.Modbus_CAN_to_App n).app.Modbus_App_Msg.length = n.app.Modbus_App_Msg.length ∧
      ∀ j, rd (Slave.Modbus_CAN_to_App n).app.Modbus_App_Msg j =
        if j < n.can.input_length ∧ j < n.app.Modbus_App_Msg.length then
          rd n.can.input_pdu j % 256
        else rd n.app.Modbus_App_Msg j := by
  obtain ⟨e1, e2, e3⟩ := slave_to_App_loop n.can.input_pdu n.can.input_length (by omega)
    (Slave.Modbus_App_L_Msg_Set n.app n.can.input_length)
  have hm : n.can.input_length % 256 = n.can.input_length := Nat.mod_eq_of_lt (by omega)
  simp only [Slave.Modbus_CAN_to_App]
  refine ⟨?_, e2, e3⟩
  rw [e1]
  simp [Slave.Modbus_App_L_Msg_Set, hm]

/-- The header bytes `Modbus_App_Standard_Request` writes for the record of a
read request. -/
theorem reqHeader_read (r0 : Modbus_FIFO_Item) (pdu : List Nat) (S F A q R : Nat)
    (hA : A < 65536) (hq : q < 65536) (hF : F < 256)
    (hdata : r0.Data.length = 6) (hpdu : pdu.length = 256) :
    Master.UI2 (Master.setData (Master.setData (Master.setData
        { r0 with Slave := S, Function := F } 0 A) 1 q) 2 R) 1 = q ∧
      rd (Master.setData (Master.setData (Master.setData
        { r0 with Slave := S, Function := F } 0 A) 1 q) 2 R).Data 2 = R ∧
      rd (Master.reqHeader (Master.setData (Master.setData (Master.setData
        { r0 with Slave := S, Function := F } 0 A) 1 q) 2 R) pdu) 0 = F ∧
      rd (Master.reqHeader (Master.setData (Master.setData (Master.setData
        { r0 with Slave := S, Function := F } 0 A) 1 q) 2 R) pdu) 1 = (A >>> 8) % 256 ∧
      rd (Master.reqHeader (Master.setData (Master.setData (Master.setData
        { r0 with Slave := S, Function := F } 0 A) 1 q) 2 R) pdu) 2 = A % 256 ∧
      rd (Master.reqHeader (Master.setData (Master.setData (Master.setData
        { r0 with Slave := S, Function := F } 0 A) 1 q) 2 R) pdu) 3 = (q >>> 8) % 256 ∧
      rd (Master.reqHeader (Master.setData (Master.setData (Master.setData
        { r0 with Slave := S, Function := F } 0 A) 1 q) 2 R) pdu) 4 = q % 256 := by
  have hAm : A % 65536 = A := Nat.mod_eq_of_lt hA
  have hqm : q % 65536 = q := Nat.mod_eq_of_lt hq
  have hFm : F % 256 = F := Nat.mod_eq_of_lt hF
  simp [Master.reqHeader, Master.UI2, Master.setData, rd_set, hdata, hpdu, hAm, hqm, hFm]

/-- The slave's check and `Modbus_App_Read_H_Registers` for a request
`03 A_hi A_lo q_hi q_lo` inside the register range: the response is
`03, 2q, hi(reg A), lo(reg A), ...` of `2 + 2q` bytes. -/
theorem slave_read_H (a0 : Slave.App) (A q : Nat) (hq1 : 1 ≤ q) (hq : q ≤ 125)
    (hin : A + q ≤ a0.Modbus_App_N_H_Registers) (hN : a0.Modbus_App_N_H_Registers ≤ 65535)
    (h1 : rd a0.Modbus_App_Msg 1 = (A >>> 8) % 256) (h2 : rd a0.Modbus_App_Msg 2 = A % 256)
    (h3 : rd a0.Modbus_App_Msg 3 = (q >>> 8) % 256) (h4 : rd a0.Modbus_App_Msg 4 = q % 256)
    (hL : a0.Modbus_App_L_Msg = 5) (hresp : a0.Modbus_App_Response_pdu.length = 256) :
    Slave.Modbus_App_Read_H_Registers_Check a0 =
        ({ a0 with Modbus_App_Adress := A, Modbus_App_Quantity := q }, 0) ∧
      ∃ a2, Slave.Modbus_App_Read_H_Registers
          { a0 with Modbus_App_Adress := A, Modbus_App_Quantity := q } = some a2 ∧
        a2.Modbus_App_L_Response_pdu = 2 + 2 * q ∧ rd a2.Modbus_App_Response_pdu 1 = 2 * q ∧
        ∀ i, i < q →
          rd a2.Modbus_App_Response_pdu (2 * i + 2) =
              (rd a0.Modbus_App_H_Registers (A + i) >>> 8) % 256 ∧
            rd a2.Modbus_App_Response_pdu (2 * i + 3) =
              rd a0.Modbus_App_H_Registers (A + i) % 256 := by
  have eA : Slave.be16 a0.Modbus_App_Msg 1 = A := by
    unfold Slave.be16
    rw [h1, h2]
    exact be16_split A (by omega)
  have eq : Slave.be16 a0.Modbus_App_Msg 3 = q := by
    unfold Slave.be16
    rw [h3, h4]
    exact be16_split q (by omega)
  constructor
  · simp only [Slave.Modbus_App_Read_H_Registers_Check, eA, eq, hL]
    rw [if_neg (by omega), if_neg (by omega)]
  · have spec := foldl_set2_spec (fun i => 2 + 2 * i) (fun i => 3 + 2 * i)
      (fun i => (rd a0.Modbus_App_H_Registers (A + i) >>> 8) % 256)
      (fun i => rd a0.Modbus_App_H_Registers (A + i) % 256) 2 (fun _ => rfl)
      (fun i => by show 3 + 2 * i = 2 + 2 * i + 1; omega) q ((a0.Modbus_App_Response_pdu.set 0 3).set 1 ((q * 2) % 256))
    obtain ⟨_, k2⟩ := spec
    have hq2 : (q * 2) % 256 = 2 * q := by omega
    have e1 : rd (Slave.packRegisters a0.Modbus_App_H_Registers A q
        ((a0.Modbus_App_Response_pdu.set 0 3).set 1 ((q * 2) % 256))) 1 = 2 * q := by
      unfold Slave.packRegisters
      rw [k2, if_neg (by omega), rd_set, if_pos ⟨rfl, by simp [hresp]⟩, hq2]
    simp only [Slave.Modbus_App_Read_H_Registers]
    rw [if_neg (by omega)]
    refine ⟨_, rfl, ?_, e1, fun i hi => ⟨?_, ?_⟩⟩
    · show (2 + rd _ 1) % 256 = 2 + 2 * q
      rw [e1]
      omega
    · show rd (Slave.packRegisters _ _ _ _) (2 * i + 2) = _
      unfold Slave.packRegisters
      rw [k2, if_pos ⟨by omega, by omega, by simp [hresp]; omega⟩, if_pos (by omega)]
      congr 3
      omega
    · show rd (Slave.packRegisters _ _ _ _) (2 * i + 3) = _
      unfold Slave.packRegisters
      rw [k2, if_pos ⟨by omega, by omega, by simp [hresp]; omega⟩, if_neg (by omega)]
      congr 2
      omega

/-- The master's `Modbus_App_Read_Registers_CallBack` for a response whose
byte count and length match the request: it returns 0 and the word `i` behind
the response pointer is `Msg[2i+2] << 8 | Msg[2i+3]`. -/
theorem master_read_callback (m : Master.State) (q R : Nat)
    (hU : Master.UI2 m.Modbus_App_Actual_Req 1 = q) (hR : rd m.Modbus_App_Actual_Req.Data 2 = R)
    (h1 : rd m.Modbus_App_Msg 1 = 2 * q) (hL : m.Modbus_App_L_Msg = 2 + 2 * q)
    (hmem : R + 2 * q ≤ m.userMem.length) :
    Master.Modbus_App_Read_Registers_CallBack m =
        ({ m with userMem := Master.storeRegisters m.userMem m.Modbus_App_Msg R }, 0) ∧
      ∀ i, i < q → Master.ld16 (Master.storeRegisters m.userMem m.Modbus_App_Msg R) R i =
        rd m.Modbus_App_Msg (2 * i + 3) + 256 * rd m.Modbus_App_Msg (2 * i + 2) := by
  constructor
  · simp only [Master.Modbus_App_Read_Registers_CallBack, hU, hR, h1, hL]
    rw [if_neg (by omega)]
  · intro i hi
    have spec := foldl_set2_spec (fun i => R + 2 * i) (fun i => R + 2 * i + 1)
      (fun i => rd m.Modbus_App_Msg (2 * i + 3)) (fun i => rd m.Modbus_App_Msg (2 * i + 2)) R
      (fun _ => rfl) (fun _ => rfl) q m.userMem
    obtain ⟨_, k2⟩ := spec
    have hq : rd m.Modbus_App_Msg 1 / 2 = q := by omega
    unfold Master.ld16 Master.storeRegisters
    rw [hq, k2, k2, if_pos ⟨by omega, by omega, by omega⟩, if_pos (by omega),
      if_pos ⟨by omega, by omega, by omega⟩, if_neg (by omega)]
    have e1 : (R + 2 * i - R) / 2 = i := by omega
    have e2 : (R + 2 * i + 1 - R) / 2 = i := by omega
    rw [e1, e2]

/-- Claim C33 (Read Holding Registers round trip).  A master that is idle with
an empty Request Queue calls `Modbus_Read_H_Registers (Slave, Adress, q,
Response)` with a slave number in 1..247 and `q` in 1..125; the slave has
`Adress + q` inside its holding-register range (16-bit register values).  Then
the call returns 0; the slave, handed the request PDU by `Modbus_CAN_to_App`,
passes `Modbus_App_Read_H_Registers_Check` with 0 and
`Modbus_App_Read_H_Registers` builds a response; the master, handed that
response by `Modbus_CAN_to_App`, gets 0 from
`Modbus_App_Read_Registers_CallBack`, and afterwards `Response[i]` is the
slave's `H_Registers[Adress + i]` for every `i < q`. -/
theorem C33_read_holding_round_trip (sm : Master.State) (n : Slave.Node)
    (Slave_ Adress q Response : Nat)
    (hS1 : 1 ≤ Slave_) (hS : Slave_ ≤ 247) (hq1 : 1 ≤ q) (hq : q ≤ 125)
    (hin : Adress + q ≤ n.app.Modbus_App_N_H_Registers)
    (hN : n.app.Modbus_App_N_H_Registers ≤ 65535)
    (hv : ∀ i, i < q → rd n.app.Modbus_App_H_Registers (Adress + i) < 65536)
    (hidle : sm.modbus_master_state = .MODBUS_IDLE) (hempty : sm.Modbus_FIFO_Tx.Items = 0)
    (hreq : sm.Modbus_App_Req_pdu.length = 256) (hdata : sm.Modbus_App_Request.Data.length = 6)
    (hmsg : sm.Modbus_App_Msg.length = 256) (hmem : Response + 2 * q ≤ sm.userMem.length)
    (hsmsg : n.app.Modbus_App_Msg.length = 256)
    (hresp : n.app.Modbus_App_Response_pdu.length = 256) :
    ∃ sm1 a1 a2 m1,
      Master.Modbus_Read_H_Registers sm Slave_ Adress q Response = some (sm1, 0) ∧
      Slave.Modbus_App_Read_H_Registers_Check
          (Slave.Modbus_CAN_to_App
            { n with can := { n.can with
                input_pdu := sm1.Modbus_App_Req_pdu
                input_length := sm1.Modbus_App_L_Req_pdu } }).app = (a1, 0) ∧
      Slave.Modbus_App_Read_H_Registers a1 = some a2 ∧
      Master.Modbus_App_Read_Registers_CallBack
          (Master.Modbus_CAN_to_App
            { sm1 with
              input_pdu := a2.Modbus_App_Response_pdu
              input_length := a2.Modbus_App_L_Response_pdu }) = (m1, 0) ∧
      ∀ i, i < q →
        Master.ld16 m1.userMem Response i = rd n.app.Modbus_App_H_Registers (Adress + i) := by
  obtain ⟨sm1, hcall, hrec, hpdu, hL, hum, hm⟩ :=
    read_H_call sm Slave_ Adress q Response hS1 hS hq1 hq (by omega) hidle hempty
  obtain ⟨hU, hR, _, p1, p2, p3, p4⟩ :=
    reqHeader_read sm.Modbus_App_Request sm.Modbus_App_Req_pdu Slave_ 3 Adress q Response
      (by omega) (by omega) (by omega) hdata hreq
  rw [← hpdu] at p1 p2 p3 p4
  rw [← hrec] at hU hR
  obtain ⟨t1, t2, t3⟩ := slave_to_App_spec
    { n with can := { n.can with
        input_pdu := sm1.Modbus_App_Req_pdu
        input_length := sm1.Modbus_App_L_Req_pdu } } (by simp [hL])
  generalize ha0 : (Slave.Modbus_CAN_to_App
    { n with can := { n.can with
        input_pdu := sm1.Modbus_App_Req_pdu
        input_length := sm1.Modbus_App_L_Req_pdu } }).app = a0 at t1 t2 t3
  simp only [hL, hsmsg] at t1 t2 t3
  have hb : ∀ x : Nat, x % 256 % 256 = x % 256 := fun x => Nat.mod_mod x 256
  have q1 : rd a0.Modbus_App_Msg 1 = (Adress >>> 8) % 256 := by
    rw [t3, if_pos (by omega), p1, hb]
  have q2 : rd a0.Modbus_App_Msg 2 = Adress % 256 := by
    rw [t3, if_pos (by omega), p2, hb]
  have q3 : rd a0.Modbus_App_Msg 3 = (q >>> 8) % 256 := by
    rw [t3, if_pos (by omega), p3, hb]
  have q4 : rd a0.Modbus_App_Msg 4 = q % 256 := by
    rw [t3, if_pos (by omega), p4, hb]
  have f1 : a0.Modbus_App_N_H_Registers = n.app.Modbus_App_N_H_Registers := by rw [t1]
  have f2 : a0.Modbus_App_H_Registers = n.app.Modbus_App_H_Registers := by rw [t1]
  have f3 : a0.Modbus_App_Response_pdu = n.app.Modbus_App_Response_pdu := by rw [t1]
  have f4 : a0.Modbus_App_L_Msg = 5 := by rw [t1]
  obtain ⟨hchk, a2, hrd, hL2, hb1, hbytes⟩ := slave_read_H a0 Adress q hq1 hq (by rw [f1]; exact hin)
    (by rw [f1]; exact hN) q1 q2 q3 q4 f4 (by rw [f3]; exact hresp)
  obtain ⟨c1, c2⟩ := copyBytes_spec a2.Modbus_App_Response_pdu 0 0 a2.Modbus_App_L_Response_pdu
    sm1.Modbus_App_Msg
  have hrdm : ∀ j, j < 2 + 2 * q →
      rd (Master.Modbus_CAN_to_App
        { sm1 with
          input_pdu := a2.Modbus_App_Response_pdu
          input_length := a2.Modbus_App_L_Response_pdu }).Modbus_App_Msg j =
        rd a2.Modbus_App_Response_pdu j := by
    intro j hj
    show rd (copyBytes sm1.Modbus_App_Msg 0 a2.Modbus_App_Response_pdu 0
      a2.Modbus_App_L_Response_pdu) j = _
    rw [c2, if_pos ⟨by omega, by omega, by rw [hm, hmsg]; omega⟩]
    simp
  obtain ⟨hcb, hst⟩ := master_read_callback
    (Master.Modbus_CAN_to_App
      { sm1 with
        input_pdu := a2.Modbus_App_Response_pdu
        input_length := a2.Modbus_App_L_Response_pdu }) q Response hU hR
    (by rw [hrdm 1 (by omega), hb1]) hL2 (by
      show Response + 2 * q ≤ sm1.userMem.length
      rw [hum]; exact hmem)
  subst ha0
  refine ⟨sm1, _, a2, _, hcall, hchk, hrd, hcb, fun i hi => ?_⟩
  have hvi := hv i hi
  rw [← f2] at hvi
  obtain ⟨b1, b2⟩ := hbytes i hi
  show Master.ld16 (Master.storeRegisters _ _ Response) Response i = _
  rw [hst i hi, hrdm _ (by omega), hrdm _ (by omega), b1, b2, ← f2,
    Nat.shiftRight_eq_div_pow]
  omega

/-- Witness of C33: the master `exMasterUser` reads the two holding registers
2 and 3 of the slave `exNodeRegs`, number 5, into the user memory at offset 0:
the words stored are `0xABCD` and `0x1234`. -/
theorem C33_read_holding_round_trip_witness :
    ∃ sm1 a1 a2 m1,
      Master.Modbus_Read_H_Registers exMasterUser 5 2 2 0 = some (sm1, 0) ∧
      Slave.Modbus_App_Read_H_Registers_Check
          (Slave.Modbus_CAN_to_App
            { exNodeRegs with can := { exNodeRegs.can with
                input_pdu := sm1.Modbus_App_Req_pdu
                input_length := sm1.Modbus_App_L_Req_pdu } }).app = (a1, 0) ∧
      Slave.Modbus_App_Read_H_Registers a1 = some a2 ∧
      Master.Modbus_App_Read_Registers_CallBack
          (Master.Modbus_CAN_to_App
            { sm1 with
              input_pdu := a2.Modbus_App_Response_pdu
              input_length := a2.Modbus_App_L_Response_pdu }) = (m1, 0) ∧
      Master.ld16 m1.userMem 0 0 = 0xABCD ∧ Master.ld16 m1.userMem 0 1 = 0x1234 := by
  obtain ⟨sm1, a1, a2, m1, h1, h2, h3, h4, h5⟩ :=
    C33_read_holding_round_trip exMasterUser exNodeRegs 5 2 2 0 (by decide) (by decide)
      (by decide) (by decide) (by decide) (by decide) (by decide) (by decide) (by decide)
      (by decide) (by decide) (by decide) (by decide) (by decide) (by decide)
  exact ⟨sm1, a1, a2, m1, h1, h2, h3, h4, by rw [h5 0 (by decide)]; decide,
    by rw [h5 1 (by decide)]; decide⟩


/-! ## Theorems: reassembly from an arbitrary state, and the indices accessed -/

/-- Claim C36, evaluated: the master and slave number 5, each with a 256-byte
`input_pdu`, receive an individual frame of 7 bytes and 31 continuation-long
frames of 8 bytes (every frame has at most 8 bytes): the running index is then
255, and for one more continuation-long frame of 8 bytes `Modbus_CAN_CallBack`
stores at the indices 255..262 of `input_pdu`, seven of them outside the
array. -/
theorem C36_reassembly_overrun_evaluated :
    MAX_PDU = 256 ∧
      (exMaster.input_pdu.length = 256 ∧ (∀ f ∈ exOverrunFrames, f.ulMsgLen ≤ 8) ∧
        (exOverrunFrames.foldl (fun m f => Master.Modbus_CAN_CallBack m 0x10000 f)
          exMaster).modbus_index = 255 ∧
        Master.Modbus_CAN_CallBack_writes
          (exOverrunFrames.foldl (fun m f => Master.Modbus_CAN_CallBack m 0x10000 f) exMaster)
          0x10000 (exSlaveFrame 4 (List.replicate 8 9)) =
          [255, 256, 257, 258, 259, 260, 261, 262]) ∧
      (exSlave.input_pdu.length = 256 ∧ (∀ f ∈ exOverrunFramesSlave, f.ulMsgLen ≤ 8) ∧
        (exOverrunFramesSlave.foldl (fun r f => Slave.Modbus_CAN_CallBack r 0x10000 f)
          exSlave).modbus_index = 255 ∧
        Slave.Modbus_CAN_CallBack_writes
          (exOverrunFramesSlave.foldl (fun r f => Slave.Modbus_CAN_CallBack r 0x10000 f) exSlave)
          0x10000 (exMasterFrame 5 (List.replicate 8 9)) =
          [255, 256, 257, 258, 259, 260, 261, 262]) := by
  decide

/-- Claim C37, evaluated: the serial receiver `exSerial` (idle, index 0, both
arrays of 256 bytes) gets 256 characters with no timer expiry in between: it is
in RECEPTION with `Modbus_OSL_RTU_Index = 256` and the frame flag still OK, and
for the next character `Modbus_OSL_RTU_UART` stores at index 256 of the active
array (and only then sets the frame flag to NOK). -/
theorem C37_serial_overrun_evaluated :
    exSerial.Modbus_OSL_RTU_Msg1.length = 256 ∧ exSerial.Modbus_OSL_RTU_Msg2.length = 256 ∧
      (Serial.run exSerial (List.replicate 256 (Serial.Event.uart Serial.UART_INT_RX 1))).map
        (fun s => (s.Modbus_OSL_State, s.Modbus_OSL_RTU_Index, s.Modbus_OSL_Frame,
          Serial.Modbus_OSL_RTU_UART_write s)) =
        some (.MODBUS_OSL_RTU_RECEPTION, 256, .MODBUS_OSL_Frame_OK, some 256) := by
  decide

/-- Claim C40, evaluated: for a published length 1 the loop of
`Modbus_OSL_RTU_Check_CRC` makes 255 passes and reads the indices 0..254, for
the length 0 it makes 254 passes and the comparison reads the index -1, for
which the model has no result.  Both lengths are published by the receiver:
one character followed by the two timer expiries gives the length 1, and 256
characters `05` give the length 0 with the frame flag OK, after which the pass
of the main loop has no defined result. -/
theorem C40_crc_reads_evaluated :
    Modbus_OSL_RTU_Control_CRC_passes 1 = 255 ∧ Modbus_OSL_RTU_Control_CRC_passes 0 = 254 ∧
      (254 : Int) ∈ Modbus_OSL_RTU_Control_CRC_reads (5 :: List.replicate 255 0) 1 ∧
      (-1 : Int) ∈ Modbus_OSL_RTU_Control_CRC_reads (List.replicate 256 5) 0 ∧
      Modbus_OSL_RTU_Control_CRC (List.replicate 256 5) 0 = none ∧
      (Serial.run exSerial [.uart Serial.UART_INT_RX 5, .t15, .t35]).map
        (fun s => (s.Modbus_OSL_RTU_L_Msg, s.Modbus_OSL_Frame, s.Modbus_OSL_Processing_Flag)) =
        some (1, .MODBUS_OSL_Frame_OK, 1) ∧
      (Serial.run exSerial
        (List.replicate 256 (Serial.Event.uart Serial.UART_INT_RX 5) ++ [.t15, .t35])).map
        (fun s => (s.Modbus_OSL_RTU_L_Msg, s.Modbus_OSL_Frame, s.Modbus_OSL_Processing_Flag)) =
        some (0, .MODBUS_OSL_Frame_OK, 1) ∧
      (Serial.run exSerial
        (List.replicate 256 (Serial.Event.uart Serial.UART_INT_RX 5) ++
          [.t15, .t35, .poll])).isNone = true := by
  decide


/-! ## Theorems: the attempt counter, a pending retry, the timer loads -/

/-- The transmit loop of the master leaves the attempt counter and its bound
alone. -/
theorem master_loop_attempts (p : List Nat) (slave n g : Nat) : ∀ (fuel aux it : Nat)
    (s : Master.State),
    (Master.Modbus_CAN_FixOutput_loop p slave n g fuel aux it s).modbus_attempts =
        s.modbus_attempts ∧
      (Master.Modbus_CAN_FixOutput_loop p slave n g fuel aux it s).modbus_max_attempts =
        s.modbus_max_attempts := by
  intro fuel
  induction fuel with
  | zero => intro aux it s; simp [Master.Modbus_CAN_FixOutput_loop]
  | succ fuel ih =>
    intro aux it s
    by_cases h0 : aux = 0
    · simp [Master.Modbus_CAN_FixOutput_loop, h0]
    · by_cases h8 : aux ≤ MAX_FRAME
      · simp only [Master.Modbus_CAN_FixOutput_loop, h0, h8, if_true, if_false, ih]
        by_cases hs : slave = 0 <;>
          simp [hs, Master.Modbus_CAN_UnicastTimeout, Master.Modbus_CAN_BroadcastTimeout,
            Master.Modbus_SetMainState]
      · simp only [Master.Modbus_CAN_FixOutput_loop, h0, h8, if_false, ih]
        simp

/-- `Modbus_CAN_FixOutput` of the master leaves the attempt counter and its
bound alone. -/
theorem master_FixOutput_attempts (s : Master.State) (p : List Nat) (slave n g : Nat) :
    (Master.Modbus_CAN_FixOutput s p slave n g).modbus_attempts = s.modbus_attempts ∧
      (Master.Modbus_CAN_FixOutput s p slave n g).modbus_max_attempts =
        s.modbus_max_attempts := by
  simp only [Master.Modbus_CAN_FixOutput, master_loop_attempts]
  by_cases hs : slave % 256 = 0 <;> simp [hs, Master.Modbus_CAN_ReceptionConfiguration]

/-- The encoder `Modbus_App_Write_M_Registers` leaves the attempt counter and
its bound alone. -/
theorem registers_attempts (s a : Master.State)
    (ha : Master.Modbus_App_Write_M_Registers s = some a) :
    a.modbus_attempts = s.modbus_attempts ∧ a.modbus_max_attempts = s.modbus_max_attempts := by
  unfold Master.Modbus_App_Write_M_Registers at ha
  dsimp only at ha
  split_ifs at ha
  simp only [Option.some.injEq] at ha
  subst ha
  exact ⟨rfl, rfl⟩

/-- The encoder `Modbus_App_Read_Write_M_Registers` leaves the attempt counter
and its bound alone. -/
theorem read_write_attempts (s a : Master.State)
    (ha : Master.Modbus_App_Read_Write_M_Registers s = some a) :
    a.modbus_attempts = s.modbus_attempts ∧ a.modbus_max_attempts = s.modbus_max_attempts := by
  unfold Master.Modbus_App_Read_Write_M_Registers at ha
  dsimp only at ha
  split_ifs at ha
  simp only [Option.some.injEq] at ha
  subst ha
  exact ⟨rfl, rfl⟩

/-- The request encoders leave the attempt counter and its bound alone. -/
theorem encode_attempts (s s1 : Master.State) (g : Nat)
    (h : Master.Modbus_App_Send_encode s = some (s1, g)) :
    s1.modbus_attempts = s.modbus_attempts ∧ s1.modbus_max_attempts = s.modbus_max_attempts := by
  unfold Master.Modbus_App_Send_encode at h
  dsimp only at h
  split_ifs at h <;>
    simp only [Option.some.injEq, Prod.mk.injEq, Option.map_eq_some', reduceCtorEq] at h
  all_goals first
    | (obtain ⟨h, _⟩ := h; subst h; exact ⟨rfl, rfl⟩)
    | (obtain ⟨a, ha, h, _⟩ := h; subst h; exact registers_attempts _ _ ha)
    | (obtain ⟨a, ha, h, _⟩ := h; subst h; exact read_write_attempts _ _ ha)

/-- `Modbus_App_Send` leaves the attempt counter and its bound alone. -/
theorem send_attempts (s w : Master.State) (h : Master.Modbus_App_Send s = some w) :
    w.modbus_attempts = s.modbus_attempts ∧ w.modbus_max_attempts = s.modbus_max_attempts := by
  unfold Master.Modbus_App_Send at h
  simp only [Option.map_eq_some'] at h
  obtain ⟨b, hb, hw⟩ := h
  obtain ⟨e1, e2⟩ := encode_attempts s b.1 b.2 hb
  obtain ⟨f1, f2⟩ := master_FixOutput_attempts b.1 b.1.Modbus_App_Req_pdu
    b.1.Modbus_App_Actual_Req.Slave b.1.Modbus_App_L_Req_pdu b.2
  rw [← hw, f1, f2]
  exact ⟨e1, e2⟩

/-- The common tail of `Modbus_App_Manage_CallBack`: the bound of the attempt
counter is left alone, the counter keeps its value or becomes 1. -/
theorem manage_tail_attempts (x : Master.State) :
    (if Master.Modbus_GetMainState x ≠ .MODBUS_ERROR then
        Master.Modbus_SetMainState (Master.Modbus_CAN_Reset_Attempt x) .MODBUS_IDLE
      else x).modbus_max_attempts = x.modbus_max_attempts ∧
      ((if Master.Modbus_GetMainState x ≠ .MODBUS_ERROR then
          Master.Modbus_SetMainState (Master.Modbus_CAN_Reset_Attempt x) .MODBUS_IDLE
        else x).modbus_attempts = x.modbus_attempts ∨
        (if Master.Modbus_GetMainState x ≠ .MODBUS_ERROR then
          Master.Modbus_SetMainState (Master.Modbus_CAN_Reset_Attempt x) .MODBUS_IDLE
        else x).modbus_attempts = 1) := by
  by_cases h : Master.Modbus_GetMainState x ≠ .MODBUS_ERROR
  · rw [if_pos h]
    exact ⟨rfl, Or.inr rfl⟩
  · rw [if_neg h]
    exact ⟨rfl, Or.inl rfl⟩

/-- `Modbus_App_Manage_CallBack` leaves the bound of the attempt counter alone;
the counter keeps its value or becomes 1. -/
theorem manage_callback_attempts (t u : Master.State)
    (h : Master.Modbus_App_Manage_CallBack t = some u) :
    u.modbus_max_attempts = t.modbus_max_attempts ∧
      (u.modbus_attempts = t.modbus_attempts ∨ u.modbus_attempts = 1) := by
  have hset : ∀ (x : Master.State) (c : Prop) [Decidable c],
      x.modbus_max_attempts = t.modbus_max_attempts ∧ x.modbus_attempts = t.modbus_attempts →
      (if c then Master.Modbus_SetMainState x .MODBUS_ERROR else x).modbus_max_attempts =
          t.modbus_max_attempts ∧
        (if c then Master.Modbus_SetMainState x .MODBUS_ERROR else x).modbus_attempts =
          t.modbus_attempts := by
    intro x c _ hx
    by_cases hc : c
    · rw [if_pos hc]; exact hx
    · rw [if_neg hc]; exact hx
  by_cases hm : rd t.Modbus_App_Msg 0 = t.Modbus_App_Actual_Req.Function
  · by_cases hf : t.Modbus_App_Actual_Req.Function = 1 ∨ t.Modbus_App_Actual_Req.Function = 2 ∨
        t.Modbus_App_Actual_Req.Function = 3 ∨ t.Modbus_App_Actual_Req.Function = 4 ∨
        t.Modbus_App_Actual_Req.Function = 5 ∨ t.Modbus_App_Actual_Req.Function = 6 ∨
        t.Modbus_App_Actual_Req.Function = 15 ∨ t.Modbus_App_Actual_Req.Function = 16 ∨
        t.Modbus_App_Actual_Req.Function = 22 ∨ t.Modbus_App_Actual_Req.Function = 23
    · obtain ⟨u0, e, hu0, _⟩ := manage_callback_match t hf hm
      rw [e] at h
      simp only [Option.map_some', Option.some.injEq] at h
      have hxt := hset u0 (Master.responseCheck t ≠ 0)
        ⟨by rw [hu0], by rw [hu0]⟩
      obtain ⟨k1, k2⟩ := manage_tail_attempts
        (if Master.responseCheck t ≠ 0 then Master.Modbus_SetMainState u0 .MODBUS_ERROR else u0)
      rw [h] at k1 k2
      rw [hxt.1] at k1
      rw [hxt.2] at k2
      exact ⟨k1, k2⟩
    · simp only [not_or] at hf
      obtain ⟨h1, h2, h3, h4, h5, h6, h7, h8, h9, h10⟩ := hf
      simp [Master.Modbus_App_Manage_CallBack, hm, h1, h2, h3, h4, h5, h6, h7, h8, h9, h10] at h
  · unfold Master.Modbus_App_Manage_CallBack at h
    dsimp only at h
    rw [if_neg hm] at h
    split_ifs at h <;> simp only [Option.some.injEq] at h <;> subst h
    · exact ⟨rfl, Or.inr rfl⟩
    · exact ⟨rfl, Or.inl rfl⟩
    · exact ⟨rfl, Or.inl rfl⟩

/-- `Modbus_CAN_Repeat_Request` keeps the attempt counter between 1 and its
bound. -/
theorem repeat_request_attempts (s : Master.State) (N : Nat) (hN : N ≤ 255)
    (hI : 1 ≤ s.modbus_attempts ∧ s.modbus_attempts ≤ s.modbus_max_attempts ∧
      s.modbus_max_attempts = N) :
    1 ≤ (Master.Modbus_CAN_Repeat_Request s).modbus_attempts ∧
      (Master.Modbus_CAN_Repeat_Request s).modbus_attempts ≤
        (Master.Modbus_CAN_Repeat_Request s).modbus_max_attempts ∧
      (Master.Modbus_CAN_Repeat_Request s).modbus_max_attempts = N := by
  obtain ⟨h1, h2, h3⟩ := hI
  unfold Master.Modbus_CAN_Repeat_Request
  by_cases h : s.modbus_attempts < s.modbus_max_attempts
  · rw [if_pos h]
    have hm : (s.modbus_attempts + 1) % 256 = s.modbus_attempts + 1 :=
      Nat.mod_eq_of_lt (by omega)
    refine ⟨?_, ?_, h3⟩
    · show 1 ≤ (s.modbus_attempts + 1) % 256
      omega
    · show (s.modbus_attempts + 1) % 256 ≤ s.modbus_max_attempts
      omega
  · rw [if_neg h]
    refine ⟨Nat.le_refl 1, ?_, h3⟩
    show 1 ≤ s.modbus_max_attempts
    omega

/-- The master's `Modbus_CAN_CallBack` leaves the attempt counter and its bound
alone. -/
theorem master_CallBack_attempts (s : Master.State) (nd : Nat) (rx : tCANMsgObject) :
    (Master.Modbus_CAN_CallBack s nd rx).modbus_attempts = s.modbus_attempts ∧
      (Master.Modbus_CAN_CallBack s nd rx).modbus_max_attempts = s.modbus_max_attempts := by
  unfold Master.Modbus_CAN_CallBack
  dsimp only
  split_ifs <;> exact ⟨rfl, rfl⟩

/-- `Modbus_CAN_Timeouts` leaves the attempt counter and its bound alone. -/
theorem timeouts_attempts (s w : Master.State) (h : Master.Modbus_CAN_Timeouts s = some w) :
    w.modbus_attempts = s.modbus_attempts ∧ w.modbus_max_attempts = s.modbus_max_attempts := by
  unfold Master.Modbus_CAN_Timeouts at h
  split at h <;> simp only [Option.some.injEq, reduceCtorEq] at h <;> subst h <;>
    exact ⟨rfl, rfl⟩

/-- `Modbus_App_Enqueue_Or_Send` leaves the attempt counter and its bound
alone. -/
theorem enqueue_or_send_attempts (s : Master.State) (q : Master.State × Nat)
    (h : Master.Modbus_App_Enqueue_Or_Send s = some q) :
    q.1.modbus_attempts = s.modbus_attempts ∧ q.1.modbus_max_attempts = s.modbus_max_attempts := by
  unfold Master.Modbus_App_Enqueue_Or_Send at h
  dsimp only at h
  split_ifs at h
  · simp only [Option.map_eq_some'] at h
    obtain ⟨w, hw, hq⟩ := h
    subst hq
    have hsend := send_attempts _ w hw
    exact hsend
  · simp only [Option.some.injEq] at h
    subst h
    exact ⟨rfl, rfl⟩
  · simp only [Option.some.injEq] at h
    subst h
    exact ⟨rfl, rfl⟩

/-- `Modbus_App_FIFOSend` leaves the attempt counter and its bound alone. -/
theorem fifosend_attempts (s : Master.State) (p : Master.State × Nat)
    (h : Master.Modbus_App_FIFOSend s = some p) :
    p.1.modbus_attempts = s.modbus_attempts ∧ p.1.modbus_max_attempts = s.modbus_max_attempts := by
  unfold Master.Modbus_App_FIFOSend at h
  dsimp only at h
  split_ifs at h
  · simp only [Option.map_eq_some'] at h
    obtain ⟨w, hw, hp⟩ := h
    subst hp
    have hsend := send_attempts _ w hw
    exact hsend
  · simp only [Option.some.injEq] at h
    subst h
    exact ⟨rfl, rfl⟩

/-- The master's `Modbus_CAN_Controller` keeps the attempt counter between 1
and its bound. -/
theorem controller_attempts (s : Master.State) (q : Master.State × Nat) (N : Nat) (hN : N ≤ 255)
    (h : Master.Modbus_CAN_Controller s = some q)
    (hI : 1 ≤ s.modbus_attempts ∧ s.modbus_attempts ≤ s.modbus_max_attempts ∧
      s.modbus_max_attempts = N) :
    1 ≤ q.1.modbus_attempts ∧ q.1.modbus_attempts ≤ q.1.modbus_max_attempts ∧
      q.1.modbus_max_attempts = N := by
  unfold Master.Modbus_CAN_Controller at h
  split at h
  · simp only [Master.Modbus_CAN_GetForwardFlag] at h
    by_cases hflag : s.modbus_forward_flag ≠ 0
    · rw [if_pos hflag] at h
      simp only [Option.map_eq_some'] at h
      obtain ⟨w, hw, hq⟩ := h
      subst hq
      have hsend := send_attempts _ w hw
      obtain ⟨e1, e2⟩ := hsend
      have e3 : w.modbus_attempts = s.modbus_attempts := e1
      have e4 : w.modbus_max_attempts = s.modbus_max_attempts := e2
      show 1 ≤ w.modbus_attempts ∧ w.modbus_attempts ≤ w.modbus_max_attempts ∧
        w.modbus_max_attempts = N
      rw [e3, e4]
      exact hI
    · rw [if_neg hflag] at h
      simp only [Option.map_eq_some'] at h
      obtain ⟨p, hp, hq⟩ := h
      have hfs := fifosend_attempts _ p hp
      obtain ⟨e1, e2⟩ := hfs
      have e3 : p.1.modbus_attempts = s.modbus_attempts := e1
      have e4 : p.1.modbus_max_attempts = s.modbus_max_attempts := e2
      have hq1 : q.1 = p.1 := by
        rw [← hq]
        split_ifs <;> rfl
      rw [hq1, e3, e4]
      exact hI
  · split_ifs at h
    · simp only [Option.map_eq_some'] at h
      obtain ⟨w, hw, hq⟩ := h
      subst hq
      obtain ⟨e1, e2⟩ := manage_callback_attempts _ w hw
      have e3 : w.modbus_max_attempts = s.modbus_max_attempts := e1
      have e4 : w.modbus_attempts = s.modbus_attempts ∨ w.modbus_attempts = 1 := e2
      show 1 ≤ w.modbus_attempts ∧ w.modbus_attempts ≤ w.modbus_max_attempts ∧
        w.modbus_max_attempts = N
      rw [e3]
      obtain ⟨h1, h2, h3⟩ := hI
      rcases e4 with e | e <;> rw [e] <;> exact ⟨by omega, by omega, h3⟩
    · simp only [Option.some.injEq] at h
      subst h
      exact hI
  · simp only [Option.some.injEq] at h
    subst h
    exact hI
  · simp only [Option.some.injEq] at h
    subst h
    exact repeat_request_attempts s N hN hI
  · simp only [Option.some.injEq] at h
    subst h
    exact hI

/-- Every routine of the master keeps the attempt counter between 1 and its
bound. -/
theorem step_attempts (s w : Master.State) (e : Master.Event) (N : Nat) (hN : N ≤ 255)
    (h : Master.step s e = some w)
    (hI : 1 ≤ s.modbus_attempts ∧ s.modbus_attempts ≤ s.modbus_max_attempts ∧
      s.modbus_max_attempts = N) :
    1 ≤ w.modbus_attempts ∧ w.modbus_attempts ≤ w.modbus_max_attempts ∧
      w.modbus_max_attempts = N := by
  cases e with
  | repeatRequest =>
    simp only [Master.step, Option.some.injEq] at h
    subst h
    exact repeat_request_attempts s N hN hI
  | resetAttempt =>
    simp only [Master.step, Option.some.injEq] at h
    subst h
    obtain ⟨h1, h2, h3⟩ := hI
    exact ⟨Nat.le_refl 1, by show 1 ≤ s.modbus_max_attempts; omega, h3⟩
  | poll =>
    simp only [Master.step, Option.map_eq_some'] at h
    obtain ⟨q, hq, hw⟩ := h
    subst hw
    exact controller_attempts s q N hN hq hI
  | unicastTimeout =>
    simp only [Master.step, Master.Modbus_CAN_UnicastTimeoutHandler] at h
    split_ifs at h
    · obtain ⟨e1, e2⟩ := timeouts_attempts s w h
      rw [e1, e2]; exact hI
    · simp only [Option.some.injEq] at h
      subst h
      exact hI
  | broadcastTimeout =>
    simp only [Master.step, Master.Modbus_CAN_BroadcastTimeoutHandler] at h
    obtain ⟨e1, e2⟩ := timeouts_attempts s w h
    rw [e1, e2]; exact hI
  | received nd rx =>
    simp only [Master.step, Option.some.injEq] at h
    subst h
    obtain ⟨e1, e2⟩ := master_CallBack_attempts s nd rx
    rw [e1, e2]; exact hI
  | userRequest r =>
    simp only [Master.step, Option.map_eq_some'] at h
    obtain ⟨q, hq, hw⟩ := h
    subst hw
    obtain ⟨e1, e2⟩ := enqueue_or_send_attempts _ q hq
    rw [e1, e2]; exact hI

/-- Every sequence of routines of the master keeps the attempt counter between
1 and its bound. -/
theorem run_attempts (N : Nat) (hN : N ≤ 255) : ∀ (es : List Master.Event) (s w : Master.State),
    Master.run s es = some w →
    (1 ≤ s.modbus_attempts ∧ s.modbus_attempts ≤ s.modbus_max_attempts ∧
      s.modbus_max_attempts = N) →
    1 ≤ w.modbus_attempts ∧ w.modbus_attempts ≤ w.modbus_max_attempts ∧
      w.modbus_max_attempts = N := by
  intro es
  induction es with
  | nil =>
    intro s w h hI
    simp only [Master.run, Option.some.injEq] at h
    subst h
    exact hI
  | cons e es ih =>
    intro s w h hI
    simp only [Master.run, Option.bind_eq_some] at h
    obtain ⟨s1, hs1, hrun⟩ := h
    exact ih s1 w hrun (step_attempts s s1 e N hN hs1 hI)

/-- Claim C35 (attempt counter bounds).  After `Modbus_CAN_Init` with
`max_attempts >= 1` (an `unsigned char`, so at most 255), every state the
master reaches through a sequence of calls of `Modbus_CAN_Repeat_Request` and
`Modbus_CAN_Reset_Attempt`, controller polls, unicast and broadcast timeouts,
received frames and user requests satisfies
`1 <= modbus_attempts <= modbus_max_attempts`, and `modbus_max_attempts` is the
value given to `Modbus_CAN_Init`. -/
theorem C35_attempt_counter_bounds (s0 s : Master.State) (bit_rate : Modbus_CAN_BitRate)
    (attempts : Nat) (es : List Master.Event)
    (h1 : 1 ≤ attempts) (h255 : attempts ≤ 255)
    (hrun : Master.run (Master.Modbus_CAN_Init s0 bit_rate attempts) es = some s) :
    1 ≤ s.modbus_attempts ∧ s.modbus_attempts ≤ s.modbus_max_attempts ∧
      s.modbus_max_attempts = attempts := by
  have hm : attempts % 256 = attempts := Nat.mod_eq_of_lt (by omega)
  refine run_attempts attempts h255 es _ s hrun ⟨?_, ?_, ?_⟩
  · show 1 ≤ 1
    exact Nat.le_refl 1
  · show 1 ≤ attempts % 256
    omega
  · show attempts % 256 = attempts
    exact hm

/-- Witness of C35: the master `exMasterUser` initialised with 3 attempts sends
a read request to slave 5, the unicast timer expires, and the controller is
polled twice (the second poll transmits the request again): the run returns
and the attempt counter is within its bounds. -/
theorem C35_attempt_counter_bounds_witness :
    ∃ s, Master.run (Master.Modbus_CAN_Init exMasterUser .MODBUS_1MBPS 3)
        [.userRequest ⟨5, 3, [16, 2, 0, 0, 0, 0]⟩, .unicastTimeout, .poll, .poll] = some s ∧
      1 ≤ s.modbus_attempts ∧ s.modbus_attempts ≤ s.modbus_max_attempts ∧
      s.modbus_max_attempts = 3 := by
  obtain ⟨s, hs⟩ := Option.isSome_iff_exists.mp
    (by decide : (Master.run (Master.Modbus_CAN_Init exMasterUser .MODBUS_1MBPS 3)
      [.userRequest ⟨5, 3, [16, 2, 0, 0, 0, 0]⟩, .unicastTimeout, .poll, .poll]).isSome = true)
  exact ⟨s, hs, C35_attempt_counter_bounds exMasterUser s .MODBUS_1MBPS 3 _ (by decide)
    (by decide) hs⟩

/-- Claim C38, evaluated: the master `exMasterUser` (3 attempts) sent the read
request A (function 3, slave 5), the unicast timer expired and the controller
handled the error: the master is idle with the retry flag set, A is the active
request and has been transmitted once.  A call of `Modbus_Read_I_Registers (6,
0, 1, ...)` (request B) in this state returns 0, transmits B at once and makes
B the active request; the retry flag stays set.  After the timeout of B the
controller transmits B again: the log holds A once and B twice, one failure is
recorded in the end, and A is never transmitted a second time. -/
theorem C38_retry_displaced_evaluated :
    exRetryPending.map (fun s => (s.modbus_forward_flag, s.modbus_attempts,
        s.Modbus_App_Actual_Req.Slave, s.Modbus_App_Actual_Req.Function)) = some (1, 2, 5, 3) ∧
      exRetryPending.map (fun s => s.modbus_master_state) = some .MODBUS_IDLE ∧
      exRetryPending.map (fun s => s.canTx.map (fun f => (f.ulMsgID, f.pucMsgData))) =
        some [(0x105, [3, 0, 16, 0, 2])] ∧
      (exRetryPending.bind (fun s => Master.Modbus_Read_I_Registers s 6 0 1 8)).map
        (fun r => (r.2, r.1.modbus_forward_flag, r.1.Modbus_App_Actual_Req.Slave,
          r.1.Modbus_App_Actual_Req.Function)) = some (0, 1, 6, 4) ∧
      (exRetryPending.bind (fun s => Master.Modbus_Read_I_Registers s 6 0 1 8)).map
        (fun r => r.1.canTx.map (fun f => (f.ulMsgID, f.pucMsgData))) =
        some [(0x105, [3, 0, 16, 0, 2]), (0x106, [4, 0, 0, 0, 1])] ∧
      ((exRetryPending.bind (fun s => Master.Modbus_Read_I_Registers s 6 0 1 8)).bind
        (fun r => Master.run r.1 [.unicastTimeout, .poll, .poll])).map
        (fun s => s.canTx.map (fun f => (f.ulMsgID, f.pucMsgData))) =
        some [(0x105, [3, 0, 16, 0, 2]), (0x106, [4, 0, 0, 0, 1]), (0x106, [4, 0, 0, 0, 1])] ∧
      ((exRetryPending.bind (fun s => Master.Modbus_Read_I_Registers s 6 0 1 8)).bind
        (fun r => Master.run r.1
          [.unicastTimeout, .poll, .poll, .unicastTimeout, .poll, .poll])).map
        (fun s => (s.canTx.map (fun f => f.ulMsgID), s.Modbus_FIFO_Error.Items,
          s.modbus_forward_flag)) = some ([0x105, 0x106, 0x106], 1, 0) := by
  decide

/-- Claim C39, evaluated: at 100 kbps `Modbus_Write_M_Registers` for 123
registers is accepted (return value 0) for slave 5 and for the broadcast
address 0; `Modbus_App_Send` computes the guess 504, for which the unicast
expression is 6518399832 and the broadcast expression 13036799664, both above
`2^32`; the timers are loaded with 2223432536 and 151897776. -/
theorem C39_timeout_wrap_evaluated :
    (Master.Modbus_App_Send_encode
        { exMasterUser100k with Modbus_App_Actual_Req := ⟨5, 16, [0, 123, 0, 0, 0, 0]⟩ }).map
        (fun r => r.2) = some 504 ∧
      Master.unicastFormula (Master.transferTime .MODBUS_100KBPS) 504 1 = 6518399832 ∧
      Master.broadcastFormula (Master.transferTime .MODBUS_100KBPS) 504 = 13036799664 ∧
      2 ^ 32 ≤ Master.unicastFormula (Master.transferTime .MODBUS_100KBPS) 504 1 ∧
      (Master.Modbus_Write_M_Registers exMasterUser100k 5 0 123 0).map
        (fun r => (r.2, r.1.modbus_attempts, r.1.timer1, r.1.modbus_unicast_timeout)) =
        some (0, 1, some 2223432536, 2223432536) ∧
      (Master.Modbus_Write_M_Registers exMasterUser100k 0 0 123 0).map
        (fun r => (r.2, r.1.timer2, r.1.modbus_broadcast_timeout)) =
        some (0, some 151897776, 151897776) := by
  decide

end Modbus
